import Mathlib

/-! A verification development for the single-pass Pascal compiler.

Shallow embedding of `symtab.hpp` / `symtab.cpp` (the nested-scope symbol table), of the token
queue of `lexer.h` and of the recursive-descent parser and emitter of `parser.h` / `main.cpp`,
followed by theorems about them.

Modelling conventions.

* A `Scope *` is an index into the list of all scopes allocated so far (`SymbolTable.scopes`);
  `new Scope` appends to that list, `nullptr` is `none`.  Scopes are never freed by the source.
* `std::unordered_map<std::string, std::variant<VarData, ProcData, FuncData>>` is an
  association list kept in insertion order; `contains` / `operator[]` are `List.lookup`, and
  iteration follows the list.
* Unsigned machine integers are natural numbers and every update is reduced modulo `2 ^ w`
  (`std::uint64_t`, `std::uint16_t`, `std::uint8_t`); `std::int32_t` is an integer reduced to
  the two's-complement range.
* A parser function is a function from the parser state to `Except Err Parser`.  A thrown
  exception and a step with undefined behaviour end the run with the matching `Err`.
* The listing and the staging stream are lists of lines; every write of the source ends its
  line, except the last line of a by-reference argument buffer, which the emission loop ends.
* The recursive parser functions take a recursion budget as their first argument.
-/

set_option autoImplicit false

namespace PascalCompiler

/-! ## symtab.hpp -/

/-- The scalar types of the language (`enum class VarType`). -/
inductive VarType where
  | Integer
  | Boolean
  | Character
  | Real
deriving DecidableEq, Repr

/-- The kind of entry a lookup asks for (`enum class FindType`). -/
inductive FindType where
  | Variable
  | Procedure
  | Function
deriving DecidableEq, Repr

/-- The modulus of `std::uint64_t` arithmetic. -/
def U64 : Nat := 2 ^ 64

/-- The record `struct VarData`. -/
structure VarData where
  type : VarType
  name : String
  size : Nat
  offset : Nat
  pass_by_ref : Bool
  is_param : Bool
  next : Option Nat
deriving DecidableEq, Repr

/-- The record `struct ProcData`. -/
structure ProcData where
  name : String
  next : Option Nat
deriving DecidableEq, Repr

/-- The record `struct FuncData`. -/
structure FuncData where
  name : String
  next : Option Nat
deriving DecidableEq, Repr

/-- The sum `std::variant<VarData, ProcData, FuncData>` stored in a scope table. -/
inductive Entry where
  | var (v : VarData)
  | proc (p : ProcData)
  | func (f : FuncData)
deriving DecidableEq, Repr

/-- The map type of `Scope::table`. -/
abbrev Table := List (String × Entry)

/-- The test `table.contains(name)`. -/
def Table.contains (t : Table) (name : String) : Bool :=
  (t.lookup name).isSome

/-- The assignment `table[name] = e`: overwrite the entry of `name`, or insert a new one. -/
def Table.assign : Table → String → Entry → Table
  | [], name, e => [(name, e)]
  | (k, v) :: rest, name, e =>
    if name == k then (k, e) :: rest else (k, v) :: Table.assign rest name e

/-- The record `struct Scope`; `previous` is the parent pointer. -/
structure Scope where
  table : Table
  param_offset : Nat
  var_offset : Nat
  name : String
  previous : Option Nat
deriving DecidableEq, Repr

/-- The state of `class SymbolTable`: every scope allocated so far and the cursor `cur_scope`. -/
structure SymbolTable where
  scopes : List Scope
  cur_scope : Nat
deriving DecidableEq, Repr

/-- The value of a default-constructed `Scope` (what `new Scope` yields before its fields are
assigned); it also stands for the target of a pointer that addresses no allocated scope. -/
def Scope.fresh : Scope :=
  { table := [], param_offset := 0, var_offset := 0, name := "", previous := none }

/-- The scope `*cur_scope`. -/
def SymbolTable.cur (st : SymbolTable) : Scope :=
  st.scopes.getD st.cur_scope Scope.fresh

/-- Store `sc` back into `*cur_scope`. -/
def SymbolTable.setCur (st : SymbolTable) (sc : Scope) : SymbolTable :=
  { st with scopes := st.scopes.set st.cur_scope sc }

/-! ## symtab.cpp -/

/-- The constructor `SymbolTable::SymbolTable()`: one global scope with an empty name. -/
def SymbolTable.new : SymbolTable :=
  { scopes := [{ table := [], param_offset := 0, var_offset := 0, name := "", previous := none }],
    cur_scope := 0 }

/-- The method `SymbolTable::add_variable`; the result pairs the returned flag with the new
state. -/
def add_variable (st : SymbolTable) (name : String) (type : VarType) (size : Nat)
    (pass_by_ref : Bool) (is_param : Bool) : Bool × SymbolTable :=
  let sc := st.cur
  if sc.table.contains name then
    (false, st)
  else if is_param then
    (true, st.setCur
      { sc with
        table := sc.table.assign name (.var
          { type := type, name := "", size := size, offset := (8 + sc.param_offset) % U64,
            pass_by_ref := pass_by_ref, is_param := is_param, next := none })
        param_offset := (sc.param_offset + size) % U64 })
  else
    (true, st.setCur
      { sc with
        table := sc.table.assign name (.var
          { type := type, name := "", size := size, offset := sc.var_offset,
            pass_by_ref := pass_by_ref, is_param := is_param, next := none })
        var_offset := (sc.var_offset + size) % U64 })

/-- Does the entry hold the alternative that `type` asks for (the three-way test of `find`)? -/
def Entry.matches_kind (e : Entry) (type : FindType) : Bool :=
  match type, e with
  | .Variable, .var _ => true
  | .Procedure, .proc _ => true
  | .Function, .func _ => true
  | _, _ => false

/-- The loop `while (trav_scope)` of `SymbolTable::find`.  The first argument bounds the number
of iterations; `find` supplies the number of allocated scopes, which a parent chain without
cycles never exceeds. -/
def find_loop : Nat → List Scope → Option Nat → String → FindType → Option Entry
  | 0, _, _, _, _ => none
  | _ + 1, _, none, _, _ => none
  | fuel + 1, scopes, some trav_scope, name, type =>
    match scopes[trav_scope]? with
    | none => none
    | some sc =>
      match sc.table.lookup name with
      | none => find_loop fuel scopes sc.previous name type
      | some e => if e.matches_kind type then some e else none

/-- The method `SymbolTable::find`. -/
def find (st : SymbolTable) (name : String) (type : FindType) : Option Entry :=
  find_loop st.scopes.length st.scopes (some st.cur_scope) name type

/-- The method `SymbolTable::enter_proc_scope`. -/
def enter_proc_scope (st : SymbolTable) (name : String) : Bool × SymbolTable :=
  let sc := st.cur
  if sc.table.contains name then
    (false, st)
  else
    let child := st.scopes.length
    let old_scope := st.cur_scope
    let st1 := st.setCur { sc with table := sc.table.assign name (.proc { name := name, next := some child }) }
    (true,
      { scopes := st1.scopes ++
          [{ Scope.fresh with param_offset := 0, var_offset := 0, name := name, previous := some old_scope }],
        cur_scope := child })

/-- The method `SymbolTable::enter_func_scope`. -/
def enter_func_scope (st : SymbolTable) (name : String) : Bool × SymbolTable :=
  let sc := st.cur
  if sc.table.contains name then
    (false, st)
  else
    let child := st.scopes.length
    let old_scope := st.cur_scope
    let st1 := st.setCur { sc with table := sc.table.assign name (.func { name := name, next := some child }) }
    (true,
      { scopes := st1.scopes ++
          [{ Scope.fresh with param_offset := 0, var_offset := 0, name := name, previous := some old_scope }],
        cur_scope := child })

/-- The method `SymbolTable::leave_scope`. -/
def leave_scope (st : SymbolTable) : SymbolTable :=
  match st.cur.previous with
  | some p => { st with cur_scope := p }
  | none => st

/-- The method `SymbolTable::get_var_info`. -/
def get_var_info (st : SymbolTable) (name : String) : Option VarData :=
  if st.cur.table.contains name then
    match st.cur.table.lookup name with
    | some (.var v) => some v
    | _ => none
  else
    none

/-- The method `SymbolTable::get_func_info`. -/
def get_func_info (st : SymbolTable) (name : String) : Option FuncData :=
  if st.cur.table.contains name then
    match st.cur.table.lookup name with
    | some (.func f) => some f
    | _ => none
  else
    none

/-- The method `SymbolTable::get_proc_info`. -/
def get_proc_info (st : SymbolTable) (name : String) : Option ProcData :=
  if st.cur.table.contains name then
    match st.cur.table.lookup name with
    | some (.proc p) => some p
    | _ => none
  else
    none

/-! ## Specification-level notions for the symbol table -/

/-- The parent chain of a scope pointer: the scopes met by following `previous` from the
pointer up to the null pointer, innermost first. -/
inductive IsChain (scopes : List Scope) : Option Nat → List Scope → Prop where
  | null : IsChain scopes none []
  | step (i : Nat) (sc : Scope) (rest : List Scope) :
      scopes[i]? = some sc → IsChain scopes sc.previous rest →
      IsChain scopes (some i) (sc :: rest)

/-- The lookup that the specification describes: take the first scope of the chain whose table
contains `name`; answer with its entry when the entry has the requested kind, and with nothing
otherwise or when no scope of the chain contains `name`. -/
def first_binding (chain : List Scope) (name : String) (type : FindType) : Option Entry :=
  match chain.find? (fun sc => sc.table.contains name) with
  | none => none
  | some sc => (sc.table.lookup name).filter (fun e => e.matches_kind type)

/-- Is the parent pointer of the scope stored at index `i` an index below `i`? -/
def parent_below (i : Nat) (sc : Scope) : Bool :=
  match sc.previous with
  | none => true
  | some p => decide (p < i)

/-- Well-formed symbol tables: the cursor addresses an allocated scope and every parent pointer
addresses a scope allocated earlier (so parent chains are finite).  Every state built by the
operations of the class from `SymbolTable.new` is well-formed. -/
def SymbolTable.WF (st : SymbolTable) : Prop :=
  st.cur_scope < st.scopes.length ∧
    ∀ i, i < st.scopes.length → parent_below i (st.scopes.getD i Scope.fresh) = true

instance (st : SymbolTable) : Decidable st.WF := by
  unfold SymbolTable.WF; infer_instance

/-- One declaration request, the arguments of a call of `add_variable`. -/
structure Decl where
  name : String
  type : VarType
  size : Nat
  pass_by_ref : Bool
  is_param : Bool
deriving DecidableEq, Repr

/-- Call `add_variable` once per declaration, in order, ignoring the returned flags. -/
def declare (st : SymbolTable) : List Decl → SymbolTable
  | [] => st
  | d :: ds => declare (add_variable st d.name d.type d.size d.pass_by_ref d.is_param).2 ds

/-- The total size of the declarations of `ds` that are parameters (`want = true`) or locals
(`want = false`). -/
def sizes_of (want : Bool) (ds : List Decl) : Nat :=
  ((ds.filter (fun d => d.is_param == want)).map (fun d => d.size)).sum

/-! ## lexer.h: tokens and the token queue -/

/-- The type `Token`, a `std::variant` of five strings; the alternative index is the token
kind (`enum TypeValue { Word, Integer, Real, Special, ReservedWord }` of `parser.h`). -/
inductive Token where
  | Word (text : String)
  | Integer (text : String)
  | Real (text : String)
  | Special (text : String)
  | ReservedWord (text : String)
deriving DecidableEq, Repr

/-- The token queue of `class Lexer` with its count of produced tokens. -/
structure Lexer where
  tokens : List Token
  token_count : Nat
deriving DecidableEq, Repr

/-- The method `Lexer::get_token`. -/
def Lexer.get_token (lx : Lexer) : Option Token × Lexer :=
  match lx.tokens with
  | [] => (none, lx)
  | tok :: rest => (some tok, { lx with tokens := rest })

/-- The method `Lexer::number_of_tokens`. -/
def Lexer.number_of_tokens (lx : Lexer) : Nat × Nat :=
  (lx.token_count, lx.tokens.length)

/-- The method `Lexer::push_token`. -/
def Lexer.push_token (lx : Lexer) (tok : Token) : Lexer :=
  { tokens := lx.tokens ++ [tok], token_count := (lx.tokens ++ [tok]).length }

/-- The lexer state after the constructor has pushed the tokens `ts` in order. -/
def Lexer.of_tokens (ts : List Token) : Lexer :=
  ts.foldl Lexer.push_token { tokens := [], token_count := 0 }

/-! ## parser.h: the parser state -/

/-- A value of type `float`.  Single-precision arithmetic is not computed: a float is
represented by the expression that denotes it, built from the text handed to `std::strtof`,
from converted integers and from the four operations. -/
inductive FloatVal where
  | strtof (text : String)
  | of_int (i : Int)
  | add (a b : FloatVal)
  | sub (a b : FloatVal)
  | mul (a b : FloatVal)
  | div (a b : FloatVal)
deriving DecidableEq, Repr

/-- The constant carried by a value, `std::variant<std::int32_t, float, bool>`. -/
inductive Literal where
  | int32 (v : Int)
  | float (v : FloatVal)
  | bool (b : Bool)
deriving DecidableEq, Repr

/-- The record `Parser::VarValue`, an element of the compile-time value stack. -/
structure VarValue where
  type : VarType
  literal : Option Literal
deriving DecidableEq, Repr

/-- The ways in which a run of the parser ends without returning.
`runtime_error` is a thrown `std::runtime_error` with its message, `bad_variant_access` the
exception thrown by `std::get` on the wrong alternative, `undefined` a step whose behaviour the
language leaves undefined (reading the top of an empty stack, indexing `gprs` out of range,
dereferencing an empty `std::optional` or a null pointer, dividing by zero), and `out_of_fuel`
the exhaustion of the recursion budget of the model. -/
inductive Err where
  | runtime_error (what : String)
  | bad_variant_access
  | undefined (what : String)
  | out_of_fuel
deriving DecidableEq, Repr

instance {ε α : Type} [DecidableEq ε] [DecidableEq α] : DecidableEq (Except ε α)
  | .ok a, .ok b =>
    if h : a = b then isTrue (by rw [h]) else isFalse (by intro h2; cases h2; exact h rfl)
  | .error a, .error b =>
    if h : a = b then isTrue (by rw [h]) else isFalse (by intro h2; cases h2; exact h rfl)
  | .ok _, .error _ => isFalse (by intro h; cases h)
  | .error _, .ok _ => isFalse (by intro h; cases h)

/-- The data members of `class Parser`.  `values`, `conditional_stack` and `loop_stack` are
stacks with their top at the head of the list; `asm_output` is the listing, one element per
line; `stage` is the content of the `std::stringstream` that `consume_params` hands to the
expression functions, one element per line.  The unused members `filename` and `offset` are
left out, and `gprs` is the constant list below. -/
structure Parser where
  token : Option Token
  grouping_depth : Nat
  block_depth : Nat
  index : Nat
  values : List VarValue
  symtab : SymbolTable
  temporaries : List String
  gpr_index : Nat
  or_used : Bool
  for_while : Bool
  last_comparison : Char
  if_count : Nat
  while_count : Nat
  or_count : Nat
  conditional_stack : List Nat
  loop_stack : List Nat
  lexer : Lexer
  asm_output : List String
  stage : List String
deriving DecidableEq, Repr

/-- The member `gprs`. -/
def gprs : List String := ["EAX", "EBX", "ECX", "EDX"]

/-- The element `gprs[i]` for an index expression of type `int`; an index outside `0..3` is
undefined behaviour. -/
def gprs_at (i : Int) : Except Err String :=
  if 0 ≤ i then
    match gprs[i.toNat]? with
    | some r => .ok r
    | none => .error (.undefined "gprs index out of range")
  else
    .error (.undefined "gprs index out of range")

/-- Reduce to the range of `std::int32_t` (two's complement): the result of `+`, `-` and `*`
on `std::int32_t` is taken to wrap around, as the target machine does. -/
def wrap32 (i : Int) : Int := Int.bmod i (2 ^ 32)

/-- The dereference `*token`; an empty optional is undefined behaviour. -/
def Parser.tok (p : Parser) : Except Err Token :=
  match p.token with
  | some t => .ok t
  | none => .error (.undefined "dereference of an empty token")

/-- The access `std::get<0>(*token)`. -/
def Parser.get_word (p : Parser) : Except Err String := do
  match (← p.tok) with
  | .Word s => pure s
  | _ => throw .bad_variant_access

/-- The assignment `token = lexer->get_token()`. -/
def Parser.get_token (p : Parser) : Parser :=
  { p with token := p.lexer.get_token.1, lexer := p.lexer.get_token.2 }

/-- The pair `index++; token = lexer->get_token();`. -/
def Parser.advance (p : Parser) : Parser :=
  { p with index := (p.index + 1) % U64, token := p.lexer.get_token.1, lexer := p.lexer.get_token.2 }

/-- Is the lookahead the `Special` token `s`? (`token->index() == Special &&
std::get<3>(*token) == s`) -/
def Parser.at_special (p : Parser) (s : String) : Except Err Bool := do
  match (← p.tok) with
  | .Special t => pure (t == s)
  | _ => pure false

/-- Is the lookahead the reserved word `s`? -/
def Parser.at_reserved (p : Parser) (s : String) : Except Err Bool := do
  match (← p.tok) with
  | .ReservedWord t => pure (t == s)
  | _ => pure false

/-- Write one line to the staging stream when one is supplied and to the listing otherwise
(`stream->get() << ... << std::endl` and `asm_output << ... << std::endl`). -/
def Parser.emit (p : Parser) (stream : Bool) (line : String) : Parser :=
  if stream then { p with stage := p.stage ++ [line] }
  else { p with asm_output := p.asm_output ++ [line] }

/-- The call `values.push(v)`. -/
def Parser.push (p : Parser) (v : VarValue) : Parser :=
  { p with values := v :: p.values }

/-- The pair `values.top(); values.pop();`; on an empty stack the behaviour is undefined. -/
def Parser.pop (p : Parser) : Except Err (VarValue × Parser) :=
  match p.values with
  | v :: rest => .ok (v, { p with values := rest })
  | [] => .error (.undefined "top of an empty value stack")

/-- The top of a label stack; on an empty stack the behaviour is undefined. -/
def stack_top (s : List Nat) : Except Err Nat :=
  match s with
  | n :: _ => .ok n
  | [] => .error (.undefined "top of an empty label stack")

/-- The test `gpr_index > gprs.size() - 1`. -/
def Parser.gprs_exhausted (p : Parser) : Bool :=
  decide (p.gpr_index > gprs.length - 1)

/-- The update `gpr_index -= k` on the `std::uint8_t` member. -/
def Parser.gpr_sub (p : Parser) (k : Nat) : Parser :=
  { p with gpr_index := (p.gpr_index + 256 - k) % 256 }

/-- The update `gpr_index++` on the `std::uint8_t` member. -/
def Parser.gpr_inc (p : Parser) : Parser :=
  { p with gpr_index := (p.gpr_index + 1) % 256 }

/-- The access `std::get<std::int32_t>(*v.literal)`. -/
def VarValue.get_int32 (v : VarValue) : Except Err Int :=
  match v.literal with
  | some (.int32 i) => .ok i
  | some _ => .error .bad_variant_access
  | none => .error (.undefined "dereference of an empty literal")

/-- The access `std::get<float>(*v.literal)`. -/
def VarValue.get_float (v : VarValue) : Except Err FloatVal :=
  match v.literal with
  | some (.float f) => .ok f
  | some _ => .error .bad_variant_access
  | none => .error (.undefined "dereference of an empty literal")

/-! ## main.cpp: conversions of literal tokens -/

/-- The value of a run of decimal digits. -/
def digits_value (ds : List Char) : Nat :=
  ds.foldl (fun n c => 10 * n + (c.toNat - 48)) 0

/-- The call `std::from_chars(first, last, out, 10)` for `std::int32_t`: an optional minus sign
and the longest run of decimal digits after it.  The result is `none` when the error code is
set (no digit, or a value outside the range of `std::int32_t`). -/
def from_chars (s : String) : Option Int :=
  let cs := s.toList
  let neg := cs.head? == some '-'
  let ds := (if neg then cs.tail else cs).takeWhile Char.isDigit
  if ds.isEmpty then none
  else
    let v : Int := if neg then -(digits_value ds : Int) else (digits_value ds : Int)
    if -(2 ^ 31 : Int) ≤ v ∧ v ≤ 2 ^ 31 - 1 then some v else none

/-- Does `std::strtof(str, &end)` perform a conversion (`end != str`)?  It does when, after
leading white space and an optional sign, the text starts with a digit, with a point followed
by a digit, or with one of the words `inf` and `nan` in any letter case. -/
def strtof_converts (s : String) : Bool :=
  let cs := s.toList.dropWhile Char.isWhitespace
  let cs := match cs with
    | '+' :: rest => rest
    | '-' :: rest => rest
    | _ => cs
  match cs with
  | c :: rest =>
    c.isDigit ||
    (c == '.' && (match rest with | d :: _ => d.isDigit | [] => false)) ||
    ((cs.take 3).map Char.toLower == ['i', 'n', 'f']) ||
    ((cs.take 3).map Char.toLower == ['n', 'a', 'n'])
  | [] => false

/-- The text that `operator<<` prints for a `float`.  The digits that the stream prints are
not modelled; the model prints the expression that denotes the value, a literal as the text it
was read from. -/
def FloatVal.text : FloatVal → String
  | .strtof t => t
  | .of_int i => toString i
  | .add a b => "(" ++ a.text ++ "+" ++ b.text ++ ")"
  | .sub a b => "(" ++ a.text ++ "-" ++ b.text ++ ")"
  | .mul a b => "(" ++ a.text ++ "*" ++ b.text ++ ")"
  | .div a b => "(" ++ a.text ++ "/" ++ b.text ++ ")"

/-! ## main.cpp: the operator steps of the expression functions

Each of the following definitions is the straight-line part of one parser function: the code
that runs after the operand has been parsed. -/

/-- Do two operands have the types `(Integer, Integer)` or `(Character, Character)`? -/
def integral_pair (lhs rhs : VarValue) : Bool :=
  (lhs.type == .Integer && rhs.type == .Integer) ||
  (lhs.type == .Character && rhs.type == .Character)

/-- The body of `Parser::s_expression_prime` after the right operand has been parsed
(`const auto rhs = values.top();` to `gpr_index -= 2;`). -/
def s_expression_prime_compare (tok : String) (stream : Bool) (p : Parser) :
    Except Err Parser := do
  let (rhs, p) ← p.pop
  let (lhs, p) ← p.pop
  let p ←
    if tok == "<" || tok == ">" then
      if integral_pair lhs rhs || (lhs.type == .Real && rhs.type == .Real) then
        pure (p.push { type := .Boolean, literal := none })
      else
        throw (.runtime_error "Bad code: invalid comparison in expression")
    else
      if lhs.type == .Real || rhs.type == .Real then
        throw (.runtime_error "Bad code: equivalence comparison cannot be performed on reals")
      else
        pure (p.push { type := .Boolean, literal := none })
  let dst ← gprs_at ((p.gpr_index : Int) - 2)
  let src ← gprs_at ((p.gpr_index : Int) - 1)
  let p := p.emit stream ("CMP " ++ dst ++ ", " ++ src)
  pure (p.gpr_sub 2)

/-- The three-operand line `OP dst, dst, src` with `dst = gprs[gpr_index - 2]` and
`src = gprs[gpr_index - 1]`. -/
def Parser.emit_binary (p : Parser) (stream : Bool) (op : String) : Except Err Parser := do
  let dst ← gprs_at ((p.gpr_index : Int) - 2)
  let src ← gprs_at ((p.gpr_index : Int) - 1)
  pure (p.emit stream (op ++ " " ++ dst ++ ", " ++ dst ++ ", " ++ src))

/-- The body of `Parser::term_prime` for `+` and `-` after the right operand has been parsed
(`const auto rhs = values.top();` to the end of the type dispatch). -/
def term_prime_arith (tok : String) (stream : Bool) (p : Parser) : Except Err Parser := do
  let (rhs, p) ← p.pop
  let (lhs, p) ← p.pop
  if integral_pair lhs rhs then
    if lhs.literal.isSome && rhs.literal.isSome then
      if tok == "+" then
        let a ← lhs.get_int32
        let b ← rhs.get_int32
        pure (p.push { type := .Integer, literal := some (.int32 (wrap32 (a + b))) })
      else if tok == "-" then
        let a ← lhs.get_int32
        let b ← rhs.get_int32
        pure (p.push { type := .Integer, literal := some (.int32 (wrap32 (a - b))) })
      else
        pure p
    else
      if p.gprs_exhausted then
        throw (.runtime_error "Bad code: expression is too complicated")
      let p ← if tok == "+" then p.emit_binary stream "ADD" else p.emit_binary stream "SUB"
      let p := p.gpr_sub 1
      pure (p.push { type := .Integer, literal := none })
  else if lhs.type == .Real && rhs.type == .Real then
    if lhs.literal.isSome && rhs.literal.isSome then
      if tok == "+" then
        let a ← lhs.get_float
        let b ← rhs.get_int32
        pure (p.push { type := .Real, literal := some (.float (.add a (.of_int b))) })
      else if tok == "-" then
        let a ← lhs.get_float
        let b ← rhs.get_int32
        pure (p.push { type := .Real, literal := some (.float (.sub a (.of_int b))) })
      else
        pure p
    else
      if p.gprs_exhausted then
        throw (.runtime_error "Bad code: expression is too complicated")
      let p ←
        if tok == "+" then p.emit_binary stream "ADD"
        else if !stream then p.emit_binary stream "SUB"
        else p.emit_binary stream "ADD"
      let p := p.gpr_sub 1
      pure (p.push { type := .Real, literal := none })
  else
    throw (.runtime_error
      "Bad code: invalid type on left-or right-hand side of expression")

/-- The jump for the last comparison (`JL`, `JG` or `JE`) to `target`, or nothing when no
comparison has been recorded. -/
def Parser.emit_jump (p : Parser) (stream : Bool) (target : Except Err String) :
    Except Err Parser :=
  if p.last_comparison == '<' then do
    let t ← target
    pure (p.emit stream ("JL " ++ t))
  else if p.last_comparison == '>' then do
    let t ← target
    pure (p.emit stream ("JG " ++ t))
  else if p.last_comparison == '=' then do
    let t ← target
    pure (p.emit stream ("JE " ++ t))
  else
    pure p

/-- The pending label `or<or_count>:` of an earlier `and`, when one is owed. -/
def Parser.emit_or_label (p : Parser) (stream : Bool) : Parser :=
  if p.or_used then
    let p := p.emit stream ("or" ++ toString p.or_count ++ ":")
    { p with or_used := false, or_count := (p.or_count + 1) % U64 }
  else
    p

/-- The body of `Parser::term_prime` for `or` before the right operand is parsed. -/
def term_prime_or_jump (stream : Bool) (p : Parser) : Except Err Parser := do
  let p ←
    if !p.for_while then
      p.emit_jump stream ((stack_top p.conditional_stack).map (fun n => "if" ++ toString n))
    else
      p.emit_jump stream
        ((stack_top p.loop_stack).map (fun n => "while" ++ toString n ++ "inner"))
  pure (p.emit_or_label stream)

/-- The body of `Parser::term_prime` for `or`, and of `Parser::fact_prime` for `and`, after the
right operand has been parsed; `what` is the message of the type error. -/
def boolean_pair_check (what : String) (p : Parser) : Except Err Parser := do
  let (lhs, p) ← p.pop
  let (rhs, p) ← p.pop
  if lhs.type == .Boolean && rhs.type == .Boolean then
    pure (p.push { type := .Boolean, literal := none })
  else
    throw (.runtime_error what)

/-- The lines of a division whose operands are in `gprs[gpr_index - 2]` and
`gprs[gpr_index - 1]`, and the release of one register (`bool do_pop = false;` to the closing
`POP`s). -/
def Parser.emit_divide (p : Parser) (stream : Bool) : Except Err Parser := do
  let dst ← gprs_at ((p.gpr_index : Int) - 2)
  let do_pop := dst != "EAX"
  let p :=
    if do_pop then
      ((p.emit stream "PUSH EAX").emit stream "PUSH EDX").emit stream ("MOV EAX, " ++ dst)
    else p
  let src ← gprs_at ((p.gpr_index : Int) - 1)
  let p := (p.emit stream "CDQ").emit stream ("IDIV " ++ src)
  let p := p.gpr_sub 1
  if do_pop then
    pure ((p.emit stream "POP EDX").emit stream "POP EAX")
  else
    pure p

/-- The quotient `a / b` of two `std::int32_t` values; a zero divisor and the quotient
`INT32_MIN / -1` are undefined behaviour. -/
def div_int32 (a b : Int) : Except Err Int :=
  if b = 0 then .error (.undefined "integer division by zero")
  else if a = -(2 ^ 31 : Int) ∧ b = -1 then .error (.undefined "integer division overflow")
  else .ok (Int.tdiv a b)

/-- The body of `Parser::fact_prime` for `*` and `/` after the right operand has been parsed
(`const auto rhs = values.top();` to the end of the type dispatch). -/
def fact_prime_arith (tok : String) (stream : Bool) (p : Parser) : Except Err Parser := do
  let (rhs, p) ← p.pop
  let (lhs, p) ← p.pop
  if integral_pair lhs rhs then
    if p.gprs_exhausted then
      throw (.runtime_error "Bad code: exceeded available registers")
    if lhs.literal.isSome && rhs.literal.isSome then
      if tok == "*" then
        let a ← lhs.get_int32
        let b ← rhs.get_int32
        pure (p.push { type := .Integer, literal := some (.int32 (wrap32 (a * b))) })
      else if tok == "/" then
        let a ← lhs.get_int32
        let b ← rhs.get_int32
        let res ← div_int32 a b
        pure (p.push { type := .Integer, literal := some (.int32 res) })
      else
        pure p
    else
      if p.gprs_exhausted then
        throw (.runtime_error "Bad code: expression is too complicated")
      let p ←
        if tok == "*" then do
          let p ← p.emit_binary stream "IMUL"
          pure (p.gpr_sub 1)
        else if tok == "/" then p.emit_divide stream
        else pure p
      pure (p.push { type := .Integer, literal := none })
  else if lhs.type == .Real && rhs.type == .Real then
    if lhs.literal.isSome && rhs.literal.isSome then
      if tok == "*" then
        let a ← lhs.get_float
        let b ← rhs.get_float
        pure (p.push { type := .Real, literal := some (.float (.mul a b)) })
      else if tok == "/" then
        let a ← lhs.get_float
        let b ← rhs.get_float
        pure (p.push { type := .Real, literal := some (.float (.div a b)) })
      else
        pure p
    else
      if p.gprs_exhausted then
        throw (.runtime_error "Bad code: expression is too complicated")
      let p ←
        if tok == "*" then do
          let p ← p.emit_binary stream "IMUL"
          pure (p.gpr_sub 1)
        else if tok == "/" then p.emit_divide stream
        else pure p
      pure (p.push { type := .Real, literal := none })
  else
    throw (.runtime_error
      "Bad code: invalid type on left-or right-hand side of expression")

/-- The body of `Parser::fact_prime` for `and` before the right operand is parsed: the inverse
jump to `or<or_count>` and `or_used = true`. -/
def fact_prime_and_jump (stream : Bool) (p : Parser) : Parser :=
  let p :=
    if p.last_comparison == '<' then p.emit stream ("JGE or" ++ toString p.or_count)
    else if p.last_comparison == '>' then p.emit stream ("JLE or" ++ toString p.or_count)
    else if p.last_comparison == '=' then p.emit stream ("JNE or" ++ toString p.or_count)
    else p
  { p with or_used := true }

/-- The branch of `Parser::fact_r` for an `Integer` token, up to `gpr_index++`. -/
def fact_r_integer (text : String) (stream : Bool) (p : Parser) : Except Err Parser := do
  match from_chars text with
  | none => throw (.runtime_error "Bad code: integer is not valid")
  | some out =>
    let p := p.push { type := .Integer, literal := some (.int32 out) }
    if p.gprs_exhausted then
      throw (.runtime_error "Bad code: expression is too complicated")
    let r ← gprs_at (p.gpr_index : Int)
    let p := p.emit stream ("mov " ++ r ++ ", " ++ toString out)
    pure p.gpr_inc

/-- The branch of `Parser::fact_r` for a `Real` token, up to `gpr_index++`. -/
def fact_r_real (text : String) (stream : Bool) (p : Parser) : Except Err Parser := do
  if !strtof_converts text then
    throw (.runtime_error "Bad code: decimal is not valid")
  let out := FloatVal.strtof text
  let p := p.push { type := .Real, literal := some (.float out) }
  if p.gprs_exhausted then
    throw (.runtime_error "Bad code: expression is too complicated")
  let r ← gprs_at (p.gpr_index : Int)
  let p := p.emit stream ("mov " ++ r ++ ", " ++ out.text)
  pure p.gpr_inc

/-- The branch of `Parser::fact_r` for a variable of the current scope (`local_var_data`). -/
def fact_r_local (v : VarData) (stream : Bool) (p : Parser) : Except Err Parser := do
  if p.gprs_exhausted then
    throw (.runtime_error "Bad code: exceeded available registers")
  let r ← gprs_at (p.gpr_index : Int)
  let p :=
    if !p.symtab.cur.name.isEmpty then
      if !v.is_param then
        (p.emit stream ("MOV " ++ r ++ ", [EDI - " ++ toString v.offset ++ "]")).gpr_inc
      else if !v.pass_by_ref then
        (p.emit stream ("MOV " ++ r ++ ", [EDI + " ++ toString v.offset ++ "]")).gpr_inc
      else
        ((p.emit stream ("MOV ESI, [EDI - " ++ toString v.offset ++ "]")).emit stream
          ("MOV " ++ r ++ ", [ESI]")).gpr_inc
    else
      (p.emit stream ("MOV " ++ r ++ ", [EBP + " ++ toString v.offset ++ "]")).gpr_inc
  let p := p.push { type := v.type, literal := none }
  pure p.advance

/-- The branch of `Parser::fact_r` for a variable found by `find` (`global_var_data`). -/
def fact_r_outer (e : Entry) (stream : Bool) (p : Parser) : Except Err Parser := do
  match e with
  | .var vdata =>
    let p := p.advance
    let p := p.push { type := vdata.type, literal := none }
    if p.gprs_exhausted then
      throw (.runtime_error "Bad code: exceeded available registers")
    let r ← gprs_at (p.gpr_index : Int)
    let p := p.emit stream ("MOV " ++ r ++ ", [EBP + " ++ toString vdata.offset ++ "]")
    pure p.gpr_inc
  | _ => throw .bad_variant_access

/-! ## main.cpp: the straight-line parts of `statement` and `consume_params` -/

/-- The store of an assignment to a variable of the current scope, from the type check to the
release of the register (`const auto rhs = values.top();` to `gpr_index--;`). -/
def statement_store (var_info : VarData) (p : Parser) : Except Err Parser := do
  let (rhs, p) ← p.pop
  let (lhs, p) ← p.pop
  if rhs.type != lhs.type then
    throw (.runtime_error "Bad code: type mismatch")
  let r ← gprs_at ((p.gpr_index : Int) - 1)
  let p :=
    if !p.symtab.cur.name.isEmpty then
      if !var_info.is_param then
        p.emit false ("MOV [EDI - " ++ toString var_info.offset ++ "], " ++ r)
      else if var_info.pass_by_ref then
        (p.emit false ("MOV ESI, [EDI + " ++ toString var_info.offset ++ "]")).emit false
          ("MOV [ESI], " ++ r)
      else
        p.emit false ("MOV [EDI + " ++ toString var_info.offset ++ "], " ++ r)
    else
      p.emit false ("MOV [EBP + " ++ toString var_info.offset ++ "], " ++ r)
  pure (p.gpr_sub 1)

/-- The store of an assignment to a variable found by `find` in an enclosing scope. -/
def statement_store_outer (info : VarData) (p : Parser) : Except Err Parser := do
  let (rhs, p) ← p.pop
  let (lhs, p) ← p.pop
  if rhs.type != lhs.type then
    throw (.runtime_error "Bad code: type mismatch")
  let r ← gprs_at ((p.gpr_index : Int) - 1)
  let p := p.emit false ("MOV [EBP + " ++ toString info.offset ++ "], " ++ r)
  pure (p.gpr_sub 1)

/-- The test `token->index() != Special || std::get<3>(*token) != s` followed by a throw. -/
def Parser.expect_special (p : Parser) (s : String) (what : String) : Except Err Parser := do
  if (← p.at_special s) then pure p else throw (.runtime_error what)

/-- The scope `*ptr` of a `Scope *` held by an entry; a null or dangling pointer is undefined
behaviour. -/
def Parser.scope_at (p : Parser) (ptr : Option Nat) : Except Err Scope :=
  match ptr with
  | none => .error (.undefined "dereference of a null scope pointer")
  | some i =>
    match p.symtab.scopes[i]? with
    | some sc => .ok sc
    | none => .error (.undefined "dereference of a dangling scope pointer")

/-- The access `std::get<VarData>(e)`. -/
def Entry.get_var (e : Entry) : Except Err VarData :=
  match e with
  | .var v => .ok v
  | _ => .error .bad_variant_access

/-- The name of a type in the diagnostics of `consume_params`. -/
def VarType.text : VarType → String
  | .Integer => "integer"
  | .Boolean => "boolean"
  | .Character => "char"
  | .Real => "real"

/-- The parameter list collected by `consume_params(const ProcData)`: the variable entries of
the callee scope that are parameters, each with its `name` filled in, in the iteration order of
the table (here the order of insertion). -/
def proc_parameters (sc : Scope) : Except Err (List VarData) := do
  let vars ← sc.table.mapM (fun (ne : String × Entry) => do
    let v ← ne.2.get_var
    pure { v with name := ne.1 })
  pure (vars.filter (fun v => v.is_param))

/-- The parameter list collected by `consume_params(const FuncData)`: every entry of the callee
scope, read as a variable, in the iteration order of the table. -/
def func_parameters (sc : Scope) : Except Err (List VarData) :=
  sc.table.mapM (fun (ne : String × Entry) => ne.2.get_var)

/-- The final loop of `consume_params(const ProcData)`: write the collected buffers to the
listing, first collected first. -/
def Parser.emit_assembly (p : Parser) (assembly : List (List String)) : Parser :=
  { p with asm_output := p.asm_output ++ assembly.flatten }

/-- The separator step of both `consume_params`: when another parameter follows, the lookahead
must be a comma, which is consumed. -/
def consume_comma (more : Bool) (what : String) (p : Parser) : Except Err Parser := do
  if more then
    if (← p.at_special ",") then pure p.advance else throw (.runtime_error what)
  else
    pure p

/-- The by-reference branch of `consume_params(const ProcData)`; the result is the buffer of
the argument and the new state. -/
def proc_param_by_ref (parameter : VarData) (p : Parser) :
    Except Err (List String × Parser) := do
  match (← p.tok) with
  | .Word name =>
    match find p.symtab name .Variable with
    | none => throw (.undefined "dereference of an empty lookup result")
    | some e =>
      let v ← e.get_var
      if parameter.type != v.type then
        throw (.runtime_error "Bad code: parameter and variable type are invalid")
      else
        pure (["MOV EAX, " ++ toString v.offset, "ADD EAX, EBP", "PUSH EAX"], p.advance)
  | _ => throw (.runtime_error "Bad code: parameter expected pass-by-reference variable")

/-- The by-reference branch of `consume_params(const FuncData)`. -/
def func_param_by_ref (func : FuncData) (parameter : VarData) (p : Parser) :
    Except Err Parser := do
  match (← p.tok) with
  | .Word name =>
    match find p.symtab name .Variable with
    | none => throw (.runtime_error ("Bad code: identifier " ++ name ++ " is not a variable"))
    | some e =>
      let var ← e.get_var
      if var.type != parameter.type then
        throw (.runtime_error ("Bad code: type of variable (" ++ var.type.text ++
          ") does not match type  of parameter (" ++ parameter.type.text ++
          ") within function declaration " ++ func.name))
      else
        pure p.advance
  | _ => throw (.runtime_error ("Bad code: parameter " ++ parameter.name ++ " expects reference"))

/-- The type check of a by-value argument in `consume_params(const FuncData)`. -/
def func_param_check (parameter : VarData) (p : Parser) : Except Err Parser := do
  let (rhs, p) ← p.pop
  if parameter.type != rhs.type then
    throw (.runtime_error ("Bad code: parameter " ++ parameter.name ++ " got datatype " ++
      parameter.type.text ++ ", but expected " ++ rhs.type.text))
  else
    pure p

/-- The end of the by-value branch of `consume_params(const ProcData)`: the type check, the
`PUSH` appended to the buffer and the release of the register; the result is the finished
buffer and the new state. -/
def proc_param_push (parameter : VarData) (p : Parser) : Except Err (List String × Parser) := do
  let (rhs, p) ← p.pop
  if parameter.type != rhs.type then
    throw (.runtime_error "Bad code: expression did not match expected data type")
  let r ← gprs_at ((p.gpr_index : Int) - 1)
  let p := p.emit true ("PUSH " ++ r)
  pure (p.stage, p.gpr_sub 1)

/-- The final type comparison of a function call in `Parser::fact_r`. -/
def fact_r_call_check (p : Parser) : Except Err Parser := do
  let (rhs, p) ← p.pop
  let (lhs, p) ← p.pop
  if lhs.type != rhs.type then
    throw (.runtime_error "Bad code: return type doesn't match variable type")
  else
    pure p

/-- The call `s.pop()` on a label stack; on an empty stack the behaviour is undefined. -/
def stack_pop (s : List Nat) : Except Err (List Nat) :=
  match s with
  | _ :: rest => .ok rest
  | [] => .error (.undefined "pop of an empty label stack")

/-! ## main.cpp: statements and expressions

The functions below call one another recursively.  Their first argument is a recursion budget
that decreases by one at every call; a run that exhausts it ends with `Err.out_of_fuel`.  The
argument `stream` tells whether a staging stream was supplied (`true`) or `std::nullopt`. -/

mutual

/-- The method `Parser::expression`. -/
def expression : Nat → Bool → Parser → Except Err Parser
  | 0, _, _ => .error .out_of_fuel
  | fuel + 1, stream, p => s_expression fuel stream p

/-- The method `Parser::s_expression`. -/
def s_expression : Nat → Bool → Parser → Except Err Parser
  | 0, _, _ => .error .out_of_fuel
  | fuel + 1, stream, p => do
    let p ← s_expression_r fuel stream p
    s_expression_prime fuel stream p

/-- The method `Parser::s_expression_r`. -/
def s_expression_r : Nat → Bool → Parser → Except Err Parser
  | 0, _, _ => .error .out_of_fuel
  | fuel + 1, stream, p => term fuel stream p

/-- The method `Parser::s_expression_prime`. -/
def s_expression_prime : Nat → Bool → Parser → Except Err Parser
  | 0, _, _ => .error .out_of_fuel
  | fuel + 1, stream, p => do
    match (← p.tok) with
    | .Special tok =>
      if tok == "<" || tok == ">" || tok == "=" then
        let p := { p with last_comparison :=
          if tok == "<" then '<' else if tok == ">" then '>' else '=' }
        let p := p.advance
        let p ← s_expression_r fuel stream p
        let p ← s_expression_prime_compare tok stream p
        s_expression_prime fuel stream p
      else
        pure p
    | _ => pure p

/-- The method `Parser::term`. -/
def term : Nat → Bool → Parser → Except Err Parser
  | 0, _, _ => .error .out_of_fuel
  | fuel + 1, stream, p => do
    let p ← term_r fuel stream p
    term_prime fuel stream p

/-- The method `Parser::term_r`. -/
def term_r : Nat → Bool → Parser → Except Err Parser
  | 0, _, _ => .error .out_of_fuel
  | fuel + 1, stream, p => fact fuel stream p

/-- The method `Parser::term_prime`. -/
def term_prime : Nat → Bool → Parser → Except Err Parser
  | 0, _, _ => .error .out_of_fuel
  | fuel + 1, stream, p => do
    match (← p.tok) with
    | .Special tok =>
      if tok == "+" || tok == "-" then
        let p := p.advance
        let p ← term_r fuel stream p
        let p ← term_prime_arith tok stream p
        term_prime fuel stream p
      else
        pure p
    | .ReservedWord tok =>
      if tok == "or" then
        let p := p.advance
        let p ← term_prime_or_jump stream p
        let p ← term_r fuel stream p
        let p ← boolean_pair_check "Bad code: expected type boolean for conjunctive 'or'" p
        term_prime fuel stream p
      else
        pure p
    | _ => pure p

/-- The method `Parser::fact`. -/
def fact : Nat → Bool → Parser → Except Err Parser
  | 0, _, _ => .error .out_of_fuel
  | fuel + 1, stream, p => do
    let p ← fact_r fuel stream p
    fact_prime fuel stream p

/-- The method `Parser::fact_r`. -/
def fact_r : Nat → Bool → Parser → Except Err Parser
  | 0, _, _ => .error .out_of_fuel
  | fuel + 1, stream, p => do
    match (← p.tok) with
    | .Special tok =>
      if tok == "(" then
        let p := { p with grouping_depth := (p.grouping_depth + 1) % 65536 }
        let p := p.advance
        let p ← expression fuel stream p
        if (← p.at_special ")") then
          let p := { p with grouping_depth := (p.grouping_depth + 65536 - 1) % 65536 }
          pure p.advance
        else
          throw (.runtime_error "Bad code: expected ')'")
      else if tok == "+" || tok == "-" then
        let p ←
          if tok == "-" then do
            let r ← gprs_at ((p.gpr_index : Int) - 1)
            pure (p.emit stream ("NEG " ++ r))
          else pure p
        let p := p.advance
        term_r fuel stream p
      else
        pure p
    | .Integer text =>
      let p ← fact_r_integer text stream p
      pure p.advance
    | .Real text =>
      let p ← fact_r_real text stream p
      pure p.advance
    | .Word name =>
      match get_var_info p.symtab name with
      | some local_var_data => fact_r_local local_var_data stream p
      | none =>
        match find p.symtab name .Variable with
        | some global_var_data => fact_r_outer global_var_data stream p
        | none =>
          match find p.symtab name .Function with
          | some funcdata =>
            let p := p.advance
            let p ← p.expect_special "(" "Bad code: procedure requires a call expression"
            let p := p.advance
            let p ←
              match funcdata with
              | .func f => consume_params_func fuel f p
              | _ => throw .bad_variant_access
            let p ← p.expect_special ")" "Bad code: call expression requires termination"
            let p := p.advance
            fact_r_call_check p
          | none => pure p
    | .ReservedWord _ =>
      throw (.runtime_error
        "Bad code: expected grouped expression, additive or subtractive operator, integer, real, or word")

/-- The method `Parser::fact_prime`. -/
def fact_prime : Nat → Bool → Parser → Except Err Parser
  | 0, _, _ => .error .out_of_fuel
  | fuel + 1, stream, p => do
    match (← p.tok) with
    | .Special tok =>
      if tok == "*" || tok == "/" then
        let p := p.advance
        let p ← fact_r fuel stream p
        let p ← fact_prime_arith tok stream p
        fact_prime fuel stream p
      else
        pure p
    | .ReservedWord tok =>
      if tok == "and" then
        let p := p.advance
        let p := fact_prime_and_jump stream p
        let p ← fact_r fuel stream p
        let p ← boolean_pair_check "Bad code: expected type boolean for conjunctive 'and'" p
        fact_prime fuel stream p
      else
        pure p
    | _ => pure p

/-- The method `Parser::consume_params(const FuncData func)`. -/
def consume_params_func : Nat → FuncData → Parser → Except Err Parser
  | 0, _, _ => .error .out_of_fuel
  | fuel + 1, func, p => do
    let scope ← p.scope_at func.next
    let parameters ← func_parameters scope
    consume_params_func_loop fuel func parameters 0 p

/-- The loop `while (current_param < parameters.size())` of
`Parser::consume_params(const FuncData func)`. -/
def consume_params_func_loop : Nat → FuncData → List VarData → Nat → Parser → Except Err Parser
  | 0, _, _, _, _ => .error .out_of_fuel
  | fuel + 1, func, parameters, current_param, p =>
    match parameters[current_param]? with
    | none => pure p
    | some parameter => do
      let p ←
        if parameter.pass_by_ref then func_param_by_ref func parameter p
        else do
          let p ← expression fuel false p
          func_param_check parameter p
      let current_param := current_param + 1
      let p ← consume_comma (decide (current_param < parameters.length))
        ("Bad code: function " ++ func.name ++ " got " ++ toString current_param ++
          " parameters, but expected " ++ toString parameters.length) p
      consume_params_func_loop fuel func parameters current_param p

end

/-- The loop `while (current_param < parameters.size())` of
`Parser::consume_params(const ProcData proc)`; `assembly` collects one buffer per argument. -/
def consume_params_proc_loop :
    Nat → List VarData → Nat → List (List String) → Parser →
      Except Err (List (List String) × Parser)
  | 0, _, _, _, _ => .error .out_of_fuel
  | fuel + 1, parameters, current_param, assembly, p =>
    match parameters[current_param]? with
    | none => pure (assembly, p)
    | some parameter => do
      let (buffer, p) ←
        if parameter.pass_by_ref then proc_param_by_ref parameter p
        else do
          let p ← expression fuel true { p with stage := [] }
          proc_param_push parameter p
      let assembly := assembly ++ [buffer]
      let current_param := current_param + 1
      let p ← consume_comma (decide (current_param < parameters.length))
        "Bad code: got wrong number of parameters; expected ','" p
      consume_params_proc_loop fuel parameters current_param assembly p

/-- The method `Parser::consume_params(const ProcData proc)`. -/
def consume_params_proc (fuel : Nat) (proc : ProcData) (p : Parser) : Except Err Parser := do
  let scope ← p.scope_at proc.next
  let parameters ← proc_parameters scope
  let (assembly, p) ← consume_params_proc_loop fuel parameters 0 [] p
  pure (p.emit_assembly assembly)

/-- The tail shared by the four call branches of `Parser::statement`: the closing parenthesis,
the line `CALL <proc_info->name>` and the next token.  `proc_info` is the result of
`get_proc_info(name)`, which is empty in three of the four branches; reading the name through
an empty optional is undefined behaviour. -/
def statement_call_end (proc_info : Option ProcData) (p : Parser) : Except Err Parser := do
  let p ← p.expect_special ")" "Bad code: call expression requires termination"
  match proc_info with
  | some info => pure (p.emit false ("CALL " ++ info.name)).advance
  | none => throw (.undefined "dereference of an empty optional (proc_info)")

/-- The head shared by the four call branches of `Parser::statement`: the callee name is
consumed and an opening parenthesis is required and consumed. -/
def statement_call_begin (p : Parser) : Except Err Parser := do
  let p := p.advance
  let p ← p.expect_special "(" "Bad code: procedure requires a call expression"
  pure p.advance

/-- The head shared by the two assignment branches of `Parser::statement`: the type of the
target is pushed, the name is consumed, and `:=` is required and consumed. -/
def statement_assign_begin (type : VarType) (p : Parser) : Except Err Parser := do
  let p := p.push { type := type, literal := none }
  let p := p.advance
  let p ← p.expect_special ":=" "Bad code: expected ':=' for variable assignment"
  pure p.advance

/-- The lines that `Parser::handle_if` writes when it reads `then`, and the step to the next
token. -/
def handle_if_then (p : Parser) : Except Err Parser := do
  let p ← p.emit_jump false ((stack_top p.conditional_stack).map (fun n => "if" ++ toString n))
  let p := p.emit_or_label false
  let n ← stack_top p.conditional_stack
  let p := (p.emit false ("JMP else" ++ toString n)).emit false ("if" ++ toString n ++ ":")
  pure p.advance

/-- The lines that `Parser::handle_while` writes when it reads `do`, and the step to the next
token. -/
def handle_while_do (p : Parser) : Except Err Parser := do
  let p ← p.emit_jump false
    ((stack_top p.loop_stack).map (fun n => "while" ++ toString n ++ "inner"))
  let p := p.emit_or_label false
  let n ← stack_top p.loop_stack
  let p := (p.emit false ("JMP endwhile" ++ toString n)).emit false
    ("while" ++ toString n ++ "inner:")
  pure p.advance

mutual

/-- The method `Parser::statement`. -/
def statement : Nat → Parser → Except Err Parser
  | 0, _ => .error .out_of_fuel
  | fuel + 1, p => do
    match (← p.tok) with
    | .ReservedWord tok =>
      if tok == "begin" then
        let p := { p with block_depth := (p.block_depth + 1) % 65536 }.advance
        let p ← statement fuel p
        let p ← mstatement fuel p
        if (← p.at_reserved "end") then
          pure { p with block_depth := (p.block_depth + 65536 - 1) % 65536 }.advance
        else
          throw (.runtime_error "Bad code: unterminated block")
      else if tok == "if" then
        let p := p.advance
        let p := { p with conditional_stack := p.if_count :: p.conditional_stack }
        let p := { p with if_count := (p.if_count + 1) % U64 }
        let p ← expression fuel false p
        handle_if fuel p
      else if tok == "while" then
        let p := p.advance
        let p := { p with loop_stack := p.while_count :: p.loop_stack }
        let p := { p with while_count := (p.while_count + 1) % U64 }
        let p := p.emit false ("while" ++ toString (← stack_top p.loop_stack) ++ ":")
        let p := { p with for_while := true }
        let p ← expression fuel false p
        let p := { p with for_while := false }
        handle_while fuel p
      else
        pure p
    | .Word name =>
      match get_var_info p.symtab name with
      | some var_info =>
        let p ← statement_assign_begin var_info.type p
        let p ← expression fuel false p
        statement_store var_info p
      | none =>
        match find p.symtab name .Variable with
        | some global_var_info =>
          let info ← global_var_info.get_var
          let p ← statement_assign_begin info.type p
          let p ← expression fuel false p
          statement_store_outer info p
        | none =>
          match get_proc_info p.symtab name with
          | some proc_info =>
            let p ← statement_call_begin p
            let p ← consume_params_proc fuel proc_info p
            statement_call_end (some proc_info) p
          | none =>
            match find p.symtab name .Procedure with
            | some (.proc info) =>
              let p ← statement_call_begin p
              let p ← consume_params_proc fuel info p
              statement_call_end none p
            | some _ => throw .bad_variant_access
            | none =>
              match get_func_info p.symtab name with
              | some func_info =>
                let p ← statement_call_begin p
                let p ← consume_params_func fuel func_info p
                statement_call_end none p
              | none =>
                match find p.symtab name .Function with
                | some (.func info) =>
                  let p ← statement_call_begin p
                  let p ← consume_params_func fuel info p
                  statement_call_end none p
                | some _ => throw .bad_variant_access
                | none => pure p
    | _ => pure p

/-- The method `Parser::if_prime`. -/
def if_prime : Nat → Parser → Except Err Parser
  | 0, _ => .error .out_of_fuel
  | fuel + 1, p => do
    if (← p.at_reserved "else") then statement fuel p.advance else pure p

/-- The method `Parser::mstatement`. -/
def mstatement : Nat → Parser → Except Err Parser
  | 0, _ => .error .out_of_fuel
  | fuel + 1, p => do
    if (← p.at_special ";") then
      let p ← statement fuel p.advance
      mstatement fuel p
    else
      pure p

/-- The method `Parser::handle_if`. -/
def handle_if : Nat → Parser → Except Err Parser
  | 0, _ => .error .out_of_fuel
  | fuel + 1, p => do
    if (← p.at_reserved "then") then
      let p ← handle_if_then p
      let p ← statement fuel p
      let n ← stack_top p.conditional_stack
      let p := (p.emit false ("JMP endif" ++ toString n)).emit false ("else" ++ toString n ++ ":")
      let p ← if_prime fuel p
      let n ← stack_top p.conditional_stack
      let p := (p.emit false ("JMP endif" ++ toString n)).emit false ("endif" ++ toString n ++ ":")
      pure { p with conditional_stack := (← stack_pop p.conditional_stack) }
    else
      throw (.runtime_error
        "Bad code: missing required keyword 'then' after conditional expression")

/-- The method `Parser::handle_while`. -/
def handle_while : Nat → Parser → Except Err Parser
  | 0, _ => .error .out_of_fuel
  | fuel + 1, p => do
    if (← p.at_reserved "do") then
      let p ← handle_while_do p
      let p ← statement fuel p
      let n ← stack_top p.loop_stack
      let p := (p.emit false ("JMP while" ++ toString n)).emit false ("endwhile" ++ toString n ++ ":")
      pure { p with loop_stack := (← stack_pop p.loop_stack) }
    else
      throw (.runtime_error
        "Bad code: missing required keyword 'do' after conditional expression")

end

/-! ## main.cpp: declarations, blocks and the program shell -/

/-- The call `std::accumulate(first, last, 0)` over `std::uint64_t` sizes: the accumulator has
type `int`. -/
def accumulate_int (xs : List Nat) : Int :=
  xs.foldl (fun acc x => wrap32 (acc + (x : Int))) 0

/-- The sizes of the variable entries of a table that are parameters (`want = true`) or are
not (`want = false`), in iteration order. -/
def var_sizes (want : Bool) (t : Table) : List Nat :=
  t.filterMap (fun (ne : String × Entry) =>
    match ne.2 with
    | .var v => if v.is_param == want then some v.size else none
    | _ => none)

/-- The loop `for (const auto &temporary : temporaries)` of `pfv`, `mvar`, `param` and
`mparam`: the type named by the lookahead is decoded for every pending name and the name is
declared; `size_of` gives the size that the calling function assigns to each type. -/
def declare_temporaries_loop (size_of : VarType → Nat) (pass_by_ref is_param : Bool) :
    List String → Parser → Except Err Parser
  | [], p => pure p
  | temporary :: rest, p => do
    let dtype ← p.get_word
    let vtype ←
      if dtype == "integer" then pure VarType.Integer
      else if dtype == "boolean" then pure VarType.Boolean
      else if dtype == "char" then pure VarType.Character
      else if dtype == "real" then pure VarType.Real
      else throw (.runtime_error ("Bad code: type " ++ dtype ++ " is not valid"))
    let r := add_variable p.symtab temporary vtype (size_of vtype) pass_by_ref is_param
    if !r.1 then
      throw (.runtime_error ("Bad code: variable " ++ temporary ++ " already defined"))
    declare_temporaries_loop size_of pass_by_ref is_param rest { p with symtab := r.2 }

/-- The loop over `temporaries` followed by `temporaries.clear()` and the step to the next
token. -/
def declare_temporaries (size_of : VarType → Nat) (pass_by_ref is_param : Bool) (p : Parser) :
    Except Err Parser := do
  let p ← declare_temporaries_loop size_of pass_by_ref is_param p.temporaries p
  pure { p with temporaries := [] }.advance

/-- The sizes used by `pfv`, `mvar` and `param`. -/
def size_four (_ : VarType) : Nat := 4

/-- The sizes used by `mparam`. -/
def size_mparam : VarType → Nat
  | .Integer => 4
  | .Boolean => 1
  | .Character => 1
  | .Real => 4

/-- The method `Parser::varlist`. -/
def varlist : Nat → Parser → Except Err Parser
  | 0, _ => .error .out_of_fuel
  | fuel + 1, p => do
    if (← p.at_special ",") then
      let p := p.advance
      let var ← p.get_word
      let p := { p with temporaries := p.temporaries ++ [var] }
      varlist fuel p.advance
    else
      pure p

mutual

/-- The method `Parser::datatype`. -/
def datatype : Nat → Parser → Except Err Parser
  | 0, _ => .error .out_of_fuel
  | fuel + 1, p => do
    match (← p.tok) with
    | .Word dtype =>
      if dtype != "integer" && dtype != "char" && dtype != "boolean" && dtype != "real" then
        throw (.runtime_error "Bad code: unknown data type")
      else
        pure p
    | .ReservedWord kw =>
      if kw != "array" then
        throw (.runtime_error "Bad code: expected 'array' keyword or a valid data type")
      let p := p.advance
      let p ← p.expect_special "[" "Bad code: expected '[' for array specification"
      let p := p.advance
      let p ← dim fuel p
      let p ← p.expect_special "]" "Bad code: expected ']' to end array specification"
      let p := p.advance
      match (← p.tok) with
      | .ReservedWord kw2 =>
        if kw2 == "of" then
          throw (.runtime_error
            "Bad code: expected 'of' keyword to separate array length specification from data type")
        datatype fuel p.advance
      | _ =>
        throw (.runtime_error
          "Bad code: expected 'of' keyword to separate array length specification from data type")
    | _ =>
      throw (.runtime_error "Bad code: expected valid data type or array specification")

/-- The method `Parser::dim`. -/
def dim : Nat → Parser → Except Err Parser
  | 0, _ => .error .out_of_fuel
  | fuel + 1, p => do
    match (← p.tok) with
    | .Integer _ => pure ()
    | _ => throw (.runtime_error "Bad code: expected integer for array bounds")
    let p := p.advance
    let p ← p.expect_special "." "Bad code: expected '..' for array range specifier"
    let p := p.advance
    let p ← p.expect_special "." "Bad code: expected '..' for array range specifier"
    let p := p.advance
    match (← p.tok) with
    | .Integer _ => pure ()
    | _ => throw (.runtime_error "Bad code: expected integer for array bounds")
    mdim fuel p.advance

/-- The method `Parser::mdim`. -/
def mdim : Nat → Parser → Except Err Parser
  | 0, _ => .error .out_of_fuel
  | fuel + 1, p => do
    if (← p.at_special ",") then dim fuel p.advance else pure p

end

/-- The method `Parser::mvar`. -/
def mvar : Nat → Parser → Except Err Parser
  | 0, _ => .error .out_of_fuel
  | fuel + 1, p => do
    match (← p.tok) with
    | .Word var =>
      let p := { p with temporaries := p.temporaries ++ [var] }
      let p ← varlist fuel p.advance
      let p ← p.expect_special ":" "Bad code: missing datatype specifier ':'"
      let p ← datatype fuel p.advance
      let p ← declare_temporaries size_four false false p
      let p ← p.expect_special ";" "Bad code: variable declaration must end with ';'"
      mvar fuel p.advance
    | _ => pure p

/-- The method `Parser::mparam`. -/
def mparam : Nat → Parser → Except Err Parser
  | 0, _ => .error .out_of_fuel
  | fuel + 1, p => do
    if (← p.at_special ";") then
      let p := p.advance
      let by_ref ← p.at_reserved "var"
      let p := if by_ref then p.advance else p
      match (← p.tok) with
      | .Word var =>
        let p := { p with temporaries := p.temporaries ++ [var] }
        let p ← varlist fuel p.advance
        let p ← p.expect_special ":"
          "Bad code: parameter declarations and parameter type specifications must be separated by ':'"
        let p ← datatype fuel p.advance
        let p ← declare_temporaries size_mparam by_ref true p
        mparam fuel p
      | _ => throw (.runtime_error "Bad code: parameter has invalid identifier")
    else
      pure p

/-- The method `Parser::param`. -/
def param (fuel : Nat) (p : Parser) : Except Err Parser := do
  let by_ref ← p.at_reserved "var"
  let p := if by_ref then p.advance else p
  match (← p.tok) with
  | .Word var =>
    let p := { p with temporaries := p.temporaries ++ [var] }
    let p ← varlist fuel p.advance
    let p ← p.expect_special ":"
      "Bad code: parameter declarations and parameter type specifications must be separated by ':'"
    let p ← datatype fuel p.advance
    let p ← declare_temporaries size_four by_ref true p
    mparam fuel p
  | _ => pure p

/-- The frame-setup lines that `Parser::block` writes after the declarations. -/
def block_prologue (p : Parser) : Parser :=
  if !p.symtab.cur.name.isEmpty then
    let all_variables_size := accumulate_int (var_sizes false p.symtab.cur.table)
    let p := (p.emit false "PUSH EDI").emit false "MOV EDI, ESP"
    let p :=
      if all_variables_size != 0 then p.emit false ("SUB ESP, " ++ toString all_variables_size)
      else p
    p.emit false "PUSHAD"
  else
    p.emit false "kmain:"

/-- The epilogue lines that `Parser::pfv` writes after the block of a procedure, followed by
`symtab.leave_scope()` and the step to the next token. -/
def procedure_epilogue (p : Parser) : Parser :=
  let all_variables_size := accumulate_int (var_sizes false p.symtab.cur.table)
  let all_parameters_size := accumulate_int (var_sizes true p.symtab.cur.table)
  let p := p.emit false "POPAD"
  let p :=
    if all_variables_size != 0 then p.emit false ("ADD ESP, " ++ toString all_variables_size)
    else p
  let p := p.emit false "POP EDI"
  let p :=
    if all_parameters_size != 0 then p.emit false ("RET " ++ toString all_parameters_size)
    else p.emit false "RET"
  { p with symtab := leave_scope p.symtab }.advance

/-- The declaration of the return slot in the function branch of `Parser::pfv`. -/
def declare_return_slot (func_name : String) (p : Parser) : Except Err Parser := do
  let dtype ← p.get_word
  let r :=
    if dtype == "integer" then add_variable p.symtab func_name .Integer 4 false false
    else if dtype == "boolean" then add_variable p.symtab func_name .Boolean 1 false false
    else if dtype == "char" then add_variable p.symtab func_name .Character 1 false false
    else if dtype == "real" then add_variable p.symtab func_name .Real 8 false false
    else (false, p.symtab)
  if !r.1 then
    throw (.runtime_error ("Bad code: function " ++ func_name ++ " already defined"))
  pure { p with symtab := r.2 }.advance

mutual

/-- The method `Parser::block`. -/
def block : Nat → Parser → Except Err Parser
  | 0, _ => .error .out_of_fuel
  | fuel + 1, p => do
    let p ← pfv fuel p
    let p := block_prologue p
    if (← p.at_reserved "begin") then
      let p := { p with block_depth := (p.block_depth + 1) % 65536 }.advance
      let p ← statement fuel p
      let p ← mstatement fuel p
      if (← p.at_reserved "end") then
        pure { p with block_depth := (p.block_depth + 65536 - 1) % 65536 }.advance
      else
        throw (.runtime_error "Bad code: unterminated block")
    else
      throw (.runtime_error "Bad code: expected a block")

/-- The method `Parser::pfv`. -/
def pfv : Nat → Parser → Except Err Parser
  | 0, _ => .error .out_of_fuel
  | fuel + 1, p => do
    match (← p.tok) with
    | .ReservedWord tok =>
      if tok == "var" then
        let p := p.advance
        let var ← p.get_word
        let p := { p with temporaries := p.temporaries ++ [var] }
        let p ← varlist fuel p.advance
        let p ← p.expect_special ":" "Bad code: variable must have datatype-specifier"
        let p ← datatype fuel p.advance
        let p ← declare_temporaries size_four false false p
        let p ← p.expect_special ";" "Bad code: expected ';' to terminate variable declaration"
        let p ← mvar fuel p.advance
        pfv fuel p
      else if tok == "procedure" then
        let p := p.advance
        match (← p.tok) with
        | .Word name =>
          let r := enter_proc_scope p.symtab name
          if !r.1 then
            throw (.runtime_error "Bad code: cannot redeclare a procedure that already exists")
          let p := { p with symtab := r.2 }
          let p := (p.emit false (name ++ ":")).advance
          let p ← p.expect_special "(" "Bad code: missing required parameter list for procedure"
          let p ← param fuel p.advance
          let p ← p.expect_special ")" "Bad code: parameter list must be terminated with ')'"
          let p := p.advance
          let p ← p.expect_special ";" "Bad code: procedure declaration must be terminated with ';'"
          let p ← block fuel p.advance
          let p ← p.expect_special ";" "Bad code: procedure definition must be terminated with ';'"
          pfv fuel (procedure_epilogue p)
        | _ => throw (.runtime_error "Bad code: procedure has invalid identifier")
      else if tok == "function" then
        let p := p.advance
        match (← p.tok) with
        | .Word func_name =>
          let r := enter_func_scope p.symtab func_name
          if !r.1 then
            throw (.runtime_error "Bad code: cannot redeclare a function")
          let p := { p with symtab := r.2 }.advance
          let p ← p.expect_special "(" "Bad code: missing required parameter list for procedure"
          let p ← param fuel p.advance
          let p ← p.expect_special ")" "Bad code: parameter list must be terminated with ')'"
          let p := p.advance
          let p ← p.expect_special ":" "Bad code: missing datatype specification indicator ':'"
          let p ← datatype fuel p.advance
          let p ← declare_return_slot func_name p
          let p ← p.expect_special ";" "Bad code: function declaration must be terminated with ';'"
          let p ← block fuel p.advance
          let p ← p.expect_special ";" "Bad code: function definition must be terminated with ';'"
          pfv fuel { p with symtab := leave_scope p.symtab }.advance
        | _ => throw (.runtime_error "Bad code: function has invalid identifier")
      else
        pure p
    | _ => pure p

end

/-- The method `Parser::end_program`. -/
def end_program (p : Parser) : Except Err Parser := do
  if (← p.at_special ".") then
    let p := { p with index := (p.index + 1) % U64 }
    pure ((((p.emit false "POPAD").emit false "\x7d").emit false "return 0;").emit false "\x7d")
  else
    throw (.runtime_error "Bad code: program must be terminated with a full stop ('.')")

/-- The method `Parser::program`. -/
def program (fuel : Nat) (p : Parser) : Except Err Parser := do
  let p := p.advance
  if !(← p.at_reserved "program") then
    throw (.runtime_error "Bad code: program keyword required to declare program")
  let p := p.advance
  match (← p.tok) with
  | .Word _ => pure ()
  | _ => throw (.runtime_error "Bad code: expected word")
  let p := p.advance
  if !(← p.at_special ";") then
    throw (.runtime_error "Bad code: expected ';'")
  let p := p.get_token
  let p ← block fuel p
  end_program p

/-- The state of a `Parser` whose members have their initial values, on the token queue of
the lexer `lx`, after the constructor has written the prologue of the listing. -/
def Parser.init (lx : Lexer) : Parser :=
  { token := none, grouping_depth := 0, block_depth := 0, index := 0, values := [],
    symtab := SymbolTable.new, temporaries := [], gpr_index := 0, or_used := false,
    for_while := false, last_comparison := Char.ofNat 0, if_count := 0, while_count := 0,
    or_count := 0, conditional_stack := [], loop_stack := [], lexer := lx,
    asm_output :=
      ["char data_segment[65536] = \x7b0\x7d;", "int main() \x7b", "_asm \x7b", "PUSHAD",
       "LEA EBP, data_segment", "JMP kmain"],
    stage := [] }

/-- The constructor `Parser::Parser(filename)` on the tokens that the lexer produced for the
file: the prologue followed by `program()`. -/
def Parser.parse (fuel : Nat) (tokens : List Token) : Except Err Parser :=
  program fuel (Parser.init (Lexer.of_tokens tokens))

/-! ## States and predicates used in the statements below -/

/-- A state with a shadowing binding: the global scope declares the variable `x` and the
procedure `p`; inside `p` (the current scope) `x` is declared again, as a procedure. -/
def shadowing_state : SymbolTable :=
  leave_scope (enter_proc_scope (enter_proc_scope
    (add_variable SymbolTable.new "x" .Integer 4 false false).2 "p").2 "x").2

/-- The scope of a procedure `p` declared at global level, entered and still empty. -/
def proc_state : SymbolTable :=
  (enter_proc_scope SymbolTable.new "p").2

/-- Four declarations: the parameters `a`, `b` and the locals `x`, `y`, interleaved. -/
def sample_decls : List Decl :=
  [ { name := "a", type := .Integer, size := 4, pass_by_ref := false, is_param := true },
    { name := "x", type := .Real, size := 4, pass_by_ref := false, is_param := false },
    { name := "b", type := .Boolean, size := 1, pass_by_ref := true, is_param := true },
    { name := "y", type := .Integer, size := 4, pass_by_ref := false, is_param := false } ]

/-- The effect of inserting an entry for `name` in the current scope and making a fresh child
scope current, as `enter_proc_scope` and `enter_func_scope` do. -/
def EntersChild (st : SymbolTable) (name : String) (e : Entry) (r : Bool × SymbolTable) : Prop :=
  r.1 = true ∧
  r.2.cur_scope = st.scopes.length ∧
  r.2.scopes.length = st.scopes.length + 1 ∧
  r.2.cur = { table := [], param_offset := 0, var_offset := 0, name := name,
              previous := some st.cur_scope } ∧
  r.2.scopes[st.cur_scope]? = some { st.cur with table := st.cur.table ++ [(name, e)] } ∧
  (∀ i, i < st.scopes.length → i ≠ st.cur_scope → r.2.scopes[i]? = st.scopes[i]?)

/-- Does the value carry no literal or a 32-bit integer literal?  Every value of type
`Integer` that the parser builds does. -/
def VarValue.int_or_none (v : VarValue) : Bool :=
  match v.literal with
  | none => true
  | some (.int32 _) => true
  | some _ => false

/-- Is the compile-time quotient of the two operands defined whenever both carry integer
literals (divisor not zero, and not `INT32_MIN / -1`)? -/
def quotient_defined (lhs rhs : VarValue) : Bool :=
  match lhs.literal, rhs.literal with
  | some (.int32 a), some (.int32 b) => decide (b ≠ 0) && !(decide (a = -(2 ^ 31 : Int)) && decide (b = -1))
  | _, _ => true

/-- A parser state in the middle of an expression: `gpr_index` registers are in use and
`values` is the value stack; every other member has its initial value. -/
def operand_state (gpr_index : Nat) (values : List VarValue) : Parser :=
  { Parser.init (Lexer.of_tokens []) with gpr_index := gpr_index, values := values }

/-- The tokens of `program P; var <name>: <type>; begin <body> end.` -/
def program_tokens (name type : String) (body : List Token) : List Token :=
  [.ReservedWord "program", .Word "P", .Special ";", .ReservedWord "var", .Word name,
   .Special ":", .Word type, .Special ";", .ReservedWord "begin"] ++ body ++
  [.ReservedWord "end", .Special "."]

/-- The tokens of `v := v + (v + (v + v))`. -/
def nested_sum (v : String) : List Token :=
  [.Word v, .Special ":=", .Word v, .Special "+", .Special "(", .Word v, .Special "+",
   .Special "(", .Word v, .Special "+", .Word v, .Special ")", .Special ")"]

/-- The tokens of `program P; var x: integer; b: boolean; begin if x = b then x := 0 end.` -/
def mixed_equality_tokens : List Token :=
  [.ReservedWord "program", .Word "P", .Special ";", .ReservedWord "var", .Word "x",
   .Special ":", .Word "integer", .Special ";", .Word "b", .Special ":", .Word "boolean",
   .Special ";", .ReservedWord "begin", .ReservedWord "if", .Word "x", .Special "=", .Word "b",
   .ReservedWord "then", .Word "x", .Special ":=", .Integer "0", .ReservedWord "end",
   .Special "."]

/-- The lines that store register `r` into the variable `v`, as `statement` writes them for a
variable of the current scope whose name is `scope_name`. -/
def store_lines (scope_name : String) (v : VarData) (r : String) : List String :=
  if !scope_name.isEmpty then
    if !v.is_param then ["MOV [EDI - " ++ toString v.offset ++ "], " ++ r]
    else if v.pass_by_ref then
      ["MOV ESI, [EDI + " ++ toString v.offset ++ "]", "MOV [ESI], " ++ r]
    else ["MOV [EDI + " ++ toString v.offset ++ "], " ++ r]
  else ["MOV [EBP + " ++ toString v.offset ++ "], " ++ r]

/-- The entry of a global variable of type `boolean` at offset 0. -/
def boolean_global : VarData :=
  { type := .Boolean, name := "", size := 4, offset := 0, pass_by_ref := false,
    is_param := false, next := none }

/-- The states that the operations of `class SymbolTable` build from the initial state. -/
inductive SymbolTable.Built : SymbolTable → Prop where
  | new : SymbolTable.Built SymbolTable.new
  | add_variable (st : SymbolTable) (name : String) (type : VarType) (size : Nat)
      (pass_by_ref is_param : Bool) :
      SymbolTable.Built st →
      SymbolTable.Built (add_variable st name type size pass_by_ref is_param).2
  | enter_proc_scope (st : SymbolTable) (name : String) :
      SymbolTable.Built st → SymbolTable.Built (enter_proc_scope st name).2
  | enter_func_scope (st : SymbolTable) (name : String) :
      SymbolTable.Built st → SymbolTable.Built (enter_func_scope st name).2
  | leave_scope (st : SymbolTable) :
      SymbolTable.Built st → SymbolTable.Built (leave_scope st)

/-! ## Programs and lines used in the statements on folding, registers, subprograms and calls -/

/-- A value of type `Integer` that carries the literal `i`. -/
def int_literal (i : Int) : VarValue :=
  { type := .Integer, literal := some (.int32 i) }

/-- The tokens of `x := 1 + 2 + 3 * 4`. -/
def literal_sum_product : List Token :=
  [.Word "x", .Special ":=", .Integer "1", .Special "+", .Integer "2", .Special "+",
   .Integer "3", .Special "*", .Integer "4"]

/-- The tokens of `x := 1+2`. -/
def literal_sum : List Token :=
  [.Word "x", .Special ":=", .Integer "1", .Special "+", .Integer "2"]

/-- The lines that the constructor and `end_program` put around the code of a program: the
listing of a program whose code is `body`. -/
def listing (body : List String) : List String :=
  ["char data_segment[65536] = \x7b0\x7d;", "int main() \x7b", "_asm \x7b", "PUSHAD",
   "LEA EBP, data_segment", "JMP kmain"] ++ body ++ ["POPAD", "\x7d", "return 0;", "\x7d"]

/-- The listing of a run, when it returns. -/
def listing_of (r : Except Err Parser) : Except Err (List String) :=
  r.map (fun p => p.asm_output)

/-- The tokens of `program P; var a, b, c, d: integer; begin a := a + (b + (c + d)) end.` -/
def four_variable_sum : List Token :=
  [.ReservedWord "program", .Word "P", .Special ";", .ReservedWord "var", .Word "a",
   .Special ",", .Word "b", .Special ",", .Word "c", .Special ",", .Word "d", .Special ":",
   .Word "integer", .Special ";", .ReservedWord "begin", .Word "a", .Special ":=", .Word "a",
   .Special "+", .Special "(", .Word "b", .Special "+", .Special "(", .Word "c", .Special "+",
   .Word "d", .Special ")", .Special ")", .ReservedWord "end", .Special "."]

/-- The tokens of `program P; <declaration> begin <body> end.` -/
def program_with (declaration body : List Token) : List Token :=
  [.ReservedWord "program", .Word "P", .Special ";"] ++ declaration ++
  [.ReservedWord "begin"] ++ body ++ [.ReservedWord "end", .Special "."]

/-- The tokens of `function f(): integer; begin end;` -/
def function_f : List Token :=
  [.ReservedWord "function", .Word "f", .Special "(", .Special ")", .Special ":",
   .Word "integer", .Special ";", .ReservedWord "begin", .ReservedWord "end", .Special ";"]

/-- The tokens of `function g(a: integer): integer; begin end;` -/
def function_g : List Token :=
  [.ReservedWord "function", .Word "g", .Special "(", .Word "a", .Special ":", .Word "integer",
   .Special ")", .Special ":", .Word "integer", .Special ";", .ReservedWord "begin",
   .ReservedWord "end", .Special ";"]

/-- The tokens of `procedure q(a: integer); var y: integer; begin end;` -/
def procedure_q : List Token :=
  [.ReservedWord "procedure", .Word "q", .Special "(", .Word "a", .Special ":", .Word "integer",
   .Special ")", .Special ";", .ReservedWord "var", .Word "y", .Special ":", .Word "integer",
   .Special ";", .ReservedWord "begin", .ReservedWord "end", .Special ";"]

/-- The tokens of `procedure r(var a: integer); begin a := a end;` -/
def procedure_r : List Token :=
  [.ReservedWord "procedure", .Word "r", .Special "(", .ReservedWord "var", .Word "a",
   .Special ":", .Word "integer", .Special ")", .Special ";", .ReservedWord "begin", .Word "a",
   .Special ":=", .Word "a", .ReservedWord "end", .Special ";"]

/-- The tokens of `procedure s(); begin <body> end;` -/
def procedure_s (body : List Token) : List Token :=
  [.ReservedWord "procedure", .Word "s", .Special "(", .Special ")", .Special ";",
   .ReservedWord "begin"] ++ body ++ [.ReservedWord "end", .Special ";"]

/-- The tokens of the call statement `name(<args>)`. -/
def call_tokens (name : String) (args : List Token) : List Token :=
  [.Word name, .Special "("] ++ args ++ [.Special ")"]

/-- The lines that load the variable `v` into register `r`, as `fact_r` writes them for a
variable of the current scope whose name is `scope_name`. -/
def load_lines (scope_name : String) (v : VarData) (r : String) : List String :=
  if !scope_name.isEmpty then
    if !v.is_param then ["MOV " ++ r ++ ", [EDI - " ++ toString v.offset ++ "]"]
    else if !v.pass_by_ref then ["MOV " ++ r ++ ", [EDI + " ++ toString v.offset ++ "]"]
    else ["MOV ESI, [EDI - " ++ toString v.offset ++ "]", "MOV " ++ r ++ ", [ESI]"]
  else ["MOV " ++ r ++ ", [EBP + " ++ toString v.offset ++ "]"]

/-- The entry of a by-reference parameter of type `integer` at offset 8. -/
def reference_parameter : VarData :=
  { type := .Integer, name := "", size := 4, offset := 8, pass_by_ref := true,
    is_param := true, next := none }

/-! ## The control-flow labels of a listing -/

/-- The six kinds of control-flow label. -/
inductive LabelKind where
  | If
  | Else
  | Endif
  | While
  | Inner
  | Endwhile
deriving DecidableEq, Repr

/-- Is the kind one of the three labels of an `if` statement? -/
def LabelKind.is_if : LabelKind → Bool
  | .If => true
  | .Else => true
  | .Endif => true
  | _ => false

/-- The label line of kind `k` with suffix `n`, as `handle_if`, `handle_while` and `statement`
write it. -/
def label : LabelKind → Nat → String
  | .If, n => "if" ++ toString n ++ ":"
  | .Else, n => "else" ++ toString n ++ ":"
  | .Endif, n => "endif" ++ toString n ++ ":"
  | .While, n => "while" ++ toString n ++ ":"
  | .Inner, n => "while" ++ toString n ++ "inner:"
  | .Endwhile, n => "endwhile" ++ toString n ++ ":"

/-- A line that is none of the control-flow labels. -/
def Plain (x : String) : Prop := ∀ k n, x ≠ label k n

/-- The number of tokens not yet consumed: the lookahead and the queue of the lexer. -/
def Parser.pending (p : Parser) : Nat :=
  p.lexer.tokens.length + (if p.token.isSome then 1 else 0)

/-- The tokens not yet consumed. -/
def Parser.toks (p : Parser) : List Token :=
  p.token.toList ++ p.lexer.tokens

/-- A run from `p` to `p'` that reads no `if` and no `while`: both label stacks and both
counters are as before, the lines added to the listing and to the staging stream are plain, and
tokens have only been consumed. -/
structure Quiet (p p' : Parser) : Prop where
  out : ∃ l, p'.asm_output = p.asm_output ++ l ∧ ∀ x ∈ l, Plain x
  stage : (∀ x ∈ p.stage, Plain x) → ∀ x ∈ p'.stage, Plain x
  cstack : p'.conditional_stack = p.conditional_stack
  lstack : p'.loop_stack = p.loop_stack
  ifc : p'.if_count = p.if_count
  whc : p'.while_count = p.while_count
  pend : p'.pending ≤ p.pending
  toks : ∀ t ∈ p'.toks, t ∈ p.toks

/-- The relation `Quiet p q` stated on the members of `q` that it constrains: the lookahead,
the two counters, the two label stacks, the token queue, the listing and the staging stream. -/
def QuietOn (p : Parser) (tok : Option Token) (ic wc : Nat) (cs ls : List Nat) (lx : Lexer)
    (out stg : List String) : Prop :=
  (∃ l, out = p.asm_output ++ l ∧ ∀ x ∈ l, Plain x) ∧
  ((∀ x ∈ p.stage, Plain x) → ∀ x ∈ stg, Plain x) ∧
  cs = p.conditional_stack ∧ ls = p.loop_stack ∧ ic = p.if_count ∧ wc = p.while_count ∧
  lx.tokens.length + (if tok.isSome then 1 else 0) ≤ p.pending ∧
  ∀ t ∈ tok.toList ++ lx.tokens, t ∈ p.toks

/-- Modelled from the spec: the state table of the lexer (`STATE_TBL` of `table.h`) is not
among the sources.  The spec says of the lexer "Identifiers are letters (no digits, per the
state table)": the text of a `Word` token contains no decimal digit. -/
def Token.lexed : Token → Bool
  | .Word s => s.data.all (fun c => !c.isDigit)
  | _ => true

/-- The number 1 when `lo ≤ n < hi`, and 0 otherwise. -/
def in_range (lo hi n : Nat) : Nat :=
  if lo ≤ n ∧ n < hi then 1 else 0

/-- The lines `l` carry the labels of the `if` statements numbered `i ≤ n < i'` only. -/
def IfLabels (i i' : Nat) (l : List String) : Prop :=
  ∀ k : LabelKind, k.is_if = true → ∀ n, l.count (label k n) = in_range i i' n

/-- The lines `l` are labelled as the code of statements that read the `if`s numbered
`i ≤ n < i'` and the `while`s numbered `w ≤ n < w'`: every label of such a statement occurs
exactly once and no other label occurs; for each such `if` the lines between `if<n>:` and
`else<n>:` and those between `else<n>:` and `endif<n>:` carry the labels of the `if`s numbered
`n < j < m` and `m ≤ j < m'`, the ones read inside its two branches. -/
structure Labelled (i i' w w' : Nat) (l : List String) : Prop where
  counts : ∀ k n, l.count (label k n) = if k.is_if then in_range i i' n else in_range w w' n
  nested : ∀ n, i ≤ n → n < i' → ∃ a b c d m m',
    l = a ++ label .If n :: b ++ label .Else n :: c ++ label .Endif n :: d ∧
    n < m ∧ m ≤ m' ∧ m' ≤ i' ∧ IfLabels (n + 1) m b ∧ IfLabels m m' c

/-- A run from `p` to `p'` that writes the lines `l` to the listing: both label stacks are as
before and tokens have only been consumed; when the counters cannot wrap around (fewer than
`2^64` tokens are pending) and no identifier contains a digit, the counters have not decreased
and `l` is labelled by the `if`s and `while`s read during the run. -/
structure Run (p p' : Parser) (l : List String) : Prop where
  out : p'.asm_output = p.asm_output ++ l
  cstack : p'.conditional_stack = p.conditional_stack
  lstack : p'.loop_stack = p.loop_stack
  budget : p'.if_count + p'.while_count + p'.pending ≤ p.if_count + p.while_count + p.pending
  toks : ∀ t ∈ p'.toks, t ∈ p.toks
  labels : p.if_count + p.while_count + p.pending < U64 → (∀ t ∈ p.toks, t.lexed = true) →
    p.if_count ≤ p'.if_count ∧ p.while_count ≤ p'.while_count ∧
    Labelled p.if_count p'.if_count p.while_count p'.while_count l

/-- A run from `p` to `p'`, whatever lines it writes. -/
def Runs (p p' : Parser) : Prop := ∃ l, Run p p' l

/-- The relation `Runs p q` stated on the members of `q` that it constrains. -/
def RunsOn (p : Parser) (tok : Option Token) (ic wc : Nat) (cs ls : List Nat) (lx : Lexer)
    (out : List String) : Prop :=
  ∀ gd bd idx vals st tmp gi ou fw lc oc stg,
    Runs p ⟨tok, gd, bd, idx, vals, st, tmp, gi, ou, fw, lc, ic, wc, oc, cs, ls, lx, out, stg⟩

/-- The conditional jump that `handle_if` and `handle_while` write for the comparison recorded
in `last_comparison`: `JL`, `JG` or `JE` to `target`, or nothing when no comparison has been
recorded. -/
def jump_lines (c : Char) (target : String) : List String :=
  if c == '<' then ["JL " ++ target]
  else if c == '>' then ["JG " ++ target]
  else if c == '=' then ["JE " ++ target]
  else []

/-- The pending label `or<k>:`, when one is owed. -/
def or_lines (p : Parser) : List String :=
  if p.or_used then ["or" ++ toString p.or_count ++ ":"] else []

/-- The run of `handle_if` with budget `f + 1` from `p` to `p'`, for the `if` numbered `n` on
top of the stack `n :: cs`: the lines of `then` are written (`pt`), the statement `S1` runs
from `pt` to `q1` writing `l1`, `JMP endif<n>` and `else<n>:` are written, `if_prime` runs to
`q2` writing `l2`, `JMP endif<n>` and `endif<n>:` are written and the stack is popped. -/
def IfRun (f : Nat) (p p' : Parser) (n : Nat) (cs : List Nat) (pt q1 q2 : Parser)
    (l1 l2 : List String) : Prop :=
  handle_if_then p = .ok pt ∧
  statement f pt = .ok q1 ∧ Run pt q1 l1 ∧
  if_prime f ((q1.emit false ("JMP endif" ++ toString n)).emit false
    ("else" ++ toString n ++ ":")) = .ok q2 ∧
  Run ((q1.emit false ("JMP endif" ++ toString n)).emit false ("else" ++ toString n ++ ":"))
    q2 l2 ∧
  p'.asm_output = q2.asm_output ++ ["JMP endif" ++ toString n, "endif" ++ toString n ++ ":"] ∧
  p'.conditional_stack = cs ∧ p'.loop_stack = q2.loop_stack ∧ p'.if_count = q2.if_count ∧
  p'.while_count = q2.while_count ∧ p'.token = q2.token ∧ p'.lexer = q2.lexer

/-- The run of `handle_while` with budget `f + 1` from `p` to `p'`, for the `while` numbered
`n` on top of the stack `n :: ls`: the lines of `do` are written (`pt`), the statement `S` runs
from `pt` to `q1` writing `l1`, `JMP while<n>` and `endwhile<n>:` are written and the stack is
popped. -/
def WhileRun (f : Nat) (p p' : Parser) (n : Nat) (ls : List Nat) (pt q1 : Parser)
    (l1 : List String) : Prop :=
  handle_while_do p = .ok pt ∧
  statement f pt = .ok q1 ∧ Run pt q1 l1 ∧
  p'.asm_output = q1.asm_output ++ ["JMP while" ++ toString n, "endwhile" ++ toString n ++ ":"] ∧
  p'.conditional_stack = q1.conditional_stack ∧ p'.loop_stack = ls ∧
  p'.if_count = q1.if_count ∧ p'.while_count = q1.while_count ∧ p'.token = q1.token ∧
  p'.lexer = q1.lexer

/-- The state in which `statement` starts the test of an `if`: the keyword is consumed, the
value of `if_count` is pushed on `conditional_stack` and `if_count` is incremented. -/
def Parser.enter_if (p : Parser) : Parser :=
  let p := p.advance
  let p := { p with conditional_stack := p.if_count :: p.conditional_stack }
  { p with if_count := (p.if_count + 1) % U64 }

/-- The state in which `statement` starts the test of a `while`: the keyword is consumed, the
value of `while_count` is pushed on `loop_stack`, `while_count` is incremented, the label
`while<n>:` is written and `for_while` is set. -/
def Parser.enter_while (p : Parser) : Parser :=
  let n := p.while_count
  let p := p.advance
  let p := { p with loop_stack := n :: p.loop_stack }
  let p := { p with while_count := (n + 1) % U64 }
  let p := p.emit false ("while" ++ toString n ++ ":")
  { p with for_while := true }

/-- The tokens of `if x < 0 then x := 0 else x := 1`. -/
def if_example : List Token :=
  [.ReservedWord "if", .Word "x", .Special "<", .Integer "0", .ReservedWord "then", .Word "x",
   .Special ":=", .Integer "0", .ReservedWord "else", .Word "x", .Special ":=", .Integer "1"]

/-- The tokens of `while x > 0 do x := x - 1`. -/
def while_example : List Token :=
  [.ReservedWord "while", .Word "x", .Special ">", .Integer "0", .ReservedWord "do", .Word "x",
   .Special ":=", .Word "x", .Special "-", .Integer "1"]

/-- The state of the parser at the first token of the body of
`program P; var x: integer; begin <body> end.`: the global scope declares `x`, the lookahead
is the first token of `body` and the queue holds the rest up to the final full stop. -/
def body_state (body : List Token) : Parser :=
  { Parser.init (Lexer.of_tokens (body.tail ++ [.ReservedWord "end", .Special "."])) with
    token := body.head?
    symtab := (add_variable SymbolTable.new "x" .Integer 4 false false).2
    asm_output := (Parser.init (Lexer.of_tokens [])).asm_output ++ ["kmain:"] }

/-- The tokens of `if x < 0 then begin if x > 1 then x := 1 end else x := 2`. -/
def nested_if_example : List Token :=
  [.ReservedWord "if", .Word "x", .Special "<", .Integer "0", .ReservedWord "then",
   .ReservedWord "begin", .ReservedWord "if", .Word "x", .Special ">", .Integer "1",
   .ReservedWord "then", .Word "x", .Special ":=", .Integer "1", .ReservedWord "end",
   .ReservedWord "else", .Word "x", .Special ":=", .Integer "2"]

/-! ## The position of the parser in the token queue -/

/-- The number of tokens that the parser has taken from the queue: the total that
`Lexer::number_of_tokens` reports minus the remaining ones. -/
def Parser.taken (p : Parser) : Nat :=
  p.lexer.number_of_tokens.1 - p.lexer.number_of_tokens.2

/-- The test of `main` that decides between the reports "Good code" (`true`) and "Bad code":
`p.get_index() != total || p.get_grouping_depth() > 0 || p.get_block_depth() > 0` selects
"Bad code". -/
def main_good_code (p : Parser) : Bool :=
  !(p.index != p.lexer.number_of_tokens.1 || decide (p.grouping_depth > 0) ||
    decide (p.block_depth > 0))

/-- The members `index` (modulo `2 ^ 64`), `token` and `lexer` after `k` more executions of
the pair `index++; token = lexer->get_token();`. -/
def Stepped (k : Nat) (idx : Nat) (tok : Option Token) (lx : Lexer)
    (idx' : Nat) (tok' : Option Token) (lx' : Lexer) : Prop :=
  idx' % U64 = (idx + k) % U64 ∧ lx'.tokens = lx.tokens.drop k ∧
    tok' = (if k = 0 then tok else lx.tokens[k - 1]?) ∧ lx'.token_count = lx.token_count

/-- A run from `p` to `p'` that has counted every token it took and has closed every group and
every block it opened. -/
structure Consumes (p p' : Parser) : Prop where
  steps : ∃ k, Stepped k p.index p.token p.lexer p'.index p'.token p'.lexer
  grouping : p.grouping_depth < 65536 → p'.grouping_depth = p.grouping_depth
  block : p.block_depth < 65536 → p'.block_depth = p.block_depth

/-- The statement `Consumes p p'` on the members of `p'` that it constrains. -/
def ConsumesOn (p : Parser) (tok : Option Token) (gd bd idx : Nat) (lx : Lexer) : Prop :=
  (∃ k, Stepped k p.index p.token p.lexer idx tok lx) ∧
    (p.grouping_depth < 65536 → gd = p.grouping_depth) ∧
    (p.block_depth < 65536 → bd = p.block_depth)

/-! ## Sequences of symbol-table operations -/

/-- One call of a member function of `class SymbolTable`. -/
inductive SymOp where
  | add_variable (name : String) (type : VarType) (size : Nat) (pass_by_ref is_param : Bool)
  | enter_proc_scope (name : String)
  | enter_func_scope (name : String)
  | leave_scope
  | find (name : String) (type : FindType)
  | get_var_info (name : String)
  | get_proc_info (name : String)
  | get_func_info (name : String)
deriving DecidableEq, Repr

/-- The state after one call; the lookups are `const` member functions and leave the state as
it is. -/
def SymOp.apply (st : SymbolTable) : SymOp → SymbolTable
  | .add_variable name type size pass_by_ref is_param =>
    (PascalCompiler.add_variable st name type size pass_by_ref is_param).2
  | .enter_proc_scope name => (PascalCompiler.enter_proc_scope st name).2
  | .enter_func_scope name => (PascalCompiler.enter_func_scope st name).2
  | .leave_scope => PascalCompiler.leave_scope st
  | .find _ _ => st
  | .get_var_info _ => st
  | .get_proc_info _ => st
  | .get_func_info _ => st

/-- The state after a sequence of calls, in order. -/
def SymbolTable.run (st : SymbolTable) (ops : List SymOp) : SymbolTable :=
  ops.foldl SymOp.apply st

/-- The entry stored under `name` in the table of the scope that the pointer `i` addresses, if
any. -/
def SymbolTable.entry_at (st : SymbolTable) (i : Nat) (name : String) : Option Entry :=
  (st.scopes[i]?).bind (fun sc => sc.table.lookup name)

/-- The state in which a procedure `p` with the local variable `x` has been declared and left,
and the variable `x` has been declared at global level. -/
def declared_state : SymbolTable :=
  SymbolTable.new.run [.enter_proc_scope "p", .add_variable "x" .Real 4 false false,
    .leave_scope, .add_variable "x" .Integer 4 false false]

/-! ## Programs and states used in the statements on calls, arrays and factors -/

/-- The tokens of `procedure t(a, b: integer); begin end;` -/
def procedure_t : List Token :=
  [.ReservedWord "procedure", .Word "t", .Special "(", .Word "a", .Special ",", .Word "b",
   .Special ":", .Word "integer", .Special ")", .Special ";", .ReservedWord "begin",
   .ReservedWord "end", .Special ";"]

/-- The tokens of `procedure Q(var a: integer); begin a := 0 end;` -/
def procedure_Q : List Token :=
  [.ReservedWord "procedure", .Word "Q", .Special "(", .ReservedWord "var", .Word "a",
   .Special ":", .Word "integer", .Special ")", .Special ";", .ReservedWord "begin", .Word "a",
   .Special ":=", .Integer "0", .ReservedWord "end", .Special ";"]

/-- The tokens of `function h(var a: integer): integer; begin end;` -/
def function_h : List Token :=
  [.ReservedWord "function", .Word "h", .Special "(", .ReservedWord "var", .Word "a",
   .Special ":", .Word "integer", .Special ")", .Special ":", .Word "integer", .Special ";",
   .ReservedWord "begin", .ReservedWord "end", .Special ";"]

/-- The tokens of `procedure n(a: integer); procedure r(); begin end; begin end;`, a procedure
that declares a procedure of its own. -/
def procedure_n : List Token :=
  [.ReservedWord "procedure", .Word "n", .Special "(", .Word "a", .Special ":", .Word "integer",
   .Special ")", .Special ";"] ++ procedure_s [] ++
  [.ReservedWord "begin", .ReservedWord "end", .Special ";"]

/-- The symbol table after the declaration `function g(a: integer): integer; begin end;` at
global level: the scope of `g` (pointer 1) holds the parameter `a` and the return slot `g`. -/
def function_g_declared : SymbolTable :=
  SymbolTable.new.run [.enter_func_scope "g", .add_variable "a" .Integer 4 false true,
    .add_variable "g" .Integer 4 false false, .leave_scope]

/-- The symbol table after the declaration `procedure t(a, b: integer); begin end;` at global
level: the scope of `t` (pointer 1) holds the parameters `a` and `b`. -/
def procedure_t_declared : SymbolTable :=
  SymbolTable.new.run [.enter_proc_scope "t", .add_variable "a" .Integer 4 false true,
    .add_variable "b" .Integer 4 false true, .leave_scope]

/-- The state of the parser at the first token of the argument list `args` of a call at global
level, on the symbol table `st`; the listing is empty and no register is in use. -/
def argument_state (st : SymbolTable) (args : List Token) : Parser :=
  { Parser.init (Lexer.of_tokens args.tail) with
    token := args.head?
    symtab := st
    asm_output := [] }

/-- The lines, the next free register and the lookahead of a run, when it returns. -/
def lines_of (r : Except Err Parser) : Except Err (List String × Nat × Option Token) :=
  r.map (fun p => (p.asm_output, p.gpr_index, p.token))

/-- The tokens of `program P; begin end.` -/
def empty_program : List Token :=
  [.ReservedWord "program", .Word "P", .Special ";", .ReservedWord "begin", .ReservedWord "end",
   .Special "."]

/-- The tokens of `var a: array [1 <dots> 5] <sep> integer;`, where `dots` stands for the
tokens of `..` and `sep` for the token of `of`. -/
def array_declaration (dots : List Token) (sep : Token) : List Token :=
  [.ReservedWord "var", .Word "a", .Special ":", .ReservedWord "array", .Special "[",
   .Integer "1"] ++ dots ++ [.Integer "5", .Special "]", sep, .Word "integer", .Special ";"]

/-- The type that the function branch of `Parser::pfv` gives the return slot when the
lookahead after `datatype()` is the word `dtype` (the chain `dtype == "integer"`, ... of the
source); nothing for any other word. -/
def return_type (dtype : String) : Option VarType :=
  if dtype == "integer" then some .Integer
  else if dtype == "boolean" then some .Boolean
  else if dtype == "char" then some .Character
  else if dtype == "real" then some .Real
  else none

/-- The state of the parser at the first token of the declaration `decl` of the global block:
the lookahead is the first token of `decl` and the queue holds the rest, followed by
`begin end .` -/
def declaration_state (decl : List Token) : Parser :=
  { Parser.init (Lexer.of_tokens
      (decl.tail ++ [.ReservedWord "begin", .ReservedWord "end", .Special "."])) with
    token := decl.head? }

/-- A run from `p` to `p'` that has not moved the scope cursor and has allocated no scope. -/
def SameScope (p p' : Parser) : Prop :=
  p'.symtab.cur_scope = p.symtab.cur_scope ∧ p'.symtab.scopes.length = p.symtab.scopes.length

/-- The statement `SameScope p p'` on the symbol table of `p'`. -/
def SameScopeOn (p : Parser) (st : SymbolTable) : Prop :=
  st.cur_scope = p.symtab.cur_scope ∧ st.scopes.length = p.symtab.scopes.length

/-! ## The layout of the frame offsets of a scope -/

/-- The variable entries of a table that are parameters (`want = true`) or are not
(`want = false`), in the order in which they were inserted. -/
def var_entries (want : Bool) (t : Table) : List VarData :=
  t.filterMap (fun (ne : String × Entry) =>
    match ne.2 with
    | .var v => if v.is_param == want then some v else none
    | _ => none)

/-- The offsets `base`, `base + s1`, `base + s1 + s2`, ... (modulo `2 ^ 64`) of consecutive
slots of the sizes `s1`, `s2`, ... -/
def frame_offsets (base : Nat) : List Nat → List Nat
  | [] => []
  | s :: rest => base % U64 :: frame_offsets (base + s) rest

/-- The layout that `add_variable` maintains in a scope: the parameters have the offsets
`frame_offsets 8` of their sizes, the locals the offsets `frame_offsets 0` of theirs, and the two
counters hold the totals. -/
def Scope.laid_out (sc : Scope) : Prop :=
  (var_entries true sc.table).map (fun v => v.offset) = frame_offsets 8 (var_sizes true sc.table) ∧
  (var_entries false sc.table).map (fun v => v.offset) =
    frame_offsets 0 (var_sizes false sc.table) ∧
  sc.param_offset = (var_sizes true sc.table).sum % U64 ∧
  sc.var_offset = (var_sizes false sc.table).sum % U64

/-- The calls that declare `procedure p(a: integer); var x, y, z: integer;` at global level. -/
def one_parameter_three_locals : List SymOp :=
  [.enter_proc_scope "p", .add_variable "a" .Integer 4 false true,
   .add_variable "x" .Integer 4 false false, .add_variable "y" .Integer 4 false false,
   .add_variable "z" .Integer 4 false false]

/-- The scope of the procedure `p` after the calls `one_parameter_three_locals`. -/
def scope_of_p : Scope :=
  (SymbolTable.new.run one_parameter_three_locals).scopes.getD 1 Scope.fresh

/-! ## lexer.h and lexer.cpp: the scanner -/

/-- The type `enum class DfaState`. -/
inductive DfaState where
  | Whitespace
  | Letter
  | Integer
  | RealInit
  | RealRational
  | RealExp
  | RealExpOp
  | RealFirstExpDigit
  | RealSecondExpDigit
  | RealThirdExpDigit
  | Special
  | Dot
  | Colon
  | Accept
  | Error
deriving DecidableEq, Repr

/-- The number `unsigned(state)`: the position of the state in the enumeration. -/
def DfaState.code : DfaState → Nat
  | .Whitespace => 0
  | .Letter => 1
  | .Integer => 2
  | .RealInit => 3
  | .RealRational => 4
  | .RealExp => 5
  | .RealExpOp => 6
  | .RealFirstExpDigit => 7
  | .RealSecondExpDigit => 8
  | .RealThirdExpDigit => 9
  | .Special => 10
  | .Dot => 11
  | .Colon => 12
  | .Accept => 13
  | .Error => 14

/-- The member `WHITESPACE` of `class Lexer`: space, line feed, carriage return, tab, form feed
and vertical tab. -/
def Lexer.WHITESPACE : List Char := " \n\r\t\x0c\x0b".toList

/-- The method `Lexer::ltrim`: the text from its first character that is not in `WHITESPACE`. -/
def Lexer.ltrim (s : String) : String :=
  String.mk (s.toList.dropWhile (fun c => Lexer.WHITESPACE.contains c))

/-- The method `Lexer::rtrim`: the text up to its last character that is not in `WHITESPACE`. -/
def Lexer.rtrim (s : String) : String :=
  String.mk (s.toList.reverse.dropWhile (fun c => Lexer.WHITESPACE.contains c)).reverse

/-- The method `Lexer::trim`. -/
def Lexer.trim (s : String) : String := Lexer.rtrim (Lexer.ltrim s)

/-- The `switch (state)` of the accept branch of `Lexer::Lexer`: the token made from the
accumulated text `str` in the state `state`, or the error of the `default` label.  The table
`STATE_TBL` and the list `RESERVED_WORDS` are the constants of `table.h`; `c` is the byte that
was read last. -/
def Lexer.make_token (STATE_TBL : Nat → DfaState → DfaState) (RESERVED_WORDS : List String)
    (c : Nat) (state : DfaState) (str : String) : Except Err Token :=
  match state with
  | .Letter =>
    if RESERVED_WORDS.contains (Lexer.trim str) then pure (.ReservedWord (Lexer.trim str))
    else pure (.Word (Lexer.trim str))
  | .Integer => pure (.Integer (Lexer.trim str))
  | .RealRational => pure (.Real (Lexer.trim str))
  | .RealThirdExpDigit => pure (.Real (Lexer.trim str))
  | .Special => pure (.Special (Lexer.trim str))
  | .Dot => pure (.Special (Lexer.trim str))
  | .Colon => pure (.Special (Lexer.trim str))
  | _ =>
    throw (.runtime_error
      ("Lexer entered unknown state " ++ toString (STATE_TBL c state).code ++ " from state " ++
        toString state.code ++ "\n" ++ "Character code found: " ++ toString c))

/-- The loop `while (true)` of the constructor `Lexer::Lexer` on the bytes `input` of the file.
`pos` is the read position of the stream, `prev_state`, `state` and `str` are the locals of the
constructor and the last argument is the queue built so far.  A read at the end of the input
leaves `c = 0`; `in.seekg(pos)` puts the byte back, so the accept branch continues at the same
position.  The first argument bounds the number of iterations: a table that accepts a byte in
the state `Whitespace` makes the loop run for ever. -/
def Lexer.scan (STATE_TBL : Nat → DfaState → DfaState) (RESERVED_WORDS : List String)
    (input : List Nat) :
    Nat → Nat → DfaState → DfaState → String → Lexer → Except Err Lexer
  | 0, _, _, _, _, _ => .error .out_of_fuel
  | fuel + 1, pos, prev_state, state, str, lx =>
    let c := (input[pos]?).getD 0
    if STATE_TBL c state == .Accept || c == 0 then do
      let lx ←
        if !(Lexer.trim str).isEmpty then do
          let token ← Lexer.make_token STATE_TBL RESERVED_WORDS c state str
          pure (lx.push_token token)
        else
          pure lx
      if c == 0 then
        pure lx
      else
        Lexer.scan STATE_TBL RESERVED_WORDS input fuel pos .Whitespace .Whitespace "" lx
    else if STATE_TBL c state == .Error then
      throw (.runtime_error
        ("Invalid token at position " ++ toString (pos + 1) ++ ": was parsing char " ++
          toString c ++ " in state " ++ toString state.code ++ "; got " ++ str ++
          "\nTransitional state: " ++ toString c ++ ", transitions to state " ++
          toString (STATE_TBL c state).code ++ " from state " ++ toString prev_state.code ++
          " and " ++ toString state.code))
    else
      Lexer.scan STATE_TBL RESERVED_WORDS input fuel (pos + 1) state (STATE_TBL c state)
        (str.push (Char.ofNat c)) lx

/-- The constructor `Lexer::Lexer` on the bytes of the file. -/
def Lexer.new (STATE_TBL : Nat → DfaState → DfaState) (RESERVED_WORDS : List String)
    (fuel : Nat) (input : List Nat) : Except Err Lexer :=
  Lexer.scan STATE_TBL RESERVED_WORDS input fuel 0 .Whitespace .Whitespace ""
    { tokens := [], token_count := 0 }

/-- The rest of the run of the constructor after the accept branch has pushed `token`: the
loop ends at the end of the input, and otherwise goes on at the same byte with an empty
accumulator in the state `Whitespace`. -/
def Lexer.after_accept (STATE_TBL : Nat → DfaState → DfaState) (RESERVED_WORDS : List String)
    (input : List Nat) (fuel pos : Nat) (lx : Lexer) (token : Token) : Except Err Lexer :=
  if (input[pos]?).getD 0 = 0 then .ok (lx.push_token token)
  else
    Lexer.scan STATE_TBL RESERVED_WORDS input fuel pos .Whitespace .Whitespace ""
      (lx.push_token token)

/-- Modelled from the spec: the reserved words of the language, the content of the constant
`RESERVED_WORDS` of `table.h`. -/
def RESERVED_WORDS : List String :=
  ["program", "begin", "end", "if", "then", "else", "while", "do", "var", "procedure",
   "function", "array", "of", "and", "or"]

/-- A transition table for texts of small letters, blanks and semicolons: a letter starts or
extends a word, a semicolon is a token of its own, a blank is skipped between tokens, and every
token is accepted at the first byte that does not extend it; any other byte is an error. -/
def letters_table (c : Nat) (state : DfaState) : DfaState :=
  if c = 32 then
    (if state = .Whitespace then .Whitespace else .Accept)
  else if 97 ≤ c ∧ c ≤ 122 then
    (if state = .Whitespace ∨ state = .Letter then .Letter else .Accept)
  else if c = 59 then
    (if state = .Whitespace then .Special else .Accept)
  else if state = .Whitespace then .Error
  else .Accept

/-- The bytes of a text. -/
def bytes_of (s : String) : List Nat := s.toList.map Char.toNat

/-- The results of `k` consecutive calls of `Lexer::get_token`, in order, and the lexer after
them. -/
def Lexer.get_tokens : Nat → Lexer → List (Option Token) × Lexer
  | 0, lx => ([], lx)
  | k + 1, lx =>
    let r := lx.get_token
    let rest := Lexer.get_tokens k r.2
    (r.1 :: rest.1, rest.2)

/-! ## Programs used in the statements on staging, registers, negation and conjunction -/

/-- The tokens of `var x, y: real; procedure q(a: real); begin end;` -/
def real_declarations : List Token :=
  [.ReservedWord "var", .Word "x", .Special ",", .Word "y", .Special ":", .Word "real",
   .Special ";", .ReservedWord "procedure", .Word "q", .Special "(", .Word "a", .Special ":",
   .Word "real", .Special ")", .Special ";", .ReservedWord "begin", .ReservedWord "end",
   .Special ";"]

/-- The tokens of `x - y`. -/
def difference : List Token :=
  [.Word "x", .Special "-", .Word "y"]

/-- The lines of the procedure `q` of `real_declarations`. -/
def q_lines : List String :=
  ["q:", "PUSH EDI", "MOV EDI, ESP", "PUSHAD", "POPAD", "POP EDI", "RET 4"]

/-- A value of type `Real` that carries no literal. -/
def real_value : VarValue :=
  { type := .Real, literal := none }

/-- The tokens of `x := 1+2; x := 1+2; ...` with `n + 1` assignments. -/
def literal_sums : Nat → List Token
  | 0 => literal_sum
  | n + 1 => literal_sum ++ [.Special ";"] ++ literal_sums n

/-- The tokens of `var x, y, z: integer; b: boolean;` -/
def integer_declarations : List Token :=
  [.ReservedWord "var", .Word "x", .Special ",", .Word "y", .Special ",", .Word "z",
   .Special ":", .Word "integer", .Special ";", .Word "b", .Special ":", .Word "boolean",
   .Special ";"]

/-- The tokens of `x := -y`. -/
def negated_variable : List Token :=
  [.Word "x", .Special ":=", .Special "-", .Word "y"]

/-- The tokens of `b := x < y`. -/
def comparison_assignment : List Token :=
  [.Word "b", .Special ":=", .Word "x", .Special "<", .Word "y"]

/-- The tokens of `x := y + -z`. -/
def sum_with_negation : List Token :=
  [.Word "x", .Special ":=", .Word "y", .Special "+", .Special "-", .Word "z"]

/-- The tokens of `b := (1 + 2 < 4) and (1 < 2)`. -/
def conjunction_assignment : List Token :=
  [.Word "b", .Special ":=", .Special "(", .Integer "1", .Special "+", .Integer "2",
   .Special "<", .Integer "4", .Special ")", .ReservedWord "and", .Special "(", .Integer "1",
   .Special "<", .Integer "2", .Special ")"]

/-- The tokens of `if (x < 1) and (x > 0) then x := 0`. -/
def conjunction_test : List Token :=
  [.ReservedWord "if", .Special "(", .Word "x", .Special "<", .Integer "1", .Special ")",
   .ReservedWord "and", .Special "(", .Word "x", .Special ">", .Integer "0", .Special ")",
   .ReservedWord "then", .Word "x", .Special ":=", .Integer "0"]

/-- The tokens of `x := 1 / 0`. -/
def quotient_by_zero : List Token :=
  [.Word "x", .Special ":=", .Integer "1", .Special "/", .Integer "0"]

/-- The listing, the staging stream, the value stack and the next free register of a run, when
it returns. -/
def outcome (r : Except Err Parser) :
    Except Err (List String × List String × List VarValue × Nat) :=
  r.map (fun p => (p.asm_output, p.stage, p.values, p.gpr_index))

/-- The lines that the constructor of the parser writes before `program()` runs. -/
def prologue : List String := (Parser.init (Lexer.of_tokens [])).asm_output

/-- A run from `p` to `p'` that has kept every entry of every scope where it was. -/
def Keeps (p p' : Parser) : Prop :=
  ∀ i name e, p.symtab.entry_at i name = some e → p'.symtab.entry_at i name = some e

/-- The statement `Keeps p p'` on the symbol table of `p'`. -/
def KeepsOn (p : Parser) (st : SymbolTable) : Prop :=
  ∀ i name e, p.symtab.entry_at i name = some e → st.entry_at i name = some e

/-! ## The function branch of `pfv` -/

/-- The state in which the function branch of `Parser::pfv` reads the parameter list: the
keyword `function` is consumed, `enter_func_scope` has made the scope of the function current
and the name is consumed. -/
def Parser.enter_function (p : Parser) (func_name : String) : Parser :=
  { p.advance with symtab := (enter_func_scope p.advance.symtab func_name).2 }.advance

/-- The run of the function branch of `pfv` with budget `f + 1` from `p`, whose lookahead is
the keyword `function`, to `p'`, cut at the states between its calls: the name `func_name`
follows the keyword and `enter_func_scope` succeeds; `(` is expected, `param` runs to `qp`; `)`
and `:` are expected, `datatype` runs to `q0`; the return slot is declared (`q`); `;` is
expected, `block` runs to `qb`; `;` is expected, the scope is left and `pfv` runs on the rest
to `p'`. -/
def FunctionRun (f : Nat) (p p' : Parser) (func_name : String) (qp q0 q qb : Parser) : Prop :=
  p.advance.token = some (.Word func_name) ∧
  (enter_func_scope p.advance.symtab func_name).1 = true ∧
  (p.enter_function func_name).expect_special "("
    "Bad code: missing required parameter list for procedure" =
    .ok (p.enter_function func_name) ∧
  param f (p.enter_function func_name).advance = .ok qp ∧
  qp.expect_special ")" "Bad code: parameter list must be terminated with ')'" = .ok qp ∧
  qp.advance.expect_special ":" "Bad code: missing datatype specification indicator ':'" =
    .ok qp.advance ∧
  datatype f qp.advance.advance = .ok q0 ∧
  declare_return_slot func_name q0 = .ok q ∧
  q.expect_special ";" "Bad code: function declaration must be terminated with ';'" = .ok q ∧
  block f q.advance = .ok qb ∧
  qb.expect_special ";" "Bad code: function definition must be terminated with ';'" = .ok qb ∧
  pfv f { qb with symtab := leave_scope qb.symtab }.advance = .ok p'

/-- The symbol table inside the declaration `function g(a: integer): integer;` before the
return slot is declared: the scope of `g` (pointer 1) is current and holds the parameter `a`. -/
def function_g_entered : SymbolTable :=
  SymbolTable.new.run [.enter_func_scope "g", .add_variable "a" .Integer 4 false true]

/-! # Theorems -/

/-! ## Lemmas on scope tables -/

theorem Table.lookup_assign_self (t : Table) (name : String) (e : Entry) :
    (t.assign name e).lookup name = some e := by
  induction t with
  | nil => simp [Table.assign, List.lookup]
  | cons kv rest ih =>
    obtain ⟨k, v⟩ := kv
    by_cases h : name = k
    · subst h; simp [Table.assign, List.lookup]
    · have hb : (name == k) = false := by simpa using h
      simp [Table.assign, List.lookup, hb, ih]

theorem Table.lookup_assign_ne (t : Table) (name k : String) (e : Entry) (h : k ≠ name) :
    (t.assign name e).lookup k = t.lookup k := by
  induction t with
  | nil =>
    have hb : (k == name) = false := by simpa using h
    simp [Table.assign, List.lookup, hb]
  | cons kv rest ih =>
    obtain ⟨k2, v⟩ := kv
    by_cases h2 : name = k2
    · subst h2
      have hb : (k == name) = false := by simpa using h
      simp [Table.assign, List.lookup, hb]
    · have hb : (name == k2) = false := by simpa using h2
      simp only [Table.assign, hb, List.lookup]
      cases hk : (k == k2) <;> simp [ih]

theorem Table.assign_of_not_contains (t : Table) (name : String) (e : Entry)
    (h : t.contains name = false) : t.assign name e = t ++ [(name, e)] := by
  induction t with
  | nil => rfl
  | cons kv rest ih =>
    obtain ⟨k, v⟩ := kv
    unfold Table.contains at h ih
    cases hb : (name == k)
    · simp only [List.lookup, hb] at h
      simp [Table.assign, hb, ih h]
    · simp [List.lookup, hb] at h

/-! ## Lemmas on the cursor -/

theorem SymbolTable.cur_setCur (st : SymbolTable) (sc : Scope)
    (h : st.cur_scope < st.scopes.length) : (st.setCur sc).cur = sc := by
  simp [SymbolTable.cur, SymbolTable.setCur, List.getD_eq_getElem?_getD, List.getElem?_set, h]

theorem SymbolTable.cur_eq_of_getElem? (st : SymbolTable) (sc : Scope)
    (h : st.scopes[st.cur_scope]? = some sc) : st.cur = sc := by
  simp [SymbolTable.cur, List.getD_eq_getElem?_getD, h]

theorem SymbolTable.getElem?_cur (st : SymbolTable) (h : st.cur_scope < st.scopes.length) :
    st.scopes[st.cur_scope]? = some st.cur := by
  simp [SymbolTable.cur, List.getD_eq_getElem?_getD, List.getElem?_eq_getElem h]

/-! ## C1: `find` -/

theorem find_loop_eq_first_binding (scopes : List Scope) (name : String) (type : FindType)
    (o : Option Nat) (chain : List Scope) (h : IsChain scopes o chain) :
    ∀ fuel, chain.length ≤ fuel → find_loop fuel scopes o name type = first_binding chain name type := by
  induction h with
  | null =>
    intro fuel _
    cases fuel <;> simp [find_loop, first_binding]
  | step i sc rest hget _ ih =>
    intro fuel hlen
    cases fuel with
    | zero => simp at hlen
    | succ f =>
      have hlen2 : rest.length ≤ f := by simpa using hlen
      simp only [find_loop, hget]
      cases hl : sc.table.lookup name with
      | none =>
        simp only [first_binding, List.find?_cons, Table.contains, hl, Option.isSome_none]
        exact ih f hlen2
      | some e =>
        simp [first_binding, List.find?_cons, Table.contains, hl, Option.filter]

theorem IsChain.length_le (scopes : List Scope)
    (hwf : ∀ i, i < scopes.length → parent_below i (scopes.getD i Scope.fresh) = true)
    (o : Option Nat) (chain : List Scope) (h : IsChain scopes o chain) :
    ∀ i, o = some i → chain.length ≤ i + 1 := by
  induction h with
  | null => intro i hi; cases hi
  | step j sc rest hget hrest ih =>
    intro i hi
    cases hi
    have hj : j < scopes.length := by
      by_contra hn
      have : scopes[j]? = none := List.getElem?_eq_none (by omega)
      rw [this] at hget; cases hget
    have hpb := hwf j hj
    have hsc : scopes.getD j Scope.fresh = sc := by
      simp [List.getD_eq_getElem?_getD, hget]
    rw [hsc] at hpb
    cases hp : sc.previous with
    | none =>
      rw [hp] at hrest
      cases hrest
      simp
    | some p =>
      have hlt : p < j := by simpa [parent_below, hp] using hpb
      have := ih p hp
      simp only [List.length_cons]
      omega

theorem IsChain.exists_of_parents_below (scopes : List Scope)
    (hwf : ∀ i, i < scopes.length → parent_below i (scopes.getD i Scope.fresh) = true) :
    ∀ i, i < scopes.length → ∃ chain, IsChain scopes (some i) chain := by
  intro i
  induction i using Nat.strong_induction_on with
  | _ i ih =>
    intro hi
    have hget : scopes[i]? = some scopes[i] := List.getElem?_eq_getElem hi
    have hpb := hwf i hi
    have hsc : scopes.getD i Scope.fresh = scopes[i] := by
      simp [List.getD_eq_getElem?_getD, hget]
    rw [hsc] at hpb
    cases hp : (scopes[i]).previous with
    | none =>
      exact ⟨[scopes[i]], IsChain.step i _ [] hget (by rw [hp]; exact IsChain.null)⟩
    | some p =>
      have hlt : p < i := by simpa [parent_below, hp] using hpb
      obtain ⟨rest, hrest⟩ := ih p hlt (by omega)
      exact ⟨scopes[i] :: rest, IsChain.step i _ rest hget (by rw [hp]; exact hrest)⟩

/-- C1. On every well-formed symbol table the parent chain of the current scope exists, and
`find(name, kind)` is the lookup of the specification along it: the first scope of the chain
(innermost first) whose table contains `name` decides the answer, which is that scope's entry
when the entry has the requested kind and nothing otherwise (whatever enclosing scopes hold);
when no scope of the chain contains `name` the answer is nothing. -/
theorem find_first_binding (st : SymbolTable) (h : st.WF) (name : String) (type : FindType) :
    (∃ chain, IsChain st.scopes (some st.cur_scope) chain) ∧
    (∀ chain, IsChain st.scopes (some st.cur_scope) chain →
      find st name type = first_binding chain name type) := by
  refine ⟨IsChain.exists_of_parents_below st.scopes h.2 st.cur_scope h.1, ?_⟩
  intro chain hc
  have hlen := IsChain.length_le st.scopes h.2 _ chain hc st.cur_scope rfl
  exact find_loop_eq_first_binding st.scopes name type _ chain hc _ (by have := h.1; omega)

theorem find_first_binding_witness :
    shadowing_state.WF ∧
    find shadowing_state "x" .Variable = none ∧
    ((∃ chain, IsChain shadowing_state.scopes (some shadowing_state.cur_scope) chain) ∧
    (∀ chain, IsChain shadowing_state.scopes (some shadowing_state.cur_scope) chain →
      find shadowing_state "x" .Variable = first_binding chain "x" .Variable)) :=
  ⟨by decide, by decide, find_first_binding shadowing_state (by decide) "x" .Variable⟩

/-! ## C2, C3: `add_variable` -/

/-- The flag returned by `add_variable`. -/
theorem add_variable_fst (st : SymbolTable) (name : String) (type : VarType) (size : Nat)
    (pass_by_ref is_param : Bool) :
    (add_variable st name type size pass_by_ref is_param).1 = !st.cur.table.contains name := by
  cases hc : st.cur.table.contains name <;> cases is_param <;> simp [add_variable, hc]

/-- C2. The call `add_variable(name, ...)` returns false exactly when the table of the current
scope already contains `name` (whatever kind of entry it holds there); the flag depends on the
current scope only, so enclosing scopes play no part; and when the flag is false the whole
symbol table is returned unchanged. -/
theorem add_variable_false_iff (st : SymbolTable) (name : String) (type : VarType) (size : Nat)
    (pass_by_ref is_param : Bool) :
    ((add_variable st name type size pass_by_ref is_param).1 = false ↔
      st.cur.table.contains name = true) ∧
    (st.cur.table.contains name = true ↔
      ∃ e, st.cur.table.lookup name = some e) ∧
    (∀ st2 : SymbolTable, st2.cur = st.cur →
      (add_variable st2 name type size pass_by_ref is_param).1 =
        (add_variable st name type size pass_by_ref is_param).1) ∧
    ((add_variable st name type size pass_by_ref is_param).1 = false →
      (add_variable st name type size pass_by_ref is_param).2 = st) := by
  refine ⟨?_, ?_, ?_, ?_⟩
  · cases hc : st.cur.table.contains name <;> cases is_param <;> simp [add_variable, hc]
  · simp [Table.contains, Option.isSome_iff_exists]
  · intro st2 h2
    cases hc : st.cur.table.contains name <;> cases is_param <;> simp [add_variable, hc, h2]
  · cases hc : st.cur.table.contains name <;> cases is_param <;> simp [add_variable, hc]

theorem add_variable_false_iff_witness :
    (add_variable shadowing_state "x" .Integer 4 false false).1 = false ∧
    (add_variable shadowing_state "x" .Integer 4 false false).2 = shadowing_state ∧
    (add_variable shadowing_state "p" .Integer 4 false false).1 = true :=
  ⟨by decide,
   (add_variable_false_iff shadowing_state "x" .Integer 4 false false).2.2.2 (by decide),
   by decide⟩

theorem add_variable_cur_scope (st : SymbolTable) (name : String) (type : VarType) (size : Nat)
    (pass_by_ref is_param : Bool) :
    (add_variable st name type size pass_by_ref is_param).2.cur_scope = st.cur_scope := by
  cases hc : st.cur.table.contains name <;> cases is_param <;>
    simp [add_variable, hc, SymbolTable.setCur]

theorem add_variable_length (st : SymbolTable) (name : String) (type : VarType) (size : Nat)
    (pass_by_ref is_param : Bool) :
    (add_variable st name type size pass_by_ref is_param).2.scopes.length = st.scopes.length := by
  cases hc : st.cur.table.contains name <;> cases is_param <;>
    simp [add_variable, hc, SymbolTable.setCur]

/-- The current scope after a successful `add_variable` on a state whose cursor is valid. -/
theorem add_variable_cur (st : SymbolTable) (name : String) (type : VarType) (size : Nat)
    (pass_by_ref is_param : Bool) (hcur : st.cur_scope < st.scopes.length)
    (hc : st.cur.table.contains name = false) :
    (add_variable st name type size pass_by_ref is_param).2.cur =
      { st.cur with
        table := st.cur.table ++ [(name, .var
          { type := type, name := "", size := size,
            offset := if is_param then (8 + st.cur.param_offset) % U64 else st.cur.var_offset,
            pass_by_ref := pass_by_ref, is_param := is_param, next := none })]
        param_offset := if is_param then (st.cur.param_offset + size) % U64 else st.cur.param_offset
        var_offset := if is_param then st.cur.var_offset else (st.cur.var_offset + size) % U64 } := by
  unfold add_variable
  cases is_param <;>
    simp [hc, SymbolTable.cur_setCur _ _ hcur, Table.assign_of_not_contains _ _ _ hc]

theorem add_variable_cur_of_contains (st : SymbolTable) (name : String) (type : VarType)
    (size : Nat) (pass_by_ref is_param : Bool) (hc : st.cur.table.contains name = true) :
    (add_variable st name type size pass_by_ref is_param).2 = st := by
  unfold add_variable
  simp [hc]

theorem get_var_info_eq (st : SymbolTable) (name : String) :
    get_var_info st name =
      (match st.cur.table.lookup name with
       | some (.var v) => some v
       | _ => none) := by
  unfold get_var_info Table.contains
  cases h : st.cur.table.lookup name <;> simp

theorem lookup_append_singleton (t : Table) (name k : String) (e : Entry) :
    (t ++ [(name, e)]).lookup k =
      (match t.lookup k with
       | some x => some x
       | none => if k == name then some e else none) := by
  rw [List.lookup_append]
  cases h : t.lookup k <;> simp [List.lookup]
  cases hk : (k == name) <;> simp_all

theorem SymbolTable.cur_setCur_of_le (st : SymbolTable) (sc : Scope)
    (h : st.scopes.length ≤ st.cur_scope) : (st.setCur sc).cur = st.cur := by
  have hn : ¬ st.cur_scope < st.scopes.length := by omega
  simp [SymbolTable.cur, SymbolTable.setCur, List.getD_eq_getElem?_getD, List.getElem?_set, hn,
    List.getElem?_eq_none h]

theorem add_variable_lookup_ne (st : SymbolTable) (name : String) (type : VarType) (size : Nat)
    (pass_by_ref is_param : Bool) (k : String) (hk : k ≠ name) :
    (add_variable st name type size pass_by_ref is_param).2.cur.table.lookup k =
      st.cur.table.lookup k := by
  cases hc : st.cur.table.contains name
  · by_cases hcur : st.cur_scope < st.scopes.length
    · cases is_param <;>
        simp [add_variable, hc, SymbolTable.cur_setCur _ _ hcur, Table.lookup_assign_ne _ _ _ _ hk]
    · cases is_param <;>
        simp [add_variable, hc, SymbolTable.cur_setCur_of_le _ _ (Nat.le_of_not_lt hcur)]
  · rw [add_variable_cur_of_contains _ _ _ _ _ _ hc]

theorem declare_cur_scope (ds : List Decl) :
    ∀ st : SymbolTable, (declare st ds).cur_scope = st.cur_scope := by
  induction ds with
  | nil => intro st; rfl
  | cons d ds ih => intro st; simp [declare, ih, add_variable_cur_scope]

theorem declare_lookup_ne (ds : List Decl) :
    ∀ (st : SymbolTable) (k : String), (∀ a ∈ ds, k ≠ a.name) →
      (declare st ds).cur.table.lookup k = st.cur.table.lookup k := by
  induction ds with
  | nil => intro st k _; rfl
  | cons d ds ih =>
    intro st k h
    simp only [declare]
    rw [ih _ k (fun a ha => h a (List.mem_cons_of_mem _ ha))]
    exact add_variable_lookup_ne _ _ _ _ _ _ _ (h d (List.mem_cons_self _ _))

theorem sizes_of_cons (want : Bool) (a : Decl) (ds : List Decl) :
    sizes_of want (a :: ds) = (if a.is_param == want then a.size else 0) + sizes_of want ds := by
  unfold sizes_of
  by_cases h : (a.is_param == want) = true <;> simp [List.filter_cons, h]

theorem sizes_of_nil (want : Bool) : sizes_of want [] = 0 := rfl

/-- The offsets handed out by a run of successful `add_variable` calls: the declaration that
follows `pre` gets the offset computed from the counters at the start and from the sizes of the
declarations of its own kind in `pre`, and keeps it while `post` is declared. -/
theorem declare_offsets (pre : List Decl) :
    ∀ (st : SymbolTable) (d : Decl) (post : List Decl),
      st.cur_scope < st.scopes.length →
      st.cur.param_offset < U64 → st.cur.var_offset < U64 →
      (pre ++ d :: post).Pairwise (fun a b => a.name ≠ b.name) →
      (∀ a ∈ pre ++ d :: post, st.cur.table.contains a.name = false) →
      get_var_info (declare st (pre ++ d :: post)) d.name = some
        { type := d.type, name := "", size := d.size,
          offset := if d.is_param then (8 + (st.cur.param_offset + sizes_of true pre)) % U64
                    else (st.cur.var_offset + sizes_of false pre) % U64,
          pass_by_ref := d.pass_by_ref, is_param := d.is_param, next := none } := by
  induction pre with
  | nil =>
    intro st d post hcur hp hv hpw hnc
    have hd : st.cur.table.contains d.name = false := hnc d (by simp)
    have hne : ∀ a ∈ post, d.name ≠ a.name := by
      intro a ha
      exact (List.pairwise_cons.1 hpw).1 a ha
    simp only [List.nil_append, declare]
    rw [get_var_info_eq, declare_lookup_ne post _ d.name hne,
      add_variable_cur _ _ _ _ _ _ hcur hd]
    have hl : st.cur.table.lookup d.name = none := by
      simpa [Table.contains] using hd
    simp only [lookup_append_singleton, hl, beq_self_eq_true, if_true, sizes_of_nil, Nat.add_zero]
    cases d.is_param <;> simp [Nat.mod_eq_of_lt hv]
  | cons a pre ih =>
    intro st d post hcur hp hv hpw hnc
    have ha : st.cur.table.contains a.name = false := hnc a (by simp)
    rw [List.cons_append] at hpw hnc
    have hpw2 := List.pairwise_cons.1 hpw
    rw [List.cons_append]
    simp only [declare]
    have hcur1 : (add_variable st a.name a.type a.size a.pass_by_ref a.is_param).2.cur_scope <
        (add_variable st a.name a.type a.size a.pass_by_ref a.is_param).2.scopes.length := by
      rw [add_variable_cur_scope, add_variable_length]; exact hcur
    have hc1 := add_variable_cur st a.name a.type a.size a.pass_by_ref a.is_param hcur ha
    have hU : 0 < U64 := by decide
    rw [ih _ d post hcur1 ?_ ?_ hpw2.2 ?_]
    · rw [hc1]
      simp only [sizes_of_cons]
      cases a.is_param <;> cases d.is_param <;> simp <;> unfold U64 <;> omega
    · rw [hc1]; cases a.is_param <;> simp [hp, Nat.mod_lt _ hU]
    · rw [hc1]; cases a.is_param <;> simp [hv, Nat.mod_lt _ hU]
    · intro b hb
      have hbn : b.name ≠ a.name := fun h => hpw2.1 b hb h.symm
      have := hnc b (List.mem_cons_of_mem _ hb)
      unfold Table.contains at this ⊢
      rw [add_variable_lookup_ne _ _ _ _ _ _ _ hbn]
      exact this

/-! ## Well-formedness of the states that the operations build -/

theorem parent_below_mono (i j : Nat) (sc : Scope) (h : parent_below i sc = true) (hij : i ≤ j) :
    parent_below j sc = true := by
  unfold parent_below at *
  cases hp : sc.previous with
  | none => simp
  | some q =>
    simp only [hp, decide_eq_true_eq] at h ⊢
    omega

theorem SymbolTable.WF_setCur (st : SymbolTable) (sc : Scope) (h : st.WF)
    (hprev : sc.previous = st.cur.previous) : (st.setCur sc).WF := by
  obtain ⟨hcur, hpar⟩ := h
  refine ⟨by simpa [SymbolTable.setCur] using hcur, ?_⟩
  intro i hi
  have hi2 : i < st.scopes.length := by simpa [SymbolTable.setCur] using hi
  by_cases hic : st.cur_scope = i
  · subst hic
    have h1 := hpar st.cur_scope hi2
    have hget : (st.setCur sc).scopes.getD st.cur_scope Scope.fresh = sc := by
      simp [SymbolTable.setCur, List.getD_eq_getElem?_getD, List.getElem?_set, hcur]
    rw [hget]
    unfold parent_below at h1 ⊢
    rw [hprev]
    exact h1
  · have hget : (st.setCur sc).scopes.getD i Scope.fresh = st.scopes.getD i Scope.fresh := by
      simp [SymbolTable.setCur, List.getD_eq_getElem?_getD, List.getElem?_set, hic]
    rw [hget]
    exact hpar i hi2

theorem SymbolTable.new_WF : SymbolTable.new.WF := by decide

theorem add_variable_WF (st : SymbolTable) (name : String) (type : VarType) (size : Nat)
    (pass_by_ref is_param : Bool) (h : st.WF) :
    (add_variable st name type size pass_by_ref is_param).2.WF := by
  cases hc : st.cur.table.contains name
  · cases is_param <;>
      simp only [add_variable, hc, Bool.false_eq_true, if_false, if_true] <;>
      exact SymbolTable.WF_setCur st _ h rfl
  · rw [add_variable_cur_of_contains _ _ _ _ _ _ hc]
    exact h

theorem SymbolTable.WF_enter (st : SymbolTable) (sc : Scope) (name : String) (h : st.WF)
    (hprev : sc.previous = st.cur.previous) :
    SymbolTable.WF
      { scopes := (st.setCur sc).scopes ++
          [{ Scope.fresh with param_offset := 0, var_offset := 0, name := name,
                              previous := some st.cur_scope }],
        cur_scope := st.scopes.length } := by
  have h1 := SymbolTable.WF_setCur st sc h hprev
  have hlen : (st.setCur sc).scopes.length = st.scopes.length := by simp [SymbolTable.setCur]
  refine ⟨by simp [hlen], ?_⟩
  intro i hi
  simp only [List.length_append, hlen, List.length_singleton] at hi
  by_cases hlt : i < st.scopes.length
  · have hget : ((st.setCur sc).scopes ++
        [{ Scope.fresh with param_offset := 0, var_offset := 0, name := name,
                            previous := some st.cur_scope }]).getD i Scope.fresh =
        (st.setCur sc).scopes.getD i Scope.fresh := by
      simp [List.getD_eq_getElem?_getD, List.getElem?_append_left, hlen, hlt]
    rw [hget]
    exact h1.2 i (by rw [hlen]; exact hlt)
  · have hi2 : i = st.scopes.length := by omega
    subst hi2
    have hget : ((st.setCur sc).scopes ++
        [{ Scope.fresh with param_offset := 0, var_offset := 0, name := name,
                            previous := some st.cur_scope }]).getD st.scopes.length Scope.fresh =
        { Scope.fresh with param_offset := 0, var_offset := 0, name := name,
                           previous := some st.cur_scope } := by
      simp [List.getD_eq_getElem?_getD, List.getElem?_append_right, hlen]
    rw [hget]
    simpa [parent_below] using h.1

theorem enter_proc_scope_WF (st : SymbolTable) (name : String) (h : st.WF) :
    (enter_proc_scope st name).2.WF := by
  cases hc : st.cur.table.contains name
  · simp only [enter_proc_scope, hc, Bool.false_eq_true, if_false]
    exact SymbolTable.WF_enter st _ name h rfl
  · simpa [enter_proc_scope, hc] using h

theorem enter_func_scope_WF (st : SymbolTable) (name : String) (h : st.WF) :
    (enter_func_scope st name).2.WF := by
  cases hc : st.cur.table.contains name
  · simp only [enter_func_scope, hc, Bool.false_eq_true, if_false]
    exact SymbolTable.WF_enter st _ name h rfl
  · simpa [enter_func_scope, hc] using h

theorem leave_scope_WF (st : SymbolTable) (h : st.WF) : (leave_scope st).WF := by
  unfold leave_scope
  cases hp : st.cur.previous with
  | none => exact h
  | some q =>
    refine ⟨?_, h.2⟩
    have h1 := h.2 st.cur_scope h.1
    have : parent_below st.cur_scope st.cur = true := h1
    simp only [parent_below, hp, decide_eq_true_eq] at this
    have := h.1
    show q < st.scopes.length
    omega

/-- Every state that the operations of the class build from the initial state is
well-formed. -/
theorem SymbolTable.Built.WF (st : SymbolTable) (h : st.Built) : st.WF := by
  induction h with
  | new => exact SymbolTable.new_WF
  | add_variable st name type size pass_by_ref is_param _ ih =>
    exact add_variable_WF st name type size pass_by_ref is_param ih
  | enter_proc_scope st name _ ih => exact enter_proc_scope_WF st name ih
  | enter_func_scope st name _ ih => exact enter_func_scope_WF st name ih
  | leave_scope st _ ih => exact leave_scope_WF st ih

/-- C3. On a state whose cursor is valid and whose counters are 64-bit values, a successful
`add_variable` with `is_param = true` stores the entry at offset `8 + param_offset`, advances
`param_offset` by `size` and leaves `var_offset` alone; with `is_param = false` it stores the
entry at offset `var_offset`, advances `var_offset` by `size` and leaves `param_offset` alone.
The sums are the `std::uint64_t` sums of the code (first part: modulo `2 ^ 64`; second part:
the plain sums whenever they fit in 64 bits).  Hence, after any run of successful declarations,
a parameter has offset `8 +` the start value of `param_offset` (0 in a fresh scope) `+` the
sizes of the parameters declared before it, and a local has offset the start value of
`var_offset` `+` the sizes of the locals declared before it (third part, modulo `2 ^ 64`); in
a fresh scope whose totals fit in 64 bits these are exactly `8 + sum` and `sum` (fourth
part). -/
theorem add_variable_offsets (st : SymbolTable) (hcur : st.cur_scope < st.scopes.length)
    (hp : st.cur.param_offset < U64) (hv : st.cur.var_offset < U64) :
    (∀ (name : String) (type : VarType) (size : Nat) (pass_by_ref is_param : Bool),
      (add_variable st name type size pass_by_ref is_param).1 = true →
      get_var_info (add_variable st name type size pass_by_ref is_param).2 name = some
        { type := type, name := "", size := size,
          offset := if is_param then (8 + st.cur.param_offset) % U64 else st.cur.var_offset,
          pass_by_ref := pass_by_ref, is_param := is_param, next := none } ∧
      (add_variable st name type size pass_by_ref is_param).2.cur.param_offset =
        (if is_param then (st.cur.param_offset + size) % U64 else st.cur.param_offset) ∧
      (add_variable st name type size pass_by_ref is_param).2.cur.var_offset =
        (if is_param then st.cur.var_offset else (st.cur.var_offset + size) % U64)) ∧
    (∀ (name : String) (type : VarType) (size : Nat) (pass_by_ref is_param : Bool),
      (add_variable st name type size pass_by_ref is_param).1 = true →
      8 + st.cur.param_offset + size < U64 → st.cur.var_offset + size < U64 →
      get_var_info (add_variable st name type size pass_by_ref is_param).2 name = some
        { type := type, name := "", size := size,
          offset := if is_param then 8 + st.cur.param_offset else st.cur.var_offset,
          pass_by_ref := pass_by_ref, is_param := is_param, next := none } ∧
      (add_variable st name type size pass_by_ref is_param).2.cur.param_offset =
        (if is_param then st.cur.param_offset + size else st.cur.param_offset) ∧
      (add_variable st name type size pass_by_ref is_param).2.cur.var_offset =
        (if is_param then st.cur.var_offset else st.cur.var_offset + size)) ∧
    (∀ (pre : List Decl) (d : Decl) (post : List Decl),
      (pre ++ d :: post).Pairwise (fun a b => a.name ≠ b.name) →
      (∀ a ∈ pre ++ d :: post, st.cur.table.contains a.name = false) →
      get_var_info (declare st (pre ++ d :: post)) d.name = some
        { type := d.type, name := "", size := d.size,
          offset := if d.is_param then (8 + (st.cur.param_offset + sizes_of true pre)) % U64
                    else (st.cur.var_offset + sizes_of false pre) % U64,
          pass_by_ref := d.pass_by_ref, is_param := d.is_param, next := none }) ∧
    (∀ (pre : List Decl) (d : Decl) (post : List Decl),
      st.cur.param_offset = 0 → st.cur.var_offset = 0 →
      8 + sizes_of true pre < U64 → sizes_of false pre < U64 →
      (pre ++ d :: post).Pairwise (fun a b => a.name ≠ b.name) →
      (∀ a ∈ pre ++ d :: post, st.cur.table.contains a.name = false) →
      get_var_info (declare st (pre ++ d :: post)) d.name = some
        { type := d.type, name := "", size := d.size,
          offset := if d.is_param then 8 + sizes_of true pre else sizes_of false pre,
          pass_by_ref := d.pass_by_ref, is_param := d.is_param, next := none }) := by
  refine ⟨?_, ?_, ?_, ?_⟩
  · intro name type size pass_by_ref is_param hok
    have hc : st.cur.table.contains name = false := by
      rw [add_variable_fst] at hok
      simpa using hok
    have hl : st.cur.table.lookup name = none := by
      simpa [Table.contains] using hc
    rw [get_var_info_eq, add_variable_cur _ _ _ _ _ _ hcur hc]
    simp [lookup_append_singleton, hl]
  · intro name type size pass_by_ref is_param hok hps hvs
    have hc : st.cur.table.contains name = false := by
      rw [add_variable_fst] at hok
      simpa using hok
    have hl : st.cur.table.lookup name = none := by
      simpa [Table.contains] using hc
    have h1 : (8 + st.cur.param_offset) % U64 = 8 + st.cur.param_offset :=
      Nat.mod_eq_of_lt (by omega)
    have h2 : (st.cur.param_offset + size) % U64 = st.cur.param_offset + size :=
      Nat.mod_eq_of_lt (by omega)
    have h3 : (st.cur.var_offset + size) % U64 = st.cur.var_offset + size :=
      Nat.mod_eq_of_lt hvs
    rw [get_var_info_eq, add_variable_cur _ _ _ _ _ _ hcur hc]
    simp [lookup_append_singleton, hl, h1, h2, h3]
  · intro pre d post hpw hnc
    exact declare_offsets pre st d post hcur hp hv hpw hnc
  · intro pre d post hp0 hv0 hps hvs hpw hnc
    rw [declare_offsets pre st d post hcur hp hv hpw hnc, hp0, hv0]
    cases d.is_param
    · simp [Nat.mod_eq_of_lt hvs]
    · simp [Nat.mod_eq_of_lt hps]

theorem add_variable_offsets_witness :
    get_var_info (declare proc_state sample_decls) "b" = some
      { type := .Boolean, name := "", size := 1, offset := 12,
        pass_by_ref := true, is_param := true, next := none } ∧
    get_var_info (declare proc_state sample_decls) "y" = some
      { type := .Integer, name := "", size := 4, offset := 4,
        pass_by_ref := false, is_param := false, next := none } :=
  ⟨(add_variable_offsets proc_state (by decide) (by decide) (by decide)).2.2.2
      [sample_decls.get ⟨0, by decide⟩, sample_decls.get ⟨1, by decide⟩]
      (sample_decls.get ⟨2, by decide⟩) [sample_decls.get ⟨3, by decide⟩]
      (by decide) (by decide) (by decide) (by decide) (by decide) (by decide),
   (add_variable_offsets proc_state (by decide) (by decide) (by decide)).2.2.2
      [sample_decls.get ⟨0, by decide⟩, sample_decls.get ⟨1, by decide⟩,
        sample_decls.get ⟨2, by decide⟩]
      (sample_decls.get ⟨3, by decide⟩) []
      (by decide) (by decide) (by decide) (by decide) (by decide) (by decide)⟩

/-! ## C4: entering a scope -/

theorem enter_proc_scope_eq (st : SymbolTable) (name : String)
    (hc : st.cur.table.contains name = false) :
    enter_proc_scope st name = (true,
      { scopes := st.scopes.set st.cur_scope
          { st.cur with table := st.cur.table ++ [(name, .proc { name := name, next := some st.scopes.length })] } ++
          [{ table := [], param_offset := 0, var_offset := 0, name := name,
             previous := some st.cur_scope }],
        cur_scope := st.scopes.length }) := by
  simp [enter_proc_scope, hc, SymbolTable.setCur, Table.assign_of_not_contains _ _ _ hc,
    Scope.fresh]

theorem enter_proc_scope_ok (st : SymbolTable) (name : String)
    (hcur : st.cur_scope < st.scopes.length) (hc : st.cur.table.contains name = false) :
    EntersChild st name (.proc { name := name, next := some st.scopes.length })
      (enter_proc_scope st name) := by
  have hne : st.cur_scope ≠ st.scopes.length := by omega
  rw [enter_proc_scope_eq st name hc]
  refine ⟨rfl, rfl, by simp, ?_, ?_, ?_⟩
  · simp [SymbolTable.cur, List.getD_eq_getElem?_getD, List.getElem?_append_right]
  · simp [List.getElem?_append_left, hcur, List.getElem?_set]
  · intro i hi hne2
    simp [List.getElem?_append_left, hi, List.getElem?_set, Ne.symm hne2]

theorem enter_func_scope_eq (st : SymbolTable) (name : String)
    (hc : st.cur.table.contains name = false) :
    enter_func_scope st name = (true,
      { scopes := st.scopes.set st.cur_scope
          { st.cur with table := st.cur.table ++ [(name, .func { name := name, next := some st.scopes.length })] } ++
          [{ table := [], param_offset := 0, var_offset := 0, name := name,
             previous := some st.cur_scope }],
        cur_scope := st.scopes.length }) := by
  simp [enter_func_scope, hc, SymbolTable.setCur, Table.assign_of_not_contains _ _ _ hc,
    Scope.fresh]

theorem enter_func_scope_ok (st : SymbolTable) (name : String)
    (hcur : st.cur_scope < st.scopes.length) (hc : st.cur.table.contains name = false) :
    EntersChild st name (.func { name := name, next := some st.scopes.length })
      (enter_func_scope st name) := by
  have hne : st.cur_scope ≠ st.scopes.length := by omega
  rw [enter_func_scope_eq st name hc]
  refine ⟨rfl, rfl, by simp, ?_, ?_, ?_⟩
  · simp [SymbolTable.cur, List.getD_eq_getElem?_getD, List.getElem?_append_right]
  · simp [List.getElem?_append_left, hcur, List.getElem?_set]
  · intro i hi hne2
    simp [List.getElem?_append_left, hi, List.getElem?_set, Ne.symm hne2]

/-- C4. When the current scope already contains `name`, `enter_proc_scope(name)` and
`enter_func_scope(name)` return false and leave the symbol table unchanged.  Otherwise (on a
state whose cursor addresses an allocated scope) they return true; the previously current scope
keeps its counters, name and parent and gains exactly one entry at the end of its table, a
procedure (respectively function) entry named `name` that points at the child; every other
scope allocated before is untouched; and the current scope becomes a newly allocated child with
an empty table, `param_offset = 0`, `var_offset = 0`, scope name `name` and parent the
previously current scope. -/
theorem enter_scope_spec (st : SymbolTable) (name : String) :
    (st.cur.table.contains name = true →
      enter_proc_scope st name = (false, st) ∧ enter_func_scope st name = (false, st)) ∧
    (st.cur.table.contains name = false → st.cur_scope < st.scopes.length →
      EntersChild st name (.proc { name := name, next := some st.scopes.length })
        (enter_proc_scope st name) ∧
      EntersChild st name (.func { name := name, next := some st.scopes.length })
        (enter_func_scope st name)) := by
  constructor
  · intro hc
    simp [enter_proc_scope, enter_func_scope, hc]
  · intro hc hcur
    exact ⟨enter_proc_scope_ok st name hcur hc, enter_func_scope_ok st name hcur hc⟩

theorem enter_scope_spec_witness :
    (enter_proc_scope shadowing_state "x" = (false, shadowing_state) ∧
      enter_func_scope shadowing_state "x" = (false, shadowing_state)) ∧
    (EntersChild shadowing_state "q" (.proc { name := "q", next := some 3 })
        (enter_proc_scope shadowing_state "q") ∧
      EntersChild shadowing_state "q" (.func { name := "q", next := some 3 })
        (enter_func_scope shadowing_state "q")) :=
  ⟨(enter_scope_spec shadowing_state "x").1 (by decide),
   (enter_scope_spec shadowing_state "q").2 (by decide) (by decide)⟩

/-! ## C5: leaving a scope -/

theorem add_variable_cur_previous (st : SymbolTable) (name : String) (type : VarType)
    (size : Nat) (pass_by_ref is_param : Bool) :
    (add_variable st name type size pass_by_ref is_param).2.cur.previous = st.cur.previous := by
  cases hc : st.cur.table.contains name
  · by_cases hcur : st.cur_scope < st.scopes.length
    · cases is_param <;> simp [add_variable, hc, SymbolTable.cur_setCur _ _ hcur]
    · cases is_param <;>
        simp [add_variable, hc, SymbolTable.cur_setCur_of_le _ _ (Nat.le_of_not_lt hcur)]
  · rw [add_variable_cur_of_contains _ _ _ _ _ _ hc]

theorem declare_cur_previous (ds : List Decl) :
    ∀ st : SymbolTable, (declare st ds).cur.previous = st.cur.previous := by
  induction ds with
  | nil => intro st; rfl
  | cons d ds ih => intro st; simp [declare, ih, add_variable_cur_previous]

theorem enter_proc_scope_cur_previous (st st1 : SymbolTable) (name : String)
    (h : enter_proc_scope st name = (true, st1)) : st1.cur.previous = some st.cur_scope := by
  cases hc : st.cur.table.contains name
  · simp only [enter_proc_scope, hc, Bool.false_eq_true, if_false, Prod.mk.injEq, true_and] at h
    subst h
    simp [SymbolTable.setCur, SymbolTable.cur, List.getD_eq_getElem?_getD,
      List.getElem?_append_right]
  · simp [enter_proc_scope, hc] at h

theorem enter_func_scope_cur_previous (st st1 : SymbolTable) (name : String)
    (h : enter_func_scope st name = (true, st1)) : st1.cur.previous = some st.cur_scope := by
  cases hc : st.cur.table.contains name
  · simp only [enter_func_scope, hc, Bool.false_eq_true, if_false, Prod.mk.injEq, true_and] at h
    subst h
    simp [SymbolTable.setCur, SymbolTable.cur, List.getD_eq_getElem?_getD,
      List.getElem?_append_right]
  · simp [enter_func_scope, hc] at h

/-- C5. The call `leave_scope` changes nothing but the cursor (no table entry, no offset
counter, no scope); it moves the cursor to the parent of the current scope and is the identity
when the current scope has no parent (the root).  Consequently, after a successful
`enter_proc_scope` or `enter_func_scope` followed by any number of `add_variable` calls, one
`leave_scope` puts the cursor back on the scope that was current before the enter. -/
theorem leave_scope_spec (st : SymbolTable) :
    (leave_scope st).scopes = st.scopes ∧
    (∀ p, st.cur.previous = some p → (leave_scope st).cur_scope = p) ∧
    (st.cur.previous = none → leave_scope st = st) ∧
    (∀ (name : String) (st1 : SymbolTable) (ds : List Decl),
      enter_proc_scope st name = (true, st1) ∨ enter_func_scope st name = (true, st1) →
      (leave_scope (declare st1 ds)).cur_scope = st.cur_scope) := by
  refine ⟨?_, ?_, ?_, ?_⟩
  · unfold leave_scope
    cases st.cur.previous <;> rfl
  · intro p hp
    simp [leave_scope, hp]
  · intro hp
    simp [leave_scope, hp]
  · intro name st1 ds h
    have hprev : (declare st1 ds).cur.previous = some st.cur_scope := by
      rw [declare_cur_previous]
      cases h with
      | inl h => exact enter_proc_scope_cur_previous st st1 name h
      | inr h => exact enter_func_scope_cur_previous st st1 name h
    simp [leave_scope, hprev]

theorem leave_scope_spec_witness :
    (leave_scope (declare proc_state sample_decls)).cur_scope = SymbolTable.new.cur_scope ∧
    leave_scope SymbolTable.new = SymbolTable.new :=
  ⟨(leave_scope_spec SymbolTable.new).2.2.2 "p" proc_state sample_decls (Or.inl (by decide)),
   (leave_scope_spec SymbolTable.new).2.2.1 (by decide)⟩

/-! ## C6: lookups in the current scope -/

theorem get_func_info_eq (st : SymbolTable) (name : String) :
    get_func_info st name =
      (match st.cur.table.lookup name with
       | some (.func f) => some f
       | _ => none) := by
  unfold get_func_info Table.contains
  cases h : st.cur.table.lookup name <;> simp

theorem get_proc_info_eq (st : SymbolTable) (name : String) :
    get_proc_info st name =
      (match st.cur.table.lookup name with
       | some (.proc p) => some p
       | _ => none) := by
  unfold get_proc_info Table.contains
  cases h : st.cur.table.lookup name <;> simp

/-- When the current scope binds `name`, `find` stops there. -/
theorem find_of_lookup_cur (st : SymbolTable) (name : String) (type : FindType) (e : Entry)
    (h : st.cur.table.lookup name = some e) :
    find st name type = if e.matches_kind type then some e else none := by
  have hcur : st.cur_scope < st.scopes.length := by
    by_contra hn
    rw [SymbolTable.cur, List.getD_eq_getElem?_getD,
      List.getElem?_eq_none (Nat.le_of_not_lt hn)] at h
    simp [Scope.fresh, List.lookup] at h
  have hget := SymbolTable.getElem?_cur st hcur
  obtain ⟨n, hn⟩ : ∃ n, st.scopes.length = n + 1 := ⟨st.scopes.length - 1, by omega⟩
  simp [find, hn, find_loop, hget, h]

/-- C6. The calls `get_var_info`, `get_proc_info` and `get_func_info` consult the table of the
current scope only: each returns the entry stored there under `name` when that entry has the
requested kind and nothing otherwise, in particular nothing when the current scope does not
bind `name`, whatever enclosing scopes hold.  Whenever one of them returns an entry, `find`
with the matching kind returns the same entry. -/
theorem get_info_current_scope (st : SymbolTable) (name : String) :
    (get_var_info st name =
      (match st.cur.table.lookup name with
       | some (.var v) => some v
       | _ => none)) ∧
    (get_proc_info st name =
      (match st.cur.table.lookup name with
       | some (.proc p) => some p
       | _ => none)) ∧
    (get_func_info st name =
      (match st.cur.table.lookup name with
       | some (.func f) => some f
       | _ => none)) ∧
    (st.cur.table.contains name = false →
      get_var_info st name = none ∧ get_proc_info st name = none ∧
        get_func_info st name = none) ∧
    (∀ v, get_var_info st name = some v → find st name .Variable = some (.var v)) ∧
    (∀ p, get_proc_info st name = some p → find st name .Procedure = some (.proc p)) ∧
    (∀ f, get_func_info st name = some f → find st name .Function = some (.func f)) := by
  refine ⟨get_var_info_eq st name, get_proc_info_eq st name, get_func_info_eq st name,
    ?_, ?_, ?_, ?_⟩
  · intro hc
    simp [get_var_info, get_proc_info, get_func_info, hc]
  · intro v hv
    rw [get_var_info_eq] at hv
    cases hl : st.cur.table.lookup name with
    | none => simp [hl] at hv
    | some e =>
      cases e <;> simp [hl] at hv
      subst hv
      simp [find_of_lookup_cur st name _ _ hl, Entry.matches_kind]
  · intro p hp
    rw [get_proc_info_eq] at hp
    cases hl : st.cur.table.lookup name with
    | none => simp [hl] at hp
    | some e =>
      cases e <;> simp [hl] at hp
      subst hp
      simp [find_of_lookup_cur st name _ _ hl, Entry.matches_kind]
  · intro f hf
    rw [get_func_info_eq] at hf
    cases hl : st.cur.table.lookup name with
    | none => simp [hl] at hf
    | some e =>
      cases e <;> simp [hl] at hf
      subst hf
      simp [find_of_lookup_cur st name _ _ hl, Entry.matches_kind]

theorem get_info_current_scope_witness :
    get_proc_info shadowing_state "x" = some { name := "x", next := some 2 } ∧
    find shadowing_state "x" .Procedure = some (.proc { name := "x", next := some 2 }) ∧
    (get_var_info shadowing_state "p" = none ∧ get_proc_info shadowing_state "p" = none ∧
      get_func_info shadowing_state "p" = none) ∧
    find shadowing_state "p" .Procedure = some (.proc { name := "p", next := some 1 }) :=
  ⟨by decide,
   (get_info_current_scope shadowing_state "x").2.2.2.2.2.1 _ (by decide),
   (get_info_current_scope shadowing_state "p").2.2.2.1 (by decide),
   by decide⟩

/-! ## Lemmas on the parser state -/

theorem Parser.pop_of_values (p : Parser) (v : VarValue) (rest : List VarValue)
    (h : p.values = v :: rest) : p.pop = .ok (v, { p with values := rest }) := by
  simp [Parser.pop, h]

theorem gprs_at_pred (g : Nat) (h1 : 1 ≤ g) (h4 : g ≤ 4) :
    ∃ r, gprs_at ((g : Int) - 1) = .ok r := by
  interval_cases g <;> simp [gprs_at, gprs]

theorem gprs_at_pred2 (g : Nat) (h2 : 2 ≤ g) (h5 : g ≤ 5) :
    ∃ r, gprs_at ((g : Int) - 2) = .ok r := by
  interval_cases g <;> simp [gprs_at, gprs]

theorem Except.ok_bind {ε α β : Type} (a : α) (f : α → Except ε β) :
    (Except.ok a >>= f) = f a := rfl

theorem Except.error_bind {ε α β : Type} (e : ε) (f : α → Except ε β) :
    ((Except.error e : Except ε α) >>= f) = Except.error e := rfl

theorem Except.map_ok {ε α β : Type} (a : α) (f : α → β) :
    (f <$> (Except.ok a : Except ε α)) = Except.ok (f a) := rfl

theorem Except.map_error {ε α β : Type} (e : ε) (f : α → β) :
    (f <$> (Except.error e : Except ε α)) = Except.error e := rfl

theorem Except.pure_eq {ε α : Type} (a : α) : (pure a : Except ε α) = Except.ok a := rfl

theorem Except.throw_eq {ε α : Type} (e : ε) : (throw e : Except ε α) = Except.error e := rfl

theorem Parser.push_values (p : Parser) (v : VarValue) : (p.push v).values = v :: p.values := rfl

theorem Parser.emit_values (p : Parser) (stream : Bool) (line : String) :
    (p.emit stream line).values = p.values := by
  unfold Parser.emit; split <;> rfl

theorem Parser.emit_gpr_index (p : Parser) (stream : Bool) (line : String) :
    (p.emit stream line).gpr_index = p.gpr_index := by
  unfold Parser.emit; split <;> rfl

theorem Parser.gpr_sub_values (p : Parser) (k : Nat) : (p.gpr_sub k).values = p.values := rfl

theorem Parser.gpr_sub_gpr_index (p : Parser) (k : Nat) :
    (p.gpr_sub k).gpr_index = (p.gpr_index + 256 - k) % 256 := rfl

/-! ## C7: the typing of `+ - * /` on integral operands -/

theorem term_prime_arith_integral (tok : String) (htok : tok = "+" ∨ tok = "-")
    (stream : Bool) (p : Parser) (lhs rhs : VarValue)
    (rest : List VarValue) (hv : p.values = rhs :: lhs :: rest)
    (hp : integral_pair lhs rhs = true) (hl : lhs.int_or_none = true)
    (hr : rhs.int_or_none = true) (h2 : 2 ≤ p.gpr_index) (h3 : p.gpr_index ≤ 3) :
    ∃ p' lit, term_prime_arith tok stream p = .ok p' ∧ p'.values = ⟨.Integer, lit⟩ :: rest := by
  obtain ⟨r1, hr1⟩ := gprs_at_pred p.gpr_index (by omega) (by omega)
  obtain ⟨r2, hr2⟩ := gprs_at_pred2 p.gpr_index (by omega) (by omega)
  have hex : ¬ (3 < p.gpr_index) := Nat.not_lt.2 h3
  rcases hl1 : lhs.literal with _ | (a | a | a) <;> rcases hl2 : rhs.literal with _ | (b | b | b) <;>
    simp [VarValue.int_or_none, hl1, hl2] at hl hr <;>
    rcases htok with rfl | rfl <;>
    simp [term_prime_arith, Parser.pop, hv, hp, hl1, hl2, Parser.gprs_exhausted, gprs,
      Parser.emit_binary, hr1, hr2, hex, Except.ok_bind, Except.error_bind, Except.map_ok,
      Except.pure_eq, Parser.push_values, Parser.emit_values, Parser.gpr_sub_values,
      VarValue.get_int32]

theorem fact_prime_arith_integral_mul (stream : Bool) (p : Parser) (lhs rhs : VarValue)
    (rest : List VarValue) (hv : p.values = rhs :: lhs :: rest)
    (hp : integral_pair lhs rhs = true) (hl : lhs.int_or_none = true)
    (hr : rhs.int_or_none = true) (h2 : 2 ≤ p.gpr_index) (h3 : p.gpr_index ≤ 3) :
    ∃ p' lit, fact_prime_arith "*" stream p = .ok p' ∧ p'.values = ⟨.Integer, lit⟩ :: rest := by
  obtain ⟨r1, hr1⟩ := gprs_at_pred p.gpr_index (by omega) (by omega)
  obtain ⟨r2, hr2⟩ := gprs_at_pred2 p.gpr_index (by omega) (by omega)
  have hex : ¬ (3 < p.gpr_index) := Nat.not_lt.2 h3
  rcases hl1 : lhs.literal with _ | (a | a | a) <;> rcases hl2 : rhs.literal with _ | (b | b | b) <;>
    simp [VarValue.int_or_none, hl1, hl2] at hl hr <;>
    simp [fact_prime_arith, Parser.pop, hv, hp, hl1, hl2, Parser.gprs_exhausted, gprs,
      Parser.emit_binary, hr1, hr2, hex, Except.ok_bind, Except.error_bind, Except.map_ok,
      Except.pure_eq, Parser.push_values, Parser.emit_values, Parser.gpr_sub_values,
      VarValue.get_int32]

theorem Parser.emit_divide_values (stream : Bool) (p : Parser) (h2 : 2 ≤ p.gpr_index)
    (h4 : p.gpr_index ≤ 4) : ∃ p', p.emit_divide stream = .ok p' ∧ p'.values = p.values := by
  obtain ⟨r1, hr1⟩ := gprs_at_pred p.gpr_index (by omega) (by omega)
  obtain ⟨r2, hr2⟩ := gprs_at_pred2 p.gpr_index (by omega) (by omega)
  by_cases hd : r2 = "EAX" <;>
    simp [Parser.emit_divide, hr1, hr2, hd, Except.ok_bind, Except.pure_eq,
      Parser.emit_values, Parser.emit_gpr_index, Parser.gpr_sub_values]

theorem fact_prime_arith_integral_div (stream : Bool) (p : Parser) (lhs rhs : VarValue)
    (rest : List VarValue) (hv : p.values = rhs :: lhs :: rest)
    (hp : integral_pair lhs rhs = true) (hl : lhs.int_or_none = true)
    (hr : rhs.int_or_none = true) (h2 : 2 ≤ p.gpr_index) (h3 : p.gpr_index ≤ 3)
    (hq : quotient_defined lhs rhs = true) :
    ∃ p' lit, fact_prime_arith "/" stream p = .ok p' ∧ p'.values = ⟨.Integer, lit⟩ :: rest := by
  have hex : ¬ (3 < p.gpr_index) := Nat.not_lt.2 h3
  obtain ⟨q, hq1, hq2⟩ := Parser.emit_divide_values stream { p with values := rest }
    h2 (by simp; omega)
  rcases hl1 : lhs.literal with _ | (a | a | a) <;> rcases hl2 : rhs.literal with _ | (b | b | b) <;>
    simp [VarValue.int_or_none, hl1, hl2] at hl hr <;>
    simp [quotient_defined, hl1, hl2] at hq <;>
    simp [fact_prime_arith, Parser.pop, hv, hp, hl1, hl2, Parser.gprs_exhausted, gprs,
      hex, Except.ok_bind, Except.error_bind, Except.map_ok, hq1, hq2,
      Except.pure_eq, Parser.push_values, Parser.emit_values, Parser.gpr_sub_values,
      VarValue.get_int32, div_int32, hq]
  have hnot : ¬ (a = -2147483648 ∧ b = -1) := by omega
  simp [hnot, Except.ok_bind, Parser.push_values]

theorem arith_type_error (tok : String) (stream : Bool) (p : Parser) (lhs rhs : VarValue)
    (rest : List VarValue) (hv : p.values = rhs :: lhs :: rest)
    (hp : integral_pair lhs rhs = false) (hreal : ¬ (lhs.type = .Real ∧ rhs.type = .Real)) :
    term_prime_arith tok stream p = .error (.runtime_error
      "Bad code: invalid type on left-or right-hand side of expression") ∧
    fact_prime_arith tok stream p = .error (.runtime_error
      "Bad code: invalid type on left-or right-hand side of expression") := by
  constructor <;>
    simp [term_prime_arith, fact_prime_arith, Parser.pop, hv, hp, hreal, Except.ok_bind,
      Except.throw_eq]

theorem arith_integral_exhausted (tok : String) (stream : Bool) (p : Parser) (lhs rhs : VarValue)
    (rest : List VarValue) (hv : p.values = rhs :: lhs :: rest)
    (hp : integral_pair lhs rhs = true) (h4 : 4 ≤ p.gpr_index) :
    (¬ (lhs.literal.isSome = true ∧ rhs.literal.isSome = true) →
      term_prime_arith tok stream p =
        .error (.runtime_error "Bad code: expression is too complicated")) ∧
    fact_prime_arith tok stream p =
      .error (.runtime_error "Bad code: exceeded available registers") := by
  have hex : 3 < p.gpr_index := by omega
  constructor
  · intro hlit
    simp [term_prime_arith, Parser.pop, hv, hp, hlit, Parser.gprs_exhausted, gprs, hex,
      Except.ok_bind, Except.error_bind, Except.throw_eq]
  · simp [fact_prime_arith, Parser.pop, hv, hp, Parser.gprs_exhausted, gprs, hex,
      Except.ok_bind, Except.error_bind, Except.throw_eq]

/-- The typing of `+ - * /` on integral operands, as far as the code implements it.  Let the
two operands on top of the value stack have the types `(Integer, Integer)` or
`(Character, Character)`.  When two or three registers are in use and each literal carried by an
operand is a 32-bit integer, `+`, `-` and `*` are accepted and push a value of type `Integer`,
and so is `/` when the compile-time quotient of two literals is defined.  When all four
registers are in use, `*` and `/` raise the error "exceeded available registers", and `+` and
`-` of operands that are not both literals raise "expression is too complicated".  For every
operand type pair other than those two and `(Real, Real)` all four operators raise the type
error and push nothing. -/
theorem arith_integral_typing (stream : Bool) (p : Parser) (lhs rhs : VarValue)
    (rest : List VarValue) (hv : p.values = rhs :: lhs :: rest) :
    (integral_pair lhs rhs = true → lhs.int_or_none = true → rhs.int_or_none = true →
      2 ≤ p.gpr_index → p.gpr_index ≤ 3 →
      (∃ p' lit, term_prime_arith "+" stream p = .ok p' ∧ p'.values = ⟨.Integer, lit⟩ :: rest) ∧
      (∃ p' lit, term_prime_arith "-" stream p = .ok p' ∧ p'.values = ⟨.Integer, lit⟩ :: rest) ∧
      (∃ p' lit, fact_prime_arith "*" stream p = .ok p' ∧ p'.values = ⟨.Integer, lit⟩ :: rest) ∧
      (quotient_defined lhs rhs = true →
        ∃ p' lit, fact_prime_arith "/" stream p = .ok p' ∧
          p'.values = ⟨.Integer, lit⟩ :: rest)) ∧
    (integral_pair lhs rhs = true → 4 ≤ p.gpr_index → ∀ tok,
      (¬ (lhs.literal.isSome = true ∧ rhs.literal.isSome = true) →
        term_prime_arith tok stream p =
          .error (.runtime_error "Bad code: expression is too complicated")) ∧
      fact_prime_arith tok stream p =
        .error (.runtime_error "Bad code: exceeded available registers")) ∧
    (integral_pair lhs rhs = false → ¬ (lhs.type = .Real ∧ rhs.type = .Real) → ∀ tok,
      term_prime_arith tok stream p = .error (.runtime_error
        "Bad code: invalid type on left-or right-hand side of expression") ∧
      fact_prime_arith tok stream p = .error (.runtime_error
        "Bad code: invalid type on left-or right-hand side of expression")) := by
  refine ⟨?_, ?_, ?_⟩
  · intro hp hl hr h2 h3
    exact ⟨term_prime_arith_integral "+" (Or.inl rfl) stream p lhs rhs rest hv hp hl hr h2 h3,
      term_prime_arith_integral "-" (Or.inr rfl) stream p lhs rhs rest hv hp hl hr h2 h3,
      fact_prime_arith_integral_mul stream p lhs rhs rest hv hp hl hr h2 h3,
      fun hq => fact_prime_arith_integral_div stream p lhs rhs rest hv hp hl hr h2 h3 hq⟩
  · intro hp h4 tok
    exact arith_integral_exhausted tok stream p lhs rhs rest hv hp h4
  · intro hp hreal tok
    exact arith_type_error tok stream p lhs rhs rest hv hp hreal

theorem arith_integral_typing_witness :
    (∃ p' lit, term_prime_arith "+" false
        (operand_state 2 [⟨.Integer, some (.int32 2)⟩, ⟨.Integer, none⟩]) = .ok p' ∧
      p'.values = [⟨.Integer, lit⟩]) ∧
    term_prime_arith "+" false (operand_state 2 [⟨.Boolean, none⟩, ⟨.Integer, none⟩]) =
      .error (.runtime_error "Bad code: invalid type on left-or right-hand side of expression") :=
  ⟨((arith_integral_typing false
      (operand_state 2 [⟨.Integer, some (.int32 2)⟩, ⟨.Integer, none⟩])
      ⟨.Integer, none⟩ ⟨.Integer, some (.int32 2)⟩ [] rfl).1
      (by decide) (by decide) (by decide) (by decide) (by decide)).1,
   ((arith_integral_typing false (operand_state 2 [⟨.Boolean, none⟩, ⟨.Integer, none⟩])
      ⟨.Integer, none⟩ ⟨.Boolean, none⟩ [] rfl).2.2 (by decide) (by decide) "+").1⟩

/-- C7. The claim that `+` applied to two operands of type `Integer` is accepted fails on the
code when all four registers are in use: the check `gpr_index > gprs.size() - 1` of `term_prime`
raises "expression is too complicated" although the addition needs no further register.  The
program `program P; var a: integer; begin a := a + (a + (a + a)) end.` reaches that state at
its innermost sum and is rejected with that error. -/
theorem nested_integer_sum_rejected :
    term_prime_arith "+" false (operand_state 4 [⟨.Integer, none⟩, ⟨.Integer, none⟩]) =
      .error (.runtime_error "Bad code: expression is too complicated") ∧
    Parser.parse 100 (program_tokens "a" "integer" (nested_sum "a")) =
      .error (.runtime_error "Bad code: expression is too complicated") := by
  constructor <;> decide!

/-! ## C8: the typing of `=` -/

/-- C8 (as amended). The operator `=` is rejected, with the error "equivalence comparison
cannot be performed on reals", exactly when at least one operand has type `Real`; for every
other pair of operand types, equal or not, it is accepted with result type `Boolean` (when two
to four registers are in use, so that the `CMP` line names two registers). -/
theorem equality_typing (stream : Bool) (p : Parser) (lhs rhs : VarValue)
    (rest : List VarValue) (hv : p.values = rhs :: lhs :: rest) :
    (lhs.type = .Real ∨ rhs.type = .Real →
      s_expression_prime_compare "=" stream p = .error (.runtime_error
        "Bad code: equivalence comparison cannot be performed on reals")) ∧
    (lhs.type ≠ .Real → rhs.type ≠ .Real → 2 ≤ p.gpr_index → p.gpr_index ≤ 4 →
      ∃ p', s_expression_prime_compare "=" stream p = .ok p' ∧
        p'.values = ⟨.Boolean, none⟩ :: rest) := by
  constructor
  · intro hreal
    have hc : ("=" == "<" || "=" == ">") = false := by decide
    simp [s_expression_prime_compare, Parser.pop, hv, hreal, hc, Except.ok_bind,
      Except.error_bind, Except.throw_eq]
  · intro hl hr h2 h4
    obtain ⟨r1, hr1⟩ := gprs_at_pred p.gpr_index (by omega) (by omega)
    obtain ⟨r2, hr2⟩ := gprs_at_pred2 p.gpr_index (by omega) (by omega)
    have hc : ("=" == "<" || "=" == ">") = false := by decide
    simp [s_expression_prime_compare, Parser.pop, hv, hl, hr, hc, Except.ok_bind,
      Except.pure_eq, Parser.push, hr1, hr2, Parser.emit_values, Parser.gpr_sub_values]

theorem equality_typing_witness :
    s_expression_prime_compare "=" false
        (operand_state 2 [⟨.Real, none⟩, ⟨.Real, none⟩]) = .error (.runtime_error
      "Bad code: equivalence comparison cannot be performed on reals") ∧
    (∃ p', s_expression_prime_compare "=" false
        (operand_state 2 [⟨.Character, none⟩, ⟨.Character, none⟩]) = .ok p' ∧
      p'.values = [⟨.Boolean, none⟩]) :=
  ⟨(equality_typing false (operand_state 2 [⟨.Real, none⟩, ⟨.Real, none⟩])
      ⟨.Real, none⟩ ⟨.Real, none⟩ [] rfl).1 (Or.inl rfl),
   (equality_typing false (operand_state 2 [⟨.Character, none⟩, ⟨.Character, none⟩])
      ⟨.Character, none⟩ ⟨.Character, none⟩ [] rfl).2
      (by decide) (by decide) (by decide) (by decide)⟩

/-- C8, counterexample. The comparison `=` of an `Integer` with a `Boolean` raises no type
error: it yields a `Boolean` and the line `CMP EAX, EBX`, and the program
`program P; var x: integer; b: boolean; begin if x = b then x := 0 end.` is compiled. -/
theorem equality_counterexample :
    s_expression_prime_compare "=" false
        (operand_state 2 [⟨.Boolean, none⟩, ⟨.Integer, none⟩]) =
      .ok ((operand_state 0 [⟨.Boolean, none⟩]).emit false "CMP EAX, EBX") ∧
    (Parser.parse 100 mixed_equality_tokens).map (fun p => p.asm_output) =
      .ok ["char data_segment[65536] = \x7b0\x7d;", "int main() \x7b", "_asm \x7b", "PUSHAD",
        "LEA EBP, data_segment", "JMP kmain", "kmain:", "MOV EAX, [EBP + 0]",
        "MOV EBX, [EBP + 4]", "CMP EAX, EBX", "JE if0", "JMP else0", "if0:", "mov EAX, 0",
        "MOV [EBP + 0], EAX", "JMP endif0", "else0:", "JMP endif0", "endif0:", "POPAD", "\x7d",
        "return 0;", "\x7d"] := by
  constructor <;> decide!

/-! ## C9: the typing of `+ - * /` on real operands -/

theorem integral_pair_of_real (lhs rhs : VarValue) (h : lhs.type = .Real) :
    integral_pair lhs rhs = false := by
  simp [integral_pair, h]

theorem term_prime_arith_real (tok : String) (htok : tok = "+" ∨ tok = "-")
    (stream : Bool) (p : Parser) (lhs rhs : VarValue)
    (rest : List VarValue) (hv : p.values = rhs :: lhs :: rest)
    (hl : lhs.type = .Real) (hr : rhs.type = .Real)
    (hlit : ¬ (lhs.literal.isSome = true ∧ rhs.literal.isSome = true))
    (h2 : 2 ≤ p.gpr_index) (h3 : p.gpr_index ≤ 3) :
    ∃ p', term_prime_arith tok stream p = .ok p' ∧ p'.values = ⟨.Real, none⟩ :: rest := by
  obtain ⟨r1, hr1⟩ := gprs_at_pred p.gpr_index (by omega) (by omega)
  obtain ⟨r2, hr2⟩ := gprs_at_pred2 p.gpr_index (by omega) (by omega)
  have hex : ¬ (3 < p.gpr_index) := Nat.not_lt.2 h3
  have hp := integral_pair_of_real lhs rhs hl
  rcases htok with rfl | rfl <;> cases stream <;>
    simp [term_prime_arith, Parser.pop, hv, hp, hl, hr, hlit, Parser.gprs_exhausted, gprs,
      Parser.emit_binary, hr1, hr2, hex, Except.ok_bind, Except.error_bind, Except.map_ok,
      Except.pure_eq, Parser.push_values, Parser.emit_values, Parser.gpr_sub_values]

theorem fact_prime_arith_real (tok : String) (htok : tok = "*" ∨ tok = "/")
    (stream : Bool) (p : Parser) (lhs rhs : VarValue)
    (rest : List VarValue) (hv : p.values = rhs :: lhs :: rest)
    (hl : lhs.type = .Real) (hr : rhs.type = .Real)
    (hlit : ¬ (lhs.literal.isSome = true ∧ rhs.literal.isSome = true))
    (h2 : 2 ≤ p.gpr_index) (h3 : p.gpr_index ≤ 3) :
    ∃ p', fact_prime_arith tok stream p = .ok p' ∧ p'.values = ⟨.Real, none⟩ :: rest := by
  obtain ⟨r1, hr1⟩ := gprs_at_pred p.gpr_index (by omega) (by omega)
  obtain ⟨r2, hr2⟩ := gprs_at_pred2 p.gpr_index (by omega) (by omega)
  obtain ⟨q, hq1, hq2⟩ := Parser.emit_divide_values stream { p with values := rest }
    h2 (by simp; omega)
  have hex : ¬ (3 < p.gpr_index) := Nat.not_lt.2 h3
  have hp := integral_pair_of_real lhs rhs hl
  rcases htok with rfl | rfl <;>
    simp [fact_prime_arith, Parser.pop, hv, hp, hl, hr, hlit, Parser.gprs_exhausted, gprs,
      Parser.emit_binary, hr1, hr2, hex, Except.ok_bind, Except.error_bind, Except.map_ok,
      Except.pure_eq, Parser.push_values, Parser.emit_values, Parser.gpr_sub_values, hq1, hq2]

theorem fact_prime_arith_real_literals (stream : Bool) (p : Parser) (lhs rhs : VarValue)
    (rest : List VarValue) (hv : p.values = rhs :: lhs :: rest)
    (hl : lhs.type = .Real) (hr : rhs.type = .Real) (a b : FloatVal)
    (hla : lhs.literal = some (.float a)) (hrb : rhs.literal = some (.float b)) :
    fact_prime_arith "*" stream p =
      .ok ({ p with values := rest }.push ⟨.Real, some (.float (.mul a b))⟩) ∧
    fact_prime_arith "/" stream p =
      .ok ({ p with values := rest }.push ⟨.Real, some (.float (.div a b))⟩) := by
  have hp := integral_pair_of_real lhs rhs hl
  constructor <;>
    simp [fact_prime_arith, Parser.pop, hv, hp, hl, hr, hla, hrb, Except.ok_bind,
      Except.pure_eq, VarValue.get_float]

theorem arith_real_exhausted (tok : String) (stream : Bool) (p : Parser) (lhs rhs : VarValue)
    (rest : List VarValue) (hv : p.values = rhs :: lhs :: rest)
    (hl : lhs.type = .Real) (hr : rhs.type = .Real)
    (hlit : ¬ (lhs.literal.isSome = true ∧ rhs.literal.isSome = true))
    (h4 : 4 ≤ p.gpr_index) :
    term_prime_arith tok stream p =
      .error (.runtime_error "Bad code: expression is too complicated") ∧
    fact_prime_arith tok stream p =
      .error (.runtime_error "Bad code: expression is too complicated") := by
  have hex : 3 < p.gpr_index := by omega
  have hp := integral_pair_of_real lhs rhs hl
  constructor <;>
    simp [term_prime_arith, fact_prime_arith, Parser.pop, hv, hp, hl, hr, hlit,
      Parser.gprs_exhausted, gprs, hex, Except.ok_bind, Except.error_bind, Except.throw_eq]

/-- For `+` and `-` of two `Real` operands that both carry float literals, `term_prime` reads
the right literal with `std::get<std::int32_t>` and ends with `std::bad_variant_access`. -/
theorem term_prime_arith_real_literals (tok : String) (htok : tok = "+" ∨ tok = "-")
    (stream : Bool) (p : Parser) (a b : FloatVal) (rest : List VarValue)
    (hv : p.values = ⟨.Real, some (.float b)⟩ :: ⟨.Real, some (.float a)⟩ :: rest) :
    term_prime_arith tok stream p = .error .bad_variant_access := by
  rcases htok with rfl | rfl <;>
    simp [term_prime_arith, Parser.pop, hv, integral_pair, Except.ok_bind, Except.error_bind,
      VarValue.get_float, VarValue.get_int32]

/-- The typing of `+ - * /` on real operands, as far as the code implements it.  Let the two
operands on top of the value stack have type `Real`.  When they do not both carry literals and
two or three registers are in use, each of `+ - * /` is accepted and pushes a value of type
`Real` without a literal; `*` and `/` of two float literals are accepted and push the folded
`Real` literal.  When the operands do not both carry literals and all four registers are in
use, each operator raises "expression is too complicated". -/
theorem arith_real_typing (stream : Bool) (p : Parser) (lhs rhs : VarValue)
    (rest : List VarValue) (hv : p.values = rhs :: lhs :: rest)
    (hl : lhs.type = .Real) (hr : rhs.type = .Real) :
    (¬ (lhs.literal.isSome = true ∧ rhs.literal.isSome = true) →
      2 ≤ p.gpr_index → p.gpr_index ≤ 3 →
      (∃ p', term_prime_arith "+" stream p = .ok p' ∧ p'.values = ⟨.Real, none⟩ :: rest) ∧
      (∃ p', term_prime_arith "-" stream p = .ok p' ∧ p'.values = ⟨.Real, none⟩ :: rest) ∧
      (∃ p', fact_prime_arith "*" stream p = .ok p' ∧ p'.values = ⟨.Real, none⟩ :: rest) ∧
      (∃ p', fact_prime_arith "/" stream p = .ok p' ∧ p'.values = ⟨.Real, none⟩ :: rest)) ∧
    (∀ a b, lhs.literal = some (.float a) → rhs.literal = some (.float b) →
      fact_prime_arith "*" stream p =
        .ok ({ p with values := rest }.push ⟨.Real, some (.float (.mul a b))⟩) ∧
      fact_prime_arith "/" stream p =
        .ok ({ p with values := rest }.push ⟨.Real, some (.float (.div a b))⟩)) ∧
    (¬ (lhs.literal.isSome = true ∧ rhs.literal.isSome = true) → 4 ≤ p.gpr_index → ∀ tok,
      term_prime_arith tok stream p =
        .error (.runtime_error "Bad code: expression is too complicated") ∧
      fact_prime_arith tok stream p =
        .error (.runtime_error "Bad code: expression is too complicated")) := by
  refine ⟨?_, ?_, ?_⟩
  · intro hlit h2 h3
    exact ⟨term_prime_arith_real "+" (Or.inl rfl) stream p lhs rhs rest hv hl hr hlit h2 h3,
      term_prime_arith_real "-" (Or.inr rfl) stream p lhs rhs rest hv hl hr hlit h2 h3,
      fact_prime_arith_real "*" (Or.inl rfl) stream p lhs rhs rest hv hl hr hlit h2 h3,
      fact_prime_arith_real "/" (Or.inr rfl) stream p lhs rhs rest hv hl hr hlit h2 h3⟩
  · intro a b hla hrb
    exact fact_prime_arith_real_literals stream p lhs rhs rest hv hl hr a b hla hrb
  · intro hlit h4 tok
    exact arith_real_exhausted tok stream p lhs rhs rest hv hl hr hlit h4

theorem arith_real_typing_witness :
    (∃ p', term_prime_arith "-" true
        (operand_state 2 [⟨.Real, some (.float (.strtof "2.5"))⟩, ⟨.Real, none⟩]) = .ok p' ∧
      p'.values = [⟨.Real, none⟩]) ∧
    fact_prime_arith "*" false
        (operand_state 2 [⟨.Real, some (.float (.strtof "2.5"))⟩,
          ⟨.Real, some (.float (.strtof "1.5"))⟩]) =
      .ok (operand_state 2 [⟨.Real, some (.float (.mul (.strtof "1.5") (.strtof "2.5")))⟩]) :=
  ⟨((arith_real_typing true
      (operand_state 2 [⟨.Real, some (.float (.strtof "2.5"))⟩, ⟨.Real, none⟩])
      ⟨.Real, none⟩ ⟨.Real, some (.float (.strtof "2.5"))⟩ [] rfl rfl rfl).1
      (by decide) (by decide) (by decide)).2.1,
   ((arith_real_typing false
      (operand_state 2 [⟨.Real, some (.float (.strtof "2.5"))⟩,
        ⟨.Real, some (.float (.strtof "1.5"))⟩])
      ⟨.Real, some (.float (.strtof "1.5"))⟩ ⟨.Real, some (.float (.strtof "2.5"))⟩ []
      rfl rfl rfl).2.1 _ _ rfl rfl).1⟩

/-- With all four registers in use, `+` applied to two operands of type `Real` that carry no
literal raises "expression is too complicated"; the program
`program P; var x: real; begin x := x + (x + (x + x)) end.` reaches that state. -/
theorem nested_real_sum_rejected :
    term_prime_arith "+" false (operand_state 4 [⟨.Real, none⟩, ⟨.Real, none⟩]) =
      .error (.runtime_error "Bad code: expression is too complicated") ∧
    Parser.parse 100 (program_tokens "x" "real" (nested_sum "x")) =
      .error (.runtime_error "Bad code: expression is too complicated") := by
  constructor <;> decide!

/-- C9. The claim that `+` applied to two operands of type `Real` is accepted whether or not
they carry literals fails on the code for two literals: the run of
`program P; var x: real; begin x := 1.5 + 2.5 end.` ends with `std::bad_variant_access`,
because `term_prime` reads the right literal with `std::get<std::int32_t>`; the product of the
same two literals, folded by `fact_prime` with `std::get<float>`, is compiled. -/
theorem real_literal_sum_bad_variant_access :
    Parser.parse 100 (program_tokens "x" "real"
      [.Word "x", .Special ":=", .Real "1.5", .Special "+", .Real "2.5"]) =
      .error .bad_variant_access ∧
    (Parser.parse 100 (program_tokens "x" "real"
      [.Word "x", .Special ":=", .Real "1.5", .Special "*", .Real "2.5"])).toBool = true := by
  constructor <;> decide!

/-! ## C10: the type check and the store of an assignment -/

/-- When the value on top of the stack and the value below it differ in type, both stores of
`statement` raise "type mismatch" (nothing is written). -/
theorem statement_store_mismatch (v : VarData) (p : Parser) (lhs rhs : VarValue)
    (rest : List VarValue) (hv : p.values = rhs :: lhs :: rest) (hne : rhs.type ≠ lhs.type) :
    statement_store v p = .error (.runtime_error "Bad code: type mismatch") ∧
    statement_store_outer v p = .error (.runtime_error "Bad code: type mismatch") := by
  constructor <;>
    simp [statement_store, statement_store_outer, Parser.pop, hv, hne, Except.ok_bind,
      Except.error_bind, Except.throw_eq]

/-- When the two types agree and a register holds the value (`1 ≤ gpr_index ≤ 4`), both stores
of `statement` succeed, append exactly the store lines of the variable to the listing, release
one register and leave the rest of the value stack. -/
theorem statement_store_equal (v : VarData) (p : Parser) (lhs rhs : VarValue)
    (rest : List VarValue) (hv : p.values = rhs :: lhs :: rest) (heq : rhs.type = lhs.type)
    (h1 : 1 ≤ p.gpr_index) (h4 : p.gpr_index ≤ 4) :
    ∃ r, gprs_at ((p.gpr_index : Int) - 1) = .ok r ∧
      statement_store v p = .ok
        { p with values := rest, gpr_index := p.gpr_index - 1,
                 asm_output := p.asm_output ++ store_lines p.symtab.cur.name v r } ∧
      statement_store_outer v p = .ok
        { p with values := rest, gpr_index := p.gpr_index - 1,
                 asm_output := p.asm_output ++ ["MOV [EBP + " ++ toString v.offset ++ "], " ++ r] } := by
  obtain ⟨r, hr⟩ := gprs_at_pred p.gpr_index h1 h4
  have hg : (p.gpr_index + 255) % 256 = p.gpr_index - 1 := by omega
  refine ⟨r, hr, ?_, ?_⟩
  · by_cases hn : p.symtab.cur.name.isEmpty = true <;> cases hip : v.is_param <;>
      cases hpr : v.pass_by_ref <;>
      simp [statement_store, Parser.pop, hv, heq, hr, Except.ok_bind, Except.pure_eq,
        Parser.emit, Parser.gpr_sub, store_lines, hn, hip, hpr, hg]
  · simp [statement_store_outer, Parser.pop, hv, heq, hr, Except.ok_bind, Except.pure_eq,
      Parser.emit, Parser.gpr_sub, hg]

/-- C10. The assignments `x := 1` and `x := 1=2` to a variable `x` declared `real` are
rejected with "type mismatch".  The assignment `b := 1 < 2` to a variable `b` declared
`boolean` has equal types on both sides, yet no store is written: the comparison has released
both registers, and the store indexes `gprs` with `gpr_index - 1 = -1`, which is undefined
behaviour. -/
theorem assignment_type_check_runs :
    Parser.parse 100 (program_tokens "x" "real" [.Word "x", .Special ":=", .Integer "1"]) =
      .error (.runtime_error "Bad code: type mismatch") ∧
    Parser.parse 100 (program_tokens "x" "real"
      [.Word "x", .Special ":=", .Integer "1", .Special "=", .Integer "2"]) =
      .error (.runtime_error "Bad code: type mismatch") ∧
    Parser.parse 100 (program_tokens "b" "boolean"
      [.Word "b", .Special ":=", .Integer "1", .Special "<", .Integer "2"]) =
      .error (.undefined "gprs index out of range") ∧
    statement_store boolean_global
      (operand_state 0 [⟨.Boolean, none⟩, ⟨.Boolean, none⟩]) =
      .error (.undefined "gprs index out of range") := by
  refine ⟨?_, ?_, ?_, ?_⟩ <;> decide!

/-! ## The operator steps inside the recursive functions

The theorems of this section show where the straight-line steps studied below sit in the
parser functions. -/

theorem term_prime_step (fuel : Nat) (stream : Bool) (p : Parser) (tok : String)
    (h : p.token = some (.Special tok)) (htok : tok = "+" ∨ tok = "-") :
    term_prime (fuel + 1) stream p =
      (term_r fuel stream p.advance >>= fun p1 =>
        term_prime_arith tok stream p1 >>= fun p2 => term_prime fuel stream p2) := by
  rcases htok with rfl | rfl <;> simp [term_prime, Parser.tok, h, Except.ok_bind]

theorem fact_prime_step (fuel : Nat) (stream : Bool) (p : Parser) (tok : String)
    (h : p.token = some (.Special tok)) (htok : tok = "*" ∨ tok = "/") :
    fact_prime (fuel + 1) stream p =
      (fact_r fuel stream p.advance >>= fun p1 =>
        fact_prime_arith tok stream p1 >>= fun p2 => fact_prime fuel stream p2) := by
  rcases htok with rfl | rfl <;> simp [fact_prime, Parser.tok, h, Except.ok_bind]

theorem s_expression_prime_step (fuel : Nat) (stream : Bool) (p : Parser)
    (h : p.token = some (.Special "=")) :
    s_expression_prime (fuel + 1) stream p =
      (s_expression_r fuel stream { p with last_comparison := '=' }.advance >>= fun p1 =>
        s_expression_prime_compare "=" stream p1 >>= fun p2 =>
          s_expression_prime fuel stream p2) := by
  simp [s_expression_prime, Parser.tok, h, Except.ok_bind]

theorem statement_assign_local (fuel : Nat) (p : Parser) (name : String) (v : VarData)
    (h : p.token = some (.Word name)) (hv : get_var_info p.symtab name = some v) :
    statement (fuel + 1) p =
      (statement_assign_begin v.type p >>= fun p1 =>
        expression fuel false p1 >>= fun p2 => statement_store v p2) := by
  simp [statement, Parser.tok, h, hv, Except.ok_bind]

theorem statement_assign_outer (fuel : Nat) (p : Parser) (name : String) (v : VarData)
    (h : p.token = some (.Word name)) (hv : get_var_info p.symtab name = none)
    (hf : find p.symtab name .Variable = some (.var v)) :
    statement (fuel + 1) p =
      (statement_assign_begin v.type p >>= fun p1 =>
        expression fuel false p1 >>= fun p2 => statement_store_outer v p2) := by
  simp [statement, Parser.tok, h, hv, hf, Except.ok_bind, Entry.get_var, Except.pure_eq]

/-- The assignment to a variable of the current scope, once the right-hand side has been
parsed and has left its value on top of the type of the target: a difference of the two types
ends the parse with "type mismatch"; equal types, with a register holding the value, append
exactly the store lines of the variable to the listing and release the register. -/
theorem statement_assignment_local (fuel : Nat) (p p1 p2 : Parser) (name : String) (v : VarData)
    (rhs lhs : VarValue) (rest : List VarValue)
    (h : p.token = some (.Word name)) (hv : get_var_info p.symtab name = some v)
    (hb : statement_assign_begin v.type p = .ok p1)
    (he : expression fuel false p1 = .ok p2)
    (hvals : p2.values = rhs :: lhs :: rest) :
    (rhs.type ≠ lhs.type →
      statement (fuel + 1) p = .error (.runtime_error "Bad code: type mismatch")) ∧
    (rhs.type = lhs.type → 1 ≤ p2.gpr_index → p2.gpr_index ≤ 4 →
      ∃ r, gprs_at ((p2.gpr_index : Int) - 1) = .ok r ∧
        statement (fuel + 1) p = .ok
          { p2 with values := rest, gpr_index := p2.gpr_index - 1,
                    asm_output := p2.asm_output ++ store_lines p2.symtab.cur.name v r }) := by
  rw [statement_assign_local fuel p name v h hv, hb, Except.ok_bind, he, Except.ok_bind]
  constructor
  · intro hne
    exact (statement_store_mismatch v p2 lhs rhs rest hvals hne).1
  · intro heq h1 h4
    obtain ⟨r, hr, hs, _⟩ := statement_store_equal v p2 lhs rhs rest hvals heq h1 h4
    exact ⟨r, hr, hs⟩

/-! ## C11: folding of integer literals -/

/-- The integer branches of `term_prime` and `fact_prime` on two integer literals `a` (left)
and `b` (right): `+` and `-` replace the two values by the literal of the wrapped result and
change nothing else, so that no line is written; `*` and `/` (divisor not zero, quotient
representable) do the same when at most three registers are in use, and are rejected with
"exceeded available registers" when all four are. -/
theorem integer_literal_folding (stream : Bool) (p : Parser) (a b : Int)
    (rest : List VarValue) (hv : p.values = int_literal b :: int_literal a :: rest) :
    term_prime_arith "+" stream p =
      .ok { p with values := int_literal (wrap32 (a + b)) :: rest } ∧
    term_prime_arith "-" stream p =
      .ok { p with values := int_literal (wrap32 (a - b)) :: rest } ∧
    (p.gpr_index ≤ 3 → fact_prime_arith "*" stream p =
      .ok { p with values := int_literal (wrap32 (a * b)) :: rest }) ∧
    (p.gpr_index ≤ 3 → b ≠ 0 → ¬ (a = -(2 ^ 31 : Int) ∧ b = -1) →
      fact_prime_arith "/" stream p =
        .ok { p with values := int_literal (Int.tdiv a b) :: rest }) ∧
    (4 ≤ p.gpr_index → ∀ tok, fact_prime_arith tok stream p =
      .error (.runtime_error "Bad code: exceeded available registers")) := by
  refine ⟨?_, ?_, ?_, ?_, ?_⟩
  · simp [term_prime_arith, Parser.pop, hv, int_literal, integral_pair, VarValue.get_int32,
      Except.ok_bind, Except.pure_eq, Parser.push]
  · simp [term_prime_arith, Parser.pop, hv, int_literal, integral_pair, VarValue.get_int32,
      Except.ok_bind, Except.pure_eq, Parser.push]
  · intro h3
    have hex : ¬ (3 < p.gpr_index) := Nat.not_lt.2 h3
    simp [fact_prime_arith, Parser.pop, hv, int_literal, integral_pair, VarValue.get_int32,
      Except.ok_bind, Except.pure_eq, Parser.push, Parser.gprs_exhausted, gprs, hex]
  · intro h3 hb hq
    have hex : ¬ (3 < p.gpr_index) := Nat.not_lt.2 h3
    have hq2 : ¬ (a = -2147483648 ∧ b = -1) := by simpa using hq
    simp [fact_prime_arith, Parser.pop, hv, int_literal, integral_pair, VarValue.get_int32,
      Except.ok_bind, Except.pure_eq, Parser.push, Parser.gprs_exhausted, gprs, hex,
      div_int32, hb, hq2]
  · intro h4 tok
    have hex : 3 < p.gpr_index := h4
    simp [fact_prime_arith, Parser.pop, hv, int_literal, integral_pair,
      Except.ok_bind, Except.error_bind, Except.throw_eq, Parser.gprs_exhausted, gprs, hex]

/-- C11. The claim that an operator applied to two integer literals pushes the folded literal
fails on the code for `*` and `/` when all four registers are in use: `fact_prime` tests
`gpr_index > gprs.size() - 1` before it looks at the literals and raises "exceeded available
registers".  Folding does not release the registers of the folded operands, so the program
`program P; var x: integer; begin x := 1 + 2 + 3 * 4 end.` reaches that state at `3 * 4` and is
rejected. -/
theorem literal_product_rejected :
    fact_prime_arith "*" false (operand_state 4 [int_literal 4, int_literal 3]) =
      .error (.runtime_error "Bad code: exceeded available registers") ∧
    Parser.parse 100 (program_tokens "x" "integer" literal_sum_product) =
      .error (.runtime_error "Bad code: exceeded available registers") := by
  constructor <;> decide!

/-! ## C12: the listing of an assignment of a folded sum -/

/-- C12. The listing of `program P; var x: integer; begin x := 1+2 end.` has no `ADD`, but it
loads both literals (`mov EAX, 1`, `mov EBX, 2`), has no load of the folded literal 3, and its
one store takes its value from `EBX`, the register that holds 2; one register stays in use
after the statement. -/
theorem literal_sum_listing :
    listing_of (Parser.parse 100 (program_tokens "x" "integer" literal_sum)) =
      .ok (listing ["kmain:", "mov EAX, 1", "mov EBX, 2", "MOV [EBP + 0], EBX"]) ∧
    (Parser.parse 100 (program_tokens "x" "integer" literal_sum)).map (fun p => p.gpr_index) =
      .ok 1 := by
  constructor <;> decide!

/-! ## C13: register exhaustion -/

/-- The load of an operand when all four registers are in use: a literal is rejected with
"expression is too complicated", a variable with "exceeded available registers". -/
theorem operand_load_exhausted (stream : Bool) (p : Parser) (h4 : 4 ≤ p.gpr_index)
    (text : String) (v : VarData) :
    (∀ out, from_chars text = some out → fact_r_integer text stream p =
      .error (.runtime_error "Bad code: expression is too complicated")) ∧
    (strtof_converts text = true → fact_r_real text stream p =
      .error (.runtime_error "Bad code: expression is too complicated")) ∧
    fact_r_local v stream p =
      .error (.runtime_error "Bad code: exceeded available registers") ∧
    fact_r_outer (.var v) stream p =
      .error (.runtime_error "Bad code: exceeded available registers") := by
  have hex : 3 < p.gpr_index := h4
  refine ⟨?_, ?_, ?_, ?_⟩
  · intro out hout
    simp [fact_r_integer, hout, Parser.gprs_exhausted, gprs, Parser.push, hex, Except.throw_eq,
      Except.error_bind]
  · intro ht
    simp [fact_r_real, ht, Parser.gprs_exhausted, gprs, Parser.push, hex, Except.throw_eq,
      Except.error_bind]
  · simp [fact_r_local, Parser.gprs_exhausted, gprs, hex, Except.throw_eq, Except.error_bind]
  · simp [fact_r_outer, Parser.gprs_exhausted, gprs, Parser.push, Parser.advance, hex,
      Except.throw_eq, Except.error_bind]

/-- C13. The claim that an expression which never needs more than four live registers compiles
without the register-exhaustion error fails on the code: the program
`program P; var a, b, c, d: integer; begin a := a + (b + (c + d)) end.` loads its four
variables into the four registers and is rejected with "expression is too complicated" at the
innermost `+`, an operator that allocates no register. -/
theorem four_variable_sum_rejected :
    Parser.parse 100 four_variable_sum =
      .error (.runtime_error "Bad code: expression is too complicated") := by
  decide!

/-! ## C17, C18: the frame lines of subprograms -/

/-- The lines of `block_prologue` and of `procedure_epilogue` for one scope: when the scope
has a name, the prologue is `PUSH EDI`, `MOV EDI, ESP`, `SUB ESP, k` (only for `k ≠ 0`),
`PUSHAD`, and the epilogue is `POPAD`, `ADD ESP, k` (only for `k ≠ 0`), `POP EDI` and `RET n`
(`RET` for `n = 0`), where `k` and `n` are the sums of the sizes of the locals and of the
parameters of the current scope. -/
theorem frame_lines (p : Parser) (h : p.symtab.cur.name.isEmpty = false) :
    (block_prologue p).asm_output = p.asm_output ++
      (["PUSH EDI", "MOV EDI, ESP"] ++
        (if accumulate_int (var_sizes false p.symtab.cur.table) != 0 then
          ["SUB ESP, " ++ toString (accumulate_int (var_sizes false p.symtab.cur.table))]
         else []) ++ ["PUSHAD"]) ∧
    (procedure_epilogue p).asm_output = p.asm_output ++
      (["POPAD"] ++
        (if accumulate_int (var_sizes false p.symtab.cur.table) != 0 then
          ["ADD ESP, " ++ toString (accumulate_int (var_sizes false p.symtab.cur.table))]
         else []) ++ ["POP EDI"] ++
        (if accumulate_int (var_sizes true p.symtab.cur.table) != 0 then
          ["RET " ++ toString (accumulate_int (var_sizes true p.symtab.cur.table))]
         else ["RET"])) := by
  constructor
  · by_cases hk : accumulate_int (var_sizes false p.symtab.cur.table) = 0 <;>
      simp [block_prologue, h, hk, Parser.emit]
  · by_cases hk : accumulate_int (var_sizes false p.symtab.cur.table) = 0 <;>
      by_cases hn : accumulate_int (var_sizes true p.symtab.cur.table) = 0 <;>
      simp [procedure_epilogue, hk, hn, Parser.emit, Parser.advance]

/-- C17. The claim that the prologue of every subprogram is matched by an epilogue fails on
the code for functions: the function branch of `pfv` writes no epilogue.  In the listing of
`program P; function f(): integer; begin end; begin end.` the prologue `PUSH EDI`,
`MOV EDI, ESP`, `SUB ESP, 4`, `PUSHAD` of `f` is followed at once by `kmain:`; there is no
`POP EDI`, no `ADD ESP, 4`, and the only `POPAD` is the one that ends the program.  The
procedure `procedure q(a: integer); var y: integer; begin end;` gets the matching lines. -/
theorem function_frame_unmatched :
    listing_of (Parser.parse 100 (program_with function_f [])) =
      .ok (listing ["PUSH EDI", "MOV EDI, ESP", "SUB ESP, 4", "PUSHAD", "kmain:"]) ∧
    listing_of (Parser.parse 100 (program_with procedure_q [])) =
      .ok (listing ["q:", "PUSH EDI", "MOV EDI, ESP", "SUB ESP, 4", "PUSHAD", "POPAD",
        "ADD ESP, 4", "POP EDI", "RET 4", "kmain:"]) := by
  constructor <;> decide!

/-- C18. The claim that every accepted subprogram declaration writes the entry label and,
after the body, the epilogue ending in `RET` fails on the code for functions: the function
branch of `pfv` writes neither.  The listing of
`program P; function g(a: integer): integer; begin end; begin end.` has no line `g:`, no
`POPAD`, `ADD ESP, 4`, `POP EDI` for `g` and no `RET 4`; the procedure
`procedure s(); begin end;` gets its label `s:`, the epilogue and the plain `RET`. -/
theorem function_declaration_listing :
    listing_of (Parser.parse 100 (program_with function_g [])) =
      .ok (listing ["PUSH EDI", "MOV EDI, ESP", "SUB ESP, 4", "PUSHAD", "kmain:"]) ∧
    listing_of (Parser.parse 100 (program_with (procedure_s []) [])) =
      .ok (listing ["s:", "PUSH EDI", "MOV EDI, ESP", "PUSHAD", "POPAD", "POP EDI", "RET",
        "kmain:"]) := by
  constructor <;> decide!

/-! ## C19: the memory operand of a variable -/

/-- A read of a variable `v` of the current scope, with a register free, appends exactly the
lines `load_lines` to the stream in use and allocates the register. -/
theorem fact_r_local_lines (v : VarData) (p : Parser) (h3 : p.gpr_index ≤ 3) :
    ∃ r, gprs[p.gpr_index]? = some r ∧ ∃ p', fact_r_local v false p = .ok p' ∧
      p'.asm_output = p.asm_output ++ load_lines p.symtab.cur.name v r ∧
      p'.values = ⟨v.type, none⟩ :: p.values ∧ p'.gpr_index = p.gpr_index + 1 := by
  have hex : ¬ (3 < p.gpr_index) := Nat.not_lt.2 h3
  have hr : ∃ r, gprs[p.gpr_index]? = some r ∧ gprs_at (p.gpr_index : Int) = .ok r := by
    generalize p.gpr_index = g at h3
    interval_cases g <;> simp [gprs_at, gprs]
  obtain ⟨r, hr1, hr2⟩ := hr
  have hg : (p.gpr_index + 1) % 256 = p.gpr_index + 1 := by omega
  refine ⟨r, hr1, ?_⟩
  cases hn : p.symtab.cur.name.isEmpty <;> cases hp : v.is_param <;>
    cases hb : v.pass_by_ref <;>
    simp [fact_r_local, Parser.gprs_exhausted, gprs, hex, hr2, hn, hp, hb, load_lines,
      Except.ok_bind, Except.pure_eq, Parser.emit, Parser.gpr_inc, Parser.push,
      Parser.advance, hg]

/-- C19. The claim that a read and a write of the same variable use the same operand fails on
the code for a by-reference parameter: the read loads the pointer from `[EDI - off]`, the write
from `[EDI + off]`.  The body `a := a` of `procedure r(var a: integer)` is compiled to
`MOV ESI, [EDI - 8]`, `MOV EAX, [ESI]`, `MOV ESI, [EDI + 8]`, `MOV [ESI], EAX`. -/
theorem reference_parameter_operands :
    load_lines "r" reference_parameter "EAX" = ["MOV ESI, [EDI - 8]", "MOV EAX, [ESI]"] ∧
    store_lines "r" reference_parameter "EAX" = ["MOV ESI, [EDI + 8]", "MOV [ESI], EAX"] ∧
    listing_of (Parser.parse 100 (program_with procedure_r [])) =
      .ok (listing ["r:", "PUSH EDI", "MOV EDI, ESP", "PUSHAD", "MOV ESI, [EDI - 8]",
        "MOV EAX, [ESI]", "MOV ESI, [EDI + 8]", "MOV [ESI], EAX", "POPAD", "POP EDI", "RET 4",
        "kmain:"]) := by
  refine ⟨?_, ?_, ?_⟩ <;> decide!

/-! ## C20: the line `CALL <name>` -/

/-- The tail of a call statement: with the closing parenthesis as lookahead, the line
`CALL <name>` is written when `get_proc_info` returned the callee, and the behaviour is
undefined when it returned nothing. -/
theorem statement_call_end_cases (p : Parser) (h : p.token = some (.Special ")")) :
    (∀ info, statement_call_end (some info) p =
      .ok (p.emit false ("CALL " ++ info.name)).advance) ∧
    statement_call_end none p =
      .error (.undefined "dereference of an empty optional (proc_info)") := by
  constructor
  · intro info
    simp [statement_call_end, Parser.expect_special, Parser.at_special, Parser.tok, h,
      Except.ok_bind, Except.pure_eq]
  · simp [statement_call_end, Parser.expect_special, Parser.at_special, Parser.tok, h,
      Except.ok_bind, Except.pure_eq, Except.throw_eq]

/-- C20. The claim that every call statement writes `CALL <name>` fails on the code in three
of the four call branches, which read the name through the empty result of `get_proc_info`
(undefined behaviour): a procedure of an enclosing scope (the recursive call `s()` in the body
of `procedure s()`), a function of the current scope (`f(1)` and `g(1, 2)` at program level)
and a function of an enclosing scope (`f(1)` in the body of a procedure).  Only the call of a
procedure of the current scope writes its line, `CALL s`. -/
theorem call_line_runs :
    listing_of (Parser.parse 100 (program_with (procedure_s []) (call_tokens "s" []))) =
      .ok (listing ["s:", "PUSH EDI", "MOV EDI, ESP", "PUSHAD", "POPAD", "POP EDI", "RET",
        "kmain:", "CALL s"]) ∧
    Parser.parse 100 (program_with (procedure_s (call_tokens "s" [])) []) =
      .error (.undefined "dereference of an empty optional (proc_info)") ∧
    Parser.parse 100 (program_with function_f (call_tokens "f" [.Integer "1"])) =
      .error (.undefined "dereference of an empty optional (proc_info)") ∧
    Parser.parse 100 (program_with function_g
        (call_tokens "g" [.Integer "1", .Special ",", .Integer "2"])) =
      .error (.undefined "dereference of an empty optional (proc_info)") ∧
    Parser.parse 100
        (program_with (function_f ++ procedure_s (call_tokens "f" [.Integer "1"])) []) =
      .error (.undefined "dereference of an empty optional (proc_info)") := by
  refine ⟨?_, ?_, ?_, ?_, ?_⟩ <;> decide!

/-! ## The decimal text of a number -/

theorem toString_data (n : Nat) : (toString n).data = Nat.toDigits 10 n := rfl

theorem digitChar_isDigit (k : Nat) (h : k < 10) : (Nat.digitChar k).isDigit = true := by
  interval_cases k <;> decide

theorem digitChar_toNat (k : Nat) (h : k < 10) : (Nat.digitChar k).toNat - 48 = k := by
  interval_cases k <;> decide

theorem toDigitsCore_append (f n : Nat) (acc : List Char) :
    Nat.toDigitsCore 10 f n acc = Nat.toDigitsCore 10 f n [] ++ acc := by
  induction f generalizing n acc with
  | zero => simp [Nat.toDigitsCore]
  | succ f ih =>
    simp only [Nat.toDigitsCore]
    split
    · simp
    · rw [ih (n / 10) (_ :: acc), ih (n / 10) [_]]
      simp

theorem toDigitsCore_digits (f n : Nat) :
    ∀ c ∈ Nat.toDigitsCore 10 f n [], c.isDigit = true := by
  induction f generalizing n with
  | zero => simp [Nat.toDigitsCore]
  | succ f ih =>
    simp only [Nat.toDigitsCore]
    split
    · intro c hc
      simp at hc
      subst hc
      exact digitChar_isDigit _ (Nat.mod_lt _ (by decide))
    · rw [toDigitsCore_append]
      intro c hc
      simp at hc
      rcases hc with hc | hc
      · exact ih _ c hc
      · subst hc
        exact digitChar_isDigit _ (Nat.mod_lt _ (by decide))

theorem toDigitsCore_value (f n : Nat) (h : n < f) :
    digits_value (Nat.toDigitsCore 10 f n []) = n := by
  induction f generalizing n with
  | zero => omega
  | succ f ih =>
    simp only [Nat.toDigitsCore]
    split
    · simp [digits_value, digitChar_toNat _ (Nat.mod_lt n (by decide : 0 < 10))]
      omega
    · rw [toDigitsCore_append]
      have := ih (n / 10) (by omega)
      simp only [digits_value] at this
      simp [digits_value, List.foldl_append, this,
        digitChar_toNat _ (Nat.mod_lt n (by decide : 0 < 10))]
      omega

theorem toString_injective (n m : Nat) (h : (toString n).data = (toString m).data) : n = m := by
  rw [toString_data, toString_data] at h
  have h1 := toDigitsCore_value (n + 1) n (by omega)
  have h2 := toDigitsCore_value (m + 1) m (by omega)
  simp only [Nat.toDigits] at h
  rw [h] at h1
  omega

theorem toString_digits (n : Nat) : ∀ c ∈ (toString n).data, c.isDigit = true := by
  rw [toString_data]
  exact toDigitsCore_digits _ _

theorem toString_ne_nil (n : Nat) : (toString n).data ≠ [] := by
  rw [toString_data]
  simp only [Nat.toDigits, Nat.toDigitsCore]
  split
  · simp
  · rw [toDigitsCore_append]; simp

/-! ## Label lines -/

theorem toString_colon_ne_inner (n m : Nat) :
    (toString n).data ++ [':'] ≠ (toString m).data ++ ['i', 'n', 'n', 'e', 'r', ':'] := by
  intro h
  have h2 := congrArg (List.filter (fun c => !c.isDigit)) h
  have hn : (toString n).data.filter (fun c => !c.isDigit) = [] := by
    rw [List.filter_eq_nil_iff]; intro c hc; simp [toString_digits n c hc]
  have hm : (toString m).data.filter (fun c => !c.isDigit) = [] := by
    rw [List.filter_eq_nil_iff]; intro c hc; simp [toString_digits m c hc]
  rw [List.filter_append, List.filter_append, hn, hm] at h2
  revert h2
  decide

theorem label_injective (k k' : LabelKind) (n n' : Nat) (h : label k n = label k' n') :
    k = k' ∧ n = n' := by
  have hd := congrArg String.data h
  cases k <;> cases k' <;> simp [label] at hd <;>
    first
    | exact ⟨rfl, toString_injective _ _ hd⟩
    | exact absurd hd (toString_colon_ne_inner _ _)
    | exact absurd hd.symm (toString_colon_ne_inner _ _)

theorem label_eq_iff (k k' : LabelKind) (n n' : Nat) :
    label k n = label k' n' ↔ k = k' ∧ n = n' :=
  ⟨label_injective k k' n n', fun h => by rw [h.1, h.2]⟩

/-- A line whose first character is not `i`, `e` or `w` is plain. -/
theorem Plain.of_head (x : String)
    (h : ∀ c, x.data.head? = some c → c ≠ 'i' ∧ c ≠ 'e' ∧ c ≠ 'w') : Plain x := by
  intro k n hx
  subst hx
  cases k <;> simp [label] at h

/-! ## Runs that read no `if` and no `while` -/

set_option linter.unusedTactic false
set_option linter.unreachableTactic false

theorem Quiet.refl (p : Parser) : Quiet p p :=
  ⟨⟨[], by simp, by simp⟩, fun h => h, rfl, rfl, rfl, rfl, Nat.le_refl _, fun _ h => h⟩

theorem Quiet.trans {p q r : Parser} (h1 : Quiet p q) (h2 : Quiet q r) : Quiet p r := by
  obtain ⟨l1, ho1, hp1⟩ := h1.out
  obtain ⟨l2, ho2, hp2⟩ := h2.out
  refine ⟨⟨l1 ++ l2, by rw [ho2, ho1, List.append_assoc], ?_⟩, fun h => h2.stage (h1.stage h),
    h2.cstack.trans h1.cstack, h2.lstack.trans h1.lstack, h2.ifc.trans h1.ifc,
    h2.whc.trans h1.whc, Nat.le_trans h2.pend h1.pend, fun t h => h1.toks t (h2.toks t h)⟩
  intro x hx
  rcases List.mem_append.1 hx with hx | hx
  · exact hp1 x hx
  · exact hp2 x hx

/-- A state that agrees with `q` on the listing, the staging stream, the label stacks, the
counters and the tokens is reached by the same kind of run. -/
theorem Quiet.of_eq {p q q' : Parser} (h : Quiet p q) (h1 : q'.asm_output = q.asm_output)
    (h2 : q'.stage = q.stage) (h3 : q'.conditional_stack = q.conditional_stack)
    (h4 : q'.loop_stack = q.loop_stack) (h5 : q'.if_count = q.if_count)
    (h6 : q'.while_count = q.while_count) (h7 : q'.token = q.token)
    (h8 : q'.lexer = q.lexer) : Quiet p q' := by
  obtain ⟨l, ho, hp⟩ := h.out
  refine ⟨⟨l, by rw [h1, ho], hp⟩, fun hs => by rw [h2]; exact h.stage hs, by rw [h3, h.cstack],
    by rw [h4, h.lstack], by rw [h5, h.ifc], by rw [h6, h.whc], ?_, ?_⟩
  · have := h.pend
    simp only [Parser.pending, h7, h8] at *
    exact this
  · have := h.toks
    simp only [Parser.toks, h7, h8] at *
    exact this

theorem Quiet.emit {p q : Parser} (h : Quiet p q) (stream : Bool) (line : String)
    (hl : Plain line) : Quiet p (q.emit stream line) := by
  refine h.trans ?_
  cases stream
  · exact ⟨⟨[line], by simp [Parser.emit], by simpa using hl⟩, fun h => h, rfl, rfl, rfl, rfl,
      Nat.le_refl _, fun _ h => h⟩
  · refine ⟨⟨[], by simp [Parser.emit], by simp⟩, ?_, rfl, rfl, rfl, rfl,
      Nat.le_refl _, fun _ h => h⟩
    intro hs x hx
    simp [Parser.emit] at hx
    rcases hx with hx | hx
    · exact hs x hx
    · subst hx; exact hl

theorem Quiet.advance {p q : Parser} (h : Quiet p q) : Quiet p q.advance := by
  refine h.trans ⟨⟨[], by simp [Parser.advance], by simp⟩, fun h => h, rfl, rfl, rfl, rfl, ?_, ?_⟩
  · have key : ∀ (lx : Lexer) (tok : Option Token),
        (lx.get_token.2.tokens.length + if lx.get_token.1.isSome then 1 else 0) ≤
          lx.tokens.length + if tok.isSome then 1 else 0 := by
      intro lx tok
      rcases lx with ⟨_ | ⟨t, ts⟩, c⟩ <;> cases tok <;> simp [Lexer.get_token]
    exact key q.lexer q.token
  · have key : ∀ (lx : Lexer) (tok : Option Token) (t : Token),
        t ∈ lx.get_token.1.toList ++ lx.get_token.2.tokens → t ∈ tok.toList ++ lx.tokens := by
      intro lx tok t
      rcases lx with ⟨_ | ⟨t, ts⟩, c⟩ <;> cases tok <;> simp [Lexer.get_token] <;> tauto
    exact key q.lexer q.token

theorem Quiet.pop {p q : Parser} {x : VarValue × Parser} (h : Quiet p q)
    (hp : q.pop = .ok x) : Quiet p x.2 := by
  unfold Parser.pop at hp
  split at hp
  · cases hp; exact h.of_eq rfl rfl rfl rfl rfl rfl rfl rfl
  · cases hp

theorem Quiet.emit_or_label {p q : Parser} (h : Quiet p q) (stream : Bool) :
    Quiet p (q.emit_or_label stream) := by
  unfold Parser.emit_or_label
  split
  · exact (h.emit stream _ (Plain.of_head _ (by simp))).of_eq rfl rfl rfl rfl rfl rfl rfl rfl
  · exact h

theorem Quiet.push {p q : Parser} (h : Quiet p q) (v : VarValue) : Quiet p (q.push v) :=
  h.of_eq rfl rfl rfl rfl rfl rfl rfl rfl

theorem Quiet.gpr_sub {p q : Parser} (h : Quiet p q) (k : Nat) : Quiet p (q.gpr_sub k) :=
  h.of_eq rfl rfl rfl rfl rfl rfl rfl rfl

theorem Quiet.gpr_inc {p q : Parser} (h : Quiet p q) : Quiet p q.gpr_inc :=
  h.of_eq rfl rfl rfl rfl rfl rfl rfl rfl

theorem Parser.emit_binary_quiet {stream : Bool} {op : String} {p p' : Parser}
    (h : p.emit_binary stream op = .ok p')
    (hop : op = "ADD" ∨ op = "SUB" ∨ op = "IMUL") : Quiet p p' := by
  simp only [Parser.emit_binary, bind, Except.bind, pure, Except.pure] at h
  repeat' split at h
  all_goals first
    | (cases h; done)
    | (cases h
       rcases hop with rfl | rfl | rfl <;>
         exact (Quiet.refl p).emit _ _ (Plain.of_head _ (by simp)))

theorem Parser.emit_divide_quiet {stream : Bool} {p p' : Parser}
    (h : p.emit_divide stream = .ok p') : Quiet p p' := by
  simp only [Parser.emit_divide, bind, Except.bind, pure, Except.pure] at h
  repeat' split at h
  all_goals first
    | (cases h; done)
    | (cases h
       with_reducible repeat (first
        | exact Quiet.refl _
        | apply Quiet.gpr_sub
        | (refine Quiet.emit ?_ _ _ (Plain.of_head _ (by simp)))))

theorem Parser.emit_jump_quiet {stream : Bool} {target : Except Err String} {p p' : Parser}
    (h : p.emit_jump stream target = .ok p') : Quiet p p' := by
  simp only [Parser.emit_jump, bind, Except.bind, pure, Except.pure] at h
  repeat' split at h
  all_goals first
    | (cases h; done)
    | (cases h
       with_reducible repeat (first
        | exact Quiet.refl _
        | (refine Quiet.emit ?_ _ _ (Plain.of_head _ (by simp)))))

theorem Parser.expect_special_quiet {s what : String} {p p' : Parser}
    (h : p.expect_special s what = .ok p') : Quiet p p' := by
  simp only [Parser.expect_special, bind, Except.bind, pure, Except.pure] at h
  repeat' split at h
  all_goals first
    | (cases h; done)
    | (cases h; exact Quiet.refl _)

theorem term_prime_arith_quiet {tok : String} {stream : Bool} {p p' : Parser}
    (h : term_prime_arith tok stream p = .ok p') : Quiet p p' := by
  simp only [term_prime_arith, bind, Except.bind, pure, Except.pure] at h
  repeat' split at h
  all_goals first
    | (cases h; done)
    | (cases h
       with_reducible repeat (first
        | exact Quiet.refl _
        | apply Quiet.push
        | apply Quiet.gpr_sub
        | (refine Quiet.pop ?_ (by assumption))
        | (refine Quiet.trans ?_ (Parser.emit_binary_quiet (by assumption) (by simp)))))

/-- A state given by its members is reached by a quiet run exactly when the members that such
a run constrains say so; the other members are free. -/
theorem Quiet.mk_iff (p : Parser) (tok : Option Token) (gd bd idx : Nat) (vals : List VarValue)
    (st : SymbolTable) (tmp : List String) (gi : Nat) (ou fw : Bool) (lc : Char)
    (ic wc oc : Nat) (cs ls : List Nat) (lx : Lexer) (out stg : List String) :
    Quiet p ⟨tok, gd, bd, idx, vals, st, tmp, gi, ou, fw, lc, ic, wc, oc, cs, ls, lx, out, stg⟩ ↔
      QuietOn p tok ic wc cs ls lx out stg :=
  ⟨fun h => ⟨h.out, h.stage, h.cstack, h.lstack, h.ifc, h.whc, h.pend, h.toks⟩,
   fun h => ⟨h.1, h.2.1, h.2.2.1, h.2.2.2.1, h.2.2.2.2.1, h.2.2.2.2.2.1, h.2.2.2.2.2.2.1,
     h.2.2.2.2.2.2.2⟩⟩

theorem Quiet.on {p q : Parser} (h : Quiet p q) :
    QuietOn p q.token q.if_count q.while_count q.conditional_stack q.loop_stack q.lexer
      q.asm_output q.stage :=
  ⟨h.out, h.stage, h.cstack, h.lstack, h.ifc, h.whc, h.pend, h.toks⟩

theorem Quiet.and_jump {p q : Parser} (h : Quiet p q) (stream : Bool) :
    Quiet p (fact_prime_and_jump stream q) := by
  unfold fact_prime_and_jump
  simp only []
  split
  · exact (h.emit stream _ (Plain.of_head _ (by simp))).of_eq rfl rfl rfl rfl rfl rfl rfl rfl
  · split
    · exact (h.emit stream _ (Plain.of_head _ (by simp))).of_eq rfl rfl rfl rfl rfl rfl rfl rfl
    · split
      · exact (h.emit stream _ (Plain.of_head _ (by simp))).of_eq rfl rfl rfl rfl rfl rfl rfl rfl
      · exact h.of_eq rfl rfl rfl rfl rfl rfl rfl rfl

theorem Quiet.ite_advance {p q : Parser} (h : Quiet p q) (c : Prop) [Decidable c] :
    Quiet p (if c then q.advance else q) := by
  split
  · exact h.advance
  · exact h

theorem Parser.token_of_tok {p : Parser} {t : Token} (h : p.tok = .ok t) : p.token = some t := by
  unfold Parser.tok at h
  split at h
  · cases h; assumption
  · cases h

theorem s_expression_prime_compare_quiet {tok : String} {stream : Bool} {p p' : Parser}
    (h : s_expression_prime_compare tok stream p = .ok p') : Quiet p p' := by
  simp only [s_expression_prime_compare, bind, Except.bind, pure, Except.pure] at h
  repeat' split at h
  all_goals first
    | (cases h; done)
    | skip
  all_goals first
    | cases h
  all_goals with_reducible repeat (first
    | exact Quiet.refl _
    | assumption
    | apply Quiet.push
    | apply Quiet.gpr_sub
    | apply Quiet.gpr_inc
    | apply Quiet.advance
    | apply Quiet.emit_or_label
    | apply Quiet.and_jump
    | (refine Quiet.emit ?_ _ _ (Plain.of_head _ (by simp)))
    | (refine Quiet.pop ?_ (by assumption))
    | (simp only [Quiet.mk_iff]; refine Quiet.on ?_))

theorem term_prime_or_jump_quiet {stream : Bool} {p p' : Parser}
    (h : term_prime_or_jump stream p = .ok p') : Quiet p p' := by
  simp only [term_prime_or_jump, bind, Except.bind, pure, Except.pure] at h
  repeat' split at h
  all_goals first
    | (cases h; done)
    | skip
  all_goals first
    | cases h
  all_goals with_reducible repeat (first
    | exact Quiet.refl _
    | assumption
    | apply Quiet.push
    | apply Quiet.gpr_sub
    | apply Quiet.gpr_inc
    | apply Quiet.advance
    | apply Quiet.emit_or_label
    | apply Quiet.and_jump
    | (refine Quiet.emit ?_ _ _ (Plain.of_head _ (by simp)))
    | (refine Quiet.pop ?_ (by assumption))
    | (simp only [Quiet.mk_iff]; refine Quiet.on ?_)
    | (refine Quiet.trans ?_ (Parser.emit_jump_quiet (by assumption))))

theorem boolean_pair_check_quiet {what : String} {p p' : Parser}
    (h : boolean_pair_check what p = .ok p') : Quiet p p' := by
  simp only [boolean_pair_check, bind, Except.bind, pure, Except.pure] at h
  repeat' split at h
  all_goals first
    | (cases h; done)
    | skip
  all_goals first
    | cases h
  all_goals with_reducible repeat (first
    | exact Quiet.refl _
    | assumption
    | apply Quiet.push
    | apply Quiet.gpr_sub
    | apply Quiet.gpr_inc
    | apply Quiet.advance
    | apply Quiet.emit_or_label
    | apply Quiet.and_jump
    | (refine Quiet.emit ?_ _ _ (Plain.of_head _ (by simp)))
    | (refine Quiet.pop ?_ (by assumption))
    | (simp only [Quiet.mk_iff]; refine Quiet.on ?_))

theorem fact_prime_arith_quiet {tok : String} {stream : Bool} {p p' : Parser}
    (h : fact_prime_arith tok stream p = .ok p') : Quiet p p' := by
  simp only [fact_prime_arith, bind, Except.bind, pure, Except.pure] at h
  repeat' split at h
  all_goals first
    | (cases h; done)
    | skip
  all_goals first
    | cases h
  all_goals with_reducible repeat (first
    | exact Quiet.refl _
    | assumption
    | apply Quiet.push
    | apply Quiet.gpr_sub
    | apply Quiet.gpr_inc
    | apply Quiet.advance
    | apply Quiet.emit_or_label
    | apply Quiet.and_jump
    | (refine Quiet.emit ?_ _ _ (Plain.of_head _ (by simp)))
    | (refine Quiet.pop ?_ (by assumption))
    | (simp only [Quiet.mk_iff]; refine Quiet.on ?_)
    | (refine Quiet.trans ?_ (Parser.emit_binary_quiet (by assumption) (by simp)))
    | (refine Quiet.trans ?_ (Parser.emit_divide_quiet (by assumption))))

theorem fact_r_integer_quiet {text : String} {stream : Bool} {p p' : Parser}
    (h : fact_r_integer text stream p = .ok p') : Quiet p p' := by
  simp only [fact_r_integer, bind, Except.bind, pure, Except.pure] at h
  repeat' split at h
  all_goals first
    | (cases h; done)
    | skip
  all_goals first
    | cases h
  all_goals with_reducible repeat (first
    | exact Quiet.refl _
    | assumption
    | apply Quiet.push
    | apply Quiet.gpr_sub
    | apply Quiet.gpr_inc
    | apply Quiet.advance
    | apply Quiet.emit_or_label
    | apply Quiet.and_jump
    | (refine Quiet.emit ?_ _ _ (Plain.of_head _ (by simp)))
    | (refine Quiet.pop ?_ (by assumption))
    | (simp only [Quiet.mk_iff]; refine Quiet.on ?_))

theorem fact_r_real_quiet {text : String} {stream : Bool} {p p' : Parser}
    (h : fact_r_real text stream p = .ok p') : Quiet p p' := by
  simp only [fact_r_real, bind, Except.bind, pure, Except.pure] at h
  repeat' split at h
  all_goals first
    | (cases h; done)
    | skip
  all_goals first
    | cases h
  all_goals with_reducible repeat (first
    | exact Quiet.refl _
    | assumption
    | apply Quiet.push
    | apply Quiet.gpr_sub
    | apply Quiet.gpr_inc
    | apply Quiet.advance
    | apply Quiet.emit_or_label
    | apply Quiet.and_jump
    | (refine Quiet.emit ?_ _ _ (Plain.of_head _ (by simp)))
    | (refine Quiet.pop ?_ (by assumption))
    | (simp only [Quiet.mk_iff]; refine Quiet.on ?_))

theorem fact_r_local_quiet {v : VarData} {stream : Bool} {p p' : Parser}
    (h : fact_r_local v stream p = .ok p') : Quiet p p' := by
  simp only [fact_r_local, bind, Except.bind, pure, Except.pure] at h
  repeat' split at h
  all_goals first
    | (cases h; done)
    | skip
  all_goals first
    | cases h
  all_goals with_reducible repeat (first
    | exact Quiet.refl _
    | assumption
    | apply Quiet.push
    | apply Quiet.gpr_sub
    | apply Quiet.gpr_inc
    | apply Quiet.advance
    | apply Quiet.emit_or_label
    | apply Quiet.and_jump
    | (refine Quiet.emit ?_ _ _ (Plain.of_head _ (by simp)))
    | (refine Quiet.pop ?_ (by assumption))
    | (simp only [Quiet.mk_iff]; refine Quiet.on ?_))

theorem fact_r_outer_quiet {e : Entry} {stream : Bool} {p p' : Parser}
    (h : fact_r_outer e stream p = .ok p') : Quiet p p' := by
  simp only [fact_r_outer, bind, Except.bind, pure, Except.pure] at h
  repeat' split at h
  all_goals first
    | (cases h; done)
    | skip
  all_goals first
    | cases h
  all_goals with_reducible repeat (first
    | exact Quiet.refl _
    | assumption
    | apply Quiet.push
    | apply Quiet.gpr_sub
    | apply Quiet.gpr_inc
    | apply Quiet.advance
    | apply Quiet.emit_or_label
    | apply Quiet.and_jump
    | (refine Quiet.emit ?_ _ _ (Plain.of_head _ (by simp)))
    | (refine Quiet.pop ?_ (by assumption))
    | (simp only [Quiet.mk_iff]; refine Quiet.on ?_))

theorem func_param_by_ref_quiet {func : FuncData} {parameter : VarData} {p p' : Parser}
    (h : func_param_by_ref func parameter p = .ok p') : Quiet p p' := by
  simp only [func_param_by_ref, bind, Except.bind, pure, Except.pure] at h
  repeat' split at h
  all_goals first
    | (cases h; done)
    | skip
  all_goals first
    | cases h
  all_goals with_reducible repeat (first
    | exact Quiet.refl _
    | assumption
    | apply Quiet.push
    | apply Quiet.gpr_sub
    | apply Quiet.gpr_inc
    | apply Quiet.advance
    | apply Quiet.emit_or_label
    | apply Quiet.and_jump
    | (refine Quiet.emit ?_ _ _ (Plain.of_head _ (by simp)))
    | (refine Quiet.pop ?_ (by assumption))
    | (simp only [Quiet.mk_iff]; refine Quiet.on ?_))

theorem func_param_check_quiet {parameter : VarData} {p p' : Parser}
    (h : func_param_check parameter p = .ok p') : Quiet p p' := by
  simp only [func_param_check, bind, Except.bind, pure, Except.pure] at h
  repeat' split at h
  all_goals first
    | (cases h; done)
    | skip
  all_goals first
    | cases h
  all_goals with_reducible repeat (first
    | exact Quiet.refl _
    | assumption
    | apply Quiet.push
    | apply Quiet.gpr_sub
    | apply Quiet.gpr_inc
    | apply Quiet.advance
    | apply Quiet.emit_or_label
    | apply Quiet.and_jump
    | (refine Quiet.emit ?_ _ _ (Plain.of_head _ (by simp)))
    | (refine Quiet.pop ?_ (by assumption))
    | (simp only [Quiet.mk_iff]; refine Quiet.on ?_))

theorem consume_comma_quiet {more : Bool} {what : String} {p p' : Parser}
    (h : consume_comma more what p = .ok p') : Quiet p p' := by
  simp only [consume_comma, bind, Except.bind, pure, Except.pure] at h
  repeat' split at h
  all_goals first
    | (cases h; done)
    | skip
  all_goals first
    | cases h
  all_goals with_reducible repeat (first
    | exact Quiet.refl _
    | assumption
    | apply Quiet.push
    | apply Quiet.gpr_sub
    | apply Quiet.gpr_inc
    | apply Quiet.advance
    | apply Quiet.emit_or_label
    | apply Quiet.and_jump
    | (refine Quiet.emit ?_ _ _ (Plain.of_head _ (by simp)))
    | (refine Quiet.pop ?_ (by assumption))
    | (simp only [Quiet.mk_iff]; refine Quiet.on ?_))

theorem fact_r_call_check_quiet {p p' : Parser}
    (h : fact_r_call_check p = .ok p') : Quiet p p' := by
  simp only [fact_r_call_check, bind, Except.bind, pure, Except.pure] at h
  repeat' split at h
  all_goals first
    | (cases h; done)
    | skip
  all_goals first
    | cases h
  all_goals with_reducible repeat (first
    | exact Quiet.refl _
    | assumption
    | apply Quiet.push
    | apply Quiet.gpr_sub
    | apply Quiet.gpr_inc
    | apply Quiet.advance
    | apply Quiet.emit_or_label
    | apply Quiet.and_jump
    | (refine Quiet.emit ?_ _ _ (Plain.of_head _ (by simp)))
    | (refine Quiet.pop ?_ (by assumption))
    | (simp only [Quiet.mk_iff]; refine Quiet.on ?_))

/-- The expression functions read no `if` and no `while`: every run that returns leaves the
label stacks and counters as they were and adds only plain lines. -/
theorem expression_quiet_all (fuel : Nat) :
    (∀ stream p p', expression fuel stream p = .ok p' → Quiet p p') ∧
    (∀ stream p p', s_expression fuel stream p = .ok p' → Quiet p p') ∧
    (∀ stream p p', s_expression_r fuel stream p = .ok p' → Quiet p p') ∧
    (∀ stream p p', s_expression_prime fuel stream p = .ok p' → Quiet p p') ∧
    (∀ stream p p', term fuel stream p = .ok p' → Quiet p p') ∧
    (∀ stream p p', term_r fuel stream p = .ok p' → Quiet p p') ∧
    (∀ stream p p', term_prime fuel stream p = .ok p' → Quiet p p') ∧
    (∀ stream p p', fact fuel stream p = .ok p' → Quiet p p') ∧
    (∀ stream p p', fact_r fuel stream p = .ok p' → Quiet p p') ∧
    (∀ stream p p', fact_prime fuel stream p = .ok p' → Quiet p p') ∧
    (∀ func p p', consume_params_func fuel func p = .ok p' → Quiet p p') ∧
    (∀ func parameters current_param p p', consume_params_func_loop fuel func parameters current_param p = .ok p' → Quiet p p') := by
  induction fuel with
  | zero =>
    refine ⟨?_, ?_, ?_, ?_, ?_, ?_, ?_, ?_, ?_, ?_, ?_, ?_⟩ <;> intros <;> rename_i h <;>
      simp [expression, s_expression, s_expression_r, s_expression_prime, term, term_r, term_prime, fact, fact_r, fact_prime, consume_params_func, consume_params_func_loop] at h
  | succ fuel ih =>
    obtain ⟨ih_expression, ih_s_expression, ih_s_expression_r, ih_s_expression_prime, ih_term, ih_term_r, ih_term_prime, ih_fact, ih_fact_r, ih_fact_prime, ih_consume_params_func, ih_consume_params_func_loop⟩ := ih
    refine ⟨?_, ?_, ?_, ?_, ?_, ?_, ?_, ?_, ?_, ?_, ?_, ?_⟩
    · intro stream p p' h
      simp only [expression, bind, Except.bind, pure, Except.pure] at h
      repeat' split at h
      all_goals first
        | (cases h; done)
        | skip
      all_goals first
        | cases h
        | refine Quiet.trans ?_ (fact_r_local_quiet h)
        | refine Quiet.trans ?_ (fact_r_outer_quiet h)
        | refine Quiet.trans ?_ (fact_r_call_check_quiet h)
        | refine Quiet.trans ?_ (ih_expression _ _ _ h)
        | refine Quiet.trans ?_ (ih_s_expression _ _ _ h)
        | refine Quiet.trans ?_ (ih_s_expression_r _ _ _ h)
        | refine Quiet.trans ?_ (ih_s_expression_prime _ _ _ h)
        | refine Quiet.trans ?_ (ih_term _ _ _ h)
        | refine Quiet.trans ?_ (ih_term_r _ _ _ h)
        | refine Quiet.trans ?_ (ih_term_prime _ _ _ h)
        | refine Quiet.trans ?_ (ih_fact _ _ _ h)
        | refine Quiet.trans ?_ (ih_fact_r _ _ _ h)
        | refine Quiet.trans ?_ (ih_fact_prime _ _ _ h)
        | refine Quiet.trans ?_ (ih_consume_params_func _ _ _ h)
        | refine Quiet.trans ?_ (ih_consume_params_func_loop _ _ _ _ _ h)
      all_goals with_reducible repeat (first
        | exact Quiet.refl _
        | assumption
        | apply Quiet.push
        | apply Quiet.gpr_sub
        | apply Quiet.gpr_inc
        | apply Quiet.advance
        | apply Quiet.emit_or_label
        | apply Quiet.and_jump
        | (refine Quiet.emit ?_ _ _ (Plain.of_head _ (by simp)))
        | (refine Quiet.pop ?_ (by assumption))
        | (simp only [Quiet.mk_iff]; refine Quiet.on ?_)
        | (refine Quiet.trans ?_ (s_expression_prime_compare_quiet (by assumption)))
        | (refine Quiet.trans ?_ (term_prime_arith_quiet (by assumption)))
        | (refine Quiet.trans ?_ (term_prime_or_jump_quiet (by assumption)))
        | (refine Quiet.trans ?_ (boolean_pair_check_quiet (by assumption)))
        | (refine Quiet.trans ?_ (fact_prime_arith_quiet (by assumption)))
        | (refine Quiet.trans ?_ (fact_r_integer_quiet (by assumption)))
        | (refine Quiet.trans ?_ (fact_r_real_quiet (by assumption)))
        | (refine Quiet.trans ?_ (fact_r_local_quiet (by assumption)))
        | (refine Quiet.trans ?_ (fact_r_outer_quiet (by assumption)))
        | (refine Quiet.trans ?_ (func_param_by_ref_quiet (by assumption)))
        | (refine Quiet.trans ?_ (func_param_check_quiet (by assumption)))
        | (refine Quiet.trans ?_ (consume_comma_quiet (by assumption)))
        | (refine Quiet.trans ?_ (fact_r_call_check_quiet (by assumption)))
        | (refine Quiet.trans ?_ (Parser.expect_special_quiet (by assumption)))
        | (refine Quiet.trans ?_ (Parser.emit_jump_quiet (by assumption)))
        | (refine Quiet.trans ?_ (ih_expression _ _ _ (by assumption)))
        | (refine Quiet.trans ?_ (ih_s_expression _ _ _ (by assumption)))
        | (refine Quiet.trans ?_ (ih_s_expression_r _ _ _ (by assumption)))
        | (refine Quiet.trans ?_ (ih_s_expression_prime _ _ _ (by assumption)))
        | (refine Quiet.trans ?_ (ih_term _ _ _ (by assumption)))
        | (refine Quiet.trans ?_ (ih_term_r _ _ _ (by assumption)))
        | (refine Quiet.trans ?_ (ih_term_prime _ _ _ (by assumption)))
        | (refine Quiet.trans ?_ (ih_fact _ _ _ (by assumption)))
        | (refine Quiet.trans ?_ (ih_fact_r _ _ _ (by assumption)))
        | (refine Quiet.trans ?_ (ih_fact_prime _ _ _ (by assumption)))
        | (refine Quiet.trans ?_ (ih_consume_params_func _ _ _ (by assumption)))
        | (refine Quiet.trans ?_ (ih_consume_params_func_loop _ _ _ _ _ (by assumption))))
    · intro stream p p' h
      simp only [s_expression, bind, Except.bind, pure, Except.pure] at h
      repeat' split at h
      all_goals first
        | (cases h; done)
        | skip
      all_goals first
        | cases h
        | refine Quiet.trans ?_ (fact_r_local_quiet h)
        | refine Quiet.trans ?_ (fact_r_outer_quiet h)
        | refine Quiet.trans ?_ (fact_r_call_check_quiet h)
        | refine Quiet.trans ?_ (ih_expression _ _ _ h)
        | refine Quiet.trans ?_ (ih_s_expression _ _ _ h)
        | refine Quiet.trans ?_ (ih_s_expression_r _ _ _ h)
        | refine Quiet.trans ?_ (ih_s_expression_prime _ _ _ h)
        | refine Quiet.trans ?_ (ih_term _ _ _ h)
        | refine Quiet.trans ?_ (ih_term_r _ _ _ h)
        | refine Quiet.trans ?_ (ih_term_prime _ _ _ h)
        | refine Quiet.trans ?_ (ih_fact _ _ _ h)
        | refine Quiet.trans ?_ (ih_fact_r _ _ _ h)
        | refine Quiet.trans ?_ (ih_fact_prime _ _ _ h)
        | refine Quiet.trans ?_ (ih_consume_params_func _ _ _ h)
        | refine Quiet.trans ?_ (ih_consume_params_func_loop _ _ _ _ _ h)
      all_goals with_reducible repeat (first
        | exact Quiet.refl _
        | assumption
        | apply Quiet.push
        | apply Quiet.gpr_sub
        | apply Quiet.gpr_inc
        | apply Quiet.advance
        | apply Quiet.emit_or_label
        | apply Quiet.and_jump
        | (refine Quiet.emit ?_ _ _ (Plain.of_head _ (by simp)))
        | (refine Quiet.pop ?_ (by assumption))
        | (simp only [Quiet.mk_iff]; refine Quiet.on ?_)
        | (refine Quiet.trans ?_ (s_expression_prime_compare_quiet (by assumption)))
        | (refine Quiet.trans ?_ (term_prime_arith_quiet (by assumption)))
        | (refine Quiet.trans ?_ (term_prime_or_jump_quiet (by assumption)))
        | (refine Quiet.trans ?_ (boolean_pair_check_quiet (by assumption)))
        | (refine Quiet.trans ?_ (fact_prime_arith_quiet (by assumption)))
        | (refine Quiet.trans ?_ (fact_r_integer_quiet (by assumption)))
        | (refine Quiet.trans ?_ (fact_r_real_quiet (by assumption)))
        | (refine Quiet.trans ?_ (fact_r_local_quiet (by assumption)))
        | (refine Quiet.trans ?_ (fact_r_outer_quiet (by assumption)))
        | (refine Quiet.trans ?_ (func_param_by_ref_quiet (by assumption)))
        | (refine Quiet.trans ?_ (func_param_check_quiet (by assumption)))
        | (refine Quiet.trans ?_ (consume_comma_quiet (by assumption)))
        | (refine Quiet.trans ?_ (fact_r_call_check_quiet (by assumption)))
        | (refine Quiet.trans ?_ (Parser.expect_special_quiet (by assumption)))
        | (refine Quiet.trans ?_ (Parser.emit_jump_quiet (by assumption)))
        | (refine Quiet.trans ?_ (ih_expression _ _ _ (by assumption)))
        | (refine Quiet.trans ?_ (ih_s_expression _ _ _ (by assumption)))
        | (refine Quiet.trans ?_ (ih_s_expression_r _ _ _ (by assumption)))
        | (refine Quiet.trans ?_ (ih_s_expression_prime _ _ _ (by assumption)))
        | (refine Quiet.trans ?_ (ih_term _ _ _ (by assumption)))
        | (refine Quiet.trans ?_ (ih_term_r _ _ _ (by assumption)))
        | (refine Quiet.trans ?_ (ih_term_prime _ _ _ (by assumption)))
        | (refine Quiet.trans ?_ (ih_fact _ _ _ (by assumption)))
        | (refine Quiet.trans ?_ (ih_fact_r _ _ _ (by assumption)))
        | (refine Quiet.trans ?_ (ih_fact_prime _ _ _ (by assumption)))
        | (refine Quiet.trans ?_ (ih_consume_params_func _ _ _ (by assumption)))
        | (refine Quiet.trans ?_ (ih_consume_params_func_loop _ _ _ _ _ (by assumption))))
    · intro stream p p' h
      simp only [s_expression_r, bind, Except.bind, pure, Except.pure] at h
      repeat' split at h
      all_goals first
        | (cases h; done)
        | skip
      all_goals first
        | cases h
        | refine Quiet.trans ?_ (fact_r_local_quiet h)
        | refine Quiet.trans ?_ (fact_r_outer_quiet h)
        | refine Quiet.trans ?_ (fact_r_call_check_quiet h)
        | refine Quiet.trans ?_ (ih_expression _ _ _ h)
        | refine Quiet.trans ?_ (ih_s_expression _ _ _ h)
        | refine Quiet.trans ?_ (ih_s_expression_r _ _ _ h)
        | refine Quiet.trans ?_ (ih_s_expression_prime _ _ _ h)
        | refine Quiet.trans ?_ (ih_term _ _ _ h)
        | refine Quiet.trans ?_ (ih_term_r _ _ _ h)
        | refine Quiet.trans ?_ (ih_term_prime _ _ _ h)
        | refine Quiet.trans ?_ (ih_fact _ _ _ h)
        | refine Quiet.trans ?_ (ih_fact_r _ _ _ h)
        | refine Quiet.trans ?_ (ih_fact_prime _ _ _ h)
        | refine Quiet.trans ?_ (ih_consume_params_func _ _ _ h)
        | refine Quiet.trans ?_ (ih_consume_params_func_loop _ _ _ _ _ h)
      all_goals with_reducible repeat (first
        | exact Quiet.refl _
        | assumption
        | apply Quiet.push
        | apply Quiet.gpr_sub
        | apply Quiet.gpr_inc
        | apply Quiet.advance
        | apply Quiet.emit_or_label
        | apply Quiet.and_jump
        | (refine Quiet.emit ?_ _ _ (Plain.of_head _ (by simp)))
        | (refine Quiet.pop ?_ (by assumption))
        | (simp only [Quiet.mk_iff]; refine Quiet.on ?_)
        | (refine Quiet.trans ?_ (s_expression_prime_compare_quiet (by assumption)))
        | (refine Quiet.trans ?_ (term_prime_arith_quiet (by assumption)))
        | (refine Quiet.trans ?_ (term_prime_or_jump_quiet (by assumption)))
        | (refine Quiet.trans ?_ (boolean_pair_check_quiet (by assumption)))
        | (refine Quiet.trans ?_ (fact_prime_arith_quiet (by assumption)))
        | (refine Quiet.trans ?_ (fact_r_integer_quiet (by assumption)))
        | (refine Quiet.trans ?_ (fact_r_real_quiet (by assumption)))
        | (refine Quiet.trans ?_ (fact_r_local_quiet (by assumption)))
        | (refine Quiet.trans ?_ (fact_r_outer_quiet (by assumption)))
        | (refine Quiet.trans ?_ (func_param_by_ref_quiet (by assumption)))
        | (refine Quiet.trans ?_ (func_param_check_quiet (by assumption)))
        | (refine Quiet.trans ?_ (consume_comma_quiet (by assumption)))
        | (refine Quiet.trans ?_ (fact_r_call_check_quiet (by assumption)))
        | (refine Quiet.trans ?_ (Parser.expect_special_quiet (by assumption)))
        | (refine Quiet.trans ?_ (Parser.emit_jump_quiet (by assumption)))
        | (refine Quiet.trans ?_ (ih_expression _ _ _ (by assumption)))
        | (refine Quiet.trans ?_ (ih_s_expression _ _ _ (by assumption)))
        | (refine Quiet.trans ?_ (ih_s_expression_r _ _ _ (by assumption)))
        | (refine Quiet.trans ?_ (ih_s_expression_prime _ _ _ (by assumption)))
        | (refine Quiet.trans ?_ (ih_term _ _ _ (by assumption)))
        | (refine Quiet.trans ?_ (ih_term_r _ _ _ (by assumption)))
        | (refine Quiet.trans ?_ (ih_term_prime _ _ _ (by assumption)))
        | (refine Quiet.trans ?_ (ih_fact _ _ _ (by assumption)))
        | (refine Quiet.trans ?_ (ih_fact_r _ _ _ (by assumption)))
        | (refine Quiet.trans ?_ (ih_fact_prime _ _ _ (by assumption)))
        | (refine Quiet.trans ?_ (ih_consume_params_func _ _ _ (by assumption)))
        | (refine Quiet.trans ?_ (ih_consume_params_func_loop _ _ _ _ _ (by assumption))))
    · intro stream p p' h
      simp only [s_expression_prime, bind, Except.bind, pure, Except.pure] at h
      repeat' split at h
      all_goals first
        | (cases h; done)
        | skip
      all_goals first
        | cases h
        | refine Quiet.trans ?_ (fact_r_local_quiet h)
        | refine Quiet.trans ?_ (fact_r_outer_quiet h)
        | refine Quiet.trans ?_ (fact_r_call_check_quiet h)
        | refine Quiet.trans ?_ (ih_expression _ _ _ h)
        | refine Quiet.trans ?_ (ih_s_expression _ _ _ h)
        | refine Quiet.trans ?_ (ih_s_expression_r _ _ _ h)
        | refine Quiet.trans ?_ (ih_s_expression_prime _ _ _ h)
        | refine Quiet.trans ?_ (ih_term _ _ _ h)
        | refine Quiet.trans ?_ (ih_term_r _ _ _ h)
        | refine Quiet.trans ?_ (ih_term_prime _ _ _ h)
        | refine Quiet.trans ?_ (ih_fact _ _ _ h)
        | refine Quiet.trans ?_ (ih_fact_r _ _ _ h)
        | refine Quiet.trans ?_ (ih_fact_prime _ _ _ h)
        | refine Quiet.trans ?_ (ih_consume_params_func _ _ _ h)
        | refine Quiet.trans ?_ (ih_consume_params_func_loop _ _ _ _ _ h)
      all_goals with_reducible repeat (first
        | exact Quiet.refl _
        | assumption
        | apply Quiet.push
        | apply Quiet.gpr_sub
        | apply Quiet.gpr_inc
        | apply Quiet.advance
        | apply Quiet.emit_or_label
        | apply Quiet.and_jump
        | (refine Quiet.emit ?_ _ _ (Plain.of_head _ (by simp)))
        | (refine Quiet.pop ?_ (by assumption))
        | (simp only [Quiet.mk_iff]; refine Quiet.on ?_)
        | (refine Quiet.trans ?_ (s_expression_prime_compare_quiet (by assumption)))
        | (refine Quiet.trans ?_ (term_prime_arith_quiet (by assumption)))
        | (refine Quiet.trans ?_ (term_prime_or_jump_quiet (by assumption)))
        | (refine Quiet.trans ?_ (boolean_pair_check_quiet (by assumption)))
        | (refine Quiet.trans ?_ (fact_prime_arith_quiet (by assumption)))
        | (refine Quiet.trans ?_ (fact_r_integer_quiet (by assumption)))
        | (refine Quiet.trans ?_ (fact_r_real_quiet (by assumption)))
        | (refine Quiet.trans ?_ (fact_r_local_quiet (by assumption)))
        | (refine Quiet.trans ?_ (fact_r_outer_quiet (by assumption)))
        | (refine Quiet.trans ?_ (func_param_by_ref_quiet (by assumption)))
        | (refine Quiet.trans ?_ (func_param_check_quiet (by assumption)))
        | (refine Quiet.trans ?_ (consume_comma_quiet (by assumption)))
        | (refine Quiet.trans ?_ (fact_r_call_check_quiet (by assumption)))
        | (refine Quiet.trans ?_ (Parser.expect_special_quiet (by assumption)))
        | (refine Quiet.trans ?_ (Parser.emit_jump_quiet (by assumption)))
        | (refine Quiet.trans ?_ (ih_expression _ _ _ (by assumption)))
        | (refine Quiet.trans ?_ (ih_s_expression _ _ _ (by assumption)))
        | (refine Quiet.trans ?_ (ih_s_expression_r _ _ _ (by assumption)))
        | (refine Quiet.trans ?_ (ih_s_expression_prime _ _ _ (by assumption)))
        | (refine Quiet.trans ?_ (ih_term _ _ _ (by assumption)))
        | (refine Quiet.trans ?_ (ih_term_r _ _ _ (by assumption)))
        | (refine Quiet.trans ?_ (ih_term_prime _ _ _ (by assumption)))
        | (refine Quiet.trans ?_ (ih_fact _ _ _ (by assumption)))
        | (refine Quiet.trans ?_ (ih_fact_r _ _ _ (by assumption)))
        | (refine Quiet.trans ?_ (ih_fact_prime _ _ _ (by assumption)))
        | (refine Quiet.trans ?_ (ih_consume_params_func _ _ _ (by assumption)))
        | (refine Quiet.trans ?_ (ih_consume_params_func_loop _ _ _ _ _ (by assumption))))
    · intro stream p p' h
      simp only [term, bind, Except.bind, pure, Except.pure] at h
      repeat' split at h
      all_goals first
        | (cases h; done)
        | skip
      all_goals first
        | cases h
        | refine Quiet.trans ?_ (fact_r_local_quiet h)
        | refine Quiet.trans ?_ (fact_r_outer_quiet h)
        | refine Quiet.trans ?_ (fact_r_call_check_quiet h)
        | refine Quiet.trans ?_ (ih_expression _ _ _ h)
        | refine Quiet.trans ?_ (ih_s_expression _ _ _ h)
        | refine Quiet.trans ?_ (ih_s_expression_r _ _ _ h)
        | refine Quiet.trans ?_ (ih_s_expression_prime _ _ _ h)
        | refine Quiet.trans ?_ (ih_term _ _ _ h)
        | refine Quiet.trans ?_ (ih_term_r _ _ _ h)
        | refine Quiet.trans ?_ (ih_term_prime _ _ _ h)
        | refine Quiet.trans ?_ (ih_fact _ _ _ h)
        | refine Quiet.trans ?_ (ih_fact_r _ _ _ h)
        | refine Quiet.trans ?_ (ih_fact_prime _ _ _ h)
        | refine Quiet.trans ?_ (ih_consume_params_func _ _ _ h)
        | refine Quiet.trans ?_ (ih_consume_params_func_loop _ _ _ _ _ h)
      all_goals with_reducible repeat (first
        | exact Quiet.refl _
        | assumption
        | apply Quiet.push
        | apply Quiet.gpr_sub
        | apply Quiet.gpr_inc
        | apply Quiet.advance
        | apply Quiet.emit_or_label
        | apply Quiet.and_jump
        | (refine Quiet.emit ?_ _ _ (Plain.of_head _ (by simp)))
        | (refine Quiet.pop ?_ (by assumption))
        | (simp only [Quiet.mk_iff]; refine Quiet.on ?_)
        | (refine Quiet.trans ?_ (s_expression_prime_compare_quiet (by assumption)))
        | (refine Quiet.trans ?_ (term_prime_arith_quiet (by assumption)))
        | (refine Quiet.trans ?_ (term_prime_or_jump_quiet (by assumption)))
        | (refine Quiet.trans ?_ (boolean_pair_check_quiet (by assumption)))
        | (refine Quiet.trans ?_ (fact_prime_arith_quiet (by assumption)))
        | (refine Quiet.trans ?_ (fact_r_integer_quiet (by assumption)))
        | (refine Quiet.trans ?_ (fact_r_real_quiet (by assumption)))
        | (refine Quiet.trans ?_ (fact_r_local_quiet (by assumption)))
        | (refine Quiet.trans ?_ (fact_r_outer_quiet (by assumption)))
        | (refine Quiet.trans ?_ (func_param_by_ref_quiet (by assumption)))
        | (refine Quiet.trans ?_ (func_param_check_quiet (by assumption)))
        | (refine Quiet.trans ?_ (consume_comma_quiet (by assumption)))
        | (refine Quiet.trans ?_ (fact_r_call_check_quiet (by assumption)))
        | (refine Quiet.trans ?_ (Parser.expect_special_quiet (by assumption)))
        | (refine Quiet.trans ?_ (Parser.emit_jump_quiet (by assumption)))
        | (refine Quiet.trans ?_ (ih_expression _ _ _ (by assumption)))
        | (refine Quiet.trans ?_ (ih_s_expression _ _ _ (by assumption)))
        | (refine Quiet.trans ?_ (ih_s_expression_r _ _ _ (by assumption)))
        | (refine Quiet.trans ?_ (ih_s_expression_prime _ _ _ (by assumption)))
        | (refine Quiet.trans ?_ (ih_term _ _ _ (by assumption)))
        | (refine Quiet.trans ?_ (ih_term_r _ _ _ (by assumption)))
        | (refine Quiet.trans ?_ (ih_term_prime _ _ _ (by assumption)))
        | (refine Quiet.trans ?_ (ih_fact _ _ _ (by assumption)))
        | (refine Quiet.trans ?_ (ih_fact_r _ _ _ (by assumption)))
        | (refine Quiet.trans ?_ (ih_fact_prime _ _ _ (by assumption)))
        | (refine Quiet.trans ?_ (ih_consume_params_func _ _ _ (by assumption)))
        | (refine Quiet.trans ?_ (ih_consume_params_func_loop _ _ _ _ _ (by assumption))))
    · intro stream p p' h
      simp only [term_r, bind, Except.bind, pure, Except.pure] at h
      repeat' split at h
      all_goals first
        | (cases h; done)
        | skip
      all_goals first
        | cases h
        | refine Quiet.trans ?_ (fact_r_local_quiet h)
        | refine Quiet.trans ?_ (fact_r_outer_quiet h)
        | refine Quiet.trans ?_ (fact_r_call_check_quiet h)
        | refine Quiet.trans ?_ (ih_expression _ _ _ h)
        | refine Quiet.trans ?_ (ih_s_expression _ _ _ h)
        | refine Quiet.trans ?_ (ih_s_expression_r _ _ _ h)
        | refine Quiet.trans ?_ (ih_s_expression_prime _ _ _ h)
        | refine Quiet.trans ?_ (ih_term _ _ _ h)
        | refine Quiet.trans ?_ (ih_term_r _ _ _ h)
        | refine Quiet.trans ?_ (ih_term_prime _ _ _ h)
        | refine Quiet.trans ?_ (ih_fact _ _ _ h)
        | refine Quiet.trans ?_ (ih_fact_r _ _ _ h)
        | refine Quiet.trans ?_ (ih_fact_prime _ _ _ h)
        | refine Quiet.trans ?_ (ih_consume_params_func _ _ _ h)
        | refine Quiet.trans ?_ (ih_consume_params_func_loop _ _ _ _ _ h)
      all_goals with_reducible repeat (first
        | exact Quiet.refl _
        | assumption
        | apply Quiet.push
        | apply Quiet.gpr_sub
        | apply Quiet.gpr_inc
        | apply Quiet.advance
        | apply Quiet.emit_or_label
        | apply Quiet.and_jump
        | (refine Quiet.emit ?_ _ _ (Plain.of_head _ (by simp)))
        | (refine Quiet.pop ?_ (by assumption))
        | (simp only [Quiet.mk_iff]; refine Quiet.on ?_)
        | (refine Quiet.trans ?_ (s_expression_prime_compare_quiet (by assumption)))
        | (refine Quiet.trans ?_ (term_prime_arith_quiet (by assumption)))
        | (refine Quiet.trans ?_ (term_prime_or_jump_quiet (by assumption)))
        | (refine Quiet.trans ?_ (boolean_pair_check_quiet (by assumption)))
        | (refine Quiet.trans ?_ (fact_prime_arith_quiet (by assumption)))
        | (refine Quiet.trans ?_ (fact_r_integer_quiet (by assumption)))
        | (refine Quiet.trans ?_ (fact_r_real_quiet (by assumption)))
        | (refine Quiet.trans ?_ (fact_r_local_quiet (by assumption)))
        | (refine Quiet.trans ?_ (fact_r_outer_quiet (by assumption)))
        | (refine Quiet.trans ?_ (func_param_by_ref_quiet (by assumption)))
        | (refine Quiet.trans ?_ (func_param_check_quiet (by assumption)))
        | (refine Quiet.trans ?_ (consume_comma_quiet (by assumption)))
        | (refine Quiet.trans ?_ (fact_r_call_check_quiet (by assumption)))
        | (refine Quiet.trans ?_ (Parser.expect_special_quiet (by assumption)))
        | (refine Quiet.trans ?_ (Parser.emit_jump_quiet (by assumption)))
        | (refine Quiet.trans ?_ (ih_expression _ _ _ (by assumption)))
        | (refine Quiet.trans ?_ (ih_s_expression _ _ _ (by assumption)))
        | (refine Quiet.trans ?_ (ih_s_expression_r _ _ _ (by assumption)))
        | (refine Quiet.trans ?_ (ih_s_expression_prime _ _ _ (by assumption)))
        | (refine Quiet.trans ?_ (ih_term _ _ _ (by assumption)))
        | (refine Quiet.trans ?_ (ih_term_r _ _ _ (by assumption)))
        | (refine Quiet.trans ?_ (ih_term_prime _ _ _ (by assumption)))
        | (refine Quiet.trans ?_ (ih_fact _ _ _ (by assumption)))
        | (refine Quiet.trans ?_ (ih_fact_r _ _ _ (by assumption)))
        | (refine Quiet.trans ?_ (ih_fact_prime _ _ _ (by assumption)))
        | (refine Quiet.trans ?_ (ih_consume_params_func _ _ _ (by assumption)))
        | (refine Quiet.trans ?_ (ih_consume_params_func_loop _ _ _ _ _ (by assumption))))
    · intro stream p p' h
      simp only [term_prime, bind, Except.bind, pure, Except.pure] at h
      repeat' split at h
      all_goals first
        | (cases h; done)
        | skip
      all_goals first
        | cases h
        | refine Quiet.trans ?_ (fact_r_local_quiet h)
        | refine Quiet.trans ?_ (fact_r_outer_quiet h)
        | refine Quiet.trans ?_ (fact_r_call_check_quiet h)
        | refine Quiet.trans ?_ (ih_expression _ _ _ h)
        | refine Quiet.trans ?_ (ih_s_expression _ _ _ h)
        | refine Quiet.trans ?_ (ih_s_expression_r _ _ _ h)
        | refine Quiet.trans ?_ (ih_s_expression_prime _ _ _ h)
        | refine Quiet.trans ?_ (ih_term _ _ _ h)
        | refine Quiet.trans ?_ (ih_term_r _ _ _ h)
        | refine Quiet.trans ?_ (ih_term_prime _ _ _ h)
        | refine Quiet.trans ?_ (ih_fact _ _ _ h)
        | refine Quiet.trans ?_ (ih_fact_r _ _ _ h)
        | refine Quiet.trans ?_ (ih_fact_prime _ _ _ h)
        | refine Quiet.trans ?_ (ih_consume_params_func _ _ _ h)
        | refine Quiet.trans ?_ (ih_consume_params_func_loop _ _ _ _ _ h)
      all_goals with_reducible repeat (first
        | exact Quiet.refl _
        | assumption
        | apply Quiet.push
        | apply Quiet.gpr_sub
        | apply Quiet.gpr_inc
        | apply Quiet.advance
        | apply Quiet.emit_or_label
        | apply Quiet.and_jump
        | (refine Quiet.emit ?_ _ _ (Plain.of_head _ (by simp)))
        | (refine Quiet.pop ?_ (by assumption))
        | (simp only [Quiet.mk_iff]; refine Quiet.on ?_)
        | (refine Quiet.trans ?_ (s_expression_prime_compare_quiet (by assumption)))
        | (refine Quiet.trans ?_ (term_prime_arith_quiet (by assumption)))
        | (refine Quiet.trans ?_ (term_prime_or_jump_quiet (by assumption)))
        | (refine Quiet.trans ?_ (boolean_pair_check_quiet (by assumption)))
        | (refine Quiet.trans ?_ (fact_prime_arith_quiet (by assumption)))
        | (refine Quiet.trans ?_ (fact_r_integer_quiet (by assumption)))
        | (refine Quiet.trans ?_ (fact_r_real_quiet (by assumption)))
        | (refine Quiet.trans ?_ (fact_r_local_quiet (by assumption)))
        | (refine Quiet.trans ?_ (fact_r_outer_quiet (by assumption)))
        | (refine Quiet.trans ?_ (func_param_by_ref_quiet (by assumption)))
        | (refine Quiet.trans ?_ (func_param_check_quiet (by assumption)))
        | (refine Quiet.trans ?_ (consume_comma_quiet (by assumption)))
        | (refine Quiet.trans ?_ (fact_r_call_check_quiet (by assumption)))
        | (refine Quiet.trans ?_ (Parser.expect_special_quiet (by assumption)))
        | (refine Quiet.trans ?_ (Parser.emit_jump_quiet (by assumption)))
        | (refine Quiet.trans ?_ (ih_expression _ _ _ (by assumption)))
        | (refine Quiet.trans ?_ (ih_s_expression _ _ _ (by assumption)))
        | (refine Quiet.trans ?_ (ih_s_expression_r _ _ _ (by assumption)))
        | (refine Quiet.trans ?_ (ih_s_expression_prime _ _ _ (by assumption)))
        | (refine Quiet.trans ?_ (ih_term _ _ _ (by assumption)))
        | (refine Quiet.trans ?_ (ih_term_r _ _ _ (by assumption)))
        | (refine Quiet.trans ?_ (ih_term_prime _ _ _ (by assumption)))
        | (refine Quiet.trans ?_ (ih_fact _ _ _ (by assumption)))
        | (refine Quiet.trans ?_ (ih_fact_r _ _ _ (by assumption)))
        | (refine Quiet.trans ?_ (ih_fact_prime _ _ _ (by assumption)))
        | (refine Quiet.trans ?_ (ih_consume_params_func _ _ _ (by assumption)))
        | (refine Quiet.trans ?_ (ih_consume_params_func_loop _ _ _ _ _ (by assumption))))
    · intro stream p p' h
      simp only [fact, bind, Except.bind, pure, Except.pure] at h
      repeat' split at h
      all_goals first
        | (cases h; done)
        | skip
      all_goals first
        | cases h
        | refine Quiet.trans ?_ (fact_r_local_quiet h)
        | refine Quiet.trans ?_ (fact_r_outer_quiet h)
        | refine Quiet.trans ?_ (fact_r_call_check_quiet h)
        | refine Quiet.trans ?_ (ih_expression _ _ _ h)
        | refine Quiet.trans ?_ (ih_s_expression _ _ _ h)
        | refine Quiet.trans ?_ (ih_s_expression_r _ _ _ h)
        | refine Quiet.trans ?_ (ih_s_expression_prime _ _ _ h)
        | refine Quiet.trans ?_ (ih_term _ _ _ h)
        | refine Quiet.trans ?_ (ih_term_r _ _ _ h)
        | refine Quiet.trans ?_ (ih_term_prime _ _ _ h)
        | refine Quiet.trans ?_ (ih_fact _ _ _ h)
        | refine Quiet.trans ?_ (ih_fact_r _ _ _ h)
        | refine Quiet.trans ?_ (ih_fact_prime _ _ _ h)
        | refine Quiet.trans ?_ (ih_consume_params_func _ _ _ h)
        | refine Quiet.trans ?_ (ih_consume_params_func_loop _ _ _ _ _ h)
      all_goals with_reducible repeat (first
        | exact Quiet.refl _
        | assumption
        | apply Quiet.push
        | apply Quiet.gpr_sub
        | apply Quiet.gpr_inc
        | apply Quiet.advance
        | apply Quiet.emit_or_label
        | apply Quiet.and_jump
        | (refine Quiet.emit ?_ _ _ (Plain.of_head _ (by simp)))
        | (refine Quiet.pop ?_ (by assumption))
        | (simp only [Quiet.mk_iff]; refine Quiet.on ?_)
        | (refine Quiet.trans ?_ (s_expression_prime_compare_quiet (by assumption)))
        | (refine Quiet.trans ?_ (term_prime_arith_quiet (by assumption)))
        | (refine Quiet.trans ?_ (term_prime_or_jump_quiet (by assumption)))
        | (refine Quiet.trans ?_ (boolean_pair_check_quiet (by assumption)))
        | (refine Quiet.trans ?_ (fact_prime_arith_quiet (by assumption)))
        | (refine Quiet.trans ?_ (fact_r_integer_quiet (by assumption)))
        | (refine Quiet.trans ?_ (fact_r_real_quiet (by assumption)))
        | (refine Quiet.trans ?_ (fact_r_local_quiet (by assumption)))
        | (refine Quiet.trans ?_ (fact_r_outer_quiet (by assumption)))
        | (refine Quiet.trans ?_ (func_param_by_ref_quiet (by assumption)))
        | (refine Quiet.trans ?_ (func_param_check_quiet (by assumption)))
        | (refine Quiet.trans ?_ (consume_comma_quiet (by assumption)))
        | (refine Quiet.trans ?_ (fact_r_call_check_quiet (by assumption)))
        | (refine Quiet.trans ?_ (Parser.expect_special_quiet (by assumption)))
        | (refine Quiet.trans ?_ (Parser.emit_jump_quiet (by assumption)))
        | (refine Quiet.trans ?_ (ih_expression _ _ _ (by assumption)))
        | (refine Quiet.trans ?_ (ih_s_expression _ _ _ (by assumption)))
        | (refine Quiet.trans ?_ (ih_s_expression_r _ _ _ (by assumption)))
        | (refine Quiet.trans ?_ (ih_s_expression_prime _ _ _ (by assumption)))
        | (refine Quiet.trans ?_ (ih_term _ _ _ (by assumption)))
        | (refine Quiet.trans ?_ (ih_term_r _ _ _ (by assumption)))
        | (refine Quiet.trans ?_ (ih_term_prime _ _ _ (by assumption)))
        | (refine Quiet.trans ?_ (ih_fact _ _ _ (by assumption)))
        | (refine Quiet.trans ?_ (ih_fact_r _ _ _ (by assumption)))
        | (refine Quiet.trans ?_ (ih_fact_prime _ _ _ (by assumption)))
        | (refine Quiet.trans ?_ (ih_consume_params_func _ _ _ (by assumption)))
        | (refine Quiet.trans ?_ (ih_consume_params_func_loop _ _ _ _ _ (by assumption))))
    · intro stream p p' h
      simp only [fact_r, bind, Except.bind, pure, Except.pure] at h
      repeat' split at h
      all_goals first
        | (cases h; done)
        | skip
      all_goals first
        | cases h
        | refine Quiet.trans ?_ (fact_r_local_quiet h)
        | refine Quiet.trans ?_ (fact_r_outer_quiet h)
        | refine Quiet.trans ?_ (fact_r_call_check_quiet h)
        | refine Quiet.trans ?_ (ih_expression _ _ _ h)
        | refine Quiet.trans ?_ (ih_s_expression _ _ _ h)
        | refine Quiet.trans ?_ (ih_s_expression_r _ _ _ h)
        | refine Quiet.trans ?_ (ih_s_expression_prime _ _ _ h)
        | refine Quiet.trans ?_ (ih_term _ _ _ h)
        | refine Quiet.trans ?_ (ih_term_r _ _ _ h)
        | refine Quiet.trans ?_ (ih_term_prime _ _ _ h)
        | refine Quiet.trans ?_ (ih_fact _ _ _ h)
        | refine Quiet.trans ?_ (ih_fact_r _ _ _ h)
        | refine Quiet.trans ?_ (ih_fact_prime _ _ _ h)
        | refine Quiet.trans ?_ (ih_consume_params_func _ _ _ h)
        | refine Quiet.trans ?_ (ih_consume_params_func_loop _ _ _ _ _ h)
      all_goals with_reducible repeat (first
        | exact Quiet.refl _
        | assumption
        | apply Quiet.push
        | apply Quiet.gpr_sub
        | apply Quiet.gpr_inc
        | apply Quiet.advance
        | apply Quiet.emit_or_label
        | apply Quiet.and_jump
        | (refine Quiet.emit ?_ _ _ (Plain.of_head _ (by simp)))
        | (refine Quiet.pop ?_ (by assumption))
        | (simp only [Quiet.mk_iff]; refine Quiet.on ?_)
        | (refine Quiet.trans ?_ (s_expression_prime_compare_quiet (by assumption)))
        | (refine Quiet.trans ?_ (term_prime_arith_quiet (by assumption)))
        | (refine Quiet.trans ?_ (term_prime_or_jump_quiet (by assumption)))
        | (refine Quiet.trans ?_ (boolean_pair_check_quiet (by assumption)))
        | (refine Quiet.trans ?_ (fact_prime_arith_quiet (by assumption)))
        | (refine Quiet.trans ?_ (fact_r_integer_quiet (by assumption)))
        | (refine Quiet.trans ?_ (fact_r_real_quiet (by assumption)))
        | (refine Quiet.trans ?_ (fact_r_local_quiet (by assumption)))
        | (refine Quiet.trans ?_ (fact_r_outer_quiet (by assumption)))
        | (refine Quiet.trans ?_ (func_param_by_ref_quiet (by assumption)))
        | (refine Quiet.trans ?_ (func_param_check_quiet (by assumption)))
        | (refine Quiet.trans ?_ (consume_comma_quiet (by assumption)))
        | (refine Quiet.trans ?_ (fact_r_call_check_quiet (by assumption)))
        | (refine Quiet.trans ?_ (Parser.expect_special_quiet (by assumption)))
        | (refine Quiet.trans ?_ (Parser.emit_jump_quiet (by assumption)))
        | (refine Quiet.trans ?_ (ih_expression _ _ _ (by assumption)))
        | (refine Quiet.trans ?_ (ih_s_expression _ _ _ (by assumption)))
        | (refine Quiet.trans ?_ (ih_s_expression_r _ _ _ (by assumption)))
        | (refine Quiet.trans ?_ (ih_s_expression_prime _ _ _ (by assumption)))
        | (refine Quiet.trans ?_ (ih_term _ _ _ (by assumption)))
        | (refine Quiet.trans ?_ (ih_term_r _ _ _ (by assumption)))
        | (refine Quiet.trans ?_ (ih_term_prime _ _ _ (by assumption)))
        | (refine Quiet.trans ?_ (ih_fact _ _ _ (by assumption)))
        | (refine Quiet.trans ?_ (ih_fact_r _ _ _ (by assumption)))
        | (refine Quiet.trans ?_ (ih_fact_prime _ _ _ (by assumption)))
        | (refine Quiet.trans ?_ (ih_consume_params_func _ _ _ (by assumption)))
        | (refine Quiet.trans ?_ (ih_consume_params_func_loop _ _ _ _ _ (by assumption))))
    · intro stream p p' h
      simp only [fact_prime, bind, Except.bind, pure, Except.pure] at h
      repeat' split at h
      all_goals first
        | (cases h; done)
        | skip
      all_goals first
        | cases h
        | refine Quiet.trans ?_ (fact_r_local_quiet h)
        | refine Quiet.trans ?_ (fact_r_outer_quiet h)
        | refine Quiet.trans ?_ (fact_r_call_check_quiet h)
        | refine Quiet.trans ?_ (ih_expression _ _ _ h)
        | refine Quiet.trans ?_ (ih_s_expression _ _ _ h)
        | refine Quiet.trans ?_ (ih_s_expression_r _ _ _ h)
        | refine Quiet.trans ?_ (ih_s_expression_prime _ _ _ h)
        | refine Quiet.trans ?_ (ih_term _ _ _ h)
        | refine Quiet.trans ?_ (ih_term_r _ _ _ h)
        | refine Quiet.trans ?_ (ih_term_prime _ _ _ h)
        | refine Quiet.trans ?_ (ih_fact _ _ _ h)
        | refine Quiet.trans ?_ (ih_fact_r _ _ _ h)
        | refine Quiet.trans ?_ (ih_fact_prime _ _ _ h)
        | refine Quiet.trans ?_ (ih_consume_params_func _ _ _ h)
        | refine Quiet.trans ?_ (ih_consume_params_func_loop _ _ _ _ _ h)
      all_goals with_reducible repeat (first
        | exact Quiet.refl _
        | assumption
        | apply Quiet.push
        | apply Quiet.gpr_sub
        | apply Quiet.gpr_inc
        | apply Quiet.advance
        | apply Quiet.emit_or_label
        | apply Quiet.and_jump
        | (refine Quiet.emit ?_ _ _ (Plain.of_head _ (by simp)))
        | (refine Quiet.pop ?_ (by assumption))
        | (simp only [Quiet.mk_iff]; refine Quiet.on ?_)
        | (refine Quiet.trans ?_ (s_expression_prime_compare_quiet (by assumption)))
        | (refine Quiet.trans ?_ (term_prime_arith_quiet (by assumption)))
        | (refine Quiet.trans ?_ (term_prime_or_jump_quiet (by assumption)))
        | (refine Quiet.trans ?_ (boolean_pair_check_quiet (by assumption)))
        | (refine Quiet.trans ?_ (fact_prime_arith_quiet (by assumption)))
        | (refine Quiet.trans ?_ (fact_r_integer_quiet (by assumption)))
        | (refine Quiet.trans ?_ (fact_r_real_quiet (by assumption)))
        | (refine Quiet.trans ?_ (fact_r_local_quiet (by assumption)))
        | (refine Quiet.trans ?_ (fact_r_outer_quiet (by assumption)))
        | (refine Quiet.trans ?_ (func_param_by_ref_quiet (by assumption)))
        | (refine Quiet.trans ?_ (func_param_check_quiet (by assumption)))
        | (refine Quiet.trans ?_ (consume_comma_quiet (by assumption)))
        | (refine Quiet.trans ?_ (fact_r_call_check_quiet (by assumption)))
        | (refine Quiet.trans ?_ (Parser.expect_special_quiet (by assumption)))
        | (refine Quiet.trans ?_ (Parser.emit_jump_quiet (by assumption)))
        | (refine Quiet.trans ?_ (ih_expression _ _ _ (by assumption)))
        | (refine Quiet.trans ?_ (ih_s_expression _ _ _ (by assumption)))
        | (refine Quiet.trans ?_ (ih_s_expression_r _ _ _ (by assumption)))
        | (refine Quiet.trans ?_ (ih_s_expression_prime _ _ _ (by assumption)))
        | (refine Quiet.trans ?_ (ih_term _ _ _ (by assumption)))
        | (refine Quiet.trans ?_ (ih_term_r _ _ _ (by assumption)))
        | (refine Quiet.trans ?_ (ih_term_prime _ _ _ (by assumption)))
        | (refine Quiet.trans ?_ (ih_fact _ _ _ (by assumption)))
        | (refine Quiet.trans ?_ (ih_fact_r _ _ _ (by assumption)))
        | (refine Quiet.trans ?_ (ih_fact_prime _ _ _ (by assumption)))
        | (refine Quiet.trans ?_ (ih_consume_params_func _ _ _ (by assumption)))
        | (refine Quiet.trans ?_ (ih_consume_params_func_loop _ _ _ _ _ (by assumption))))
    · intro func p p' h
      simp only [consume_params_func, bind, Except.bind, pure, Except.pure] at h
      repeat' split at h
      all_goals first
        | (cases h; done)
        | skip
      all_goals first
        | cases h
        | refine Quiet.trans ?_ (fact_r_local_quiet h)
        | refine Quiet.trans ?_ (fact_r_outer_quiet h)
        | refine Quiet.trans ?_ (fact_r_call_check_quiet h)
        | refine Quiet.trans ?_ (ih_expression _ _ _ h)
        | refine Quiet.trans ?_ (ih_s_expression _ _ _ h)
        | refine Quiet.trans ?_ (ih_s_expression_r _ _ _ h)
        | refine Quiet.trans ?_ (ih_s_expression_prime _ _ _ h)
        | refine Quiet.trans ?_ (ih_term _ _ _ h)
        | refine Quiet.trans ?_ (ih_term_r _ _ _ h)
        | refine Quiet.trans ?_ (ih_term_prime _ _ _ h)
        | refine Quiet.trans ?_ (ih_fact _ _ _ h)
        | refine Quiet.trans ?_ (ih_fact_r _ _ _ h)
        | refine Quiet.trans ?_ (ih_fact_prime _ _ _ h)
        | refine Quiet.trans ?_ (ih_consume_params_func _ _ _ h)
        | refine Quiet.trans ?_ (ih_consume_params_func_loop _ _ _ _ _ h)
      all_goals with_reducible repeat (first
        | exact Quiet.refl _
        | assumption
        | apply Quiet.push
        | apply Quiet.gpr_sub
        | apply Quiet.gpr_inc
        | apply Quiet.advance
        | apply Quiet.emit_or_label
        | apply Quiet.and_jump
        | (refine Quiet.emit ?_ _ _ (Plain.of_head _ (by simp)))
        | (refine Quiet.pop ?_ (by assumption))
        | (simp only [Quiet.mk_iff]; refine Quiet.on ?_)
        | (refine Quiet.trans ?_ (s_expression_prime_compare_quiet (by assumption)))
        | (refine Quiet.trans ?_ (term_prime_arith_quiet (by assumption)))
        | (refine Quiet.trans ?_ (term_prime_or_jump_quiet (by assumption)))
        | (refine Quiet.trans ?_ (boolean_pair_check_quiet (by assumption)))
        | (refine Quiet.trans ?_ (fact_prime_arith_quiet (by assumption)))
        | (refine Quiet.trans ?_ (fact_r_integer_quiet (by assumption)))
        | (refine Quiet.trans ?_ (fact_r_real_quiet (by assumption)))
        | (refine Quiet.trans ?_ (fact_r_local_quiet (by assumption)))
        | (refine Quiet.trans ?_ (fact_r_outer_quiet (by assumption)))
        | (refine Quiet.trans ?_ (func_param_by_ref_quiet (by assumption)))
        | (refine Quiet.trans ?_ (func_param_check_quiet (by assumption)))
        | (refine Quiet.trans ?_ (consume_comma_quiet (by assumption)))
        | (refine Quiet.trans ?_ (fact_r_call_check_quiet (by assumption)))
        | (refine Quiet.trans ?_ (Parser.expect_special_quiet (by assumption)))
        | (refine Quiet.trans ?_ (Parser.emit_jump_quiet (by assumption)))
        | (refine Quiet.trans ?_ (ih_expression _ _ _ (by assumption)))
        | (refine Quiet.trans ?_ (ih_s_expression _ _ _ (by assumption)))
        | (refine Quiet.trans ?_ (ih_s_expression_r _ _ _ (by assumption)))
        | (refine Quiet.trans ?_ (ih_s_expression_prime _ _ _ (by assumption)))
        | (refine Quiet.trans ?_ (ih_term _ _ _ (by assumption)))
        | (refine Quiet.trans ?_ (ih_term_r _ _ _ (by assumption)))
        | (refine Quiet.trans ?_ (ih_term_prime _ _ _ (by assumption)))
        | (refine Quiet.trans ?_ (ih_fact _ _ _ (by assumption)))
        | (refine Quiet.trans ?_ (ih_fact_r _ _ _ (by assumption)))
        | (refine Quiet.trans ?_ (ih_fact_prime _ _ _ (by assumption)))
        | (refine Quiet.trans ?_ (ih_consume_params_func _ _ _ (by assumption)))
        | (refine Quiet.trans ?_ (ih_consume_params_func_loop _ _ _ _ _ (by assumption))))
    · intro func parameters current_param p p' h
      simp only [consume_params_func_loop, bind, Except.bind, pure, Except.pure] at h
      repeat' split at h
      all_goals first
        | (cases h; done)
        | skip
      all_goals first
        | cases h
        | refine Quiet.trans ?_ (fact_r_local_quiet h)
        | refine Quiet.trans ?_ (fact_r_outer_quiet h)
        | refine Quiet.trans ?_ (fact_r_call_check_quiet h)
        | refine Quiet.trans ?_ (ih_expression _ _ _ h)
        | refine Quiet.trans ?_ (ih_s_expression _ _ _ h)
        | refine Quiet.trans ?_ (ih_s_expression_r _ _ _ h)
        | refine Quiet.trans ?_ (ih_s_expression_prime _ _ _ h)
        | refine Quiet.trans ?_ (ih_term _ _ _ h)
        | refine Quiet.trans ?_ (ih_term_r _ _ _ h)
        | refine Quiet.trans ?_ (ih_term_prime _ _ _ h)
        | refine Quiet.trans ?_ (ih_fact _ _ _ h)
        | refine Quiet.trans ?_ (ih_fact_r _ _ _ h)
        | refine Quiet.trans ?_ (ih_fact_prime _ _ _ h)
        | refine Quiet.trans ?_ (ih_consume_params_func _ _ _ h)
        | refine Quiet.trans ?_ (ih_consume_params_func_loop _ _ _ _ _ h)
      all_goals with_reducible repeat (first
        | exact Quiet.refl _
        | assumption
        | apply Quiet.push
        | apply Quiet.gpr_sub
        | apply Quiet.gpr_inc
        | apply Quiet.advance
        | apply Quiet.emit_or_label
        | apply Quiet.and_jump
        | (refine Quiet.emit ?_ _ _ (Plain.of_head _ (by simp)))
        | (refine Quiet.pop ?_ (by assumption))
        | (simp only [Quiet.mk_iff]; refine Quiet.on ?_)
        | (refine Quiet.trans ?_ (s_expression_prime_compare_quiet (by assumption)))
        | (refine Quiet.trans ?_ (term_prime_arith_quiet (by assumption)))
        | (refine Quiet.trans ?_ (term_prime_or_jump_quiet (by assumption)))
        | (refine Quiet.trans ?_ (boolean_pair_check_quiet (by assumption)))
        | (refine Quiet.trans ?_ (fact_prime_arith_quiet (by assumption)))
        | (refine Quiet.trans ?_ (fact_r_integer_quiet (by assumption)))
        | (refine Quiet.trans ?_ (fact_r_real_quiet (by assumption)))
        | (refine Quiet.trans ?_ (fact_r_local_quiet (by assumption)))
        | (refine Quiet.trans ?_ (fact_r_outer_quiet (by assumption)))
        | (refine Quiet.trans ?_ (func_param_by_ref_quiet (by assumption)))
        | (refine Quiet.trans ?_ (func_param_check_quiet (by assumption)))
        | (refine Quiet.trans ?_ (consume_comma_quiet (by assumption)))
        | (refine Quiet.trans ?_ (fact_r_call_check_quiet (by assumption)))
        | (refine Quiet.trans ?_ (Parser.expect_special_quiet (by assumption)))
        | (refine Quiet.trans ?_ (Parser.emit_jump_quiet (by assumption)))
        | (refine Quiet.trans ?_ (ih_expression _ _ _ (by assumption)))
        | (refine Quiet.trans ?_ (ih_s_expression _ _ _ (by assumption)))
        | (refine Quiet.trans ?_ (ih_s_expression_r _ _ _ (by assumption)))
        | (refine Quiet.trans ?_ (ih_s_expression_prime _ _ _ (by assumption)))
        | (refine Quiet.trans ?_ (ih_term _ _ _ (by assumption)))
        | (refine Quiet.trans ?_ (ih_term_r _ _ _ (by assumption)))
        | (refine Quiet.trans ?_ (ih_term_prime _ _ _ (by assumption)))
        | (refine Quiet.trans ?_ (ih_fact _ _ _ (by assumption)))
        | (refine Quiet.trans ?_ (ih_fact_r _ _ _ (by assumption)))
        | (refine Quiet.trans ?_ (ih_fact_prime _ _ _ (by assumption)))
        | (refine Quiet.trans ?_ (ih_consume_params_func _ _ _ (by assumption)))
        | (refine Quiet.trans ?_ (ih_consume_params_func_loop _ _ _ _ _ (by assumption))))

/-! ## Counting labels -/

theorem count_label_of_plain (l : List String) (h : ∀ x ∈ l, Plain x) (k : LabelKind) (n : Nat) :
    l.count (label k n) = 0 := by
  rw [List.count_eq_zero]
  intro hm
  exact h _ hm k n rfl

theorem count_label_cons_plain (x : String) (l : List String) (h : Plain x) (k : LabelKind)
    (n : Nat) : (x :: l).count (label k n) = l.count (label k n) := by
  have hne : x ≠ label k n := h k n
  simp [List.count_cons, hne]

theorem count_label_cons_label (k' : LabelKind) (n' : Nat) (l : List String) (k : LabelKind)
    (n : Nat) :
    (label k' n' :: l).count (label k n) = l.count (label k n) + if k' = k ∧ n' = n then 1 else 0 := by
  simp [List.count_cons, label_eq_iff]

theorem in_range_empty (i n : Nat) : in_range i i n = 0 := by
  unfold in_range; split_ifs with h
  · omega
  · rfl

theorem in_range_add (i j k n : Nat) (h1 : i ≤ j) (h2 : j ≤ k) :
    in_range i j n + in_range j k n = in_range i k n := by
  unfold in_range; split_ifs <;> omega

theorem in_range_succ (i k n : Nat) (h : i < k) :
    (if i = n then 1 else 0) + in_range (i + 1) k n = in_range i k n := by
  unfold in_range; split_ifs <;> omega

theorem IfLabels.of_plain (i : Nat) (l : List String) (h : ∀ x ∈ l, Plain x) :
    IfLabels i i l := by
  intro k _ n
  rw [count_label_of_plain l h, in_range_empty]

theorem Labelled.of_plain_lines (i w : Nat) (l : List String) (h : ∀ x ∈ l, Plain x) :
    Labelled i i w w l := by
  refine ⟨?_, ?_⟩
  · intro k n
    rw [count_label_of_plain l h]
    split <;> rw [in_range_empty]
  · intro n h1 h2
    omega

theorem Labelled.if_labels {i i' w w' : Nat} {l : List String} (h : Labelled i i' w w' l) :
    IfLabels i i' l := by
  intro k hk n
  have := h.counts k n
  rw [hk] at this
  simpa using this

theorem Labelled.append {i j k w v u : Nat} {l1 l2 : List String}
    (h1 : Labelled i j w v l1) (h2 : Labelled j k v u l2)
    (hij : i ≤ j) (hjk : j ≤ k) (hwv : w ≤ v) (hvu : v ≤ u) :
    Labelled i k w u (l1 ++ l2) := by
  refine ⟨?_, ?_⟩
  · intro kd n
    rw [List.count_append, h1.counts, h2.counts]
    split
    · exact in_range_add _ _ _ _ hij hjk
    · exact in_range_add _ _ _ _ hwv hvu
  · intro n hn1 hn2
    by_cases hlt : n < j
    · obtain ⟨a, b, c, d, m, m', hl, hm1, hm2, hm3, hb, hc⟩ := h1.nested n hn1 hlt
      refine ⟨a, b, c, d ++ l2, m, m', ?_, hm1, hm2, by omega, hb, hc⟩
      rw [hl]; simp
    · obtain ⟨a, b, c, d, m, m', hl, hm1, hm2, hm3, hb, hc⟩ := h2.nested n (by omega) hn2
      refine ⟨l1 ++ a, b, c, d, m, m', ?_, hm1, hm2, hm3, hb, hc⟩
      rw [hl]; simp

theorem IfLabels.append_plain {i i' : Nat} {l : List String} (h : IfLabels i i' l)
    (x : String) (hx : Plain x) : IfLabels i i' (l ++ [x]) := by
  intro k hk n
  rw [List.count_append, h k hk n, count_label_of_plain [x] (by simpa using hx)]
  rfl

/-- The lines of an `if` statement numbered `n` whose branches are labelled by the `if`s
numbered `n < j < m` and `m ≤ j < m'`. -/
theorem Labelled.if_block {n m m' w v u : Nat} {pre l1 l2 : List String} {x1 x2 x3 : String}
    (hpre : ∀ x ∈ pre, Plain x) (hx1 : Plain x1) (hx2 : Plain x2) (hx3 : Plain x3)
    (h1 : Labelled (n + 1) m w v l1) (h2 : Labelled m m' v u l2)
    (hm : n + 1 ≤ m) (hm' : m ≤ m') (hwv : w ≤ v) (hvu : v ≤ u) :
    Labelled n m' w u
      (pre ++ [x1, label .If n] ++ l1 ++ [x2, label .Else n] ++ l2 ++ [x3, label .Endif n]) := by
  refine ⟨?_, ?_⟩
  · intro k j
    simp only [List.count_append, count_label_of_plain pre hpre, h1.counts, h2.counts,
      count_label_cons_plain _ _ hx1, count_label_cons_plain _ _ hx2,
      count_label_cons_plain _ _ hx3, count_label_cons_label, List.count_nil]
    have ha := in_range_add (n + 1) m m' j hm hm'
    have hb := in_range_succ n m' j (by omega)
    have hc := in_range_add w v u j hwv hvu
    cases k <;> simp [LabelKind.is_if] <;> omega
  · intro j hj1 hj2
    by_cases hjn : j = n
    · subst hjn
      refine ⟨pre ++ [x1], l1 ++ [x2], l2 ++ [x3], [], m, m', by simp, by omega, hm', le_refl _,
        h1.if_labels.append_plain x2 hx2, h2.if_labels.append_plain x3 hx3⟩
    · by_cases hlt : j < m
      · obtain ⟨a, b, c, d, k, k', hl, hk1, hk2, hk3, hb, hc⟩ := h1.nested j (by omega) hlt
        refine ⟨pre ++ [x1, label .If n] ++ a, b, c,
          d ++ [x2, label .Else n] ++ l2 ++ [x3, label .Endif n], k, k', ?_, hk1, hk2,
          by omega, hb, hc⟩
        rw [hl]; simp
      · obtain ⟨a, b, c, d, k, k', hl, hk1, hk2, hk3, hb, hc⟩ := h2.nested j (by omega) hj2
        refine ⟨pre ++ [x1, label .If n] ++ l1 ++ [x2, label .Else n] ++ a, b, c,
          d ++ [x3, label .Endif n], k, k', ?_, hk1, hk2, hk3, hb, hc⟩
        rw [hl]; simp

/-- The lines of a `while` statement numbered `n` whose body is labelled by the `while`s
numbered `n < j < u`. -/
theorem Labelled.while_block {i i' n u : Nat} {e body : List String} {x1 x2 : String}
    (he : ∀ x ∈ e, Plain x) (hx1 : Plain x1) (hx2 : Plain x2)
    (hb : Labelled i i' (n + 1) u body) (hu : n + 1 ≤ u) :
    Labelled i i' n u
      (label .While n :: e ++ [x1, label .Inner n] ++ body ++ [x2, label .Endwhile n]) := by
  refine ⟨?_, ?_⟩
  · intro k j
    simp only [List.count_append, List.cons_append, count_label_of_plain e he, hb.counts,
      count_label_cons_plain _ _ hx1, count_label_cons_plain _ _ hx2,
      count_label_cons_label, List.count_nil]
    have ha := in_range_succ n u j (by omega)
    cases k <;> simp [LabelKind.is_if] <;> omega
  · intro j hj1 hj2
    obtain ⟨a, b, c, d, k, k', hl, hk1, hk2, hk3, hb1, hc1⟩ := hb.nested j hj1 hj2
    refine ⟨label .While n :: e ++ [x1, label .Inner n] ++ a, b, c,
      d ++ [x2, label .Endwhile n], k, k', ?_, hk1, hk2, hk3, hb1, hc1⟩
    rw [hl]; simp

/-! ## Runs of statements -/

theorem Run.of_quiet {p p' : Parser} (h : Quiet p p') : Runs p p' := by
  obtain ⟨l, ho, hp⟩ := h.out
  refine ⟨l, ho, h.cstack, h.lstack, ?_, h.toks, ?_⟩
  · rw [h.ifc, h.whc]; have := h.pend; omega
  · intro _ _
    rw [h.ifc, h.whc]
    exact ⟨le_refl _, le_refl _, Labelled.of_plain_lines _ _ l hp⟩

theorem Run.concat {p q r : Parser} {l1 l2 : List String} (h1 : Run p q l1) (h2 : Run q r l2) :
    Run p r (l1 ++ l2) := by
  refine ⟨by rw [h2.out, h1.out, List.append_assoc], h2.cstack.trans h1.cstack,
    h2.lstack.trans h1.lstack, le_trans h2.budget h1.budget,
    fun t h => h1.toks t (h2.toks t h), ?_⟩
  intro hb hw
  obtain ⟨a1, a2, a3⟩ := h1.labels hb hw
  obtain ⟨b1, b2, b3⟩ := h2.labels (lt_of_le_of_lt h1.budget hb) (fun t h => hw t (h1.toks t h))
  exact ⟨le_trans a1 b1, le_trans a2 b2, a3.append b3 a1 b1 a2 b2⟩

theorem Runs.stay (p : Parser) : Runs p p := Run.of_quiet (Quiet.refl p)

theorem Runs.chain {p q r : Parser} (h1 : Runs p q) (h2 : Runs q r) : Runs p r := by
  obtain ⟨l1, h1⟩ := h1
  obtain ⟨l2, h2⟩ := h2
  exact ⟨l1 ++ l2, h1.concat h2⟩

theorem Runs.quiet {p q r : Parser} (h1 : Runs p q) (h2 : Quiet q r) : Runs p r :=
  h1.chain (Run.of_quiet h2)

theorem Runs.push_value {p q : Parser} (h : Runs p q) (v : VarValue) : Runs p (q.push v) :=
  h.quiet ((Quiet.refl q).push v)

theorem Runs.release {p q : Parser} (h : Runs p q) (k : Nat) : Runs p (q.gpr_sub k) :=
  h.quiet ((Quiet.refl q).gpr_sub k)

theorem Runs.next_token {p q : Parser} (h : Runs p q) : Runs p q.advance :=
  h.quiet (Quiet.refl q).advance

theorem Runs.get_token {p q : Parser} (h : Runs p q) : Runs p q.get_token :=
  h.quiet ((Quiet.refl q).advance.of_eq rfl rfl rfl rfl rfl rfl rfl rfl)

theorem Runs.emit_plain {p q : Parser} (h : Runs p q) (stream : Bool) (line : String)
    (hl : Plain line) : Runs p (q.emit stream line) :=
  h.quiet ((Quiet.refl q).emit stream line hl)

theorem Runs.mk_on_iff (p : Parser) (tok : Option Token) (gd bd idx : Nat) (vals : List VarValue)
    (st : SymbolTable) (tmp : List String) (gi : Nat) (ou fw : Bool) (lc : Char)
    (ic wc oc : Nat) (cs ls : List Nat) (lx : Lexer) (out stg : List String) :
    Runs p ⟨tok, gd, bd, idx, vals, st, tmp, gi, ou, fw, lc, ic, wc, oc, cs, ls, lx, out, stg⟩ ↔
      RunsOn p tok ic wc cs ls lx out := by
  constructor
  · intro h gd bd idx vals st tmp gi ou fw lc oc stg
    obtain ⟨l, h⟩ := h
    exact ⟨l, h.out, h.cstack, h.lstack, h.budget, h.toks, h.labels⟩
  · intro h
    exact h _ _ _ _ _ _ _ _ _ _ _ _

theorem Runs.of_on {p q : Parser} (h : Runs p q) :
    RunsOn p q.token q.if_count q.while_count q.conditional_stack q.loop_stack q.lexer
      q.asm_output := by
  intro gd bd idx vals st tmp gi ou fw lc oc stg
  obtain ⟨l, h⟩ := h
  exact ⟨l, h.out, h.cstack, h.lstack, h.budget, h.toks, h.labels⟩

/-! ## The straight-line parts of statements -/

theorem proc_param_by_ref_quiet {parameter : VarData} {p : Parser}
    {x : List String × Parser} (h : proc_param_by_ref parameter p = .ok x) :
    Quiet p x.2 ∧ ∀ l ∈ x.1, Plain l := by
  simp only [proc_param_by_ref, bind, Except.bind, pure, Except.pure] at h
  repeat' split at h
  all_goals first
    | (cases h; done)
    | skip
  cases h
  refine ⟨(Quiet.refl p).advance, ?_⟩
  intro l hl
  simp only [List.mem_cons, List.mem_singleton, List.not_mem_nil, or_false] at hl
  rcases hl with rfl | rfl | rfl <;> exact Plain.of_head _ (by simp)

theorem proc_param_push_quiet {parameter : VarData} {p : Parser}
    {x : List String × Parser} (h : proc_param_push parameter p = .ok x) :
    Quiet p x.2 ∧ ((∀ l ∈ p.stage, Plain l) → ∀ l ∈ x.1, Plain l) := by
  simp only [proc_param_push, bind, Except.bind, pure, Except.pure] at h
  repeat' split at h
  all_goals first
    | (cases h; done)
    | skip
  cases h
  rename_i _ x1 hx1 _ _ r hr
  have hq : Quiet p (x1.2.emit true ("PUSH " ++ r)) :=
    ((Quiet.refl p).pop hx1).emit true _ (Plain.of_head _ (by simp))
  exact ⟨hq.gpr_sub 1, fun hs => hq.stage hs⟩

theorem consume_params_proc_loop_quiet (fuel : Nat) :
    ∀ (parameters : List VarData) (current_param : Nat) (assembly : List (List String))
      (p : Parser) (x : List (List String) × Parser),
      consume_params_proc_loop fuel parameters current_param assembly p = .ok x →
      (∀ b ∈ assembly, ∀ l ∈ b, Plain l) →
      Quiet p x.2 ∧ ∀ b ∈ x.1, ∀ l ∈ b, Plain l := by
  induction fuel with
  | zero => intro _ _ _ _ _ h; simp [consume_params_proc_loop] at h
  | succ fuel ih =>
    intro parameters current_param assembly p x h ha
    simp only [consume_params_proc_loop, bind, Except.bind, pure, Except.pure] at h
    repeat' split at h
    all_goals first
      | (cases h; done)
      | skip
    · cases h; exact ⟨Quiet.refl p, ha⟩
    · rename_i y hy _ q hq
      obtain ⟨h1, h2⟩ := proc_param_by_ref_quiet hy
      have h3 := consume_comma_quiet hq
      have hb : ∀ b ∈ assembly ++ [y.1], ∀ l ∈ b, Plain l := by
        intro b hb
        rcases List.mem_append.1 hb with hb | hb
        · exact ha b hb
        · simp only [List.mem_singleton] at hb; subst hb; exact h2
      obtain ⟨h4, h5⟩ := ih _ _ _ _ _ h hb
      exact ⟨(h1.trans h3).trans h4, h5⟩
    · rename_i e he _ y hy _ q hq
      have h0 : Quiet p { p with stage := [] } :=
        ⟨⟨[], by simp, by simp⟩, fun _ => by simp, rfl, rfl, rfl, rfl, le_refl _, fun _ h => h⟩
      have h1 := (expression_quiet_all fuel).1 _ _ _ he
      obtain ⟨h2, h2b⟩ := proc_param_push_quiet hy
      have h3 := consume_comma_quiet hq
      have hb : ∀ b ∈ assembly ++ [y.1], ∀ l ∈ b, Plain l := by
        intro b hb
        rcases List.mem_append.1 hb with hb | hb
        · exact ha b hb
        · simp only [List.mem_singleton] at hb; subst hb
          exact h2b (h1.stage (by simp))
      obtain ⟨h4, h5⟩ := ih _ _ _ _ _ h hb
      exact ⟨(((h0.trans h1).trans h2).trans h3).trans h4, h5⟩

theorem consume_params_proc_quiet {fuel : Nat} {proc : ProcData} {p p' : Parser}
    (h : consume_params_proc fuel proc p = .ok p') : Quiet p p' := by
  simp only [consume_params_proc, bind, Except.bind, pure, Except.pure] at h
  repeat' split at h
  all_goals first
    | (cases h; done)
    | skip
  cases h
  rename_i x hx
  obtain ⟨h1, h2⟩ := consume_params_proc_loop_quiet _ _ _ _ _ _ hx (by simp)
  refine h1.trans ⟨⟨x.1.flatten, rfl, ?_⟩, fun h => h, rfl, rfl, rfl, rfl, le_refl _,
    fun _ h => h⟩
  intro l hl
  obtain ⟨b, hb, hlb⟩ := List.mem_flatten.1 hl
  exact h2 b hb l hlb

theorem Parser.advance_pending (p : Parser) :
    p.advance.pending ≤ p.pending ∧ (∀ t ∈ p.advance.toks, t ∈ p.toks) ∧
    (p.token.isSome = true → p.advance.pending + 1 ≤ p.pending) := by
  have key : ∀ (lx : Lexer) (tok : Option Token),
      (lx.get_token.2.tokens.length + (if lx.get_token.1.isSome then 1 else 0) ≤
        lx.tokens.length + if tok.isSome then 1 else 0) ∧
      (∀ t ∈ lx.get_token.1.toList ++ lx.get_token.2.tokens, t ∈ tok.toList ++ lx.tokens) ∧
      (tok.isSome = true →
        lx.get_token.2.tokens.length + (if lx.get_token.1.isSome then 1 else 0) + 1 ≤
          lx.tokens.length + if tok.isSome then 1 else 0) := by
    intro lx tok
    rcases lx with ⟨_ | ⟨t, ts⟩, c⟩ <;> cases tok <;> simp [Lexer.get_token] <;> tauto
  exact key p.lexer p.token

theorem Parser.emit_jump_lines {p q : Parser} {target : String}
    (h : p.emit_jump false (.ok target) = .ok q) :
    q = { p with asm_output := p.asm_output ++ jump_lines p.last_comparison target } := by
  simp only [Parser.emit_jump, bind, Except.bind, pure, Except.pure] at h
  unfold jump_lines
  repeat' split at h
  all_goals (cases h; simp_all [Parser.emit])

theorem Parser.emit_or_label_lines (p : Parser) :
    (p.emit_or_label false).asm_output = p.asm_output ++ or_lines p ∧
    (p.emit_or_label false).conditional_stack = p.conditional_stack ∧
    (p.emit_or_label false).loop_stack = p.loop_stack ∧
    (p.emit_or_label false).if_count = p.if_count ∧
    (p.emit_or_label false).while_count = p.while_count ∧
    (p.emit_or_label false).token = p.token ∧
    (p.emit_or_label false).lexer = p.lexer := by
  unfold Parser.emit_or_label or_lines
  split <;> simp [Parser.emit]

/-- The lines that `handle_if` writes on reading `then`, for the `if` numbered `n` on top of
the stack: the conditional jump to `if<n>`, the pending `or` label, `JMP else<n>` and
`if<n>:`; the label stacks and counters stay as they are and tokens are only consumed. -/
theorem handle_if_then_lines {p pt : Parser} {n : Nat} {cs : List Nat}
    (h : handle_if_then p = .ok pt) (hcs : p.conditional_stack = n :: cs) :
    pt.asm_output = p.asm_output ++ (jump_lines p.last_comparison ("if" ++ toString n) ++
      or_lines p ++ ["JMP else" ++ toString n, "if" ++ toString n ++ ":"]) ∧
    pt.conditional_stack = p.conditional_stack ∧ pt.loop_stack = p.loop_stack ∧
    pt.if_count = p.if_count ∧ pt.while_count = p.while_count ∧
    pt.pending ≤ p.pending ∧ (∀ t ∈ pt.toks, t ∈ p.toks) := by
  simp only [handle_if_then, bind, Except.bind, pure, Except.pure] at h
  split at h
  · cases h
  rename_i q hq
  simp only [hcs, stack_top, Except.map] at hq
  have hq := Parser.emit_jump_lines hq
  have e1 : q.asm_output = p.asm_output ++ jump_lines p.last_comparison ("if" ++ toString n) := by
    rw [hq]
  have e2 : q.conditional_stack = p.conditional_stack := by rw [hq]
  have e3 : q.loop_stack = p.loop_stack := by rw [hq]
  have e4 : q.if_count = p.if_count := by rw [hq]
  have e5 : q.while_count = p.while_count := by rw [hq]
  have e6 : q.token = p.token := by rw [hq]
  have e7 : q.lexer = p.lexer := by rw [hq]
  have e8 : q.or_used = p.or_used := by rw [hq]
  have e9 : q.or_count = p.or_count := by rw [hq]
  clear hq
  obtain ⟨o1, o2, o3, o4, o5, o6, o7⟩ := Parser.emit_or_label_lines q
  have hq2 := (o2.trans e2).trans hcs
  simp only [hq2, stack_top] at h
  cases h
  have ha := Parser.advance_pending (((q.emit_or_label false).emit false
    ("JMP else" ++ toString n)).emit false ("if" ++ toString n ++ ":"))
  refine ⟨?_, ?_, ?_, ?_, ?_, ?_, ?_⟩
  · simp [Parser.advance, Parser.emit, o1, or_lines, e1, e8, e9]
  · simp [Parser.advance, Parser.emit, o2, e2]
  · simp [Parser.advance, Parser.emit, o3, e3]
  · simp [Parser.advance, Parser.emit, o4, e4]
  · simp [Parser.advance, Parser.emit, o5, e5]
  · refine le_trans ha.1 (le_of_eq ?_)
    simp [Parser.pending, Parser.emit, o6, o7, e6, e7]
  · intro t ht
    have := ha.2.1 t ht
    simpa [Parser.toks, Parser.emit, o6, o7, e6, e7] using this

/-- The lines that `handle_while` writes on reading `do`, for the `while` numbered `n` on top
of the stack: the conditional jump to `while<n>inner`, the pending `or` label,
`JMP endwhile<n>` and `while<n>inner:`. -/
theorem handle_while_do_lines {p pt : Parser} {n : Nat} {cs : List Nat}
    (h : handle_while_do p = .ok pt) (hls : p.loop_stack = n :: cs) :
    pt.asm_output = p.asm_output ++ (jump_lines p.last_comparison ("while" ++ toString n ++ "inner") ++
      or_lines p ++ ["JMP endwhile" ++ toString n, "while" ++ toString n ++ "inner:"]) ∧
    pt.conditional_stack = p.conditional_stack ∧ pt.loop_stack = p.loop_stack ∧
    pt.if_count = p.if_count ∧ pt.while_count = p.while_count ∧
    pt.pending ≤ p.pending ∧ (∀ t ∈ pt.toks, t ∈ p.toks) := by
  simp only [handle_while_do, bind, Except.bind, pure, Except.pure] at h
  split at h
  · cases h
  rename_i q hq
  simp only [hls, stack_top, Except.map] at hq
  have hq := Parser.emit_jump_lines hq
  have e1 : q.asm_output = p.asm_output ++ jump_lines p.last_comparison ("while" ++ toString n ++ "inner") := by
    rw [hq]
  have e2 : q.conditional_stack = p.conditional_stack := by rw [hq]
  have e3 : q.loop_stack = p.loop_stack := by rw [hq]
  have e4 : q.if_count = p.if_count := by rw [hq]
  have e5 : q.while_count = p.while_count := by rw [hq]
  have e6 : q.token = p.token := by rw [hq]
  have e7 : q.lexer = p.lexer := by rw [hq]
  have e8 : q.or_used = p.or_used := by rw [hq]
  have e9 : q.or_count = p.or_count := by rw [hq]
  clear hq
  obtain ⟨o1, o2, o3, o4, o5, o6, o7⟩ := Parser.emit_or_label_lines q
  have hq2 := (o3.trans e3).trans hls
  simp only [hq2, stack_top] at h
  cases h
  have ha := Parser.advance_pending (((q.emit_or_label false).emit false
    ("JMP endwhile" ++ toString n)).emit false ("while" ++ toString n ++ "inner:"))
  refine ⟨?_, ?_, ?_, ?_, ?_, ?_, ?_⟩
  · simp [Parser.advance, Parser.emit, o1, or_lines, e1, e8, e9]
  · simp [Parser.advance, Parser.emit, o2, e2]
  · simp [Parser.advance, Parser.emit, o3, e3]
  · simp [Parser.advance, Parser.emit, o4, e4]
  · simp [Parser.advance, Parser.emit, o5, e5]
  · refine le_trans ha.1 (le_of_eq ?_)
    simp [Parser.pending, Parser.emit, o6, o7, e6, e7]
  · intro t ht
    have := ha.2.1 t ht
    simpa [Parser.toks, Parser.emit, o6, o7, e6, e7] using this

theorem jump_lines_plain (c : Char) (target : String) : ∀ x ∈ jump_lines c target, Plain x := by
  unfold jump_lines
  intro x hx
  repeat' split at hx
  all_goals first
    | (simp only [List.mem_singleton] at hx; subst hx; exact Plain.of_head _ (by simp))
    | simp at hx

theorem or_lines_plain (p : Parser) : ∀ x ∈ or_lines p, Plain x := by
  unfold or_lines
  intro x hx
  split at hx
  · simp only [List.mem_singleton] at hx; subst hx; exact Plain.of_head _ (by simp)
  · simp at hx

theorem expression_quiet {fuel : Nat} {stream : Bool} {p p' : Parser}
    (h : expression fuel stream p = .ok p') : Quiet p p' :=
  (expression_quiet_all fuel).1 _ _ _ h

theorem consume_params_func_quiet {fuel : Nat} {func : FuncData} {p p' : Parser}
    (h : consume_params_func fuel func p = .ok p') : Quiet p p' :=
  (expression_quiet_all fuel).2.2.2.2.2.2.2.2.2.2.1 _ _ _ h

theorem statement_call_begin_quiet {p p' : Parser}
    (h : statement_call_begin p = .ok p') : Quiet p p' := by
  simp only [statement_call_begin, bind, Except.bind, pure, Except.pure] at h
  repeat' split at h
  all_goals first
    | (cases h; done)
    | skip
  all_goals first
    | cases h
  all_goals with_reducible repeat (first
    | exact Quiet.refl _
    | assumption
    | apply Quiet.push
    | apply Quiet.gpr_sub
    | apply Quiet.gpr_inc
    | apply Quiet.advance
    | apply Quiet.emit_or_label
    | apply Quiet.ite_advance
    | (refine Quiet.emit ?_ _ _ (Plain.of_head _ (by simp)))
    | (refine Quiet.pop ?_ (by assumption))
    | (simp only [Quiet.mk_iff]; refine Quiet.on ?_)
    | (refine Quiet.trans ?_ (Parser.expect_special_quiet (by assumption))))

theorem statement_call_end_quiet {proc_info : Option ProcData} {p p' : Parser}
    (h : statement_call_end proc_info p = .ok p') : Quiet p p' := by
  simp only [statement_call_end, bind, Except.bind, pure, Except.pure] at h
  repeat' split at h
  all_goals first
    | (cases h; done)
    | skip
  all_goals first
    | cases h
  all_goals with_reducible repeat (first
    | exact Quiet.refl _
    | assumption
    | apply Quiet.push
    | apply Quiet.gpr_sub
    | apply Quiet.gpr_inc
    | apply Quiet.advance
    | apply Quiet.emit_or_label
    | apply Quiet.ite_advance
    | (refine Quiet.emit ?_ _ _ (Plain.of_head _ (by simp)))
    | (refine Quiet.pop ?_ (by assumption))
    | (simp only [Quiet.mk_iff]; refine Quiet.on ?_)
    | (refine Quiet.trans ?_ (Parser.expect_special_quiet (by assumption))))

theorem statement_assign_begin_quiet {type : VarType} {p p' : Parser}
    (h : statement_assign_begin type p = .ok p') : Quiet p p' := by
  simp only [statement_assign_begin, bind, Except.bind, pure, Except.pure] at h
  repeat' split at h
  all_goals first
    | (cases h; done)
    | skip
  all_goals first
    | cases h
  all_goals with_reducible repeat (first
    | exact Quiet.refl _
    | assumption
    | apply Quiet.push
    | apply Quiet.gpr_sub
    | apply Quiet.gpr_inc
    | apply Quiet.advance
    | apply Quiet.emit_or_label
    | apply Quiet.ite_advance
    | (refine Quiet.emit ?_ _ _ (Plain.of_head _ (by simp)))
    | (refine Quiet.pop ?_ (by assumption))
    | (simp only [Quiet.mk_iff]; refine Quiet.on ?_)
    | (refine Quiet.trans ?_ (Parser.expect_special_quiet (by assumption))))

theorem statement_store_quiet {var_info : VarData} {p p' : Parser}
    (h : statement_store var_info p = .ok p') : Quiet p p' := by
  simp only [statement_store, bind, Except.bind, pure, Except.pure] at h
  repeat' split at h
  all_goals first
    | (cases h; done)
    | skip
  all_goals first
    | cases h
  all_goals with_reducible repeat (first
    | exact Quiet.refl _
    | assumption
    | apply Quiet.push
    | apply Quiet.gpr_sub
    | apply Quiet.gpr_inc
    | apply Quiet.advance
    | apply Quiet.emit_or_label
    | apply Quiet.ite_advance
    | (refine Quiet.emit ?_ _ _ (Plain.of_head _ (by simp)))
    | (refine Quiet.pop ?_ (by assumption))
    | (simp only [Quiet.mk_iff]; refine Quiet.on ?_))

theorem statement_store_outer_quiet {info : VarData} {p p' : Parser}
    (h : statement_store_outer info p = .ok p') : Quiet p p' := by
  simp only [statement_store_outer, bind, Except.bind, pure, Except.pure] at h
  repeat' split at h
  all_goals first
    | (cases h; done)
    | skip
  all_goals first
    | cases h
  all_goals with_reducible repeat (first
    | exact Quiet.refl _
    | assumption
    | apply Quiet.push
    | apply Quiet.gpr_sub
    | apply Quiet.gpr_inc
    | apply Quiet.advance
    | apply Quiet.emit_or_label
    | apply Quiet.ite_advance
    | (refine Quiet.emit ?_ _ _ (Plain.of_head _ (by simp)))
    | (refine Quiet.pop ?_ (by assumption))
    | (simp only [Quiet.mk_iff]; refine Quiet.on ?_))

/-! ## The `if` and `while` branches of `statement` -/

theorem statement_if (fuel : Nat) (p : Parser) (h : p.token = some (.ReservedWord "if")) :
    statement (fuel + 1) p = (expression fuel false p.enter_if >>= handle_if fuel) := by
  simp [statement, Parser.tok, h, Parser.enter_if, Except.ok_bind]

theorem statement_while (fuel : Nat) (p : Parser) (h : p.token = some (.ReservedWord "while")) :
    statement (fuel + 1) p =
      (expression fuel false p.enter_while >>= fun q =>
        handle_while fuel { q with for_while := false }) := by
  simp [statement, Parser.tok, h, Parser.enter_while, Except.ok_bind, stack_top, Parser.advance]

theorem stack_top_eq {s : List Nat} {n m : Nat} {cs : List Nat} (h : stack_top s = .ok m)
    (hs : s = n :: cs) : m = n := by
  subst hs
  simp only [stack_top] at h
  cases h
  rfl

theorem stack_pop_eq {s : List Nat} {n : Nat} {cs r : List Nat} (h : stack_pop s = .ok r)
    (hs : s = n :: cs) : r = cs := by
  subst hs
  simp only [stack_pop] at h
  cases h
  rfl

theorem handle_if_step (fuel : Nat)
    (ih_statement : ∀ p p', statement fuel p = .ok p' → Runs p p')
    (ih_if_prime : ∀ p p', if_prime fuel p = .ok p' → Runs p p')
    (p p' : Parser) (n : Nat) (cs : List Nat) (h : handle_if (fuel + 1) p = .ok p')
    (hcs : p.conditional_stack = n :: cs) :
    ∃ pt q1 q2 l1 l2, IfRun fuel p p' n cs pt q1 q2 l1 l2 := by
  simp only [handle_if, bind, Except.bind, pure, Except.pure] at h
  repeat' split at h
  all_goals first
    | (cases h; done)
    | skip
  rename_i _ _ _ _ _ pt hpt _ q1 hq1 _ n1 hn1 _ q2 hq2 _ n2 hn2 _ r hr
  cases h
  obtain ⟨_, c1, _⟩ := handle_if_then_lines hpt hcs
  obtain ⟨l1, r1⟩ := ih_statement _ _ hq1
  have e1 : q1.conditional_stack = n :: cs := (r1.cstack.trans c1).trans hcs
  have hn1 := stack_top_eq hn1 e1
  subst hn1
  obtain ⟨l2, r2⟩ := ih_if_prime _ _ hq2
  have e2 : q2.conditional_stack = n1 :: cs := by
    rw [r2.cstack]; simpa [Parser.emit] using e1
  have hn2 := stack_top_eq hn2 e2
  subst hn2
  have hr := stack_pop_eq hr (by simpa [Parser.emit] using e2)
  subst hr
  exact ⟨pt, q1, q2, l1, l2, hpt, hq1, r1, hq2, r2, by simp [Parser.emit], rfl, rfl, rfl, rfl,
    rfl, rfl⟩

theorem handle_while_step (fuel : Nat)
    (ih_statement : ∀ p p', statement fuel p = .ok p' → Runs p p')
    (p p' : Parser) (n : Nat) (ls : List Nat) (h : handle_while (fuel + 1) p = .ok p')
    (hls : p.loop_stack = n :: ls) :
    ∃ pt q1 l1, WhileRun fuel p p' n ls pt q1 l1 := by
  simp only [handle_while, bind, Except.bind, pure, Except.pure] at h
  repeat' split at h
  all_goals first
    | (cases h; done)
    | skip
  rename_i _ _ _ _ _ pt hpt _ q1 hq1 _ n1 hn1 _ r hr
  cases h
  obtain ⟨_, _, c1, _⟩ := handle_while_do_lines hpt hls
  obtain ⟨l1, r1⟩ := ih_statement _ _ hq1
  have e1 : q1.loop_stack = n :: ls := (r1.lstack.trans c1).trans hls
  have hn1 := stack_top_eq hn1 e1
  subst hn1
  have hr := stack_pop_eq hr (by simpa [Parser.emit] using e1)
  subst hr
  exact ⟨pt, q1, l1, hpt, hq1, r1, by simp [Parser.emit], rfl, rfl, rfl, rfl, rfl, rfl⟩

theorem IfRun.if_listing {f : Nat} {p p' pt q1 q2 : Parser} {n : Nat} {cs : List Nat}
    {l1 l2 : List String} (h : IfRun f p p' n cs pt q1 q2 l1 l2)
    (hcs : p.conditional_stack = n :: cs) :
    p'.asm_output = p.asm_output ++
      ((jump_lines p.last_comparison ("if" ++ toString n) ++ or_lines p) ++
        ["JMP else" ++ toString n, label .If n] ++ l1 ++
        ["JMP endif" ++ toString n, label .Else n] ++ l2 ++
        ["JMP endif" ++ toString n, label .Endif n]) := by
  obtain ⟨hpt, _, r1, _, r2, o, _⟩ := h
  obtain ⟨t1, _⟩ := handle_if_then_lines hpt hcs
  rw [o, r2.out]
  simp only [Parser.emit, Bool.false_eq_true, if_false]
  rw [r1.out, t1]
  simp [label]

theorem plain_jump (s : String) (n : Nat) (h : s = "JMP else" ∨ s = "JMP endif" ∨
    s = "JMP endwhile" ∨ s = "JMP while") : Plain (s ++ toString n) := by
  rcases h with rfl | rfl | rfl | rfl <;> exact Plain.of_head _ (by simp)

/-- An `if` statement is a run: its lines are labelled by its own three labels around the
labels of the `if`s and `while`s read in its branches. -/
theorem IfRun.if_runs {f : Nat} {p pe p' pt q1 q2 : Parser} {l1 l2 : List String}
    (htok : p.token.isSome = true) (he : Quiet p.enter_if pe)
    (h : IfRun f pe p' p.if_count p.conditional_stack pt q1 q2 l1 l2) : Runs p p' := by
  have hcs : pe.conditional_stack = p.if_count :: p.conditional_stack := he.cstack
  have hlist := h.if_listing hcs
  obtain ⟨hpt, _, r1, _, r2, _, o2, o3, o4, o5, o6, o7⟩ := h
  obtain ⟨_, t2, t3, t4, t5, t6, t7⟩ := handle_if_then_lines hpt hcs
  obtain ⟨le, hle, lep⟩ := he.out
  obtain ⟨a1, a2, a3⟩ := Parser.advance_pending p
  have hifc : pe.if_count = (p.if_count + 1) % U64 := he.ifc
  have hwhc : pe.while_count = p.while_count := he.whc
  have hpend : pe.pending ≤ p.advance.pending := he.pend
  have hmod : (p.if_count + 1) % U64 ≤ p.if_count + 1 := Nat.mod_le _ _
  have ha3 := a3 htok
  have b1 := r1.budget
  have b2 := r2.budget
  have eE : ((q1.emit false ("JMP endif" ++ toString p.if_count)).emit false
      ("else" ++ toString p.if_count ++ ":")).if_count = q1.if_count ∧
      ((q1.emit false ("JMP endif" ++ toString p.if_count)).emit false
      ("else" ++ toString p.if_count ++ ":")).while_count = q1.while_count ∧
      ((q1.emit false ("JMP endif" ++ toString p.if_count)).emit false
      ("else" ++ toString p.if_count ++ ":")).pending = q1.pending ∧
      ((q1.emit false ("JMP endif" ++ toString p.if_count)).emit false
      ("else" ++ toString p.if_count ++ ":")).toks = q1.toks ∧
      ((q1.emit false ("JMP endif" ++ toString p.if_count)).emit false
      ("else" ++ toString p.if_count ++ ":")).loop_stack = q1.loop_stack :=
    ⟨rfl, rfl, rfl, rfl, rfl⟩
  obtain ⟨e1, e2, e3, e4, e5⟩ := eE
  rw [e1, e2, e3] at b2
  have hp' : p'.pending = q2.pending := by simp only [Parser.pending, o6, o7]
  have htoks' : p'.toks = q2.toks := by simp only [Parser.toks, o6, o7]
  refine ⟨le ++ ((jump_lines pe.last_comparison ("if" ++ toString p.if_count) ++ or_lines pe) ++
    ["JMP else" ++ toString p.if_count, label .If p.if_count] ++ l1 ++
    ["JMP endif" ++ toString p.if_count, label .Else p.if_count] ++ l2 ++
    ["JMP endif" ++ toString p.if_count, label .Endif p.if_count]), ?_, ?_, ?_, ?_, ?_, ?_⟩
  · rw [hlist, hle, List.append_assoc]
    rfl
  · exact o2
  · rw [o3, r2.lstack, e5, r1.lstack, t3, he.lstack]; rfl
  · rw [o4, o5, hp']
    omega
  · intro t ht
    rw [htoks'] at ht
    have h1 := r2.toks t ht
    rw [e4] at h1
    exact a2 t (he.toks t (t7 t (r1.toks t h1)))
  · intro hb hw
    have hn : (p.if_count + 1) % U64 = p.if_count + 1 := Nat.mod_eq_of_lt (by omega)
    have wpt : ∀ t ∈ pt.toks, t.lexed = true := fun t ht => hw t (a2 t (he.toks t (t7 t ht)))
    obtain ⟨c1, c2, c3⟩ := r1.labels (by omega) wpt
    have wE : ∀ t ∈ ((q1.emit false ("JMP endif" ++ toString p.if_count)).emit false
        ("else" ++ toString p.if_count ++ ":")).toks, t.lexed = true := by
      rw [e4]; exact fun t ht => wpt t (r1.toks t ht)
    obtain ⟨d1, d2, d3⟩ := r2.labels (by rw [e1, e2, e3]; omega) wE
    rw [e1] at d1 d3
    rw [e2] at d2 d3
    rw [t4, hifc, hn] at c1 c3
    rw [t5, hwhc] at c2 c3
    refine ⟨by rw [o4]; omega, by rw [o5]; omega, ?_⟩
    rw [o4, o5]
    have hpre : ∀ x ∈ le ++ (jump_lines pe.last_comparison ("if" ++ toString p.if_count) ++
        or_lines pe), Plain x := by
      intro x hx
      rcases List.mem_append.1 hx with hx | hx
      · exact lep x hx
      · rcases List.mem_append.1 hx with hx | hx
        · exact jump_lines_plain _ _ x hx
        · exact or_lines_plain _ x hx
    have key := Labelled.if_block hpre (plain_jump "JMP else" p.if_count (by simp))
      (plain_jump "JMP endif" p.if_count (by simp))
      (plain_jump "JMP endif" p.if_count (by simp)) c3 d3 c1 d1 c2 d2
    simpa [List.append_assoc] using key

theorem WhileRun.while_listing {f : Nat} {p p' pt q1 : Parser} {n : Nat} {ls : List Nat}
    {l1 : List String} (h : WhileRun f p p' n ls pt q1 l1) (hls : p.loop_stack = n :: ls) :
    p'.asm_output = p.asm_output ++
      ((jump_lines p.last_comparison ("while" ++ toString n ++ "inner") ++ or_lines p) ++
        ["JMP endwhile" ++ toString n, label .Inner n] ++ l1 ++
        ["JMP while" ++ toString n, label .Endwhile n]) := by
  obtain ⟨hpt, _, r1, o, _⟩ := h
  obtain ⟨t1, _⟩ := handle_while_do_lines hpt hls
  rw [o, r1.out, t1]
  simp [label]

/-- A `while` statement is a run: its lines are labelled by its own three labels around the
labels of the `if`s and `while`s read in its body. -/
theorem WhileRun.while_runs {f : Nat} {p pe p' pt q1 : Parser} {l1 : List String}
    (htok : p.token.isSome = true) (he : Quiet p.enter_while pe)
    (h : WhileRun f { pe with for_while := false } p' p.while_count p.loop_stack pt q1 l1) :
    Runs p p' := by
  have hls : ({ pe with for_while := false } : Parser).loop_stack =
      p.while_count :: p.loop_stack := he.lstack
  have hlist := h.while_listing hls
  obtain ⟨hpt, _, r1, _, o2, o3, o4, o5, o6, o7⟩ := h
  obtain ⟨_, t2, t3, t4, t5, t6, t7⟩ := handle_while_do_lines hpt hls
  obtain ⟨le, hle, lep⟩ := he.out
  obtain ⟨a1, a2, a3⟩ := Parser.advance_pending p
  have hifc : pe.if_count = p.if_count := he.ifc
  have hwhc : pe.while_count = (p.while_count + 1) % U64 := he.whc
  have hpend : pe.pending ≤ p.advance.pending := he.pend
  have hmod : (p.while_count + 1) % U64 ≤ p.while_count + 1 := Nat.mod_le _ _
  have ha3 := a3 htok
  have b1 := r1.budget
  have hp' : p'.pending = q1.pending := by simp only [Parser.pending, o6, o7]
  have htoks' : p'.toks = q1.toks := by simp only [Parser.toks, o6, o7]
  have f1 : ({ pe with for_while := false } : Parser).if_count = pe.if_count := rfl
  have f2 : ({ pe with for_while := false } : Parser).while_count = pe.while_count := rfl
  have f3 : ({ pe with for_while := false } : Parser).pending = pe.pending := rfl
  have f4 : ({ pe with for_while := false } : Parser).toks = pe.toks := rfl
  have f5 : ({ pe with for_while := false } : Parser).conditional_stack =
      pe.conditional_stack := rfl
  have f6 : ({ pe with for_while := false } : Parser).asm_output = pe.asm_output := rfl
  rw [f1] at t4
  rw [f2] at t5
  rw [f3] at t6
  rw [f4] at t7
  rw [f5] at t2
  rw [f6] at hlist
  have hout : p.enter_while.asm_output = p.asm_output ++ [label .While p.while_count] := by
    simp [Parser.enter_while, Parser.emit, Parser.advance, label]
  refine ⟨label .While p.while_count :: (le ++
    (jump_lines pe.last_comparison ("while" ++ toString p.while_count ++ "inner") ++
      or_lines pe)) ++ ["JMP endwhile" ++ toString p.while_count, label .Inner p.while_count] ++
    l1 ++ ["JMP while" ++ toString p.while_count, label .Endwhile p.while_count],
    ?_, ?_, ?_, ?_, ?_, ?_⟩
  · rw [hlist, hle, hout]
    simp [List.append_assoc, or_lines]
  · rw [o2, r1.cstack, t2, he.cstack]; rfl
  · exact o3
  · rw [o4, o5, hp']
    have : p.enter_while.if_count = p.if_count := rfl
    omega
  · intro t ht
    rw [htoks'] at ht
    exact a2 t (he.toks t (t7 t (r1.toks t ht)))
  · intro hb hw
    have hn : (p.while_count + 1) % U64 = p.while_count + 1 := Nat.mod_eq_of_lt (by omega)
    have wpt : ∀ t ∈ pt.toks, t.lexed = true := fun t ht => hw t (a2 t (he.toks t (t7 t ht)))
    obtain ⟨c1, c2, c3⟩ := r1.labels (by omega) wpt
    rw [t4, hifc] at c1 c3
    rw [t5, hwhc, hn] at c2 c3
    refine ⟨by rw [o4]; omega, by rw [o5]; omega, ?_⟩
    rw [o4, o5]
    have hpre : ∀ x ∈ le ++
        (jump_lines pe.last_comparison ("while" ++ toString p.while_count ++ "inner") ++
        or_lines pe), Plain x := by
      intro x hx
      rcases List.mem_append.1 hx with hx | hx
      · exact lep x hx
      · rcases List.mem_append.1 hx with hx | hx
        · exact jump_lines_plain _ _ x hx
        · exact or_lines_plain _ x hx
    exact Labelled.while_block hpre (plain_jump "JMP endwhile" p.while_count (by simp))
      (plain_jump "JMP while" p.while_count (by simp)) c3 c2

theorem statement_step (fuel : Nat)
    (ih_statement : ∀ p p', statement fuel p = .ok p' → Runs p p')
    (ih_mstatement : ∀ p p', mstatement fuel p = .ok p' → Runs p p')
    (ih_handle_if : ∀ p p' n cs, handle_if fuel p = .ok p' → p.conditional_stack = n :: cs →
      ∃ f pt q1 q2 l1 l2, fuel = f + 1 ∧ IfRun f p p' n cs pt q1 q2 l1 l2)
    (ih_handle_while : ∀ p p' n ls, handle_while fuel p = .ok p' → p.loop_stack = n :: ls →
      ∃ f pt q1 l1, fuel = f + 1 ∧ WhileRun f p p' n ls pt q1 l1)
    (p p' : Parser) (h : statement (fuel + 1) p = .ok p') : Runs p p' := by
  by_cases hif : p.token = some (.ReservedWord "if")
  · rw [statement_if fuel p hif] at h
    simp only [bind, Except.bind] at h
    split at h
    · cases h
    rename_i pe hpe
    obtain ⟨f, pt, q1, q2, l1, l2, _, hrun⟩ := ih_handle_if _ _ _ _ h
      (show pe.conditional_stack = p.if_count :: p.conditional_stack from
        (expression_quiet hpe).cstack)
    exact IfRun.if_runs (by simp [hif]) (expression_quiet hpe) hrun
  by_cases hwh : p.token = some (.ReservedWord "while")
  · rw [statement_while fuel p hwh] at h
    simp only [bind, Except.bind] at h
    split at h
    · cases h
    rename_i pe hpe
    obtain ⟨f, pt, q1, l1, _, hrun⟩ := ih_handle_while _ _ _ _ h
      (show ({ pe with for_while := false } : Parser).loop_stack =
        p.while_count :: p.loop_stack from (expression_quiet hpe).lstack)
    exact WhileRun.while_runs (by simp [hwh]) (expression_quiet hpe) hrun
  simp only [statement, bind, Except.bind, pure, Except.pure] at h
  repeat' split at h
  all_goals first
    | (cases h; done)
    | skip
  all_goals first
    | ((first
        | cases h
        | with_reducible refine Runs.quiet ?_ (statement_store_quiet h)
        | with_reducible refine Runs.quiet ?_ (statement_store_outer_quiet h)
        | with_reducible refine Runs.quiet ?_ (statement_call_end_quiet h)
        | with_reducible refine Runs.chain ?_ (ih_statement _ _ h)
        | with_reducible refine Runs.chain ?_ (ih_mstatement _ _ h))
       with_reducible repeat (first
        | exact Runs.stay _
        | assumption
        | apply Runs.push_value
        | apply Runs.release
        | apply Runs.next_token
        | apply Runs.get_token
        | (refine Runs.emit_plain ?_ _ _ (Plain.of_head _ (by simp)))
        | (simp only [Runs.mk_on_iff]; refine Runs.of_on ?_)
        | (refine Runs.quiet ?_ (statement_call_begin_quiet (by assumption)))
        | (refine Runs.quiet ?_ (statement_assign_begin_quiet (by assumption)))
        | (refine Runs.quiet ?_ (expression_quiet (by assumption)))
        | (refine Runs.quiet ?_ (consume_params_proc_quiet (by assumption)))
        | (refine Runs.quiet ?_ (consume_params_func_quiet (by assumption)))
        | (refine Runs.chain ?_ (ih_statement _ _ (by assumption)))
        | (refine Runs.chain ?_ (ih_mstatement _ _ (by assumption))))
       done)
    | skip
  · exfalso
    apply hif
    have h1 := Parser.token_of_tok (by assumption)
    simp_all
  · exfalso
    apply hwh
    have h1 := Parser.token_of_tok (by assumption)
    simp_all

theorem if_prime_step (fuel : Nat)
    (ih_statement : ∀ p p', statement fuel p = .ok p' → Runs p p')
    (p p' : Parser) (h : if_prime (fuel + 1) p = .ok p') : Runs p p' := by
  simp only [if_prime, bind, Except.bind, pure, Except.pure] at h
  repeat' split at h
  all_goals first
    | (cases h; done)
    | skip
  all_goals first
    | ((first
        | cases h
        | with_reducible refine Runs.chain ?_ (ih_statement _ _ h))
       with_reducible repeat (first
        | exact Runs.stay _
        | assumption
        | apply Runs.push_value
        | apply Runs.release
        | apply Runs.next_token
        | apply Runs.get_token
        | (refine Runs.emit_plain ?_ _ _ (Plain.of_head _ (by simp)))
        | (simp only [Runs.mk_on_iff]; refine Runs.of_on ?_))
       done)
    | skip

theorem mstatement_step (fuel : Nat)
    (ih_statement : ∀ p p', statement fuel p = .ok p' → Runs p p')
    (ih_mstatement : ∀ p p', mstatement fuel p = .ok p' → Runs p p')
    (p p' : Parser) (h : mstatement (fuel + 1) p = .ok p') : Runs p p' := by
  simp only [mstatement, bind, Except.bind, pure, Except.pure] at h
  repeat' split at h
  all_goals first
    | (cases h; done)
    | skip
  all_goals first
    | ((first
        | cases h
        | with_reducible refine Runs.chain ?_ (ih_mstatement _ _ h))
       with_reducible repeat (first
        | exact Runs.stay _
        | assumption
        | apply Runs.push_value
        | apply Runs.release
        | apply Runs.next_token
        | apply Runs.get_token
        | (refine Runs.emit_plain ?_ _ _ (Plain.of_head _ (by simp)))
        | (simp only [Runs.mk_on_iff]; refine Runs.of_on ?_)
        | (refine Runs.chain ?_ (ih_statement _ _ (by assumption))))
       done)
    | skip

/-- Every run of a statement function that returns is a run in the sense of `Run`, and the
runs of `handle_if` and `handle_while` decompose as `IfRun` and `WhileRun` say. -/
theorem statement_runs_all (fuel : Nat) :
    (∀ p p', statement fuel p = .ok p' → Runs p p') ∧
    (∀ p p', if_prime fuel p = .ok p' → Runs p p') ∧
    (∀ p p', mstatement fuel p = .ok p' → Runs p p') ∧
    (∀ p p' n cs, handle_if fuel p = .ok p' → p.conditional_stack = n :: cs →
      ∃ f pt q1 q2 l1 l2, fuel = f + 1 ∧ IfRun f p p' n cs pt q1 q2 l1 l2) ∧
    (∀ p p' n ls, handle_while fuel p = .ok p' → p.loop_stack = n :: ls →
      ∃ f pt q1 l1, fuel = f + 1 ∧ WhileRun f p p' n ls pt q1 l1) := by
  induction fuel with
  | zero =>
    refine ⟨?_, ?_, ?_, ?_, ?_⟩
    · intro p p' h; simp [statement] at h
    · intro p p' h; simp [if_prime] at h
    · intro p p' h; simp [mstatement] at h
    · intro p p' n cs h; simp [handle_if] at h
    · intro p p' n ls h; simp [handle_while] at h
  | succ fuel ih =>
    obtain ⟨ih_statement, ih_if_prime, ih_mstatement, ih_handle_if, ih_handle_while⟩ := ih
    refine ⟨statement_step fuel ih_statement ih_mstatement ih_handle_if ih_handle_while,
      if_prime_step fuel ih_statement, mstatement_step fuel ih_statement ih_mstatement, ?_, ?_⟩
    · intro p p' n cs h hcs
      obtain ⟨pt, q1, q2, l1, l2, hr⟩ :=
        handle_if_step fuel ih_statement ih_if_prime p p' n cs h hcs
      exact ⟨fuel, pt, q1, q2, l1, l2, rfl, hr⟩
    · intro p p' n ls h hls
      obtain ⟨pt, q1, l1, hr⟩ := handle_while_step fuel ih_statement p p' n ls h hls
      exact ⟨fuel, pt, q1, l1, rfl, hr⟩

theorem statement_runs {fuel : Nat} {p p' : Parser} (h : statement fuel p = .ok p') :
    Runs p p' :=
  (statement_runs_all fuel).1 p p' h

theorem mstatement_runs {fuel : Nat} {p p' : Parser} (h : mstatement fuel p = .ok p') :
    Runs p p' :=
  (statement_runs_all fuel).2.2.1 p p' h

/-! ## Declarations, blocks and the program -/

theorem declare_temporaries_loop_quiet {size_of : VarType → Nat} {pass_by_ref is_param : Bool}
    (ts : List String) : ∀ {p p' : Parser},
    declare_temporaries_loop size_of pass_by_ref is_param ts p = .ok p' → Quiet p p' := by
  induction ts with
  | nil =>
    intro p p' h
    simp only [declare_temporaries_loop, pure, Except.pure] at h
    cases h
    exact Quiet.refl p
  | cons t rest ih =>
    intro p p' h
    simp only [declare_temporaries_loop, bind, Except.bind, pure, Except.pure] at h
    repeat' split at h
    all_goals first
      | (cases h; done)
      | skip
    all_goals first
      | cases h
      | with_reducible refine Quiet.trans ?_ (ih h)
    all_goals with_reducible repeat (first
      | exact Quiet.refl _
      | assumption
      | apply Quiet.push
      | apply Quiet.gpr_sub
      | apply Quiet.gpr_inc
      | apply Quiet.advance
      | apply Quiet.emit_or_label
      | apply Quiet.ite_advance
      | (refine Quiet.emit ?_ _ _ (Plain.of_head _ (by simp)))
      | (refine Quiet.pop ?_ (by assumption))
      | (simp only [Quiet.mk_iff]; refine Quiet.on ?_))

theorem declare_temporaries_quiet {size_of : VarType → Nat} {pass_by_ref is_param : Bool} {p p' : Parser}
    (h : declare_temporaries size_of pass_by_ref is_param p = .ok p') : Quiet p p' := by
  simp only [declare_temporaries, bind, Except.bind, pure, Except.pure] at h
  repeat' split at h
  all_goals first
    | (cases h; done)
    | skip
  all_goals first
    | cases h
  all_goals with_reducible repeat (first
    | exact Quiet.refl _
    | assumption
    | apply Quiet.push
    | apply Quiet.gpr_sub
    | apply Quiet.gpr_inc
    | apply Quiet.advance
    | apply Quiet.emit_or_label
    | apply Quiet.ite_advance
    | (refine Quiet.emit ?_ _ _ (Plain.of_head _ (by simp)))
    | (refine Quiet.pop ?_ (by assumption))
    | (simp only [Quiet.mk_iff]; refine Quiet.on ?_)
    | (refine Quiet.trans ?_ (declare_temporaries_loop_quiet _ (by assumption))))

theorem declare_return_slot_quiet {func_name : String} {p p' : Parser}
    (h : declare_return_slot func_name p = .ok p') : Quiet p p' := by
  simp only [declare_return_slot, bind, Except.bind, pure, Except.pure] at h
  repeat' split at h
  all_goals first
    | (cases h; done)
    | skip
  all_goals first
    | cases h
  all_goals with_reducible repeat (first
    | exact Quiet.refl _
    | assumption
    | apply Quiet.push
    | apply Quiet.gpr_sub
    | apply Quiet.gpr_inc
    | apply Quiet.advance
    | apply Quiet.emit_or_label
    | apply Quiet.ite_advance
    | (refine Quiet.emit ?_ _ _ (Plain.of_head _ (by simp)))
    | (refine Quiet.pop ?_ (by assumption))
    | (simp only [Quiet.mk_iff]; refine Quiet.on ?_))

theorem varlist_quiet (fuel : Nat) : ∀ {p p' : Parser}, varlist fuel p = .ok p' → Quiet p p' := by
  induction fuel with
  | zero => intro p p' h; simp [varlist] at h
  | succ fuel ih =>
    intro p p' h
    simp only [varlist, bind, Except.bind, pure, Except.pure] at h
    repeat' split at h
    all_goals first
      | (cases h; done)
      | skip
    all_goals first
      | cases h
      | with_reducible refine Quiet.trans ?_ (ih h)
    all_goals with_reducible repeat (first
      | exact Quiet.refl _
      | assumption
      | apply Quiet.push
      | apply Quiet.gpr_sub
      | apply Quiet.gpr_inc
      | apply Quiet.advance
      | apply Quiet.emit_or_label
      | apply Quiet.ite_advance
      | (refine Quiet.emit ?_ _ _ (Plain.of_head _ (by simp)))
      | (refine Quiet.pop ?_ (by assumption))
      | (simp only [Quiet.mk_iff]; refine Quiet.on ?_))

theorem datatype_quiet_all (fuel : Nat) :
    (∀ p p', datatype fuel p = .ok p' → Quiet p p') ∧
    (∀ p p', dim fuel p = .ok p' → Quiet p p') ∧
    (∀ p p', mdim fuel p = .ok p' → Quiet p p') := by
  induction fuel with
  | zero =>
    refine ⟨?_, ?_, ?_⟩ <;> intro p p' h <;> simp [datatype, dim, mdim] at h
  | succ fuel ih =>
    obtain ⟨ih_datatype, ih_dim, ih_mdim⟩ := ih
    refine ⟨?_, ?_, ?_⟩
    · intro p p' h
      simp only [datatype, bind, Except.bind, pure, Except.pure] at h
      repeat' split at h
      all_goals first
        | (cases h; done)
        | skip
      all_goals first
        | cases h
        | with_reducible refine Quiet.trans ?_ (ih_datatype _ _ h)
        | with_reducible refine Quiet.trans ?_ (ih_dim _ _ h)
        | with_reducible refine Quiet.trans ?_ (ih_mdim _ _ h)
      all_goals with_reducible repeat (first
        | exact Quiet.refl _
        | assumption
        | apply Quiet.push
        | apply Quiet.gpr_sub
        | apply Quiet.gpr_inc
        | apply Quiet.advance
        | apply Quiet.emit_or_label
        | apply Quiet.ite_advance
        | (refine Quiet.emit ?_ _ _ (Plain.of_head _ (by simp)))
        | (refine Quiet.pop ?_ (by assumption))
        | (simp only [Quiet.mk_iff]; refine Quiet.on ?_)
        | (refine Quiet.trans ?_ (Parser.expect_special_quiet (by assumption)))
        | (refine Quiet.trans ?_ (ih_datatype _ _ (by assumption)))
        | (refine Quiet.trans ?_ (ih_dim _ _ (by assumption)))
        | (refine Quiet.trans ?_ (ih_mdim _ _ (by assumption))))
    · intro p p' h
      simp only [dim, bind, Except.bind, pure, Except.pure] at h
      repeat' split at h
      all_goals first
        | (cases h; done)
        | skip
      all_goals first
        | cases h
        | with_reducible refine Quiet.trans ?_ (ih_datatype _ _ h)
        | with_reducible refine Quiet.trans ?_ (ih_dim _ _ h)
        | with_reducible refine Quiet.trans ?_ (ih_mdim _ _ h)
      all_goals with_reducible repeat (first
        | exact Quiet.refl _
        | assumption
        | apply Quiet.push
        | apply Quiet.gpr_sub
        | apply Quiet.gpr_inc
        | apply Quiet.advance
        | apply Quiet.emit_or_label
        | apply Quiet.ite_advance
        | (refine Quiet.emit ?_ _ _ (Plain.of_head _ (by simp)))
        | (refine Quiet.pop ?_ (by assumption))
        | (simp only [Quiet.mk_iff]; refine Quiet.on ?_)
        | (refine Quiet.trans ?_ (Parser.expect_special_quiet (by assumption)))
        | (refine Quiet.trans ?_ (ih_datatype _ _ (by assumption)))
        | (refine Quiet.trans ?_ (ih_dim _ _ (by assumption)))
        | (refine Quiet.trans ?_ (ih_mdim _ _ (by assumption))))
    · intro p p' h
      simp only [mdim, bind, Except.bind, pure, Except.pure] at h
      repeat' split at h
      all_goals first
        | (cases h; done)
        | skip
      all_goals first
        | cases h
        | with_reducible refine Quiet.trans ?_ (ih_datatype _ _ h)
        | with_reducible refine Quiet.trans ?_ (ih_dim _ _ h)
        | with_reducible refine Quiet.trans ?_ (ih_mdim _ _ h)
      all_goals with_reducible repeat (first
        | exact Quiet.refl _
        | assumption
        | apply Quiet.push
        | apply Quiet.gpr_sub
        | apply Quiet.gpr_inc
        | apply Quiet.advance
        | apply Quiet.emit_or_label
        | apply Quiet.ite_advance
        | (refine Quiet.emit ?_ _ _ (Plain.of_head _ (by simp)))
        | (refine Quiet.pop ?_ (by assumption))
        | (simp only [Quiet.mk_iff]; refine Quiet.on ?_)
        | (refine Quiet.trans ?_ (Parser.expect_special_quiet (by assumption)))
        | (refine Quiet.trans ?_ (ih_datatype _ _ (by assumption)))
        | (refine Quiet.trans ?_ (ih_dim _ _ (by assumption)))
        | (refine Quiet.trans ?_ (ih_mdim _ _ (by assumption))))

theorem datatype_quiet {fuel : Nat} {p p' : Parser} (h : datatype fuel p = .ok p') :
    Quiet p p' :=
  (datatype_quiet_all fuel).1 p p' h

theorem mvar_quiet (fuel : Nat) : ∀ {p p' : Parser}, mvar fuel p = .ok p' → Quiet p p' := by
  induction fuel with
  | zero => intro p p' h; simp [mvar] at h
  | succ fuel ih =>
    intro p p' h
    simp only [mvar, bind, Except.bind, pure, Except.pure] at h
    repeat' split at h
    all_goals first
      | (cases h; done)
      | skip
    all_goals first
      | cases h
      | with_reducible refine Quiet.trans ?_ (ih h)
    all_goals with_reducible repeat (first
      | exact Quiet.refl _
      | assumption
      | apply Quiet.push
      | apply Quiet.gpr_sub
      | apply Quiet.gpr_inc
      | apply Quiet.advance
      | apply Quiet.emit_or_label
      | apply Quiet.ite_advance
      | (refine Quiet.emit ?_ _ _ (Plain.of_head _ (by simp)))
      | (refine Quiet.pop ?_ (by assumption))
      | (simp only [Quiet.mk_iff]; refine Quiet.on ?_)
      | (refine Quiet.trans ?_ (Parser.expect_special_quiet (by assumption)))
      | (refine Quiet.trans ?_ (datatype_quiet (by assumption)))
      | (refine Quiet.trans ?_ (declare_temporaries_quiet (by assumption)))
      | (refine Quiet.trans ?_ (varlist_quiet _ (by assumption))))

theorem mparam_quiet (fuel : Nat) : ∀ {p p' : Parser}, mparam fuel p = .ok p' → Quiet p p' := by
  induction fuel with
  | zero => intro p p' h; simp [mparam] at h
  | succ fuel ih =>
    intro p p' h
    simp only [mparam, bind, Except.bind, pure, Except.pure] at h
    repeat' split at h
    all_goals first
      | (cases h; done)
      | skip
    all_goals first
      | cases h
      | with_reducible refine Quiet.trans ?_ (ih h)
    all_goals with_reducible repeat (first
      | exact Quiet.refl _
      | assumption
      | apply Quiet.push
      | apply Quiet.gpr_sub
      | apply Quiet.gpr_inc
      | apply Quiet.advance
      | apply Quiet.emit_or_label
      | apply Quiet.ite_advance
      | (refine Quiet.emit ?_ _ _ (Plain.of_head _ (by simp)))
      | (refine Quiet.pop ?_ (by assumption))
      | (simp only [Quiet.mk_iff]; refine Quiet.on ?_)
      | (refine Quiet.trans ?_ (Parser.expect_special_quiet (by assumption)))
      | (refine Quiet.trans ?_ (datatype_quiet (by assumption)))
      | (refine Quiet.trans ?_ (declare_temporaries_quiet (by assumption)))
      | (refine Quiet.trans ?_ (varlist_quiet _ (by assumption))))

theorem param_quiet {fuel : Nat} {p p' : Parser} (h : param fuel p = .ok p') : Quiet p p' := by
  simp only [param, bind, Except.bind, pure, Except.pure] at h
  repeat' split at h
  all_goals first
    | (cases h; done)
    | skip
  all_goals first
    | cases h
    | with_reducible refine Quiet.trans ?_ (mparam_quiet _ h)
  all_goals with_reducible repeat (first
    | exact Quiet.refl _
    | assumption
    | apply Quiet.push
    | apply Quiet.gpr_sub
    | apply Quiet.gpr_inc
    | apply Quiet.advance
    | apply Quiet.emit_or_label
    | apply Quiet.ite_advance
    | (refine Quiet.emit ?_ _ _ (Plain.of_head _ (by simp)))
    | (refine Quiet.pop ?_ (by assumption))
    | (simp only [Quiet.mk_iff]; refine Quiet.on ?_)
    | (refine Quiet.trans ?_ (Parser.expect_special_quiet (by assumption)))
    | (refine Quiet.trans ?_ (datatype_quiet (by assumption)))
    | (refine Quiet.trans ?_ (declare_temporaries_quiet (by assumption)))
    | (refine Quiet.trans ?_ (varlist_quiet _ (by assumption))))

theorem label_has_digit (k : LabelKind) (n : Nat) :
    ∃ c ∈ (label k n).data, c.isDigit = true := by
  obtain ⟨c, rest, hc⟩ : ∃ c rest, (toString n).data = c :: rest := by
    cases h : (toString n).data with
    | nil => exact absurd h (toString_ne_nil n)
    | cons c rest => exact ⟨c, rest, rfl⟩
  have hd : c.isDigit = true := toString_digits n c (by rw [hc]; simp)
  refine ⟨c, ?_, hd⟩
  cases k <;> simp [label, hc]

/-- The entry label of a procedure whose name contains no digit is plain. -/
theorem plain_entry_label (name : String) (h : (Token.Word name).lexed = true) :
    Plain (name ++ ":") := by
  intro k n hx
  obtain ⟨c, hc, hd⟩ := label_has_digit k n
  rw [← hx] at hc
  simp only [String.data_append, List.mem_append] at hc
  simp only [Token.lexed, List.all_eq_true] at h
  rcases hc with hc | hc
  · have := h c hc
    simp [hd] at this
  · have hc2 : c = ':' := by simpa using hc
    subst hc2
    revert hd
    decide

theorem Runs.emit_word {p q : Parser} (h : Runs p q) (name : String) (q0 : Parser)
    (htok : q0.tok = .ok (.Word name)) (heq : q.token = q0.token) :
    Runs p (q.emit false (name ++ ":")) := by
  refine h.chain ⟨[name ++ ":"], by simp [Parser.emit], rfl, rfl, le_refl _, fun _ h => h, ?_⟩
  intro _ hw
  refine ⟨le_refl _, le_refl _, Labelled.of_plain_lines _ _ _ ?_⟩
  intro x hx
  simp only [List.mem_singleton] at hx
  subst hx
  apply plain_entry_label
  apply hw
  have := Parser.token_of_tok htok
  simp [Parser.toks, heq, this]

theorem Runs.prologue {p q : Parser} (h : Runs p q) : Runs p (block_prologue q) := by
  refine h.quiet ?_
  unfold block_prologue
  simp only []
  repeat' split
  all_goals with_reducible repeat (first
    | exact Quiet.refl _
    | (refine Quiet.emit ?_ _ _ (Plain.of_head _ (by simp))))

theorem Runs.epilogue {p q : Parser} (h : Runs p q) :
    Runs p (procedure_epilogue q) := by
  refine h.quiet ?_
  unfold procedure_epilogue
  simp only []
  repeat' split
  all_goals with_reducible repeat (first
    | exact Quiet.refl _
    | apply Quiet.advance
    | (refine Quiet.emit ?_ _ _ (Plain.of_head _ (by simp)))
    | (simp only [Quiet.mk_iff]; refine Quiet.on ?_))

theorem block_step (fuel : Nat)
    (ih_pfv : ∀ p p', pfv fuel p = .ok p' → Runs p p')
    (p p' : Parser) (h : block (fuel + 1) p = .ok p') : Runs p p' := by
  simp only [block, bind, Except.bind, pure, Except.pure] at h
  repeat' split at h
  all_goals first
    | (cases h; done)
    | skip
  all_goals first
    | cases h
  all_goals with_reducible repeat (first
    | exact Runs.stay _
    | assumption
    | apply Runs.next_token
    | apply Runs.get_token
    | apply Runs.prologue
    | apply Runs.epilogue
    | (refine Runs.emit_plain ?_ _ _ ?hl; case hl => (apply Plain.of_head; simp; done))
    | (refine Runs.emit_word ?_ _ _ (by assumption) (by rfl))
    | (simp only [Runs.mk_on_iff]; refine Runs.of_on ?_)
    | (refine Runs.chain ?_ (ih_pfv _ _ (by assumption)))
    | (refine Runs.chain ?_ (statement_runs (by assumption)))
    | (refine Runs.chain ?_ (mstatement_runs (by assumption))))

set_option maxHeartbeats 1000000 in
theorem pfv_step (fuel : Nat)
    (ih_block : ∀ p p', block fuel p = .ok p' → Runs p p')
    (ih_pfv : ∀ p p', pfv fuel p = .ok p' → Runs p p')
    (p p' : Parser) (h : pfv (fuel + 1) p = .ok p') : Runs p p' := by
  simp only [pfv, bind, Except.bind, pure, Except.pure] at h
  repeat' split at h
  all_goals first
    | (cases h; done)
    | skip
  all_goals first
    | cases h
    | with_reducible refine Runs.chain ?_ (ih_pfv _ _ h)
  all_goals with_reducible repeat (first
    | exact Runs.stay _
    | assumption
    | apply Runs.next_token
    | apply Runs.get_token
    | apply Runs.prologue
    | apply Runs.epilogue
    | (refine Runs.emit_plain ?_ _ _ ?hl; case hl => (apply Plain.of_head; simp; done))
    | (refine Runs.emit_word ?_ _ _ (by assumption) (by rfl))
    | (simp only [Runs.mk_on_iff]; refine Runs.of_on ?_)
    | (refine Runs.quiet ?_ (Parser.expect_special_quiet (by assumption)))
    | (refine Runs.quiet ?_ (datatype_quiet (by assumption)))
    | (refine Runs.quiet ?_ (declare_temporaries_quiet (by assumption)))
    | (refine Runs.quiet ?_ (declare_return_slot_quiet (by assumption)))
    | (refine Runs.quiet ?_ (param_quiet (by assumption)))
    | (refine Runs.quiet ?_ (varlist_quiet _ (by assumption)))
    | (refine Runs.quiet ?_ (mvar_quiet _ (by assumption)))
    | (refine Runs.chain ?_ (ih_block _ _ (by assumption))))

/-- Every run of `block` and of `pfv` that returns is a run in the sense of `Run`. -/
theorem block_runs_all (fuel : Nat) :
    (∀ p p', block fuel p = .ok p' → Runs p p') ∧ (∀ p p', pfv fuel p = .ok p' → Runs p p') := by
  induction fuel with
  | zero =>
    refine ⟨?_, ?_⟩
    · intro p p' h; simp [block] at h
    · intro p p' h; simp [pfv] at h
  | succ fuel ih =>
    exact ⟨block_step fuel ih.2, pfv_step fuel ih.1 ih.2⟩

theorem end_program_runs {p p' : Parser} (h : end_program p = .ok p') : Runs p p' := by
  simp only [end_program, bind, Except.bind, pure, Except.pure] at h
  repeat' split at h
  all_goals first
    | (cases h; done)
    | skip
  all_goals first
    | cases h
  all_goals with_reducible repeat (first
    | exact Runs.stay _
    | assumption
    | apply Runs.next_token
    | apply Runs.get_token
    | apply Runs.prologue
    | apply Runs.epilogue
    | (refine Runs.emit_plain ?_ _ _ ?hl; case hl => (apply Plain.of_head; simp; done))
    | (refine Runs.emit_word ?_ _ _ (by assumption) (by rfl))
    | (simp only [Runs.mk_on_iff]; refine Runs.of_on ?_))

theorem program_runs {fuel : Nat} {p p' : Parser} (h : program fuel p = .ok p') : Runs p p' := by
  simp only [program, bind, Except.bind, pure, Except.pure] at h
  repeat' split at h
  all_goals first
    | (cases h; done)
    | skip
  all_goals first
    | cases h
    | with_reducible refine Runs.chain ?_ (end_program_runs h)
  all_goals with_reducible repeat (first
    | exact Runs.stay _
    | assumption
    | apply Runs.next_token
    | apply Runs.get_token
    | apply Runs.prologue
    | apply Runs.epilogue
    | (refine Runs.emit_plain ?_ _ _ ?hl; case hl => (apply Plain.of_head; simp; done))
    | (refine Runs.emit_word ?_ _ _ (by assumption) (by rfl))
    | (simp only [Runs.mk_on_iff]; refine Runs.of_on ?_)
    | (refine Runs.chain ?_ ((block_runs_all _).1 _ _ (by assumption))))

/-! ## The labels of a whole listing -/

theorem Lexer.of_tokens_tokens (ts : List Token) : (Lexer.of_tokens ts).tokens = ts := by
  have key : ∀ (ts : List Token) (lx : Lexer),
      (ts.foldl Lexer.push_token lx).tokens = lx.tokens ++ ts := by
    intro ts
    induction ts with
    | nil => intro lx; simp
    | cons t rest ih => intro lx; simp [ih, Lexer.push_token]
  simpa [Lexer.of_tokens] using key ts { tokens := [], token_count := 0 }

theorem init_plain (lx : Lexer) : ∀ x ∈ (Parser.init lx).asm_output, Plain x := by
  intro x hx k n hk
  subst hk
  have hd : ∀ y ∈ (Parser.init lx).asm_output, y.data ≠ (label k n).data := by
    intro y hy
    simp only [Parser.init, List.mem_cons, List.mem_singleton, List.not_mem_nil, or_false] at hy
    rcases hy with rfl | rfl | rfl | rfl | rfl | rfl <;> cases k <;> simp [label]
  exact hd _ hx rfl

/-- The listing of an accepted program is the prologue of the constructor followed by lines
that are labelled by the `if`s numbered below the final `if_count` and the `while`s numbered
below the final `while_count`. -/
theorem parse_labelled {fuel : Nat} {tokens : List Token} {p' : Parser}
    (hlen : tokens.length < U64) (hlex : ∀ t ∈ tokens, t.lexed = true)
    (h : Parser.parse fuel tokens = .ok p') :
    ∃ l, p'.asm_output = (Parser.init (Lexer.of_tokens tokens)).asm_output ++ l ∧
      Labelled 0 p'.if_count 0 p'.while_count l := by
  obtain ⟨l, hr⟩ := program_runs h
  refine ⟨l, hr.out, ?_⟩
  have hp : (Parser.init (Lexer.of_tokens tokens)).pending = tokens.length := by
    simp [Parser.pending, Parser.init, Lexer.of_tokens_tokens]
  have ht : (Parser.init (Lexer.of_tokens tokens)).toks = tokens := by
    simp [Parser.toks, Parser.init, Lexer.of_tokens_tokens]
  have := hr.labels (by rw [hp]; simpa [Parser.init] using hlen) (by rw [ht]; exact hlex)
  exact this.2.2

/-! ## C14: the lines of an `if` statement -/

theorem if_prime_no_else {f : Nat} {p q : Parser} (h : if_prime f p = .ok q)
    (hne : p.token ≠ some (.ReservedWord "else")) : q = p := by
  have hat : ∀ b, p.at_reserved "else" = .ok b → b = false := by
    intro b hb
    simp only [Parser.at_reserved, Parser.tok, bind, Except.bind, pure, Except.pure] at hb
    cases ht : p.token with
    | none => simp [ht] at hb
    | some t =>
      cases t with
      | ReservedWord s =>
        simp only [ht] at hb
        cases hb
        have hs : s ≠ "else" := by
          intro hs
          apply hne
          rw [ht, hs]
        simpa using hs
      | _ => simp only [ht] at hb; cases hb; rfl
  cases f with
  | zero => simp [if_prime] at h
  | succ f =>
    simp only [if_prime, bind, Except.bind, pure, Except.pure] at h
    split at h
    · cases h
    rename_i b hb
    have hb2 := hat b hb
    subst hb2
    simp at h
    exact h.symm

/-- C14. A run of `statement` on an `if` that returns has run the test `e` (writing `code_e`),
then written the conditional jump to `if<n>` for the comparison recorded last (`JL` for `<`,
`JG` for `>`, `JE` for `=`), the pending `or<k>:` label when one is owed, `JMP else<n>` and
`if<n>:`, then run `S1` (writing `code_S1`), written `JMP endif<n>` and `else<n>:`, run
`if_prime` (writing `code_S2`, nothing when the lookahead is not `else`), and written
`JMP endif<n>` and `endif<n>:`, where `n` is the value of `if_count` when `if` was read.  The
listing of `program P; var x: integer; begin if x < 0 then x := 0 else x := 1 end.` is the
instance stated. -/
theorem if_statement_lines :
    (∀ (fuel : Nat) (p p' : Parser), p.token = some (.ReservedWord "if") →
      statement fuel p = .ok p' →
      ∃ f pe pt q1 q2 code_e code_S1 code_S2, fuel = f + 2 ∧
        expression (f + 1) false p.enter_if = .ok pe ∧
        pe.asm_output = p.asm_output ++ code_e ∧
        handle_if_then pe = .ok pt ∧
        statement f pt = .ok q1 ∧ q1.asm_output = pt.asm_output ++ code_S1 ∧
        if_prime f ((q1.emit false ("JMP endif" ++ toString p.if_count)).emit false
          ("else" ++ toString p.if_count ++ ":")) = .ok q2 ∧
        q2.asm_output = q1.asm_output ++
          ["JMP endif" ++ toString p.if_count, "else" ++ toString p.if_count ++ ":"] ++
          code_S2 ∧
        (q1.token ≠ some (.ReservedWord "else") → code_S2 = []) ∧
        p'.asm_output = p.asm_output ++ (code_e ++
          jump_lines pe.last_comparison ("if" ++ toString p.if_count) ++ or_lines pe ++
          ["JMP else" ++ toString p.if_count, "if" ++ toString p.if_count ++ ":"] ++
          code_S1 ++
          ["JMP endif" ++ toString p.if_count, "else" ++ toString p.if_count ++ ":"] ++
          code_S2 ++
          ["JMP endif" ++ toString p.if_count, "endif" ++ toString p.if_count ++ ":"])) ∧
    jump_lines '<' "if0" = ["JL if0"] ∧ jump_lines '>' "if0" = ["JG if0"] ∧
    jump_lines '=' "if0" = ["JE if0"] ∧
    listing_of (Parser.parse 100 (program_tokens "x" "integer" if_example)) =
      .ok (listing ["kmain:", "MOV EAX, [EBP + 0]", "mov EBX, 0", "CMP EAX, EBX", "JL if0",
        "JMP else0", "if0:", "mov EAX, 0", "MOV [EBP + 0], EAX", "JMP endif0", "else0:",
        "mov EAX, 1", "MOV [EBP + 0], EAX", "JMP endif0", "endif0:"]) := by
  refine ⟨?_, by decide, by decide, by decide, by decide!⟩
  intro fuel p p' htok h
  cases fuel with
  | zero => simp [statement] at h
  | succ fuel =>
    rw [statement_if fuel p htok] at h
    simp only [bind, Except.bind] at h
    split at h
    · cases h
    rename_i pe hpe
    have hcs : pe.conditional_stack = p.if_count :: p.conditional_stack :=
      (expression_quiet hpe).cstack
    obtain ⟨f, pt, q1, q2, l1, l2, hf, hrun⟩ :=
      (statement_runs_all fuel).2.2.2.1 pe p' p.if_count p.conditional_stack h hcs
    subst hf
    have hlist := hrun.if_listing hcs
    obtain ⟨code_e, hce, _⟩ := (expression_quiet hpe).out
    obtain ⟨hpt, hq1, r1, hq2, r2, _⟩ := hrun
    have ho2 := r2.out
    simp only [Parser.emit, Bool.false_eq_true, if_false] at ho2
    refine ⟨f, pe, pt, q1, q2, code_e, l1, l2, rfl, hpe, hce, hpt, hq1, r1.out, hq2, ?_, ?_, ?_⟩
    · rw [ho2]; simp
    · intro hne
      have := if_prime_no_else hq2 (show ((q1.emit false _).emit false _).token ≠ _ from hne)
      rw [this] at ho2
      simpa [Parser.emit] using ho2
    · rw [hlist, hce]
      simp [label, Parser.enter_if, Parser.advance]

/-- The claim C14 at the statement `if x < 0 then x := 0 else x := 1`. -/
theorem if_statement_lines_witness :
    (body_state if_example).token = some (.ReservedWord "if") ∧
    ∃ p', statement 50 (body_state if_example) = .ok p' ∧
      ∃ f pe pt q1 q2 code_e code_S1 code_S2, 50 = f + 2 ∧
        expression (f + 1) false (body_state if_example).enter_if = .ok pe ∧
        pe.asm_output = (body_state if_example).asm_output ++ code_e ∧
        handle_if_then pe = .ok pt ∧
        statement f pt = .ok q1 ∧ q1.asm_output = pt.asm_output ++ code_S1 ∧
        if_prime f ((q1.emit false ("JMP endif" ++ toString (body_state if_example).if_count)).emit
          false ("else" ++ toString (body_state if_example).if_count ++ ":")) = .ok q2 ∧
        q2.asm_output = q1.asm_output ++
          ["JMP endif" ++ toString (body_state if_example).if_count,
           "else" ++ toString (body_state if_example).if_count ++ ":"] ++ code_S2 ∧
        (q1.token ≠ some (.ReservedWord "else") → code_S2 = []) ∧
        p'.asm_output = (body_state if_example).asm_output ++ (code_e ++
          jump_lines pe.last_comparison ("if" ++ toString (body_state if_example).if_count) ++
          or_lines pe ++
          ["JMP else" ++ toString (body_state if_example).if_count,
           "if" ++ toString (body_state if_example).if_count ++ ":"] ++ code_S1 ++
          ["JMP endif" ++ toString (body_state if_example).if_count,
           "else" ++ toString (body_state if_example).if_count ++ ":"] ++ code_S2 ++
          ["JMP endif" ++ toString (body_state if_example).if_count,
           "endif" ++ toString (body_state if_example).if_count ++ ":"]) := by
  have hok : (statement 50 (body_state if_example)).toBool = true := by decide!
  cases hrun : statement 50 (body_state if_example) with
  | error e => rw [hrun] at hok; cases hok
  | ok p' =>
    exact ⟨rfl, p', rfl, if_statement_lines.1 50 (body_state if_example) p' rfl hrun⟩

/-! ## C15: the lines of a `while` statement -/

theorem count_listing {fuel : Nat} {tokens : List Token} {p' : Parser}
    (hlen : tokens.length < U64) (hlex : ∀ t ∈ tokens, t.lexed = true)
    (h : Parser.parse fuel tokens = .ok p') (k : LabelKind) (n : Nat) :
    p'.asm_output.count (label k n) =
      if k.is_if then in_range 0 p'.if_count n else in_range 0 p'.while_count n := by
  obtain ⟨l, hl, hlab⟩ := parse_labelled hlen hlex h
  rw [hl, List.count_append, count_label_of_plain _ (init_plain _), hlab.counts]
  simp

theorem in_range_zero (w n : Nat) : in_range 0 w n = if n < w then 1 else 0 := by
  simp [in_range]

/-- C15. A run of `statement` on a `while` that returns has written `while<n>:`, run the test
`e` (writing `code_e`), written the conditional jump to `while<n>inner` for the comparison
recorded last (`JG` for `>`, `JL` for `<`, `JE` for `=`), the pending `or<k>:` label when one is
owed, `JMP endwhile<n>` and `while<n>inner:`, run `S` (writing `code_S`) and written
`JMP while<n>` and `endwhile<n>:`, where `n` is the value of `while_count` when `while` was
read.  In the listing of an accepted program (fewer than `2^64` tokens, identifiers without
digits) each of `while<n>:`, `while<n>inner:` and `endwhile<n>:` occurs exactly once for
`n` below the final `while_count` and not at all for other `n`.  The listing of
`program P; var x: integer; begin while x > 0 do x := x - 1 end.` is the instance stated. -/
theorem while_statement_lines :
    (∀ (fuel : Nat) (p p' : Parser), p.token = some (.ReservedWord "while") →
      statement fuel p = .ok p' →
      ∃ f pe pt q1 code_e code_S, fuel = f + 2 ∧
        expression (f + 1) false p.enter_while = .ok pe ∧
        pe.asm_output = p.asm_output ++ ["while" ++ toString p.while_count ++ ":"] ++ code_e ∧
        handle_while_do { pe with for_while := false } = .ok pt ∧
        statement f pt = .ok q1 ∧ q1.asm_output = pt.asm_output ++ code_S ∧
        p'.asm_output = p.asm_output ++ (["while" ++ toString p.while_count ++ ":"] ++ code_e ++
          jump_lines pe.last_comparison ("while" ++ toString p.while_count ++ "inner") ++
          or_lines pe ++
          ["JMP endwhile" ++ toString p.while_count,
           "while" ++ toString p.while_count ++ "inner:"] ++ code_S ++
          ["JMP while" ++ toString p.while_count,
           "endwhile" ++ toString p.while_count ++ ":"])) ∧
    (∀ (fuel : Nat) (tokens : List Token) (p' : Parser), tokens.length < U64 →
      (∀ t ∈ tokens, t.lexed = true) → Parser.parse fuel tokens = .ok p' →
      ∀ n, p'.asm_output.count ("while" ++ toString n ++ ":") =
          (if n < p'.while_count then 1 else 0) ∧
        p'.asm_output.count ("while" ++ toString n ++ "inner:") =
          (if n < p'.while_count then 1 else 0) ∧
        p'.asm_output.count ("endwhile" ++ toString n ++ ":") =
          (if n < p'.while_count then 1 else 0)) ∧
    jump_lines '>' "while0inner" = ["JG while0inner"] ∧
    jump_lines '<' "while0inner" = ["JL while0inner"] ∧
    jump_lines '=' "while0inner" = ["JE while0inner"] ∧
    listing_of (Parser.parse 100 (program_tokens "x" "integer" while_example)) =
      .ok (listing ["kmain:", "while0:", "MOV EAX, [EBP + 0]", "mov EBX, 0", "CMP EAX, EBX",
        "JG while0inner", "JMP endwhile0", "while0inner:", "MOV EAX, [EBP + 0]", "mov EBX, 1",
        "SUB EAX, EAX, EBX", "MOV [EBP + 0], EAX", "JMP while0", "endwhile0:"]) := by
  refine ⟨?_, ?_, by decide, by decide, by decide, by decide!⟩
  · intro fuel p p' htok h
    cases fuel with
    | zero => simp [statement] at h
    | succ fuel =>
      rw [statement_while fuel p htok] at h
      simp only [bind, Except.bind] at h
      split at h
      · cases h
      rename_i pe hpe
      have hls : ({ pe with for_while := false } : Parser).loop_stack =
          p.while_count :: p.loop_stack := (expression_quiet hpe).lstack
      obtain ⟨f, pt, q1, l1, hf, hrun⟩ :=
        (statement_runs_all fuel).2.2.2.2 _ p' p.while_count p.loop_stack h hls
      subst hf
      have hlist := hrun.while_listing hls
      obtain ⟨code_e, hce, _⟩ := (expression_quiet hpe).out
      obtain ⟨hpt, hq1, r1, _⟩ := hrun
      have hout : p.enter_while.asm_output =
          p.asm_output ++ ["while" ++ toString p.while_count ++ ":"] := by
        simp [Parser.enter_while, Parser.emit, Parser.advance]
      rw [hout] at hce
      refine ⟨f, pe, pt, q1, code_e, l1, rfl, hpe, hce, hpt, hq1, r1.out, ?_⟩
      rw [hlist]
      have : ({ pe with for_while := false } : Parser).asm_output = pe.asm_output := rfl
      rw [this, hce]
      simp [label, or_lines]
  · intro fuel tokens p' hlen hlex h n
    have h1 := count_listing hlen hlex h .While n
    have h2 := count_listing hlen hlex h .Inner n
    have h3 := count_listing hlen hlex h .Endwhile n
    simp only [LabelKind.is_if, Bool.false_eq_true, if_false, in_range_zero, label] at h1 h2 h3
    exact ⟨h1, h2, h3⟩

/-- The claim C15 at the statement `while x > 0 do x := x - 1` and at the program
`program P; var x: integer; begin while x > 0 do x := x - 1 end.` -/
theorem while_statement_lines_witness :
    ((body_state while_example).token = some (.ReservedWord "while") ∧
     ∃ p', statement 50 (body_state while_example) = .ok p' ∧
      ∃ f pe pt q1 code_e code_S, 50 = f + 2 ∧
        expression (f + 1) false (body_state while_example).enter_while = .ok pe ∧
        pe.asm_output = (body_state while_example).asm_output ++
          ["while" ++ toString (body_state while_example).while_count ++ ":"] ++ code_e ∧
        handle_while_do { pe with for_while := false } = .ok pt ∧
        statement f pt = .ok q1 ∧ q1.asm_output = pt.asm_output ++ code_S ∧
        p'.asm_output = (body_state while_example).asm_output ++
          (["while" ++ toString (body_state while_example).while_count ++ ":"] ++ code_e ++
          jump_lines pe.last_comparison
            ("while" ++ toString (body_state while_example).while_count ++ "inner") ++
          or_lines pe ++
          ["JMP endwhile" ++ toString (body_state while_example).while_count,
           "while" ++ toString (body_state while_example).while_count ++ "inner:"] ++ code_S ++
          ["JMP while" ++ toString (body_state while_example).while_count,
           "endwhile" ++ toString (body_state while_example).while_count ++ ":"])) ∧
    ((program_tokens "x" "integer" while_example).length < U64 ∧
     (∀ t ∈ program_tokens "x" "integer" while_example, t.lexed = true) ∧
     ∃ p', Parser.parse 100 (program_tokens "x" "integer" while_example) = .ok p' ∧
      ∀ n, p'.asm_output.count ("while" ++ toString n ++ ":") =
          (if n < p'.while_count then 1 else 0) ∧
        p'.asm_output.count ("while" ++ toString n ++ "inner:") =
          (if n < p'.while_count then 1 else 0) ∧
        p'.asm_output.count ("endwhile" ++ toString n ++ ":") =
          (if n < p'.while_count then 1 else 0)) := by
  have hok : (statement 50 (body_state while_example)).toBool = true := by decide!
  have hok2 : (Parser.parse 100 (program_tokens "x" "integer" while_example)).toBool = true := by
    decide!
  have hlen : (program_tokens "x" "integer" while_example).length < U64 := by decide
  have hlex : ∀ t ∈ program_tokens "x" "integer" while_example, t.lexed = true := by decide
  constructor
  · cases hrun : statement 50 (body_state while_example) with
    | error e => rw [hrun] at hok; cases hok
    | ok p' =>
      exact ⟨rfl, p', rfl, while_statement_lines.1 50 (body_state while_example) p' rfl hrun⟩
  · cases hrun : Parser.parse 100 (program_tokens "x" "integer" while_example) with
    | error e => rw [hrun] at hok2; cases hok2
    | ok p' =>
      exact ⟨hlen, hlex, p', rfl, while_statement_lines.2.1 100 _ p' hlen hlex hrun⟩

/-! ## C16: the labels of `if` statements in a listing -/

/-- The branches of an `if` numbered `n` carry the labels of the `if`s numbered from `n + 1`
up to the final counter: the then-branch those below the counter at its end, the else-branch
the others. -/
theorem IfRun.branches {f : Nat} {p pe p' pt q1 q2 : Parser} {l1 l2 : List String}
    (htok : p.token.isSome = true) (he : Quiet p.enter_if pe)
    (h : IfRun f pe p' p.if_count p.conditional_stack pt q1 q2 l1 l2)
    (hb : p.if_count + p.while_count + p.pending < U64)
    (hw : ∀ t ∈ p.toks, t.lexed = true) :
    p.if_count < q1.if_count ∧ q1.if_count ≤ p'.if_count ∧
      IfLabels (p.if_count + 1) q1.if_count l1 ∧ IfLabels q1.if_count p'.if_count l2 := by
  have hcs : pe.conditional_stack = p.if_count :: p.conditional_stack := he.cstack
  obtain ⟨hpt, _, r1, _, r2, _, o2, o3, o4, o5, o6, o7⟩ := h
  obtain ⟨_, t2, t3, t4, t5, t6, t7⟩ := handle_if_then_lines hpt hcs
  obtain ⟨a1, a2, a3⟩ := Parser.advance_pending p
  have hifc : pe.if_count = (p.if_count + 1) % U64 := he.ifc
  have hwhc : pe.while_count = p.while_count := he.whc
  have hpend : pe.pending ≤ p.advance.pending := he.pend
  have ha3 := a3 htok
  have b1 := r1.budget
  have hn : (p.if_count + 1) % U64 = p.if_count + 1 := Nat.mod_eq_of_lt (by omega)
  have wpt : ∀ t ∈ pt.toks, t.lexed = true := fun t ht => hw t (a2 t (he.toks t (t7 t ht)))
  obtain ⟨c1, c2, c3⟩ := r1.labels (by omega) wpt
  have wE : ∀ t ∈ ((q1.emit false ("JMP endif" ++ toString p.if_count)).emit false
      ("else" ++ toString p.if_count ++ ":")).toks, t.lexed = true :=
    fun t ht => wpt t (r1.toks t ht)
  have bE : ((q1.emit false ("JMP endif" ++ toString p.if_count)).emit false
      ("else" ++ toString p.if_count ++ ":")).if_count +
      ((q1.emit false ("JMP endif" ++ toString p.if_count)).emit false
      ("else" ++ toString p.if_count ++ ":")).while_count +
      ((q1.emit false ("JMP endif" ++ toString p.if_count)).emit false
      ("else" ++ toString p.if_count ++ ":")).pending < U64 := by
    show q1.if_count + q1.while_count + q1.pending < U64
    omega
  obtain ⟨d1, d2, d3⟩ := r2.labels bE wE
  have d1 : q1.if_count ≤ q2.if_count := d1
  have d3 : Labelled q1.if_count q2.if_count q1.while_count q2.while_count l2 := d3
  rw [t4, hifc, hn] at c1 c3
  rw [o4]
  exact ⟨by omega, d1, c3.if_labels, d3.if_labels⟩

/-- C16. In the listing of a program that the parser accepts (fewer than `2^64` tokens,
identifiers without digits), each of the lines `if<n>:`, `else<n>:` and `endif<n>:` occurs
exactly once for every `n` below the final `if_count` and not at all for other `n`, so that no
two `if` statements share a suffix; the three lines occur in that order; and the lines between
`if<n>:` and `endif<n>:` carry, each exactly once, the labels of the `if`s numbered `n < j < m'`
(`n < j < m` between `if<n>:` and `else<n>:`, `m ≤ j < m'` between `else<n>:` and `endif<n>:`)
and no other `if` label.  These are the `if`s nested in the branches: a run of `statement` on
an `if` read when `if_count = n` writes `if<n>:`, the lines of the then-branch, `JMP endif<n>`,
`else<n>:`, the lines of the else-branch, `JMP endif<n>` and `endif<n>:`, where the then-branch
moves `if_count` from `n + 1` to some `m` and its lines carry each `if` label numbered
`n < j < m` once, and the else-branch moves it from `m` to the final value and its lines carry
each `if` label numbered from `m` up to there once. -/
theorem if_labels_of_accepted_program :
    (∀ (fuel : Nat) (tokens : List Token) (p' : Parser), tokens.length < U64 →
      (∀ t ∈ tokens, t.lexed = true) → Parser.parse fuel tokens = .ok p' → ∀ n,
      p'.asm_output.count ("if" ++ toString n ++ ":") = (if n < p'.if_count then 1 else 0) ∧
      p'.asm_output.count ("else" ++ toString n ++ ":") = (if n < p'.if_count then 1 else 0) ∧
      p'.asm_output.count ("endif" ++ toString n ++ ":") = (if n < p'.if_count then 1 else 0) ∧
      (n < p'.if_count → ∃ a b c d m m',
        p'.asm_output = a ++ ("if" ++ toString n ++ ":") :: b ++
          ("else" ++ toString n ++ ":") :: c ++ ("endif" ++ toString n ++ ":") :: d ∧
        n < m ∧ m ≤ m' ∧ m' ≤ p'.if_count ∧ IfLabels (n + 1) m b ∧ IfLabels m m' c)) ∧
    (∀ (fuel : Nat) (p p' : Parser), p.token = some (.ReservedWord "if") →
      p.if_count + p.while_count + p.pending < U64 → (∀ t ∈ p.toks, t.lexed = true) →
      statement fuel p = .ok p' →
      ∃ f pt q1 q2 test code_S1 code_S2, fuel = f + 2 ∧
        statement f pt = .ok q1 ∧ q1.asm_output = pt.asm_output ++ code_S1 ∧
        if_prime f ((q1.emit false ("JMP endif" ++ toString p.if_count)).emit false
          ("else" ++ toString p.if_count ++ ":")) = .ok q2 ∧
        q2.asm_output = q1.asm_output ++
          ["JMP endif" ++ toString p.if_count, "else" ++ toString p.if_count ++ ":"] ++
          code_S2 ∧
        p'.asm_output = p.asm_output ++ (test ++
          ["if" ++ toString p.if_count ++ ":"] ++ code_S1 ++
          ["JMP endif" ++ toString p.if_count, "else" ++ toString p.if_count ++ ":"] ++
          code_S2 ++
          ["JMP endif" ++ toString p.if_count, "endif" ++ toString p.if_count ++ ":"]) ∧
        (∀ x ∈ test, Plain x) ∧
        pt.if_count = p.if_count + 1 ∧ p.if_count < q1.if_count ∧
        q1.if_count ≤ p'.if_count ∧ p'.if_count = q2.if_count ∧
        IfLabels (p.if_count + 1) q1.if_count code_S1 ∧
        IfLabels q1.if_count p'.if_count code_S2) := by
  constructor
  · intro fuel tokens p' hlen hlex h n
    have h1 := count_listing hlen hlex h .If n
    have h2 := count_listing hlen hlex h .Else n
    have h3 := count_listing hlen hlex h .Endif n
    simp only [LabelKind.is_if, if_true, in_range_zero, label] at h1 h2 h3
    refine ⟨h1, h2, h3, ?_⟩
    intro hn
    obtain ⟨l, hl, hlab⟩ := parse_labelled hlen hlex h
    obtain ⟨a, b, c, d, m, m', he, hm1, hm2, hm3, hb, hc⟩ := hlab.nested n (Nat.zero_le _) hn
    refine ⟨(Parser.init (Lexer.of_tokens tokens)).asm_output ++ a, b, c, d, m, m', ?_, hm1,
      hm2, hm3, hb, hc⟩
    rw [hl, he]
    simp [label]
  · intro fuel p p' htok hb hw h
    cases fuel with
    | zero => simp [statement] at h
    | succ fuel =>
      rw [statement_if fuel p htok] at h
      simp only [bind, Except.bind] at h
      split at h
      · cases h
      rename_i pe hpe
      have hq := expression_quiet hpe
      have hcs : pe.conditional_stack = p.if_count :: p.conditional_stack := hq.cstack
      obtain ⟨f, pt, q1, q2, l1, l2, hf, hrun⟩ :=
        (statement_runs_all fuel).2.2.2.1 pe p' p.if_count p.conditional_stack h hcs
      subst hf
      have hlist := hrun.if_listing hcs
      obtain ⟨m1, m2, m3, m4⟩ := hrun.branches (by simp [htok]) hq hb hw
      obtain ⟨code_e, hce, hpl⟩ := hq.out
      obtain ⟨hpt, hq1, r1, hq2, r2, _, _, _, o4, _⟩ := hrun
      obtain ⟨_, _, _, t4, _⟩ := handle_if_then_lines hpt hcs
      obtain ⟨_, _, a3⟩ := Parser.advance_pending p
      have ha3 := a3 (by simp [htok])
      have hifc : pe.if_count = (p.if_count + 1) % U64 := hq.ifc
      have hn : (p.if_count + 1) % U64 = p.if_count + 1 := Nat.mod_eq_of_lt (by omega)
      have ho2 := r2.out
      simp only [Parser.emit, Bool.false_eq_true, if_false] at ho2
      refine ⟨f, pt, q1, q2, code_e ++ jump_lines pe.last_comparison
        ("if" ++ toString p.if_count) ++ or_lines pe ++ ["JMP else" ++ toString p.if_count],
        l1, l2, rfl, hq1, r1.out, hq2, ?_, ?_, ?_, ?_, m1, m2, o4, m3, m4⟩
      · rw [ho2]; simp
      · rw [hlist, hce]
        simp [label, Parser.enter_if, Parser.advance]
      · intro x hx
        simp only [List.mem_append, List.mem_singleton] at hx
        rcases hx with ((hx | hx) | hx) | hx
        · exact hpl x hx
        · exact jump_lines_plain _ _ x hx
        · exact or_lines_plain _ x hx
        · rw [hx]; exact plain_jump "JMP else" p.if_count (by simp)
      · rw [t4, hifc, hn]

/-- The claim C16 at the program
`program P; var x: integer; begin if x < 0 then begin if x > 1 then x := 1 end else x := 2 end.`
and at its statement. -/
theorem if_labels_of_accepted_program_witness :
    ((program_tokens "x" "integer" nested_if_example).length < U64 ∧
     (∀ t ∈ program_tokens "x" "integer" nested_if_example, t.lexed = true) ∧
     ∃ p', Parser.parse 100 (program_tokens "x" "integer" nested_if_example) = .ok p' ∧
      p'.if_count = 2 ∧
      ∀ n, p'.asm_output.count ("if" ++ toString n ++ ":") = (if n < p'.if_count then 1 else 0) ∧
        p'.asm_output.count ("else" ++ toString n ++ ":") =
          (if n < p'.if_count then 1 else 0) ∧
        p'.asm_output.count ("endif" ++ toString n ++ ":") =
          (if n < p'.if_count then 1 else 0) ∧
        (n < p'.if_count → ∃ a b c d m m',
          p'.asm_output = a ++ ("if" ++ toString n ++ ":") :: b ++
            ("else" ++ toString n ++ ":") :: c ++ ("endif" ++ toString n ++ ":") :: d ∧
          n < m ∧ m ≤ m' ∧ m' ≤ p'.if_count ∧ IfLabels (n + 1) m b ∧ IfLabels m m' c)) ∧
    ((body_state nested_if_example).token = some (.ReservedWord "if") ∧
     (body_state nested_if_example).if_count + (body_state nested_if_example).while_count +
       (body_state nested_if_example).pending < U64 ∧
     (∀ t ∈ (body_state nested_if_example).toks, t.lexed = true) ∧
     ∃ p', statement 50 (body_state nested_if_example) = .ok p' ∧
      ∃ f pt q1 q2 test code_S1 code_S2, 50 = f + 2 ∧
        statement f pt = .ok q1 ∧ q1.asm_output = pt.asm_output ++ code_S1 ∧
        if_prime f ((q1.emit false
          ("JMP endif" ++ toString (body_state nested_if_example).if_count)).emit false
          ("else" ++ toString (body_state nested_if_example).if_count ++ ":")) = .ok q2 ∧
        q2.asm_output = q1.asm_output ++
          ["JMP endif" ++ toString (body_state nested_if_example).if_count,
           "else" ++ toString (body_state nested_if_example).if_count ++ ":"] ++ code_S2 ∧
        p'.asm_output = (body_state nested_if_example).asm_output ++ (test ++
          ["if" ++ toString (body_state nested_if_example).if_count ++ ":"] ++ code_S1 ++
          ["JMP endif" ++ toString (body_state nested_if_example).if_count,
           "else" ++ toString (body_state nested_if_example).if_count ++ ":"] ++ code_S2 ++
          ["JMP endif" ++ toString (body_state nested_if_example).if_count,
           "endif" ++ toString (body_state nested_if_example).if_count ++ ":"]) ∧
        (∀ x ∈ test, Plain x) ∧
        pt.if_count = (body_state nested_if_example).if_count + 1 ∧
        (body_state nested_if_example).if_count < q1.if_count ∧
        q1.if_count ≤ p'.if_count ∧ p'.if_count = q2.if_count ∧
        IfLabels ((body_state nested_if_example).if_count + 1) q1.if_count code_S1 ∧
        IfLabels q1.if_count p'.if_count code_S2) := by
  have hok : (Parser.parse 100 (program_tokens "x" "integer" nested_if_example)).map
      (fun p => p.if_count) = .ok 2 := by decide!
  have hok2 : (statement 50 (body_state nested_if_example)).toBool = true := by decide!
  have hlen : (program_tokens "x" "integer" nested_if_example).length < U64 := by decide
  have hlex : ∀ t ∈ program_tokens "x" "integer" nested_if_example, t.lexed = true := by decide
  have hb : (body_state nested_if_example).if_count + (body_state nested_if_example).while_count +
      (body_state nested_if_example).pending < U64 := by decide
  have hw : ∀ t ∈ (body_state nested_if_example).toks, t.lexed = true := by decide
  constructor
  · cases hrun : Parser.parse 100 (program_tokens "x" "integer" nested_if_example) with
    | error e => rw [hrun] at hok; cases hok
    | ok p' =>
      rw [hrun] at hok
      have hc : p'.if_count = 2 := by
        simpa [Except.map] using hok
      exact ⟨hlen, hlex, p', rfl, hc,
        fun n => if_labels_of_accepted_program.1 100 _ p' hlen hlex hrun n⟩
  · cases hrun : statement 50 (body_state nested_if_example) with
    | error e => rw [hrun] at hok2; cases hok2
    | ok p' =>
      exact ⟨rfl, hb, hw, p', rfl,
        if_labels_of_accepted_program.2 50 (body_state nested_if_example) p' rfl hb hw hrun⟩

/-! ## C21: the parameters that a call expects -/

theorem mapM_ok_length {α β : Type} (f : α → Except Err β) :
    ∀ (xs : List α) (ys : List β), xs.mapM f = .ok ys → ys.length = xs.length := by
  intro xs
  induction xs with
  | nil =>
    intro ys h
    simp only [List.mapM_nil, pure, Except.pure] at h
    cases h
    rfl
  | cons x rest ih =>
    intro ys h
    simp only [List.mapM_cons, bind, Except.bind, pure, Except.pure] at h
    repeat' split at h
    all_goals first
      | (cases h; done)
      | skip
    cases h
    rename_i _ _ _ _ zs hz
    simp [ih zs hz]

/-- The parameter list of the function-call path has one element for every entry of the
callee scope, parameter or not; that of the procedure-call path keeps the parameters only. -/
theorem parameters_collected (sc : Scope) :
    (∀ l, func_parameters sc = .ok l → l.length = sc.table.length) ∧
    (∀ l, proc_parameters sc = .ok l → ∀ v ∈ l, v.is_param = true) := by
  constructor
  · intro l h
    exact mapM_ok_length _ _ _ h
  · intro l h v hv
    simp only [proc_parameters, bind, Except.bind, pure, Except.pure] at h
    split at h
    · cases h
    · cases h
      simpa using (List.mem_filter.1 hv).2

/-- C21. The claim that a call with as many type-correct arguments as the callee declares
formal parameters is accepted, the return slot and the locals not being counted, fails on the
code for functions: `consume_params(const FuncData)` takes every entry of the callee scope as a
parameter, so `g(1)` for `function g(a: integer): integer` is rejected with "function g got 1
parameters, but expected 2" (the second being the return slot `g`).  The procedure path counts
the parameters only (`q(1)` for `procedure q(a: integer); var y: integer` is compiled), but
reads every entry of the callee scope with `std::get<VarData>`, so a call of a procedure that
declares a procedure of its own ends with `std::bad_variant_access`. -/
theorem function_call_counts_return_slot :
    Parser.parse 100 (program_with function_g (call_tokens "g" [.Integer "1"])) =
      .error (.runtime_error "Bad code: function g got 1 parameters, but expected 2") ∧
    (Parser.parse 100 (program_with function_g [])).map (fun p => p.symtab) =
      .ok function_g_declared ∧
    (func_parameters (function_g_declared.scopes.getD 1 Scope.fresh)).map
        (fun l => l.map (fun v => (v.is_param, v.offset))) = .ok [(true, 8), (false, 0)] ∧
    listing_of (Parser.parse 100 (program_with procedure_q (call_tokens "q" [.Integer "1"]))) =
      .ok (listing ["q:", "PUSH EDI", "MOV EDI, ESP", "SUB ESP, 4", "PUSHAD", "POPAD",
        "ADD ESP, 4", "POP EDI", "RET 4", "kmain:", "mov EAX, 1", "PUSH EAX", "CALL q"]) ∧
    Parser.parse 100 (program_with procedure_n (call_tokens "n" [.Integer "1"])) =
      .error .bad_variant_access := by
  refine ⟨?_, ?_, ?_, ?_, ?_⟩ <;> decide!

/-! ## C22: the code of a by-value argument -/

/-- The type check of a by-value argument in the function-call path writes nothing and keeps
the register. -/
theorem func_param_check_silent {parameter : VarData} {p p' : Parser}
    (h : func_param_check parameter p = .ok p') :
    p'.asm_output = p.asm_output ∧ p'.stage = p.stage ∧ p'.gpr_index = p.gpr_index := by
  simp only [func_param_check, Parser.pop, bind, Except.bind, pure, Except.pure] at h
  repeat' split at h
  all_goals first
    | (cases h; done)
    | skip
  cases h
  rename_i _ x hx _
  split at hx
  · cases hx; exact ⟨rfl, rfl, rfl⟩
  · cases hx

/-- The end of a by-value argument in the procedure-call path: with the value of the argument
on top of the value stack and its register `r` the last one in use, `PUSH r` ends the buffer
and the register is released. -/
theorem proc_param_push_lines (parameter : VarData) (p : Parser) (v : VarValue)
    (rest : List VarValue) (r : String) (hv : p.values = v :: rest)
    (ht : parameter.type = v.type) (h1 : 1 ≤ p.gpr_index) (h4 : p.gpr_index ≤ 4)
    (hr : gprs[p.gpr_index - 1]? = some r) :
    ∃ p', proc_param_push parameter p = .ok (p.stage ++ ["PUSH " ++ r], p') ∧
      p'.gpr_index = p.gpr_index - 1 ∧ p'.asm_output = p.asm_output := by
  have hg : gprs_at ((p.gpr_index : Int) - 1) = .ok r := by
    generalize p.gpr_index = g at h1 h4 hr
    interval_cases g <;> simp_all [gprs_at, gprs]
  have hm : (p.gpr_index + 255) % 256 = p.gpr_index - 1 := by omega
  simp [proc_param_push, Parser.pop, hv, ht, hg, Except.ok_bind, Except.pure_eq, Parser.emit,
    Parser.gpr_sub, hm]

/-- C22. The claim that a by-value argument is followed by `PUSH <r>` and that its register is
freed fails on the code for the function-call path: for the arguments `1, 2` of
`function g(a: integer): integer` the lines are `mov EAX, 1` and `mov EBX, 2`, without any
`PUSH`, and two registers stay in use.  The procedure-call path does both: for the arguments
`1, 2` of `procedure t(a, b: integer)` the lines are `mov EAX, 1`, `PUSH EAX`, `mov EAX, 2`,
`PUSH EAX`, and no register stays in use.  The two symbol tables are the ones that the parser
builds for the declarations. -/
theorem function_argument_not_pushed :
    lines_of (consume_params_func 50 { name := "g", next := some 1 }
      (argument_state function_g_declared
        [.Integer "1", .Special ",", .Integer "2", .Special ")"])) =
      .ok (["mov EAX, 1", "mov EBX, 2"], 2, some (.Special ")")) ∧
    lines_of (consume_params_proc 50 { name := "t", next := some 1 }
      (argument_state procedure_t_declared
        [.Integer "1", .Special ",", .Integer "2", .Special ")"])) =
      .ok (["mov EAX, 1", "PUSH EAX", "mov EAX, 2", "PUSH EAX"], 0, some (.Special ")")) ∧
    (Parser.parse 100 (program_with function_g [])).map (fun p => p.symtab) =
      .ok function_g_declared ∧
    (Parser.parse 100 (program_with procedure_t [])).map (fun p => p.symtab) =
      .ok procedure_t_declared := by
  refine ⟨?_, ?_, ?_, ?_⟩ <;> decide!

/-! ## C23: the order of the argument buffers -/

/-- The buffers that the loop of `consume_params(const ProcData)` collects are written to the
listing first collected first. -/
theorem emit_assembly_order (p : Parser) (first second : List String) :
    (p.emit_assembly [first, second]).asm_output = p.asm_output ++ first ++ second := by
  simp [Parser.emit_assembly]

/-- C23. The claim that the argument buffers of a procedure call are written in the reverse of
the order of collection fails on the code: the loop under the comment "Generate assembly in
reverse order" runs from the first buffer to the last.  For `t(1, 2)` with
`procedure t(a, b: integer)` the code of the argument `1` comes first and that of `2` last:
`mov EAX, 1`, `PUSH EAX`, `mov EAX, 2`, `PUSH EAX`, `CALL t`. -/
theorem procedure_arguments_in_order :
    listing_of (Parser.parse 100
      (program_with procedure_t (call_tokens "t" [.Integer "1", .Special ",", .Integer "2"]))) =
      .ok (listing ["t:", "PUSH EDI", "MOV EDI, ESP", "PUSHAD", "POPAD", "POP EDI", "RET 8",
        "kmain:", "mov EAX, 1", "PUSH EAX", "mov EAX, 2", "PUSH EAX", "CALL t"]) := by
  decide!

/-! ## C24: an unbound identifier as by-reference argument -/

/-- A by-reference argument that is an identifier without a variable binding: the
procedure-call path reads the empty lookup result, the function-call path raises the
diagnostic. -/
theorem by_ref_unbound (func : FuncData) (parameter : VarData) (p : Parser) (name : String)
    (ht : p.token = some (.Word name)) (hf : find p.symtab name .Variable = none) :
    proc_param_by_ref parameter p =
      .error (.undefined "dereference of an empty lookup result") ∧
    func_param_by_ref func parameter p =
      .error (.runtime_error ("Bad code: identifier " ++ name ++ " is not a variable")) := by
  constructor
  · simp [proc_param_by_ref, Parser.tok, ht, hf, Except.ok_bind, Except.throw_eq]
  · simp [func_param_by_ref, Parser.tok, ht, hf, Except.ok_bind, Except.throw_eq]

/-- C24. The claim that an unbound identifier given for a by-reference parameter of a
procedure is rejected with a scope-error diagnostic fails on the code: for
`program P; procedure Q(var a: integer); begin a := 0 end; begin Q(a) end.` the call reads the
variable through the empty result of `find` (`std::get<VarData>(*symtab.find(...))`), which is
undefined behaviour.  The function-call path tests the result and raises "identifier b is not a
variable" for `h(b)` with `function h(var a: integer): integer`. -/
theorem unbound_reference_argument :
    Parser.parse 100 (program_with procedure_Q (call_tokens "Q" [.Word "a"])) =
      .error (.undefined "dereference of an empty lookup result") ∧
    Parser.parse 100 (program_with function_h (call_tokens "h" [.Word "b"])) =
      .error (.runtime_error "Bad code: identifier b is not a variable") := by
  constructor <;> decide!

/-! ## C25: runs that count their tokens

The relation `Consumes` holds between the state before and the state after every run of a
parser function that returns; it is proved function by function, in the order of the calls. -/

theorem Stepped.zero (idx : Nat) (tok : Option Token) (lx : Lexer) :
    Stepped 0 idx tok lx idx tok lx :=
  ⟨by simp, by simp, by simp, rfl⟩

theorem Stepped.add {k1 k2 : Nat} {i1 i2 i3 : Nat} {t1 t2 t3 : Option Token} {l1 l2 l3 : Lexer}
    (h1 : Stepped k1 i1 t1 l1 i2 t2 l2) (h2 : Stepped k2 i2 t2 l2 i3 t3 l3) :
    Stepped (k1 + k2) i1 t1 l1 i3 t3 l3 := by
  obtain ⟨a1, a2, a3, a4⟩ := h1
  obtain ⟨b1, b2, b3, b4⟩ := h2
  refine ⟨?_, ?_, ?_, b4.trans a4⟩
  · rw [b1, Nat.add_mod, a1, ← Nat.add_mod, Nat.add_assoc]
  · rw [b2, a2, List.drop_drop, Nat.add_comm]
  · rw [b3]
    by_cases hk2 : k2 = 0
    · subst hk2
      simp [a3]
    · have hk : k1 + k2 ≠ 0 := by omega
      simp only [hk2, hk, if_false, a2]
      rw [List.getElem?_drop]
      congr 1
      omega

theorem Stepped.next (idx : Nat) (tok : Option Token) (lx : Lexer) :
    Stepped 1 idx tok lx ((idx + 1) % U64) lx.get_token.1 lx.get_token.2 := by
  rcases lx with ⟨_ | ⟨t, ts⟩, c⟩ <;> simp [Stepped, Lexer.get_token]

theorem Consumes.refl_count (p : Parser) : Consumes p p :=
  ⟨⟨0, Stepped.zero _ _ _⟩, fun _ => rfl, fun _ => rfl⟩

theorem Consumes.trans_count {p q r : Parser} (h1 : Consumes p q) (h2 : Consumes q r) :
    Consumes p r := by
  obtain ⟨k1, s1⟩ := h1.steps
  obtain ⟨k2, s2⟩ := h2.steps
  refine ⟨⟨k1 + k2, s1.add s2⟩, fun h => ?_, fun h => ?_⟩
  · have e := h1.grouping h
    rw [h2.grouping (by rw [e]; exact h), e]
  · have e := h1.block h
    rw [h2.block (by rw [e]; exact h), e]

/-- A state that agrees with `q` on the token, the queue, the index and the depths is reached
by the same kind of run. -/
theorem Consumes.of_eq_count {p q q' : Parser} (h : Consumes p q) (h1 : q'.token = q.token)
    (h2 : q'.lexer = q.lexer) (h3 : q'.index = q.index)
    (h4 : q'.grouping_depth = q.grouping_depth) (h5 : q'.block_depth = q.block_depth) :
    Consumes p q' := by
  refine ⟨?_, ?_, ?_⟩
  · rw [h1, h2, h3]; exact h.steps
  · rw [h4]; exact h.grouping
  · rw [h5]; exact h.block

theorem Consumes.emit_count {p q : Parser} (h : Consumes p q) (stream : Bool) (line : String) :
    Consumes p (q.emit stream line) := by
  cases stream <;> exact h.of_eq_count rfl rfl rfl rfl rfl

theorem Consumes.advance_count {p q : Parser} (h : Consumes p q) : Consumes p q.advance :=
  h.trans_count ⟨⟨1, Stepped.next _ _ _⟩, fun _ => rfl, fun _ => rfl⟩

theorem Consumes.pop_count {p q : Parser} {x : VarValue × Parser} (h : Consumes p q)
    (hp : q.pop = .ok x) : Consumes p x.2 := by
  unfold Parser.pop at hp
  split at hp
  · cases hp; exact h.of_eq_count rfl rfl rfl rfl rfl
  · cases hp

theorem Consumes.emit_or_label_count {p q : Parser} (h : Consumes p q) (stream : Bool) :
    Consumes p (q.emit_or_label stream) := by
  unfold Parser.emit_or_label
  split
  · exact (h.emit_count stream _).of_eq_count rfl rfl rfl rfl rfl
  · exact h

theorem Consumes.push_count {p q : Parser} (h : Consumes p q) (v : VarValue) :
    Consumes p (q.push v) :=
  h.of_eq_count rfl rfl rfl rfl rfl

theorem Consumes.gpr_sub_count {p q : Parser} (h : Consumes p q) (k : Nat) :
    Consumes p (q.gpr_sub k) :=
  h.of_eq_count rfl rfl rfl rfl rfl

theorem Consumes.gpr_inc_count {p q : Parser} (h : Consumes p q) : Consumes p q.gpr_inc :=
  h.of_eq_count rfl rfl rfl rfl rfl

theorem Consumes.emit_assembly {p q : Parser} (h : Consumes p q)
    (assembly : List (List String)) : Consumes p (q.emit_assembly assembly) :=
  h.of_eq_count rfl rfl rfl rfl rfl

theorem Consumes.and_jump_count {p q : Parser} (h : Consumes p q) (stream : Bool) :
    Consumes p (fact_prime_and_jump stream q) := by
  unfold fact_prime_and_jump
  simp only []
  split
  · exact (h.emit_count stream _).of_eq_count rfl rfl rfl rfl rfl
  · split
    · exact (h.emit_count stream _).of_eq_count rfl rfl rfl rfl rfl
    · split
      · exact (h.emit_count stream _).of_eq_count rfl rfl rfl rfl rfl
      · exact h.of_eq_count rfl rfl rfl rfl rfl

theorem Consumes.ite_advance_count {p q : Parser} (h : Consumes p q) (c : Prop) [Decidable c] :
    Consumes p (if c then q.advance else q) := by
  split
  · exact h.advance_count
  · exact h

/-- A state given by its members is reached by a counting run exactly when the members that
such a run constrains say so; the other members are free. -/
theorem Consumes.mk_iff_count (p : Parser) (tok : Option Token) (gd bd idx : Nat)
    (vals : List VarValue) (st : SymbolTable) (tmp : List String) (gi : Nat) (ou fw : Bool)
    (lc : Char) (ic wc oc : Nat) (cs ls : List Nat) (lx : Lexer) (out stg : List String) :
    Consumes p ⟨tok, gd, bd, idx, vals, st, tmp, gi, ou, fw, lc, ic, wc, oc, cs, ls, lx, out,
      stg⟩ ↔ ConsumesOn p tok gd bd idx lx :=
  ⟨fun h => ⟨h.steps, h.grouping, h.block⟩, fun h => ⟨h.1, h.2.1, h.2.2⟩⟩

theorem Consumes.on_count {p q : Parser} (h : Consumes p q) :
    ConsumesOn p q.token q.grouping_depth q.block_depth q.index q.lexer :=
  ⟨h.steps, h.grouping, h.block⟩

/-- Leaving a block: a run that went one block deeper at `p0` ends, after `block_depth--`, at
the depth of its start. -/
theorem Consumes.on_leave {p p0 q : Parser}
    (h : Consumes { p0 with block_depth := (p0.block_depth + 1) % 65536 } q)
    (h0 : Consumes p p0) :
    ConsumesOn p q.token q.grouping_depth ((q.block_depth + 65536 - 1) % 65536) q.index
      q.lexer := by
  obtain ⟨k0, s0⟩ := h0.steps
  obtain ⟨k, s⟩ := h.steps
  refine ⟨⟨k0 + k, s0.add s⟩, fun hg => ?_, fun hb => ?_⟩
  · have e0 := h0.grouping hg
    have e := h.grouping (show p0.grouping_depth < 65536 by rw [e0]; exact hg)
    rw [e]; exact e0
  · have e0 := h0.block hb
    have e := h.block (Nat.mod_lt _ (by decide))
    rw [e]
    show ((p0.block_depth + 1) % 65536 + 65536 - 1) % 65536 = p.block_depth
    omega

/-- Leaving a group: a run that started one group deeper ends, after `grouping_depth--`, at
the depth of the start. -/
theorem Consumes.on_ungroup {p q : Parser}
    (h : Consumes { p with grouping_depth := (p.grouping_depth + 1) % 65536 } q) :
    ConsumesOn p q.token ((q.grouping_depth + 65536 - 1) % 65536) q.block_depth q.index
      q.lexer := by
  refine ⟨h.steps, fun hb => ?_, h.block⟩
  have e := h.grouping (Nat.mod_lt _ (by decide))
  rw [e]
  show ((p.grouping_depth + 1) % 65536 + 65536 - 1) % 65536 = p.grouping_depth
  omega

theorem Parser.emit_binary_consumes {stream : Bool} {op : String} {p p' : Parser}
    (h : p.emit_binary stream op = .ok p') : Consumes p p' := by
  simp only [Parser.emit_binary, bind, Except.bind, pure, Except.pure] at h
  repeat' split at h
  all_goals first
    | (cases h; done)
    | (cases h; exact (Consumes.refl_count p).emit_count _ _)

theorem Parser.emit_divide_consumes {stream : Bool} {p p' : Parser}
    (h : p.emit_divide stream = .ok p') : Consumes p p' := by
  simp only [Parser.emit_divide, bind, Except.bind, pure, Except.pure] at h
  repeat' split at h
  all_goals first
    | (cases h; done)
    | (cases h
       with_reducible repeat (first
        | exact Consumes.refl_count _
        | apply Consumes.gpr_sub_count
        | apply Consumes.emit_count))

theorem Parser.emit_jump_consumes {stream : Bool} {target : Except Err String} {p p' : Parser}
    (h : p.emit_jump stream target = .ok p') : Consumes p p' := by
  simp only [Parser.emit_jump, bind, Except.bind, pure, Except.pure] at h
  repeat' split at h
  all_goals first
    | (cases h; done)
    | (cases h
       with_reducible repeat (first
        | exact Consumes.refl_count _
        | apply Consumes.emit_count))

theorem Parser.expect_special_consumes {s what : String} {p p' : Parser}
    (h : p.expect_special s what = .ok p') : Consumes p p' := by
  simp only [Parser.expect_special, bind, Except.bind, pure, Except.pure] at h
  repeat' split at h
  all_goals first
    | (cases h; done)
    | (cases h; exact Consumes.refl_count _)

theorem term_prime_arith_consumes {tok : String} {stream : Bool} {p p' : Parser}
    (h : term_prime_arith tok stream p = .ok p') : Consumes p p' := by
  simp only [term_prime_arith, bind, Except.bind, pure, Except.pure] at h
  repeat' split at h
  all_goals first
    | (cases h; done)
    | (cases h
       with_reducible repeat (first
        | exact Consumes.refl_count _
        | apply Consumes.push_count
        | apply Consumes.gpr_sub_count
        | (refine Consumes.pop_count ?_ (by assumption))
        | (refine Consumes.trans_count ?_ (Parser.emit_binary_consumes (by assumption)))))

/-! ## The expression functions count their tokens -/

theorem s_expression_prime_compare_consumes {tok : String} {stream : Bool} {p p' : Parser}
    (h : s_expression_prime_compare tok stream p = .ok p') : Consumes p p' := by
  simp only [s_expression_prime_compare, bind, Except.bind, pure, Except.pure] at h
  repeat' split at h
  all_goals first
    | (cases h; done)
    | skip
  all_goals first
    | cases h
  all_goals with_reducible repeat (first
    | exact Consumes.refl_count _
    | assumption
    | apply Consumes.push_count
    | apply Consumes.gpr_sub_count
    | apply Consumes.gpr_inc_count
    | apply Consumes.advance_count
    | apply Consumes.emit_or_label_count
    | apply Consumes.and_jump_count
    | apply Consumes.ite_advance_count
    | apply Consumes.emit_count
    | apply Consumes.emit_assembly
    | (refine Consumes.pop_count ?_ (by assumption))
    | (simp only [Consumes.mk_iff_count]; refine Consumes.on_count ?_))

theorem term_prime_or_jump_consumes {stream : Bool} {p p' : Parser}
    (h : term_prime_or_jump stream p = .ok p') : Consumes p p' := by
  simp only [term_prime_or_jump, bind, Except.bind, pure, Except.pure] at h
  repeat' split at h
  all_goals first
    | (cases h; done)
    | skip
  all_goals first
    | cases h
  all_goals with_reducible repeat (first
    | exact Consumes.refl_count _
    | assumption
    | apply Consumes.push_count
    | apply Consumes.gpr_sub_count
    | apply Consumes.gpr_inc_count
    | apply Consumes.advance_count
    | apply Consumes.emit_or_label_count
    | apply Consumes.and_jump_count
    | apply Consumes.ite_advance_count
    | apply Consumes.emit_count
    | apply Consumes.emit_assembly
    | (refine Consumes.pop_count ?_ (by assumption))
    | (simp only [Consumes.mk_iff_count]; refine Consumes.on_count ?_)
    | (refine Consumes.trans_count ?_ (Parser.emit_jump_consumes (by assumption))))

theorem boolean_pair_check_consumes {what : String} {p p' : Parser}
    (h : boolean_pair_check what p = .ok p') : Consumes p p' := by
  simp only [boolean_pair_check, bind, Except.bind, pure, Except.pure] at h
  repeat' split at h
  all_goals first
    | (cases h; done)
    | skip
  all_goals first
    | cases h
  all_goals with_reducible repeat (first
    | exact Consumes.refl_count _
    | assumption
    | apply Consumes.push_count
    | apply Consumes.gpr_sub_count
    | apply Consumes.gpr_inc_count
    | apply Consumes.advance_count
    | apply Consumes.emit_or_label_count
    | apply Consumes.and_jump_count
    | apply Consumes.ite_advance_count
    | apply Consumes.emit_count
    | apply Consumes.emit_assembly
    | (refine Consumes.pop_count ?_ (by assumption))
    | (simp only [Consumes.mk_iff_count]; refine Consumes.on_count ?_))

theorem fact_prime_arith_consumes {tok : String} {stream : Bool} {p p' : Parser}
    (h : fact_prime_arith tok stream p = .ok p') : Consumes p p' := by
  simp only [fact_prime_arith, bind, Except.bind, pure, Except.pure] at h
  repeat' split at h
  all_goals first
    | (cases h; done)
    | skip
  all_goals first
    | cases h
  all_goals with_reducible repeat (first
    | exact Consumes.refl_count _
    | assumption
    | apply Consumes.push_count
    | apply Consumes.gpr_sub_count
    | apply Consumes.gpr_inc_count
    | apply Consumes.advance_count
    | apply Consumes.emit_or_label_count
    | apply Consumes.and_jump_count
    | apply Consumes.ite_advance_count
    | apply Consumes.emit_count
    | apply Consumes.emit_assembly
    | (refine Consumes.pop_count ?_ (by assumption))
    | (simp only [Consumes.mk_iff_count]; refine Consumes.on_count ?_)
    | (refine Consumes.trans_count ?_ (Parser.emit_binary_consumes (by assumption)))
    | (refine Consumes.trans_count ?_ (Parser.emit_divide_consumes (by assumption))))

theorem fact_r_integer_consumes {text : String} {stream : Bool} {p p' : Parser}
    (h : fact_r_integer text stream p = .ok p') : Consumes p p' := by
  simp only [fact_r_integer, bind, Except.bind, pure, Except.pure] at h
  repeat' split at h
  all_goals first
    | (cases h; done)
    | skip
  all_goals first
    | cases h
  all_goals with_reducible repeat (first
    | exact Consumes.refl_count _
    | assumption
    | apply Consumes.push_count
    | apply Consumes.gpr_sub_count
    | apply Consumes.gpr_inc_count
    | apply Consumes.advance_count
    | apply Consumes.emit_or_label_count
    | apply Consumes.and_jump_count
    | apply Consumes.ite_advance_count
    | apply Consumes.emit_count
    | apply Consumes.emit_assembly
    | (refine Consumes.pop_count ?_ (by assumption))
    | (simp only [Consumes.mk_iff_count]; refine Consumes.on_count ?_))

theorem fact_r_real_consumes {text : String} {stream : Bool} {p p' : Parser}
    (h : fact_r_real text stream p = .ok p') : Consumes p p' := by
  simp only [fact_r_real, bind, Except.bind, pure, Except.pure] at h
  repeat' split at h
  all_goals first
    | (cases h; done)
    | skip
  all_goals first
    | cases h
  all_goals with_reducible repeat (first
    | exact Consumes.refl_count _
    | assumption
    | apply Consumes.push_count
    | apply Consumes.gpr_sub_count
    | apply Consumes.gpr_inc_count
    | apply Consumes.advance_count
    | apply Consumes.emit_or_label_count
    | apply Consumes.and_jump_count
    | apply Consumes.ite_advance_count
    | apply Consumes.emit_count
    | apply Consumes.emit_assembly
    | (refine Consumes.pop_count ?_ (by assumption))
    | (simp only [Consumes.mk_iff_count]; refine Consumes.on_count ?_))

theorem fact_r_local_consumes {v : VarData} {stream : Bool} {p p' : Parser}
    (h : fact_r_local v stream p = .ok p') : Consumes p p' := by
  simp only [fact_r_local, bind, Except.bind, pure, Except.pure] at h
  repeat' split at h
  all_goals first
    | (cases h; done)
    | skip
  all_goals first
    | cases h
  all_goals with_reducible repeat (first
    | exact Consumes.refl_count _
    | assumption
    | apply Consumes.push_count
    | apply Consumes.gpr_sub_count
    | apply Consumes.gpr_inc_count
    | apply Consumes.advance_count
    | apply Consumes.emit_or_label_count
    | apply Consumes.and_jump_count
    | apply Consumes.ite_advance_count
    | apply Consumes.emit_count
    | apply Consumes.emit_assembly
    | (refine Consumes.pop_count ?_ (by assumption))
    | (simp only [Consumes.mk_iff_count]; refine Consumes.on_count ?_))

theorem fact_r_outer_consumes {e : Entry} {stream : Bool} {p p' : Parser}
    (h : fact_r_outer e stream p = .ok p') : Consumes p p' := by
  simp only [fact_r_outer, bind, Except.bind, pure, Except.pure] at h
  repeat' split at h
  all_goals first
    | (cases h; done)
    | skip
  all_goals first
    | cases h
  all_goals with_reducible repeat (first
    | exact Consumes.refl_count _
    | assumption
    | apply Consumes.push_count
    | apply Consumes.gpr_sub_count
    | apply Consumes.gpr_inc_count
    | apply Consumes.advance_count
    | apply Consumes.emit_or_label_count
    | apply Consumes.and_jump_count
    | apply Consumes.ite_advance_count
    | apply Consumes.emit_count
    | apply Consumes.emit_assembly
    | (refine Consumes.pop_count ?_ (by assumption))
    | (simp only [Consumes.mk_iff_count]; refine Consumes.on_count ?_))

theorem func_param_by_ref_consumes {func : FuncData} {parameter : VarData} {p p' : Parser}
    (h : func_param_by_ref func parameter p = .ok p') : Consumes p p' := by
  simp only [func_param_by_ref, bind, Except.bind, pure, Except.pure] at h
  repeat' split at h
  all_goals first
    | (cases h; done)
    | skip
  all_goals first
    | cases h
  all_goals with_reducible repeat (first
    | exact Consumes.refl_count _
    | assumption
    | apply Consumes.push_count
    | apply Consumes.gpr_sub_count
    | apply Consumes.gpr_inc_count
    | apply Consumes.advance_count
    | apply Consumes.emit_or_label_count
    | apply Consumes.and_jump_count
    | apply Consumes.ite_advance_count
    | apply Consumes.emit_count
    | apply Consumes.emit_assembly
    | (refine Consumes.pop_count ?_ (by assumption))
    | (simp only [Consumes.mk_iff_count]; refine Consumes.on_count ?_))

theorem func_param_check_consumes {parameter : VarData} {p p' : Parser}
    (h : func_param_check parameter p = .ok p') : Consumes p p' := by
  simp only [func_param_check, bind, Except.bind, pure, Except.pure] at h
  repeat' split at h
  all_goals first
    | (cases h; done)
    | skip
  all_goals first
    | cases h
  all_goals with_reducible repeat (first
    | exact Consumes.refl_count _
    | assumption
    | apply Consumes.push_count
    | apply Consumes.gpr_sub_count
    | apply Consumes.gpr_inc_count
    | apply Consumes.advance_count
    | apply Consumes.emit_or_label_count
    | apply Consumes.and_jump_count
    | apply Consumes.ite_advance_count
    | apply Consumes.emit_count
    | apply Consumes.emit_assembly
    | (refine Consumes.pop_count ?_ (by assumption))
    | (simp only [Consumes.mk_iff_count]; refine Consumes.on_count ?_))

theorem consume_comma_consumes {more : Bool} {what : String} {p p' : Parser}
    (h : consume_comma more what p = .ok p') : Consumes p p' := by
  simp only [consume_comma, bind, Except.bind, pure, Except.pure] at h
  repeat' split at h
  all_goals first
    | (cases h; done)
    | skip
  all_goals first
    | cases h
  all_goals with_reducible repeat (first
    | exact Consumes.refl_count _
    | assumption
    | apply Consumes.push_count
    | apply Consumes.gpr_sub_count
    | apply Consumes.gpr_inc_count
    | apply Consumes.advance_count
    | apply Consumes.emit_or_label_count
    | apply Consumes.and_jump_count
    | apply Consumes.ite_advance_count
    | apply Consumes.emit_count
    | apply Consumes.emit_assembly
    | (refine Consumes.pop_count ?_ (by assumption))
    | (simp only [Consumes.mk_iff_count]; refine Consumes.on_count ?_))

theorem fact_r_call_check_consumes {p p' : Parser}
    (h : fact_r_call_check p = .ok p') : Consumes p p' := by
  simp only [fact_r_call_check, bind, Except.bind, pure, Except.pure] at h
  repeat' split at h
  all_goals first
    | (cases h; done)
    | skip
  all_goals first
    | cases h
  all_goals with_reducible repeat (first
    | exact Consumes.refl_count _
    | assumption
    | apply Consumes.push_count
    | apply Consumes.gpr_sub_count
    | apply Consumes.gpr_inc_count
    | apply Consumes.advance_count
    | apply Consumes.emit_or_label_count
    | apply Consumes.and_jump_count
    | apply Consumes.ite_advance_count
    | apply Consumes.emit_count
    | apply Consumes.emit_assembly
    | (refine Consumes.pop_count ?_ (by assumption))
    | (simp only [Consumes.mk_iff_count]; refine Consumes.on_count ?_))

/-- Every run of an expression function that returns has counted the tokens it took and
has closed the groups it opened. -/
theorem expression_consumes_all (fuel : Nat) :
    (∀ stream p p', expression fuel stream p = .ok p' → Consumes p p') ∧
    (∀ stream p p', s_expression fuel stream p = .ok p' → Consumes p p') ∧
    (∀ stream p p', s_expression_r fuel stream p = .ok p' → Consumes p p') ∧
    (∀ stream p p', s_expression_prime fuel stream p = .ok p' → Consumes p p') ∧
    (∀ stream p p', term fuel stream p = .ok p' → Consumes p p') ∧
    (∀ stream p p', term_r fuel stream p = .ok p' → Consumes p p') ∧
    (∀ stream p p', term_prime fuel stream p = .ok p' → Consumes p p') ∧
    (∀ stream p p', fact fuel stream p = .ok p' → Consumes p p') ∧
    (∀ stream p p', fact_r fuel stream p = .ok p' → Consumes p p') ∧
    (∀ stream p p', fact_prime fuel stream p = .ok p' → Consumes p p') ∧
    (∀ func p p', consume_params_func fuel func p = .ok p' → Consumes p p') ∧
    (∀ func parameters current_param p p', consume_params_func_loop fuel func parameters current_param p = .ok p' → Consumes p p') := by
  induction fuel with
  | zero =>
    refine ⟨?_, ?_, ?_, ?_, ?_, ?_, ?_, ?_, ?_, ?_, ?_, ?_⟩ <;> intros <;> rename_i h <;>
      simp [expression, s_expression, s_expression_r, s_expression_prime, term, term_r, term_prime, fact, fact_r, fact_prime, consume_params_func, consume_params_func_loop] at h
  | succ fuel ih =>
    obtain ⟨ih_expression, ih_s_expression, ih_s_expression_r, ih_s_expression_prime, ih_term, ih_term_r, ih_term_prime, ih_fact, ih_fact_r, ih_fact_prime, ih_consume_params_func, ih_consume_params_func_loop⟩ := ih
    refine ⟨?_, ?_, ?_, ?_, ?_, ?_, ?_, ?_, ?_, ?_, ?_, ?_⟩
    · intro stream p p' h
      simp only [expression, bind, Except.bind, pure, Except.pure] at h
      repeat' split at h
      all_goals first
        | (cases h; done)
        | skip
      all_goals first
        | cases h
        | with_reducible refine Consumes.trans_count ?_ (fact_r_local_consumes h)
        | with_reducible refine Consumes.trans_count ?_ (fact_r_outer_consumes h)
        | with_reducible refine Consumes.trans_count ?_ (fact_r_call_check_consumes h)
        | with_reducible refine Consumes.trans_count ?_ (ih_expression _ _ _ h)
        | with_reducible refine Consumes.trans_count ?_ (ih_s_expression _ _ _ h)
        | with_reducible refine Consumes.trans_count ?_ (ih_s_expression_r _ _ _ h)
        | with_reducible refine Consumes.trans_count ?_ (ih_s_expression_prime _ _ _ h)
        | with_reducible refine Consumes.trans_count ?_ (ih_term _ _ _ h)
        | with_reducible refine Consumes.trans_count ?_ (ih_term_r _ _ _ h)
        | with_reducible refine Consumes.trans_count ?_ (ih_term_prime _ _ _ h)
        | with_reducible refine Consumes.trans_count ?_ (ih_fact _ _ _ h)
        | with_reducible refine Consumes.trans_count ?_ (ih_fact_r _ _ _ h)
        | with_reducible refine Consumes.trans_count ?_ (ih_fact_prime _ _ _ h)
        | with_reducible refine Consumes.trans_count ?_ (ih_consume_params_func _ _ _ h)
        | with_reducible refine Consumes.trans_count ?_ (ih_consume_params_func_loop _ _ _ _ _ h)
      all_goals with_reducible repeat (first
        | exact Consumes.refl_count _
        | assumption
        | apply Consumes.push_count
        | apply Consumes.gpr_sub_count
        | apply Consumes.gpr_inc_count
        | apply Consumes.advance_count
        | apply Consumes.emit_or_label_count
        | apply Consumes.and_jump_count
        | apply Consumes.ite_advance_count
        | apply Consumes.emit_count
        | apply Consumes.emit_assembly
        | (refine Consumes.pop_count ?_ (by assumption))
        | (simp only [Consumes.mk_iff_count]; refine Consumes.on_count ?_)
        | (simp only [Consumes.mk_iff_count]; refine Consumes.on_ungroup ?_)
        | (refine Consumes.trans_count ?_ (s_expression_prime_compare_consumes (by assumption)))
        | (refine Consumes.trans_count ?_ (term_prime_arith_consumes (by assumption)))
        | (refine Consumes.trans_count ?_ (term_prime_or_jump_consumes (by assumption)))
        | (refine Consumes.trans_count ?_ (boolean_pair_check_consumes (by assumption)))
        | (refine Consumes.trans_count ?_ (fact_prime_arith_consumes (by assumption)))
        | (refine Consumes.trans_count ?_ (fact_r_integer_consumes (by assumption)))
        | (refine Consumes.trans_count ?_ (fact_r_real_consumes (by assumption)))
        | (refine Consumes.trans_count ?_ (fact_r_local_consumes (by assumption)))
        | (refine Consumes.trans_count ?_ (fact_r_outer_consumes (by assumption)))
        | (refine Consumes.trans_count ?_ (func_param_by_ref_consumes (by assumption)))
        | (refine Consumes.trans_count ?_ (func_param_check_consumes (by assumption)))
        | (refine Consumes.trans_count ?_ (consume_comma_consumes (by assumption)))
        | (refine Consumes.trans_count ?_ (fact_r_call_check_consumes (by assumption)))
        | (refine Consumes.trans_count ?_ (Parser.expect_special_consumes (by assumption)))
        | (refine Consumes.trans_count ?_ (Parser.emit_jump_consumes (by assumption)))
        | (refine Consumes.trans_count ?_ (ih_expression _ _ _ (by assumption)))
        | (refine Consumes.trans_count ?_ (ih_s_expression _ _ _ (by assumption)))
        | (refine Consumes.trans_count ?_ (ih_s_expression_r _ _ _ (by assumption)))
        | (refine Consumes.trans_count ?_ (ih_s_expression_prime _ _ _ (by assumption)))
        | (refine Consumes.trans_count ?_ (ih_term _ _ _ (by assumption)))
        | (refine Consumes.trans_count ?_ (ih_term_r _ _ _ (by assumption)))
        | (refine Consumes.trans_count ?_ (ih_term_prime _ _ _ (by assumption)))
        | (refine Consumes.trans_count ?_ (ih_fact _ _ _ (by assumption)))
        | (refine Consumes.trans_count ?_ (ih_fact_r _ _ _ (by assumption)))
        | (refine Consumes.trans_count ?_ (ih_fact_prime _ _ _ (by assumption)))
        | (refine Consumes.trans_count ?_ (ih_consume_params_func _ _ _ (by assumption)))
        | (refine Consumes.trans_count ?_ (ih_consume_params_func_loop _ _ _ _ _ (by assumption))))
    · intro stream p p' h
      simp only [s_expression, bind, Except.bind, pure, Except.pure] at h
      repeat' split at h
      all_goals first
        | (cases h; done)
        | skip
      all_goals first
        | cases h
        | with_reducible refine Consumes.trans_count ?_ (fact_r_local_consumes h)
        | with_reducible refine Consumes.trans_count ?_ (fact_r_outer_consumes h)
        | with_reducible refine Consumes.trans_count ?_ (fact_r_call_check_consumes h)
        | with_reducible refine Consumes.trans_count ?_ (ih_expression _ _ _ h)
        | with_reducible refine Consumes.trans_count ?_ (ih_s_expression _ _ _ h)
        | with_reducible refine Consumes.trans_count ?_ (ih_s_expression_r _ _ _ h)
        | with_reducible refine Consumes.trans_count ?_ (ih_s_expression_prime _ _ _ h)
        | with_reducible refine Consumes.trans_count ?_ (ih_term _ _ _ h)
        | with_reducible refine Consumes.trans_count ?_ (ih_term_r _ _ _ h)
        | with_reducible refine Consumes.trans_count ?_ (ih_term_prime _ _ _ h)
        | with_reducible refine Consumes.trans_count ?_ (ih_fact _ _ _ h)
        | with_reducible refine Consumes.trans_count ?_ (ih_fact_r _ _ _ h)
        | with_reducible refine Consumes.trans_count ?_ (ih_fact_prime _ _ _ h)
        | with_reducible refine Consumes.trans_count ?_ (ih_consume_params_func _ _ _ h)
        | with_reducible refine Consumes.trans_count ?_ (ih_consume_params_func_loop _ _ _ _ _ h)
      all_goals with_reducible repeat (first
        | exact Consumes.refl_count _
        | assumption
        | apply Consumes.push_count
        | apply Consumes.gpr_sub_count
        | apply Consumes.gpr_inc_count
        | apply Consumes.advance_count
        | apply Consumes.emit_or_label_count
        | apply Consumes.and_jump_count
        | apply Consumes.ite_advance_count
        | apply Consumes.emit_count
        | apply Consumes.emit_assembly
        | (refine Consumes.pop_count ?_ (by assumption))
        | (simp only [Consumes.mk_iff_count]; refine Consumes.on_count ?_)
        | (simp only [Consumes.mk_iff_count]; refine Consumes.on_ungroup ?_)
        | (refine Consumes.trans_count ?_ (s_expression_prime_compare_consumes (by assumption)))
        | (refine Consumes.trans_count ?_ (term_prime_arith_consumes (by assumption)))
        | (refine Consumes.trans_count ?_ (term_prime_or_jump_consumes (by assumption)))
        | (refine Consumes.trans_count ?_ (boolean_pair_check_consumes (by assumption)))
        | (refine Consumes.trans_count ?_ (fact_prime_arith_consumes (by assumption)))
        | (refine Consumes.trans_count ?_ (fact_r_integer_consumes (by assumption)))
        | (refine Consumes.trans_count ?_ (fact_r_real_consumes (by assumption)))
        | (refine Consumes.trans_count ?_ (fact_r_local_consumes (by assumption)))
        | (refine Consumes.trans_count ?_ (fact_r_outer_consumes (by assumption)))
        | (refine Consumes.trans_count ?_ (func_param_by_ref_consumes (by assumption)))
        | (refine Consumes.trans_count ?_ (func_param_check_consumes (by assumption)))
        | (refine Consumes.trans_count ?_ (consume_comma_consumes (by assumption)))
        | (refine Consumes.trans_count ?_ (fact_r_call_check_consumes (by assumption)))
        | (refine Consumes.trans_count ?_ (Parser.expect_special_consumes (by assumption)))
        | (refine Consumes.trans_count ?_ (Parser.emit_jump_consumes (by assumption)))
        | (refine Consumes.trans_count ?_ (ih_expression _ _ _ (by assumption)))
        | (refine Consumes.trans_count ?_ (ih_s_expression _ _ _ (by assumption)))
        | (refine Consumes.trans_count ?_ (ih_s_expression_r _ _ _ (by assumption)))
        | (refine Consumes.trans_count ?_ (ih_s_expression_prime _ _ _ (by assumption)))
        | (refine Consumes.trans_count ?_ (ih_term _ _ _ (by assumption)))
        | (refine Consumes.trans_count ?_ (ih_term_r _ _ _ (by assumption)))
        | (refine Consumes.trans_count ?_ (ih_term_prime _ _ _ (by assumption)))
        | (refine Consumes.trans_count ?_ (ih_fact _ _ _ (by assumption)))
        | (refine Consumes.trans_count ?_ (ih_fact_r _ _ _ (by assumption)))
        | (refine Consumes.trans_count ?_ (ih_fact_prime _ _ _ (by assumption)))
        | (refine Consumes.trans_count ?_ (ih_consume_params_func _ _ _ (by assumption)))
        | (refine Consumes.trans_count ?_ (ih_consume_params_func_loop _ _ _ _ _ (by assumption))))
    · intro stream p p' h
      simp only [s_expression_r, bind, Except.bind, pure, Except.pure] at h
      repeat' split at h
      all_goals first
        | (cases h; done)
        | skip
      all_goals first
        | cases h
        | with_reducible refine Consumes.trans_count ?_ (fact_r_local_consumes h)
        | with_reducible refine Consumes.trans_count ?_ (fact_r_outer_consumes h)
        | with_reducible refine Consumes.trans_count ?_ (fact_r_call_check_consumes h)
        | with_reducible refine Consumes.trans_count ?_ (ih_expression _ _ _ h)
        | with_reducible refine Consumes.trans_count ?_ (ih_s_expression _ _ _ h)
        | with_reducible refine Consumes.trans_count ?_ (ih_s_expression_r _ _ _ h)
        | with_reducible refine Consumes.trans_count ?_ (ih_s_expression_prime _ _ _ h)
        | with_reducible refine Consumes.trans_count ?_ (ih_term _ _ _ h)
        | with_reducible refine Consumes.trans_count ?_ (ih_term_r _ _ _ h)
        | with_reducible refine Consumes.trans_count ?_ (ih_term_prime _ _ _ h)
        | with_reducible refine Consumes.trans_count ?_ (ih_fact _ _ _ h)
        | with_reducible refine Consumes.trans_count ?_ (ih_fact_r _ _ _ h)
        | with_reducible refine Consumes.trans_count ?_ (ih_fact_prime _ _ _ h)
        | with_reducible refine Consumes.trans_count ?_ (ih_consume_params_func _ _ _ h)
        | with_reducible refine Consumes.trans_count ?_ (ih_consume_params_func_loop _ _ _ _ _ h)
      all_goals with_reducible repeat (first
        | exact Consumes.refl_count _
        | assumption
        | apply Consumes.push_count
        | apply Consumes.gpr_sub_count
        | apply Consumes.gpr_inc_count
        | apply Consumes.advance_count
        | apply Consumes.emit_or_label_count
        | apply Consumes.and_jump_count
        | apply Consumes.ite_advance_count
        | apply Consumes.emit_count
        | apply Consumes.emit_assembly
        | (refine Consumes.pop_count ?_ (by assumption))
        | (simp only [Consumes.mk_iff_count]; refine Consumes.on_count ?_)
        | (simp only [Consumes.mk_iff_count]; refine Consumes.on_ungroup ?_)
        | (refine Consumes.trans_count ?_ (s_expression_prime_compare_consumes (by assumption)))
        | (refine Consumes.trans_count ?_ (term_prime_arith_consumes (by assumption)))
        | (refine Consumes.trans_count ?_ (term_prime_or_jump_consumes (by assumption)))
        | (refine Consumes.trans_count ?_ (boolean_pair_check_consumes (by assumption)))
        | (refine Consumes.trans_count ?_ (fact_prime_arith_consumes (by assumption)))
        | (refine Consumes.trans_count ?_ (fact_r_integer_consumes (by assumption)))
        | (refine Consumes.trans_count ?_ (fact_r_real_consumes (by assumption)))
        | (refine Consumes.trans_count ?_ (fact_r_local_consumes (by assumption)))
        | (refine Consumes.trans_count ?_ (fact_r_outer_consumes (by assumption)))
        | (refine Consumes.trans_count ?_ (func_param_by_ref_consumes (by assumption)))
        | (refine Consumes.trans_count ?_ (func_param_check_consumes (by assumption)))
        | (refine Consumes.trans_count ?_ (consume_comma_consumes (by assumption)))
        | (refine Consumes.trans_count ?_ (fact_r_call_check_consumes (by assumption)))
        | (refine Consumes.trans_count ?_ (Parser.expect_special_consumes (by assumption)))
        | (refine Consumes.trans_count ?_ (Parser.emit_jump_consumes (by assumption)))
        | (refine Consumes.trans_count ?_ (ih_expression _ _ _ (by assumption)))
        | (refine Consumes.trans_count ?_ (ih_s_expression _ _ _ (by assumption)))
        | (refine Consumes.trans_count ?_ (ih_s_expression_r _ _ _ (by assumption)))
        | (refine Consumes.trans_count ?_ (ih_s_expression_prime _ _ _ (by assumption)))
        | (refine Consumes.trans_count ?_ (ih_term _ _ _ (by assumption)))
        | (refine Consumes.trans_count ?_ (ih_term_r _ _ _ (by assumption)))
        | (refine Consumes.trans_count ?_ (ih_term_prime _ _ _ (by assumption)))
        | (refine Consumes.trans_count ?_ (ih_fact _ _ _ (by assumption)))
        | (refine Consumes.trans_count ?_ (ih_fact_r _ _ _ (by assumption)))
        | (refine Consumes.trans_count ?_ (ih_fact_prime _ _ _ (by assumption)))
        | (refine Consumes.trans_count ?_ (ih_consume_params_func _ _ _ (by assumption)))
        | (refine Consumes.trans_count ?_ (ih_consume_params_func_loop _ _ _ _ _ (by assumption))))
    · intro stream p p' h
      simp only [s_expression_prime, bind, Except.bind, pure, Except.pure] at h
      repeat' split at h
      all_goals first
        | (cases h; done)
        | skip
      all_goals first
        | cases h
        | with_reducible refine Consumes.trans_count ?_ (fact_r_local_consumes h)
        | with_reducible refine Consumes.trans_count ?_ (fact_r_outer_consumes h)
        | with_reducible refine Consumes.trans_count ?_ (fact_r_call_check_consumes h)
        | with_reducible refine Consumes.trans_count ?_ (ih_expression _ _ _ h)
        | with_reducible refine Consumes.trans_count ?_ (ih_s_expression _ _ _ h)
        | with_reducible refine Consumes.trans_count ?_ (ih_s_expression_r _ _ _ h)
        | with_reducible refine Consumes.trans_count ?_ (ih_s_expression_prime _ _ _ h)
        | with_reducible refine Consumes.trans_count ?_ (ih_term _ _ _ h)
        | with_reducible refine Consumes.trans_count ?_ (ih_term_r _ _ _ h)
        | with_reducible refine Consumes.trans_count ?_ (ih_term_prime _ _ _ h)
        | with_reducible refine Consumes.trans_count ?_ (ih_fact _ _ _ h)
        | with_reducible refine Consumes.trans_count ?_ (ih_fact_r _ _ _ h)
        | with_reducible refine Consumes.trans_count ?_ (ih_fact_prime _ _ _ h)
        | with_reducible refine Consumes.trans_count ?_ (ih_consume_params_func _ _ _ h)
        | with_reducible refine Consumes.trans_count ?_ (ih_consume_params_func_loop _ _ _ _ _ h)
      all_goals with_reducible repeat (first
        | exact Consumes.refl_count _
        | assumption
        | apply Consumes.push_count
        | apply Consumes.gpr_sub_count
        | apply Consumes.gpr_inc_count
        | apply Consumes.advance_count
        | apply Consumes.emit_or_label_count
        | apply Consumes.and_jump_count
        | apply Consumes.ite_advance_count
        | apply Consumes.emit_count
        | apply Consumes.emit_assembly
        | (refine Consumes.pop_count ?_ (by assumption))
        | (simp only [Consumes.mk_iff_count]; refine Consumes.on_count ?_)
        | (simp only [Consumes.mk_iff_count]; refine Consumes.on_ungroup ?_)
        | (refine Consumes.trans_count ?_ (s_expression_prime_compare_consumes (by assumption)))
        | (refine Consumes.trans_count ?_ (term_prime_arith_consumes (by assumption)))
        | (refine Consumes.trans_count ?_ (term_prime_or_jump_consumes (by assumption)))
        | (refine Consumes.trans_count ?_ (boolean_pair_check_consumes (by assumption)))
        | (refine Consumes.trans_count ?_ (fact_prime_arith_consumes (by assumption)))
        | (refine Consumes.trans_count ?_ (fact_r_integer_consumes (by assumption)))
        | (refine Consumes.trans_count ?_ (fact_r_real_consumes (by assumption)))
        | (refine Consumes.trans_count ?_ (fact_r_local_consumes (by assumption)))
        | (refine Consumes.trans_count ?_ (fact_r_outer_consumes (by assumption)))
        | (refine Consumes.trans_count ?_ (func_param_by_ref_consumes (by assumption)))
        | (refine Consumes.trans_count ?_ (func_param_check_consumes (by assumption)))
        | (refine Consumes.trans_count ?_ (consume_comma_consumes (by assumption)))
        | (refine Consumes.trans_count ?_ (fact_r_call_check_consumes (by assumption)))
        | (refine Consumes.trans_count ?_ (Parser.expect_special_consumes (by assumption)))
        | (refine Consumes.trans_count ?_ (Parser.emit_jump_consumes (by assumption)))
        | (refine Consumes.trans_count ?_ (ih_expression _ _ _ (by assumption)))
        | (refine Consumes.trans_count ?_ (ih_s_expression _ _ _ (by assumption)))
        | (refine Consumes.trans_count ?_ (ih_s_expression_r _ _ _ (by assumption)))
        | (refine Consumes.trans_count ?_ (ih_s_expression_prime _ _ _ (by assumption)))
        | (refine Consumes.trans_count ?_ (ih_term _ _ _ (by assumption)))
        | (refine Consumes.trans_count ?_ (ih_term_r _ _ _ (by assumption)))
        | (refine Consumes.trans_count ?_ (ih_term_prime _ _ _ (by assumption)))
        | (refine Consumes.trans_count ?_ (ih_fact _ _ _ (by assumption)))
        | (refine Consumes.trans_count ?_ (ih_fact_r _ _ _ (by assumption)))
        | (refine Consumes.trans_count ?_ (ih_fact_prime _ _ _ (by assumption)))
        | (refine Consumes.trans_count ?_ (ih_consume_params_func _ _ _ (by assumption)))
        | (refine Consumes.trans_count ?_ (ih_consume_params_func_loop _ _ _ _ _ (by assumption))))
    · intro stream p p' h
      simp only [term, bind, Except.bind, pure, Except.pure] at h
      repeat' split at h
      all_goals first
        | (cases h; done)
        | skip
      all_goals first
        | cases h
        | with_reducible refine Consumes.trans_count ?_ (fact_r_local_consumes h)
        | with_reducible refine Consumes.trans_count ?_ (fact_r_outer_consumes h)
        | with_reducible refine Consumes.trans_count ?_ (fact_r_call_check_consumes h)
        | with_reducible refine Consumes.trans_count ?_ (ih_expression _ _ _ h)
        | with_reducible refine Consumes.trans_count ?_ (ih_s_expression _ _ _ h)
        | with_reducible refine Consumes.trans_count ?_ (ih_s_expression_r _ _ _ h)
        | with_reducible refine Consumes.trans_count ?_ (ih_s_expression_prime _ _ _ h)
        | with_reducible refine Consumes.trans_count ?_ (ih_term _ _ _ h)
        | with_reducible refine Consumes.trans_count ?_ (ih_term_r _ _ _ h)
        | with_reducible refine Consumes.trans_count ?_ (ih_term_prime _ _ _ h)
        | with_reducible refine Consumes.trans_count ?_ (ih_fact _ _ _ h)
        | with_reducible refine Consumes.trans_count ?_ (ih_fact_r _ _ _ h)
        | with_reducible refine Consumes.trans_count ?_ (ih_fact_prime _ _ _ h)
        | with_reducible refine Consumes.trans_count ?_ (ih_consume_params_func _ _ _ h)
        | with_reducible refine Consumes.trans_count ?_ (ih_consume_params_func_loop _ _ _ _ _ h)
      all_goals with_reducible repeat (first
        | exact Consumes.refl_count _
        | assumption
        | apply Consumes.push_count
        | apply Consumes.gpr_sub_count
        | apply Consumes.gpr_inc_count
        | apply Consumes.advance_count
        | apply Consumes.emit_or_label_count
        | apply Consumes.and_jump_count
        | apply Consumes.ite_advance_count
        | apply Consumes.emit_count
        | apply Consumes.emit_assembly
        | (refine Consumes.pop_count ?_ (by assumption))
        | (simp only [Consumes.mk_iff_count]; refine Consumes.on_count ?_)
        | (simp only [Consumes.mk_iff_count]; refine Consumes.on_ungroup ?_)
        | (refine Consumes.trans_count ?_ (s_expression_prime_compare_consumes (by assumption)))
        | (refine Consumes.trans_count ?_ (term_prime_arith_consumes (by assumption)))
        | (refine Consumes.trans_count ?_ (term_prime_or_jump_consumes (by assumption)))
        | (refine Consumes.trans_count ?_ (boolean_pair_check_consumes (by assumption)))
        | (refine Consumes.trans_count ?_ (fact_prime_arith_consumes (by assumption)))
        | (refine Consumes.trans_count ?_ (fact_r_integer_consumes (by assumption)))
        | (refine Consumes.trans_count ?_ (fact_r_real_consumes (by assumption)))
        | (refine Consumes.trans_count ?_ (fact_r_local_consumes (by assumption)))
        | (refine Consumes.trans_count ?_ (fact_r_outer_consumes (by assumption)))
        | (refine Consumes.trans_count ?_ (func_param_by_ref_consumes (by assumption)))
        | (refine Consumes.trans_count ?_ (func_param_check_consumes (by assumption)))
        | (refine Consumes.trans_count ?_ (consume_comma_consumes (by assumption)))
        | (refine Consumes.trans_count ?_ (fact_r_call_check_consumes (by assumption)))
        | (refine Consumes.trans_count ?_ (Parser.expect_special_consumes (by assumption)))
        | (refine Consumes.trans_count ?_ (Parser.emit_jump_consumes (by assumption)))
        | (refine Consumes.trans_count ?_ (ih_expression _ _ _ (by assumption)))
        | (refine Consumes.trans_count ?_ (ih_s_expression _ _ _ (by assumption)))
        | (refine Consumes.trans_count ?_ (ih_s_expression_r _ _ _ (by assumption)))
        | (refine Consumes.trans_count ?_ (ih_s_expression_prime _ _ _ (by assumption)))
        | (refine Consumes.trans_count ?_ (ih_term _ _ _ (by assumption)))
        | (refine Consumes.trans_count ?_ (ih_term_r _ _ _ (by assumption)))
        | (refine Consumes.trans_count ?_ (ih_term_prime _ _ _ (by assumption)))
        | (refine Consumes.trans_count ?_ (ih_fact _ _ _ (by assumption)))
        | (refine Consumes.trans_count ?_ (ih_fact_r _ _ _ (by assumption)))
        | (refine Consumes.trans_count ?_ (ih_fact_prime _ _ _ (by assumption)))
        | (refine Consumes.trans_count ?_ (ih_consume_params_func _ _ _ (by assumption)))
        | (refine Consumes.trans_count ?_ (ih_consume_params_func_loop _ _ _ _ _ (by assumption))))
    · intro stream p p' h
      simp only [term_r, bind, Except.bind, pure, Except.pure] at h
      repeat' split at h
      all_goals first
        | (cases h; done)
        | skip
      all_goals first
        | cases h
        | with_reducible refine Consumes.trans_count ?_ (fact_r_local_consumes h)
        | with_reducible refine Consumes.trans_count ?_ (fact_r_outer_consumes h)
        | with_reducible refine Consumes.trans_count ?_ (fact_r_call_check_consumes h)
        | with_reducible refine Consumes.trans_count ?_ (ih_expression _ _ _ h)
        | with_reducible refine Consumes.trans_count ?_ (ih_s_expression _ _ _ h)
        | with_reducible refine Consumes.trans_count ?_ (ih_s_expression_r _ _ _ h)
        | with_reducible refine Consumes.trans_count ?_ (ih_s_expression_prime _ _ _ h)
        | with_reducible refine Consumes.trans_count ?_ (ih_term _ _ _ h)
        | with_reducible refine Consumes.trans_count ?_ (ih_term_r _ _ _ h)
        | with_reducible refine Consumes.trans_count ?_ (ih_term_prime _ _ _ h)
        | with_reducible refine Consumes.trans_count ?_ (ih_fact _ _ _ h)
        | with_reducible refine Consumes.trans_count ?_ (ih_fact_r _ _ _ h)
        | with_reducible refine Consumes.trans_count ?_ (ih_fact_prime _ _ _ h)
        | with_reducible refine Consumes.trans_count ?_ (ih_consume_params_func _ _ _ h)
        | with_reducible refine Consumes.trans_count ?_ (ih_consume_params_func_loop _ _ _ _ _ h)
      all_goals with_reducible repeat (first
        | exact Consumes.refl_count _
        | assumption
        | apply Consumes.push_count
        | apply Consumes.gpr_sub_count
        | apply Consumes.gpr_inc_count
        | apply Consumes.advance_count
        | apply Consumes.emit_or_label_count
        | apply Consumes.and_jump_count
        | apply Consumes.ite_advance_count
        | apply Consumes.emit_count
        | apply Consumes.emit_assembly
        | (refine Consumes.pop_count ?_ (by assumption))
        | (simp only [Consumes.mk_iff_count]; refine Consumes.on_count ?_)
        | (simp only [Consumes.mk_iff_count]; refine Consumes.on_ungroup ?_)
        | (refine Consumes.trans_count ?_ (s_expression_prime_compare_consumes (by assumption)))
        | (refine Consumes.trans_count ?_ (term_prime_arith_consumes (by assumption)))
        | (refine Consumes.trans_count ?_ (term_prime_or_jump_consumes (by assumption)))
        | (refine Consumes.trans_count ?_ (boolean_pair_check_consumes (by assumption)))
        | (refine Consumes.trans_count ?_ (fact_prime_arith_consumes (by assumption)))
        | (refine Consumes.trans_count ?_ (fact_r_integer_consumes (by assumption)))
        | (refine Consumes.trans_count ?_ (fact_r_real_consumes (by assumption)))
        | (refine Consumes.trans_count ?_ (fact_r_local_consumes (by assumption)))
        | (refine Consumes.trans_count ?_ (fact_r_outer_consumes (by assumption)))
        | (refine Consumes.trans_count ?_ (func_param_by_ref_consumes (by assumption)))
        | (refine Consumes.trans_count ?_ (func_param_check_consumes (by assumption)))
        | (refine Consumes.trans_count ?_ (consume_comma_consumes (by assumption)))
        | (refine Consumes.trans_count ?_ (fact_r_call_check_consumes (by assumption)))
        | (refine Consumes.trans_count ?_ (Parser.expect_special_consumes (by assumption)))
        | (refine Consumes.trans_count ?_ (Parser.emit_jump_consumes (by assumption)))
        | (refine Consumes.trans_count ?_ (ih_expression _ _ _ (by assumption)))
        | (refine Consumes.trans_count ?_ (ih_s_expression _ _ _ (by assumption)))
        | (refine Consumes.trans_count ?_ (ih_s_expression_r _ _ _ (by assumption)))
        | (refine Consumes.trans_count ?_ (ih_s_expression_prime _ _ _ (by assumption)))
        | (refine Consumes.trans_count ?_ (ih_term _ _ _ (by assumption)))
        | (refine Consumes.trans_count ?_ (ih_term_r _ _ _ (by assumption)))
        | (refine Consumes.trans_count ?_ (ih_term_prime _ _ _ (by assumption)))
        | (refine Consumes.trans_count ?_ (ih_fact _ _ _ (by assumption)))
        | (refine Consumes.trans_count ?_ (ih_fact_r _ _ _ (by assumption)))
        | (refine Consumes.trans_count ?_ (ih_fact_prime _ _ _ (by assumption)))
        | (refine Consumes.trans_count ?_ (ih_consume_params_func _ _ _ (by assumption)))
        | (refine Consumes.trans_count ?_ (ih_consume_params_func_loop _ _ _ _ _ (by assumption))))
    · intro stream p p' h
      simp only [term_prime, bind, Except.bind, pure, Except.pure] at h
      repeat' split at h
      all_goals first
        | (cases h; done)
        | skip
      all_goals first
        | cases h
        | with_reducible refine Consumes.trans_count ?_ (fact_r_local_consumes h)
        | with_reducible refine Consumes.trans_count ?_ (fact_r_outer_consumes h)
        | with_reducible refine Consumes.trans_count ?_ (fact_r_call_check_consumes h)
        | with_reducible refine Consumes.trans_count ?_ (ih_expression _ _ _ h)
        | with_reducible refine Consumes.trans_count ?_ (ih_s_expression _ _ _ h)
        | with_reducible refine Consumes.trans_count ?_ (ih_s_expression_r _ _ _ h)
        | with_reducible refine Consumes.trans_count ?_ (ih_s_expression_prime _ _ _ h)
        | with_reducible refine Consumes.trans_count ?_ (ih_term _ _ _ h)
        | with_reducible refine Consumes.trans_count ?_ (ih_term_r _ _ _ h)
        | with_reducible refine Consumes.trans_count ?_ (ih_term_prime _ _ _ h)
        | with_reducible refine Consumes.trans_count ?_ (ih_fact _ _ _ h)
        | with_reducible refine Consumes.trans_count ?_ (ih_fact_r _ _ _ h)
        | with_reducible refine Consumes.trans_count ?_ (ih_fact_prime _ _ _ h)
        | with_reducible refine Consumes.trans_count ?_ (ih_consume_params_func _ _ _ h)
        | with_reducible refine Consumes.trans_count ?_ (ih_consume_params_func_loop _ _ _ _ _ h)
      all_goals with_reducible repeat (first
        | exact Consumes.refl_count _
        | assumption
        | apply Consumes.push_count
        | apply Consumes.gpr_sub_count
        | apply Consumes.gpr_inc_count
        | apply Consumes.advance_count
        | apply Consumes.emit_or_label_count
        | apply Consumes.and_jump_count
        | apply Consumes.ite_advance_count
        | apply Consumes.emit_count
        | apply Consumes.emit_assembly
        | (refine Consumes.pop_count ?_ (by assumption))
        | (simp only [Consumes.mk_iff_count]; refine Consumes.on_count ?_)
        | (simp only [Consumes.mk_iff_count]; refine Consumes.on_ungroup ?_)
        | (refine Consumes.trans_count ?_ (s_expression_prime_compare_consumes (by assumption)))
        | (refine Consumes.trans_count ?_ (term_prime_arith_consumes (by assumption)))
        | (refine Consumes.trans_count ?_ (term_prime_or_jump_consumes (by assumption)))
        | (refine Consumes.trans_count ?_ (boolean_pair_check_consumes (by assumption)))
        | (refine Consumes.trans_count ?_ (fact_prime_arith_consumes (by assumption)))
        | (refine Consumes.trans_count ?_ (fact_r_integer_consumes (by assumption)))
        | (refine Consumes.trans_count ?_ (fact_r_real_consumes (by assumption)))
        | (refine Consumes.trans_count ?_ (fact_r_local_consumes (by assumption)))
        | (refine Consumes.trans_count ?_ (fact_r_outer_consumes (by assumption)))
        | (refine Consumes.trans_count ?_ (func_param_by_ref_consumes (by assumption)))
        | (refine Consumes.trans_count ?_ (func_param_check_consumes (by assumption)))
        | (refine Consumes.trans_count ?_ (consume_comma_consumes (by assumption)))
        | (refine Consumes.trans_count ?_ (fact_r_call_check_consumes (by assumption)))
        | (refine Consumes.trans_count ?_ (Parser.expect_special_consumes (by assumption)))
        | (refine Consumes.trans_count ?_ (Parser.emit_jump_consumes (by assumption)))
        | (refine Consumes.trans_count ?_ (ih_expression _ _ _ (by assumption)))
        | (refine Consumes.trans_count ?_ (ih_s_expression _ _ _ (by assumption)))
        | (refine Consumes.trans_count ?_ (ih_s_expression_r _ _ _ (by assumption)))
        | (refine Consumes.trans_count ?_ (ih_s_expression_prime _ _ _ (by assumption)))
        | (refine Consumes.trans_count ?_ (ih_term _ _ _ (by assumption)))
        | (refine Consumes.trans_count ?_ (ih_term_r _ _ _ (by assumption)))
        | (refine Consumes.trans_count ?_ (ih_term_prime _ _ _ (by assumption)))
        | (refine Consumes.trans_count ?_ (ih_fact _ _ _ (by assumption)))
        | (refine Consumes.trans_count ?_ (ih_fact_r _ _ _ (by assumption)))
        | (refine Consumes.trans_count ?_ (ih_fact_prime _ _ _ (by assumption)))
        | (refine Consumes.trans_count ?_ (ih_consume_params_func _ _ _ (by assumption)))
        | (refine Consumes.trans_count ?_ (ih_consume_params_func_loop _ _ _ _ _ (by assumption))))
    · intro stream p p' h
      simp only [fact, bind, Except.bind, pure, Except.pure] at h
      repeat' split at h
      all_goals first
        | (cases h; done)
        | skip
      all_goals first
        | cases h
        | with_reducible refine Consumes.trans_count ?_ (fact_r_local_consumes h)
        | with_reducible refine Consumes.trans_count ?_ (fact_r_outer_consumes h)
        | with_reducible refine Consumes.trans_count ?_ (fact_r_call_check_consumes h)
        | with_reducible refine Consumes.trans_count ?_ (ih_expression _ _ _ h)
        | with_reducible refine Consumes.trans_count ?_ (ih_s_expression _ _ _ h)
        | with_reducible refine Consumes.trans_count ?_ (ih_s_expression_r _ _ _ h)
        | with_reducible refine Consumes.trans_count ?_ (ih_s_expression_prime _ _ _ h)
        | with_reducible refine Consumes.trans_count ?_ (ih_term _ _ _ h)
        | with_reducible refine Consumes.trans_count ?_ (ih_term_r _ _ _ h)
        | with_reducible refine Consumes.trans_count ?_ (ih_term_prime _ _ _ h)
        | with_reducible refine Consumes.trans_count ?_ (ih_fact _ _ _ h)
        | with_reducible refine Consumes.trans_count ?_ (ih_fact_r _ _ _ h)
        | with_reducible refine Consumes.trans_count ?_ (ih_fact_prime _ _ _ h)
        | with_reducible refine Consumes.trans_count ?_ (ih_consume_params_func _ _ _ h)
        | with_reducible refine Consumes.trans_count ?_ (ih_consume_params_func_loop _ _ _ _ _ h)
      all_goals with_reducible repeat (first
        | exact Consumes.refl_count _
        | assumption
        | apply Consumes.push_count
        | apply Consumes.gpr_sub_count
        | apply Consumes.gpr_inc_count
        | apply Consumes.advance_count
        | apply Consumes.emit_or_label_count
        | apply Consumes.and_jump_count
        | apply Consumes.ite_advance_count
        | apply Consumes.emit_count
        | apply Consumes.emit_assembly
        | (refine Consumes.pop_count ?_ (by assumption))
        | (simp only [Consumes.mk_iff_count]; refine Consumes.on_count ?_)
        | (simp only [Consumes.mk_iff_count]; refine Consumes.on_ungroup ?_)
        | (refine Consumes.trans_count ?_ (s_expression_prime_compare_consumes (by assumption)))
        | (refine Consumes.trans_count ?_ (term_prime_arith_consumes (by assumption)))
        | (refine Consumes.trans_count ?_ (term_prime_or_jump_consumes (by assumption)))
        | (refine Consumes.trans_count ?_ (boolean_pair_check_consumes (by assumption)))
        | (refine Consumes.trans_count ?_ (fact_prime_arith_consumes (by assumption)))
        | (refine Consumes.trans_count ?_ (fact_r_integer_consumes (by assumption)))
        | (refine Consumes.trans_count ?_ (fact_r_real_consumes (by assumption)))
        | (refine Consumes.trans_count ?_ (fact_r_local_consumes (by assumption)))
        | (refine Consumes.trans_count ?_ (fact_r_outer_consumes (by assumption)))
        | (refine Consumes.trans_count ?_ (func_param_by_ref_consumes (by assumption)))
        | (refine Consumes.trans_count ?_ (func_param_check_consumes (by assumption)))
        | (refine Consumes.trans_count ?_ (consume_comma_consumes (by assumption)))
        | (refine Consumes.trans_count ?_ (fact_r_call_check_consumes (by assumption)))
        | (refine Consumes.trans_count ?_ (Parser.expect_special_consumes (by assumption)))
        | (refine Consumes.trans_count ?_ (Parser.emit_jump_consumes (by assumption)))
        | (refine Consumes.trans_count ?_ (ih_expression _ _ _ (by assumption)))
        | (refine Consumes.trans_count ?_ (ih_s_expression _ _ _ (by assumption)))
        | (refine Consumes.trans_count ?_ (ih_s_expression_r _ _ _ (by assumption)))
        | (refine Consumes.trans_count ?_ (ih_s_expression_prime _ _ _ (by assumption)))
        | (refine Consumes.trans_count ?_ (ih_term _ _ _ (by assumption)))
        | (refine Consumes.trans_count ?_ (ih_term_r _ _ _ (by assumption)))
        | (refine Consumes.trans_count ?_ (ih_term_prime _ _ _ (by assumption)))
        | (refine Consumes.trans_count ?_ (ih_fact _ _ _ (by assumption)))
        | (refine Consumes.trans_count ?_ (ih_fact_r _ _ _ (by assumption)))
        | (refine Consumes.trans_count ?_ (ih_fact_prime _ _ _ (by assumption)))
        | (refine Consumes.trans_count ?_ (ih_consume_params_func _ _ _ (by assumption)))
        | (refine Consumes.trans_count ?_ (ih_consume_params_func_loop _ _ _ _ _ (by assumption))))
    · intro stream p p' h
      simp only [fact_r, bind, Except.bind, pure, Except.pure] at h
      repeat' split at h
      all_goals first
        | (cases h; done)
        | skip
      all_goals first
        | cases h
        | with_reducible refine Consumes.trans_count ?_ (fact_r_local_consumes h)
        | with_reducible refine Consumes.trans_count ?_ (fact_r_outer_consumes h)
        | with_reducible refine Consumes.trans_count ?_ (fact_r_call_check_consumes h)
        | with_reducible refine Consumes.trans_count ?_ (ih_expression _ _ _ h)
        | with_reducible refine Consumes.trans_count ?_ (ih_s_expression _ _ _ h)
        | with_reducible refine Consumes.trans_count ?_ (ih_s_expression_r _ _ _ h)
        | with_reducible refine Consumes.trans_count ?_ (ih_s_expression_prime _ _ _ h)
        | with_reducible refine Consumes.trans_count ?_ (ih_term _ _ _ h)
        | with_reducible refine Consumes.trans_count ?_ (ih_term_r _ _ _ h)
        | with_reducible refine Consumes.trans_count ?_ (ih_term_prime _ _ _ h)
        | with_reducible refine Consumes.trans_count ?_ (ih_fact _ _ _ h)
        | with_reducible refine Consumes.trans_count ?_ (ih_fact_r _ _ _ h)
        | with_reducible refine Consumes.trans_count ?_ (ih_fact_prime _ _ _ h)
        | with_reducible refine Consumes.trans_count ?_ (ih_consume_params_func _ _ _ h)
        | with_reducible refine Consumes.trans_count ?_ (ih_consume_params_func_loop _ _ _ _ _ h)
      all_goals with_reducible repeat (first
        | exact Consumes.refl_count _
        | assumption
        | apply Consumes.push_count
        | apply Consumes.gpr_sub_count
        | apply Consumes.gpr_inc_count
        | apply Consumes.advance_count
        | apply Consumes.emit_or_label_count
        | apply Consumes.and_jump_count
        | apply Consumes.ite_advance_count
        | apply Consumes.emit_count
        | apply Consumes.emit_assembly
        | (refine Consumes.pop_count ?_ (by assumption))
        | (simp only [Consumes.mk_iff_count]; refine Consumes.on_count ?_)
        | (simp only [Consumes.mk_iff_count]; refine Consumes.on_ungroup ?_)
        | (refine Consumes.trans_count ?_ (s_expression_prime_compare_consumes (by assumption)))
        | (refine Consumes.trans_count ?_ (term_prime_arith_consumes (by assumption)))
        | (refine Consumes.trans_count ?_ (term_prime_or_jump_consumes (by assumption)))
        | (refine Consumes.trans_count ?_ (boolean_pair_check_consumes (by assumption)))
        | (refine Consumes.trans_count ?_ (fact_prime_arith_consumes (by assumption)))
        | (refine Consumes.trans_count ?_ (fact_r_integer_consumes (by assumption)))
        | (refine Consumes.trans_count ?_ (fact_r_real_consumes (by assumption)))
        | (refine Consumes.trans_count ?_ (fact_r_local_consumes (by assumption)))
        | (refine Consumes.trans_count ?_ (fact_r_outer_consumes (by assumption)))
        | (refine Consumes.trans_count ?_ (func_param_by_ref_consumes (by assumption)))
        | (refine Consumes.trans_count ?_ (func_param_check_consumes (by assumption)))
        | (refine Consumes.trans_count ?_ (consume_comma_consumes (by assumption)))
        | (refine Consumes.trans_count ?_ (fact_r_call_check_consumes (by assumption)))
        | (refine Consumes.trans_count ?_ (Parser.expect_special_consumes (by assumption)))
        | (refine Consumes.trans_count ?_ (Parser.emit_jump_consumes (by assumption)))
        | (refine Consumes.trans_count ?_ (ih_expression _ _ _ (by assumption)))
        | (refine Consumes.trans_count ?_ (ih_s_expression _ _ _ (by assumption)))
        | (refine Consumes.trans_count ?_ (ih_s_expression_r _ _ _ (by assumption)))
        | (refine Consumes.trans_count ?_ (ih_s_expression_prime _ _ _ (by assumption)))
        | (refine Consumes.trans_count ?_ (ih_term _ _ _ (by assumption)))
        | (refine Consumes.trans_count ?_ (ih_term_r _ _ _ (by assumption)))
        | (refine Consumes.trans_count ?_ (ih_term_prime _ _ _ (by assumption)))
        | (refine Consumes.trans_count ?_ (ih_fact _ _ _ (by assumption)))
        | (refine Consumes.trans_count ?_ (ih_fact_r _ _ _ (by assumption)))
        | (refine Consumes.trans_count ?_ (ih_fact_prime _ _ _ (by assumption)))
        | (refine Consumes.trans_count ?_ (ih_consume_params_func _ _ _ (by assumption)))
        | (refine Consumes.trans_count ?_ (ih_consume_params_func_loop _ _ _ _ _ (by assumption))))
    · intro stream p p' h
      simp only [fact_prime, bind, Except.bind, pure, Except.pure] at h
      repeat' split at h
      all_goals first
        | (cases h; done)
        | skip
      all_goals first
        | cases h
        | with_reducible refine Consumes.trans_count ?_ (fact_r_local_consumes h)
        | with_reducible refine Consumes.trans_count ?_ (fact_r_outer_consumes h)
        | with_reducible refine Consumes.trans_count ?_ (fact_r_call_check_consumes h)
        | with_reducible refine Consumes.trans_count ?_ (ih_expression _ _ _ h)
        | with_reducible refine Consumes.trans_count ?_ (ih_s_expression _ _ _ h)
        | with_reducible refine Consumes.trans_count ?_ (ih_s_expression_r _ _ _ h)
        | with_reducible refine Consumes.trans_count ?_ (ih_s_expression_prime _ _ _ h)
        | with_reducible refine Consumes.trans_count ?_ (ih_term _ _ _ h)
        | with_reducible refine Consumes.trans_count ?_ (ih_term_r _ _ _ h)
        | with_reducible refine Consumes.trans_count ?_ (ih_term_prime _ _ _ h)
        | with_reducible refine Consumes.trans_count ?_ (ih_fact _ _ _ h)
        | with_reducible refine Consumes.trans_count ?_ (ih_fact_r _ _ _ h)
        | with_reducible refine Consumes.trans_count ?_ (ih_fact_prime _ _ _ h)
        | with_reducible refine Consumes.trans_count ?_ (ih_consume_params_func _ _ _ h)
        | with_reducible refine Consumes.trans_count ?_ (ih_consume_params_func_loop _ _ _ _ _ h)
      all_goals with_reducible repeat (first
        | exact Consumes.refl_count _
        | assumption
        | apply Consumes.push_count
        | apply Consumes.gpr_sub_count
        | apply Consumes.gpr_inc_count
        | apply Consumes.advance_count
        | apply Consumes.emit_or_label_count
        | apply Consumes.and_jump_count
        | apply Consumes.ite_advance_count
        | apply Consumes.emit_count
        | apply Consumes.emit_assembly
        | (refine Consumes.pop_count ?_ (by assumption))
        | (simp only [Consumes.mk_iff_count]; refine Consumes.on_count ?_)
        | (simp only [Consumes.mk_iff_count]; refine Consumes.on_ungroup ?_)
        | (refine Consumes.trans_count ?_ (s_expression_prime_compare_consumes (by assumption)))
        | (refine Consumes.trans_count ?_ (term_prime_arith_consumes (by assumption)))
        | (refine Consumes.trans_count ?_ (term_prime_or_jump_consumes (by assumption)))
        | (refine Consumes.trans_count ?_ (boolean_pair_check_consumes (by assumption)))
        | (refine Consumes.trans_count ?_ (fact_prime_arith_consumes (by assumption)))
        | (refine Consumes.trans_count ?_ (fact_r_integer_consumes (by assumption)))
        | (refine Consumes.trans_count ?_ (fact_r_real_consumes (by assumption)))
        | (refine Consumes.trans_count ?_ (fact_r_local_consumes (by assumption)))
        | (refine Consumes.trans_count ?_ (fact_r_outer_consumes (by assumption)))
        | (refine Consumes.trans_count ?_ (func_param_by_ref_consumes (by assumption)))
        | (refine Consumes.trans_count ?_ (func_param_check_consumes (by assumption)))
        | (refine Consumes.trans_count ?_ (consume_comma_consumes (by assumption)))
        | (refine Consumes.trans_count ?_ (fact_r_call_check_consumes (by assumption)))
        | (refine Consumes.trans_count ?_ (Parser.expect_special_consumes (by assumption)))
        | (refine Consumes.trans_count ?_ (Parser.emit_jump_consumes (by assumption)))
        | (refine Consumes.trans_count ?_ (ih_expression _ _ _ (by assumption)))
        | (refine Consumes.trans_count ?_ (ih_s_expression _ _ _ (by assumption)))
        | (refine Consumes.trans_count ?_ (ih_s_expression_r _ _ _ (by assumption)))
        | (refine Consumes.trans_count ?_ (ih_s_expression_prime _ _ _ (by assumption)))
        | (refine Consumes.trans_count ?_ (ih_term _ _ _ (by assumption)))
        | (refine Consumes.trans_count ?_ (ih_term_r _ _ _ (by assumption)))
        | (refine Consumes.trans_count ?_ (ih_term_prime _ _ _ (by assumption)))
        | (refine Consumes.trans_count ?_ (ih_fact _ _ _ (by assumption)))
        | (refine Consumes.trans_count ?_ (ih_fact_r _ _ _ (by assumption)))
        | (refine Consumes.trans_count ?_ (ih_fact_prime _ _ _ (by assumption)))
        | (refine Consumes.trans_count ?_ (ih_consume_params_func _ _ _ (by assumption)))
        | (refine Consumes.trans_count ?_ (ih_consume_params_func_loop _ _ _ _ _ (by assumption))))
    · intro func p p' h
      simp only [consume_params_func, bind, Except.bind, pure, Except.pure] at h
      repeat' split at h
      all_goals first
        | (cases h; done)
        | skip
      all_goals first
        | cases h
        | with_reducible refine Consumes.trans_count ?_ (fact_r_local_consumes h)
        | with_reducible refine Consumes.trans_count ?_ (fact_r_outer_consumes h)
        | with_reducible refine Consumes.trans_count ?_ (fact_r_call_check_consumes h)
        | with_reducible refine Consumes.trans_count ?_ (ih_expression _ _ _ h)
        | with_reducible refine Consumes.trans_count ?_ (ih_s_expression _ _ _ h)
        | with_reducible refine Consumes.trans_count ?_ (ih_s_expression_r _ _ _ h)
        | with_reducible refine Consumes.trans_count ?_ (ih_s_expression_prime _ _ _ h)
        | with_reducible refine Consumes.trans_count ?_ (ih_term _ _ _ h)
        | with_reducible refine Consumes.trans_count ?_ (ih_term_r _ _ _ h)
        | with_reducible refine Consumes.trans_count ?_ (ih_term_prime _ _ _ h)
        | with_reducible refine Consumes.trans_count ?_ (ih_fact _ _ _ h)
        | with_reducible refine Consumes.trans_count ?_ (ih_fact_r _ _ _ h)
        | with_reducible refine Consumes.trans_count ?_ (ih_fact_prime _ _ _ h)
        | with_reducible refine Consumes.trans_count ?_ (ih_consume_params_func _ _ _ h)
        | with_reducible refine Consumes.trans_count ?_ (ih_consume_params_func_loop _ _ _ _ _ h)
      all_goals with_reducible repeat (first
        | exact Consumes.refl_count _
        | assumption
        | apply Consumes.push_count
        | apply Consumes.gpr_sub_count
        | apply Consumes.gpr_inc_count
        | apply Consumes.advance_count
        | apply Consumes.emit_or_label_count
        | apply Consumes.and_jump_count
        | apply Consumes.ite_advance_count
        | apply Consumes.emit_count
        | apply Consumes.emit_assembly
        | (refine Consumes.pop_count ?_ (by assumption))
        | (simp only [Consumes.mk_iff_count]; refine Consumes.on_count ?_)
        | (simp only [Consumes.mk_iff_count]; refine Consumes.on_ungroup ?_)
        | (refine Consumes.trans_count ?_ (s_expression_prime_compare_consumes (by assumption)))
        | (refine Consumes.trans_count ?_ (term_prime_arith_consumes (by assumption)))
        | (refine Consumes.trans_count ?_ (term_prime_or_jump_consumes (by assumption)))
        | (refine Consumes.trans_count ?_ (boolean_pair_check_consumes (by assumption)))
        | (refine Consumes.trans_count ?_ (fact_prime_arith_consumes (by assumption)))
        | (refine Consumes.trans_count ?_ (fact_r_integer_consumes (by assumption)))
        | (refine Consumes.trans_count ?_ (fact_r_real_consumes (by assumption)))
        | (refine Consumes.trans_count ?_ (fact_r_local_consumes (by assumption)))
        | (refine Consumes.trans_count ?_ (fact_r_outer_consumes (by assumption)))
        | (refine Consumes.trans_count ?_ (func_param_by_ref_consumes (by assumption)))
        | (refine Consumes.trans_count ?_ (func_param_check_consumes (by assumption)))
        | (refine Consumes.trans_count ?_ (consume_comma_consumes (by assumption)))
        | (refine Consumes.trans_count ?_ (fact_r_call_check_consumes (by assumption)))
        | (refine Consumes.trans_count ?_ (Parser.expect_special_consumes (by assumption)))
        | (refine Consumes.trans_count ?_ (Parser.emit_jump_consumes (by assumption)))
        | (refine Consumes.trans_count ?_ (ih_expression _ _ _ (by assumption)))
        | (refine Consumes.trans_count ?_ (ih_s_expression _ _ _ (by assumption)))
        | (refine Consumes.trans_count ?_ (ih_s_expression_r _ _ _ (by assumption)))
        | (refine Consumes.trans_count ?_ (ih_s_expression_prime _ _ _ (by assumption)))
        | (refine Consumes.trans_count ?_ (ih_term _ _ _ (by assumption)))
        | (refine Consumes.trans_count ?_ (ih_term_r _ _ _ (by assumption)))
        | (refine Consumes.trans_count ?_ (ih_term_prime _ _ _ (by assumption)))
        | (refine Consumes.trans_count ?_ (ih_fact _ _ _ (by assumption)))
        | (refine Consumes.trans_count ?_ (ih_fact_r _ _ _ (by assumption)))
        | (refine Consumes.trans_count ?_ (ih_fact_prime _ _ _ (by assumption)))
        | (refine Consumes.trans_count ?_ (ih_consume_params_func _ _ _ (by assumption)))
        | (refine Consumes.trans_count ?_ (ih_consume_params_func_loop _ _ _ _ _ (by assumption))))
    · intro func parameters current_param p p' h
      simp only [consume_params_func_loop, bind, Except.bind, pure, Except.pure] at h
      repeat' split at h
      all_goals first
        | (cases h; done)
        | skip
      all_goals first
        | cases h
        | with_reducible refine Consumes.trans_count ?_ (fact_r_local_consumes h)
        | with_reducible refine Consumes.trans_count ?_ (fact_r_outer_consumes h)
        | with_reducible refine Consumes.trans_count ?_ (fact_r_call_check_consumes h)
        | with_reducible refine Consumes.trans_count ?_ (ih_expression _ _ _ h)
        | with_reducible refine Consumes.trans_count ?_ (ih_s_expression _ _ _ h)
        | with_reducible refine Consumes.trans_count ?_ (ih_s_expression_r _ _ _ h)
        | with_reducible refine Consumes.trans_count ?_ (ih_s_expression_prime _ _ _ h)
        | with_reducible refine Consumes.trans_count ?_ (ih_term _ _ _ h)
        | with_reducible refine Consumes.trans_count ?_ (ih_term_r _ _ _ h)
        | with_reducible refine Consumes.trans_count ?_ (ih_term_prime _ _ _ h)
        | with_reducible refine Consumes.trans_count ?_ (ih_fact _ _ _ h)
        | with_reducible refine Consumes.trans_count ?_ (ih_fact_r _ _ _ h)
        | with_reducible refine Consumes.trans_count ?_ (ih_fact_prime _ _ _ h)
        | with_reducible refine Consumes.trans_count ?_ (ih_consume_params_func _ _ _ h)
        | with_reducible refine Consumes.trans_count ?_ (ih_consume_params_func_loop _ _ _ _ _ h)
      all_goals with_reducible repeat (first
        | exact Consumes.refl_count _
        | assumption
        | apply Consumes.push_count
        | apply Consumes.gpr_sub_count
        | apply Consumes.gpr_inc_count
        | apply Consumes.advance_count
        | apply Consumes.emit_or_label_count
        | apply Consumes.and_jump_count
        | apply Consumes.ite_advance_count
        | apply Consumes.emit_count
        | apply Consumes.emit_assembly
        | (refine Consumes.pop_count ?_ (by assumption))
        | (simp only [Consumes.mk_iff_count]; refine Consumes.on_count ?_)
        | (simp only [Consumes.mk_iff_count]; refine Consumes.on_ungroup ?_)
        | (refine Consumes.trans_count ?_ (s_expression_prime_compare_consumes (by assumption)))
        | (refine Consumes.trans_count ?_ (term_prime_arith_consumes (by assumption)))
        | (refine Consumes.trans_count ?_ (term_prime_or_jump_consumes (by assumption)))
        | (refine Consumes.trans_count ?_ (boolean_pair_check_consumes (by assumption)))
        | (refine Consumes.trans_count ?_ (fact_prime_arith_consumes (by assumption)))
        | (refine Consumes.trans_count ?_ (fact_r_integer_consumes (by assumption)))
        | (refine Consumes.trans_count ?_ (fact_r_real_consumes (by assumption)))
        | (refine Consumes.trans_count ?_ (fact_r_local_consumes (by assumption)))
        | (refine Consumes.trans_count ?_ (fact_r_outer_consumes (by assumption)))
        | (refine Consumes.trans_count ?_ (func_param_by_ref_consumes (by assumption)))
        | (refine Consumes.trans_count ?_ (func_param_check_consumes (by assumption)))
        | (refine Consumes.trans_count ?_ (consume_comma_consumes (by assumption)))
        | (refine Consumes.trans_count ?_ (fact_r_call_check_consumes (by assumption)))
        | (refine Consumes.trans_count ?_ (Parser.expect_special_consumes (by assumption)))
        | (refine Consumes.trans_count ?_ (Parser.emit_jump_consumes (by assumption)))
        | (refine Consumes.trans_count ?_ (ih_expression _ _ _ (by assumption)))
        | (refine Consumes.trans_count ?_ (ih_s_expression _ _ _ (by assumption)))
        | (refine Consumes.trans_count ?_ (ih_s_expression_r _ _ _ (by assumption)))
        | (refine Consumes.trans_count ?_ (ih_s_expression_prime _ _ _ (by assumption)))
        | (refine Consumes.trans_count ?_ (ih_term _ _ _ (by assumption)))
        | (refine Consumes.trans_count ?_ (ih_term_r _ _ _ (by assumption)))
        | (refine Consumes.trans_count ?_ (ih_term_prime _ _ _ (by assumption)))
        | (refine Consumes.trans_count ?_ (ih_fact _ _ _ (by assumption)))
        | (refine Consumes.trans_count ?_ (ih_fact_r _ _ _ (by assumption)))
        | (refine Consumes.trans_count ?_ (ih_fact_prime _ _ _ (by assumption)))
        | (refine Consumes.trans_count ?_ (ih_consume_params_func _ _ _ (by assumption)))
        | (refine Consumes.trans_count ?_ (ih_consume_params_func_loop _ _ _ _ _ (by assumption))))

theorem expression_consumes {fuel : Nat} {stream : Bool} {p p' : Parser}
    (h : expression fuel stream p = .ok p') : Consumes p p' :=
  (expression_consumes_all fuel).1 _ _ _ h

theorem consume_params_func_consumes {fuel : Nat} {func : FuncData} {p p' : Parser}
    (h : consume_params_func fuel func p = .ok p') : Consumes p p' :=
  (expression_consumes_all fuel).2.2.2.2.2.2.2.2.2.2.1 _ _ _ h

/-! ## The statement functions count their tokens -/

theorem statement_call_begin_consumes {p p' : Parser}
    (h : statement_call_begin p = .ok p') : Consumes p p' := by
  simp only [statement_call_begin, bind, Except.bind, pure, Except.pure] at h
  repeat' split at h
  all_goals first
    | (cases h; done)
    | skip
  all_goals first
    | cases h
  all_goals with_reducible repeat (first
    | exact Consumes.refl_count _
    | assumption
    | apply Consumes.push_count
    | apply Consumes.gpr_sub_count
    | apply Consumes.gpr_inc_count
    | apply Consumes.advance_count
    | apply Consumes.emit_or_label_count
    | apply Consumes.and_jump_count
    | apply Consumes.ite_advance_count
    | apply Consumes.emit_count
    | apply Consumes.emit_assembly
    | (refine Consumes.pop_count ?_ (by assumption))
    | (simp only [Consumes.mk_iff_count]; refine Consumes.on_count ?_)
    | (refine Consumes.trans_count ?_ (Parser.expect_special_consumes (by assumption))))

theorem statement_call_end_consumes {proc_info : Option ProcData} {p p' : Parser}
    (h : statement_call_end proc_info p = .ok p') : Consumes p p' := by
  simp only [statement_call_end, bind, Except.bind, pure, Except.pure] at h
  repeat' split at h
  all_goals first
    | (cases h; done)
    | skip
  all_goals first
    | cases h
  all_goals with_reducible repeat (first
    | exact Consumes.refl_count _
    | assumption
    | apply Consumes.push_count
    | apply Consumes.gpr_sub_count
    | apply Consumes.gpr_inc_count
    | apply Consumes.advance_count
    | apply Consumes.emit_or_label_count
    | apply Consumes.and_jump_count
    | apply Consumes.ite_advance_count
    | apply Consumes.emit_count
    | apply Consumes.emit_assembly
    | (refine Consumes.pop_count ?_ (by assumption))
    | (simp only [Consumes.mk_iff_count]; refine Consumes.on_count ?_)
    | (refine Consumes.trans_count ?_ (Parser.expect_special_consumes (by assumption))))

theorem statement_assign_begin_consumes {type : VarType} {p p' : Parser}
    (h : statement_assign_begin type p = .ok p') : Consumes p p' := by
  simp only [statement_assign_begin, bind, Except.bind, pure, Except.pure] at h
  repeat' split at h
  all_goals first
    | (cases h; done)
    | skip
  all_goals first
    | cases h
  all_goals with_reducible repeat (first
    | exact Consumes.refl_count _
    | assumption
    | apply Consumes.push_count
    | apply Consumes.gpr_sub_count
    | apply Consumes.gpr_inc_count
    | apply Consumes.advance_count
    | apply Consumes.emit_or_label_count
    | apply Consumes.and_jump_count
    | apply Consumes.ite_advance_count
    | apply Consumes.emit_count
    | apply Consumes.emit_assembly
    | (refine Consumes.pop_count ?_ (by assumption))
    | (simp only [Consumes.mk_iff_count]; refine Consumes.on_count ?_)
    | (refine Consumes.trans_count ?_ (Parser.expect_special_consumes (by assumption))))

theorem statement_store_consumes {var_info : VarData} {p p' : Parser}
    (h : statement_store var_info p = .ok p') : Consumes p p' := by
  simp only [statement_store, bind, Except.bind, pure, Except.pure] at h
  repeat' split at h
  all_goals first
    | (cases h; done)
    | skip
  all_goals first
    | cases h
  all_goals with_reducible repeat (first
    | exact Consumes.refl_count _
    | assumption
    | apply Consumes.push_count
    | apply Consumes.gpr_sub_count
    | apply Consumes.gpr_inc_count
    | apply Consumes.advance_count
    | apply Consumes.emit_or_label_count
    | apply Consumes.and_jump_count
    | apply Consumes.ite_advance_count
    | apply Consumes.emit_count
    | apply Consumes.emit_assembly
    | (refine Consumes.pop_count ?_ (by assumption))
    | (simp only [Consumes.mk_iff_count]; refine Consumes.on_count ?_))

theorem statement_store_outer_consumes {info : VarData} {p p' : Parser}
    (h : statement_store_outer info p = .ok p') : Consumes p p' := by
  simp only [statement_store_outer, bind, Except.bind, pure, Except.pure] at h
  repeat' split at h
  all_goals first
    | (cases h; done)
    | skip
  all_goals first
    | cases h
  all_goals with_reducible repeat (first
    | exact Consumes.refl_count _
    | assumption
    | apply Consumes.push_count
    | apply Consumes.gpr_sub_count
    | apply Consumes.gpr_inc_count
    | apply Consumes.advance_count
    | apply Consumes.emit_or_label_count
    | apply Consumes.and_jump_count
    | apply Consumes.ite_advance_count
    | apply Consumes.emit_count
    | apply Consumes.emit_assembly
    | (refine Consumes.pop_count ?_ (by assumption))
    | (simp only [Consumes.mk_iff_count]; refine Consumes.on_count ?_))

theorem handle_if_then_consumes {p p' : Parser}
    (h : handle_if_then p = .ok p') : Consumes p p' := by
  simp only [handle_if_then, bind, Except.bind, pure, Except.pure] at h
  repeat' split at h
  all_goals first
    | (cases h; done)
    | skip
  all_goals first
    | cases h
  all_goals with_reducible repeat (first
    | exact Consumes.refl_count _
    | assumption
    | apply Consumes.push_count
    | apply Consumes.gpr_sub_count
    | apply Consumes.gpr_inc_count
    | apply Consumes.advance_count
    | apply Consumes.emit_or_label_count
    | apply Consumes.and_jump_count
    | apply Consumes.ite_advance_count
    | apply Consumes.emit_count
    | apply Consumes.emit_assembly
    | (refine Consumes.pop_count ?_ (by assumption))
    | (simp only [Consumes.mk_iff_count]; refine Consumes.on_count ?_)
    | (refine Consumes.trans_count ?_ (Parser.emit_jump_consumes (by assumption))))

theorem handle_while_do_consumes {p p' : Parser}
    (h : handle_while_do p = .ok p') : Consumes p p' := by
  simp only [handle_while_do, bind, Except.bind, pure, Except.pure] at h
  repeat' split at h
  all_goals first
    | (cases h; done)
    | skip
  all_goals first
    | cases h
  all_goals with_reducible repeat (first
    | exact Consumes.refl_count _
    | assumption
    | apply Consumes.push_count
    | apply Consumes.gpr_sub_count
    | apply Consumes.gpr_inc_count
    | apply Consumes.advance_count
    | apply Consumes.emit_or_label_count
    | apply Consumes.and_jump_count
    | apply Consumes.ite_advance_count
    | apply Consumes.emit_count
    | apply Consumes.emit_assembly
    | (refine Consumes.pop_count ?_ (by assumption))
    | (simp only [Consumes.mk_iff_count]; refine Consumes.on_count ?_)
    | (refine Consumes.trans_count ?_ (Parser.emit_jump_consumes (by assumption))))

theorem proc_param_by_ref_consumes {parameter : VarData} {p : Parser} {x : List String × Parser}
    (h : proc_param_by_ref parameter p = .ok x) : Consumes p x.2 := by
  simp only [proc_param_by_ref, bind, Except.bind, pure, Except.pure] at h
  repeat' split at h
  all_goals first
    | (cases h; done)
    | skip
  all_goals first
    | cases h
  all_goals with_reducible repeat (first
    | exact Consumes.refl_count _
    | assumption
    | apply Consumes.push_count
    | apply Consumes.gpr_sub_count
    | apply Consumes.gpr_inc_count
    | apply Consumes.advance_count
    | apply Consumes.emit_or_label_count
    | apply Consumes.and_jump_count
    | apply Consumes.ite_advance_count
    | apply Consumes.emit_count
    | apply Consumes.emit_assembly
    | (refine Consumes.pop_count ?_ (by assumption))
    | (simp only [Consumes.mk_iff_count]; refine Consumes.on_count ?_))

theorem proc_param_push_consumes {parameter : VarData} {p : Parser} {x : List String × Parser}
    (h : proc_param_push parameter p = .ok x) : Consumes p x.2 := by
  simp only [proc_param_push, bind, Except.bind, pure, Except.pure] at h
  repeat' split at h
  all_goals first
    | (cases h; done)
    | skip
  all_goals first
    | cases h
  all_goals with_reducible repeat (first
    | exact Consumes.refl_count _
    | assumption
    | apply Consumes.push_count
    | apply Consumes.gpr_sub_count
    | apply Consumes.gpr_inc_count
    | apply Consumes.advance_count
    | apply Consumes.emit_or_label_count
    | apply Consumes.and_jump_count
    | apply Consumes.ite_advance_count
    | apply Consumes.emit_count
    | apply Consumes.emit_assembly
    | (refine Consumes.pop_count ?_ (by assumption))
    | (simp only [Consumes.mk_iff_count]; refine Consumes.on_count ?_))

theorem consume_params_proc_loop_consumes (fuel : Nat) :
    ∀ (parameters : List VarData) (current_param : Nat) (assembly : List (List String))
      (p : Parser) (x : List (List String) × Parser),
      consume_params_proc_loop fuel parameters current_param assembly p = .ok x →
      Consumes p x.2 := by
  induction fuel with
  | zero => intro _ _ _ _ _ h; simp [consume_params_proc_loop] at h
  | succ fuel ih =>
    intro parameters current_param assembly p x h
    simp only [consume_params_proc_loop, bind, Except.bind, pure, Except.pure] at h
    repeat' split at h
    all_goals first
      | (cases h; done)
      | skip
    all_goals first
      | cases h
      | with_reducible refine Consumes.trans_count ?_ (ih _ _ _ _ _ h)
    all_goals with_reducible repeat (first
      | exact Consumes.refl_count _
      | assumption
      | apply Consumes.push_count
      | apply Consumes.gpr_sub_count
      | apply Consumes.gpr_inc_count
      | apply Consumes.advance_count
      | apply Consumes.emit_or_label_count
      | apply Consumes.and_jump_count
      | apply Consumes.ite_advance_count
      | apply Consumes.emit_count
      | apply Consumes.emit_assembly
      | (refine Consumes.pop_count ?_ (by assumption))
      | (simp only [Consumes.mk_iff_count]; refine Consumes.on_count ?_)
      | (refine Consumes.trans_count ?_ (proc_param_by_ref_consumes (by assumption)))
      | (refine Consumes.trans_count ?_ (proc_param_push_consumes (by assumption)))
      | (refine Consumes.trans_count ?_ (consume_comma_consumes (by assumption)))
      | (refine Consumes.trans_count ?_ (expression_consumes (by assumption))))

theorem consume_params_proc_consumes {fuel : Nat} {proc : ProcData} {p p' : Parser}
    (h : consume_params_proc fuel proc p = .ok p') : Consumes p p' := by
  simp only [consume_params_proc, bind, Except.bind, pure, Except.pure] at h
  repeat' split at h
  all_goals first
    | (cases h; done)
    | skip
  all_goals first
    | cases h
  all_goals with_reducible repeat (first
    | exact Consumes.refl_count _
    | assumption
    | apply Consumes.push_count
    | apply Consumes.gpr_sub_count
    | apply Consumes.gpr_inc_count
    | apply Consumes.advance_count
    | apply Consumes.emit_or_label_count
    | apply Consumes.and_jump_count
    | apply Consumes.ite_advance_count
    | apply Consumes.emit_count
    | apply Consumes.emit_assembly
    | (refine Consumes.pop_count ?_ (by assumption))
    | (simp only [Consumes.mk_iff_count]; refine Consumes.on_count ?_)
    | (refine Consumes.trans_count ?_ (consume_params_proc_loop_consumes _ _ _ _ _ _ (by assumption))))

theorem statement_consumes_step (fuel : Nat)
    (ih_statement : ∀ p p', statement fuel p = .ok p' → Consumes p p')
    (ih_mstatement : ∀ p p', mstatement fuel p = .ok p' → Consumes p p')
    (ih_handle_if : ∀ p p', handle_if fuel p = .ok p' → Consumes p p')
    (ih_handle_while : ∀ p p', handle_while fuel p = .ok p' → Consumes p p')
    (p p' : Parser) (h : statement (fuel + 1) p = .ok p') : Consumes p p' := by
  simp only [statement, bind, Except.bind, pure, Except.pure] at h
  repeat' split at h
  all_goals first
    | (cases h; done)
    | skip
  all_goals first
    | cases h
    | with_reducible refine Consumes.trans_count ?_ (statement_store_consumes h)
    | with_reducible refine Consumes.trans_count ?_ (statement_store_outer_consumes h)
    | with_reducible refine Consumes.trans_count ?_ (statement_call_end_consumes h)
    | with_reducible refine Consumes.trans_count ?_ (ih_statement _ _ h)
    | with_reducible refine Consumes.trans_count ?_ (ih_mstatement _ _ h)
    | with_reducible refine Consumes.trans_count ?_ (ih_handle_if _ _ h)
    | with_reducible refine Consumes.trans_count ?_ (ih_handle_while _ _ h)
  all_goals with_reducible repeat (first
    | exact Consumes.refl_count _
    | assumption
    | apply Consumes.push_count
    | apply Consumes.gpr_sub_count
    | apply Consumes.gpr_inc_count
    | apply Consumes.advance_count
    | apply Consumes.emit_or_label_count
    | apply Consumes.and_jump_count
    | apply Consumes.ite_advance_count
    | apply Consumes.emit_count
    | apply Consumes.emit_assembly
    | (refine Consumes.pop_count ?_ (by assumption))
    | (simp only [Consumes.mk_iff_count]; refine Consumes.on_count ?_)
    | (simp only [Consumes.mk_iff_count]; apply Consumes.on_leave)
    | (refine Consumes.trans_count ?_ (statement_call_begin_consumes (by assumption)))
    | (refine Consumes.trans_count ?_ (statement_assign_begin_consumes (by assumption)))
    | (refine Consumes.trans_count ?_ (expression_consumes (by assumption)))
    | (refine Consumes.trans_count ?_ (consume_params_proc_consumes (by assumption)))
    | (refine Consumes.trans_count ?_ (consume_params_func_consumes (by assumption)))
    | (refine Consumes.trans_count ?_ (handle_if_then_consumes (by assumption)))
    | (refine Consumes.trans_count ?_ (handle_while_do_consumes (by assumption)))
    | (refine Consumes.trans_count ?_ (ih_statement _ _ (by assumption)))
    | (refine Consumes.trans_count ?_ (ih_mstatement _ _ (by assumption)))
    | (refine Consumes.trans_count ?_ (ih_handle_if _ _ (by assumption)))
    | (refine Consumes.trans_count ?_ (ih_handle_while _ _ (by assumption))))

theorem if_prime_consumes_step (fuel : Nat)
    (ih_statement : ∀ p p', statement fuel p = .ok p' → Consumes p p')
    (p p' : Parser) (h : if_prime (fuel + 1) p = .ok p') : Consumes p p' := by
  simp only [if_prime, bind, Except.bind, pure, Except.pure] at h
  repeat' split at h
  all_goals first
    | (cases h; done)
    | skip
  all_goals first
    | cases h
    | with_reducible refine Consumes.trans_count ?_ (statement_store_consumes h)
    | with_reducible refine Consumes.trans_count ?_ (statement_store_outer_consumes h)
    | with_reducible refine Consumes.trans_count ?_ (statement_call_end_consumes h)
    | with_reducible refine Consumes.trans_count ?_ (ih_statement _ _ h)
  all_goals with_reducible repeat (first
    | exact Consumes.refl_count _
    | assumption
    | apply Consumes.push_count
    | apply Consumes.gpr_sub_count
    | apply Consumes.gpr_inc_count
    | apply Consumes.advance_count
    | apply Consumes.emit_or_label_count
    | apply Consumes.and_jump_count
    | apply Consumes.ite_advance_count
    | apply Consumes.emit_count
    | apply Consumes.emit_assembly
    | (refine Consumes.pop_count ?_ (by assumption))
    | (simp only [Consumes.mk_iff_count]; refine Consumes.on_count ?_)
    | (simp only [Consumes.mk_iff_count]; apply Consumes.on_leave)
    | (refine Consumes.trans_count ?_ (statement_call_begin_consumes (by assumption)))
    | (refine Consumes.trans_count ?_ (statement_assign_begin_consumes (by assumption)))
    | (refine Consumes.trans_count ?_ (expression_consumes (by assumption)))
    | (refine Consumes.trans_count ?_ (consume_params_proc_consumes (by assumption)))
    | (refine Consumes.trans_count ?_ (consume_params_func_consumes (by assumption)))
    | (refine Consumes.trans_count ?_ (handle_if_then_consumes (by assumption)))
    | (refine Consumes.trans_count ?_ (handle_while_do_consumes (by assumption)))
    | (refine Consumes.trans_count ?_ (ih_statement _ _ (by assumption))))

theorem mstatement_consumes_step (fuel : Nat)
    (ih_statement : ∀ p p', statement fuel p = .ok p' → Consumes p p')
    (ih_mstatement : ∀ p p', mstatement fuel p = .ok p' → Consumes p p')
    (p p' : Parser) (h : mstatement (fuel + 1) p = .ok p') : Consumes p p' := by
  simp only [mstatement, bind, Except.bind, pure, Except.pure] at h
  repeat' split at h
  all_goals first
    | (cases h; done)
    | skip
  all_goals first
    | cases h
    | with_reducible refine Consumes.trans_count ?_ (statement_store_consumes h)
    | with_reducible refine Consumes.trans_count ?_ (statement_store_outer_consumes h)
    | with_reducible refine Consumes.trans_count ?_ (statement_call_end_consumes h)
    | with_reducible refine Consumes.trans_count ?_ (ih_statement _ _ h)
    | with_reducible refine Consumes.trans_count ?_ (ih_mstatement _ _ h)
  all_goals with_reducible repeat (first
    | exact Consumes.refl_count _
    | assumption
    | apply Consumes.push_count
    | apply Consumes.gpr_sub_count
    | apply Consumes.gpr_inc_count
    | apply Consumes.advance_count
    | apply Consumes.emit_or_label_count
    | apply Consumes.and_jump_count
    | apply Consumes.ite_advance_count
    | apply Consumes.emit_count
    | apply Consumes.emit_assembly
    | (refine Consumes.pop_count ?_ (by assumption))
    | (simp only [Consumes.mk_iff_count]; refine Consumes.on_count ?_)
    | (simp only [Consumes.mk_iff_count]; apply Consumes.on_leave)
    | (refine Consumes.trans_count ?_ (statement_call_begin_consumes (by assumption)))
    | (refine Consumes.trans_count ?_ (statement_assign_begin_consumes (by assumption)))
    | (refine Consumes.trans_count ?_ (expression_consumes (by assumption)))
    | (refine Consumes.trans_count ?_ (consume_params_proc_consumes (by assumption)))
    | (refine Consumes.trans_count ?_ (consume_params_func_consumes (by assumption)))
    | (refine Consumes.trans_count ?_ (handle_if_then_consumes (by assumption)))
    | (refine Consumes.trans_count ?_ (handle_while_do_consumes (by assumption)))
    | (refine Consumes.trans_count ?_ (ih_statement _ _ (by assumption)))
    | (refine Consumes.trans_count ?_ (ih_mstatement _ _ (by assumption))))

theorem handle_if_consumes_step (fuel : Nat)
    (ih_statement : ∀ p p', statement fuel p = .ok p' → Consumes p p')
    (ih_if_prime : ∀ p p', if_prime fuel p = .ok p' → Consumes p p')
    (p p' : Parser) (h : handle_if (fuel + 1) p = .ok p') : Consumes p p' := by
  simp only [handle_if, bind, Except.bind, pure, Except.pure] at h
  repeat' split at h
  all_goals first
    | (cases h; done)
    | skip
  all_goals first
    | cases h
    | with_reducible refine Consumes.trans_count ?_ (statement_store_consumes h)
    | with_reducible refine Consumes.trans_count ?_ (statement_store_outer_consumes h)
    | with_reducible refine Consumes.trans_count ?_ (statement_call_end_consumes h)
    | with_reducible refine Consumes.trans_count ?_ (ih_statement _ _ h)
    | with_reducible refine Consumes.trans_count ?_ (ih_if_prime _ _ h)
  all_goals with_reducible repeat (first
    | exact Consumes.refl_count _
    | assumption
    | apply Consumes.push_count
    | apply Consumes.gpr_sub_count
    | apply Consumes.gpr_inc_count
    | apply Consumes.advance_count
    | apply Consumes.emit_or_label_count
    | apply Consumes.and_jump_count
    | apply Consumes.ite_advance_count
    | apply Consumes.emit_count
    | apply Consumes.emit_assembly
    | (refine Consumes.pop_count ?_ (by assumption))
    | (simp only [Consumes.mk_iff_count]; refine Consumes.on_count ?_)
    | (simp only [Consumes.mk_iff_count]; apply Consumes.on_leave)
    | (refine Consumes.trans_count ?_ (statement_call_begin_consumes (by assumption)))
    | (refine Consumes.trans_count ?_ (statement_assign_begin_consumes (by assumption)))
    | (refine Consumes.trans_count ?_ (expression_consumes (by assumption)))
    | (refine Consumes.trans_count ?_ (consume_params_proc_consumes (by assumption)))
    | (refine Consumes.trans_count ?_ (consume_params_func_consumes (by assumption)))
    | (refine Consumes.trans_count ?_ (handle_if_then_consumes (by assumption)))
    | (refine Consumes.trans_count ?_ (handle_while_do_consumes (by assumption)))
    | (refine Consumes.trans_count ?_ (ih_statement _ _ (by assumption)))
    | (refine Consumes.trans_count ?_ (ih_if_prime _ _ (by assumption))))

theorem handle_while_consumes_step (fuel : Nat)
    (ih_statement : ∀ p p', statement fuel p = .ok p' → Consumes p p')
    (p p' : Parser) (h : handle_while (fuel + 1) p = .ok p') : Consumes p p' := by
  simp only [handle_while, bind, Except.bind, pure, Except.pure] at h
  repeat' split at h
  all_goals first
    | (cases h; done)
    | skip
  all_goals first
    | cases h
    | with_reducible refine Consumes.trans_count ?_ (statement_store_consumes h)
    | with_reducible refine Consumes.trans_count ?_ (statement_store_outer_consumes h)
    | with_reducible refine Consumes.trans_count ?_ (statement_call_end_consumes h)
    | with_reducible refine Consumes.trans_count ?_ (ih_statement _ _ h)
  all_goals with_reducible repeat (first
    | exact Consumes.refl_count _
    | assumption
    | apply Consumes.push_count
    | apply Consumes.gpr_sub_count
    | apply Consumes.gpr_inc_count
    | apply Consumes.advance_count
    | apply Consumes.emit_or_label_count
    | apply Consumes.and_jump_count
    | apply Consumes.ite_advance_count
    | apply Consumes.emit_count
    | apply Consumes.emit_assembly
    | (refine Consumes.pop_count ?_ (by assumption))
    | (simp only [Consumes.mk_iff_count]; refine Consumes.on_count ?_)
    | (simp only [Consumes.mk_iff_count]; apply Consumes.on_leave)
    | (refine Consumes.trans_count ?_ (statement_call_begin_consumes (by assumption)))
    | (refine Consumes.trans_count ?_ (statement_assign_begin_consumes (by assumption)))
    | (refine Consumes.trans_count ?_ (expression_consumes (by assumption)))
    | (refine Consumes.trans_count ?_ (consume_params_proc_consumes (by assumption)))
    | (refine Consumes.trans_count ?_ (consume_params_func_consumes (by assumption)))
    | (refine Consumes.trans_count ?_ (handle_if_then_consumes (by assumption)))
    | (refine Consumes.trans_count ?_ (handle_while_do_consumes (by assumption)))
    | (refine Consumes.trans_count ?_ (ih_statement _ _ (by assumption))))

/-- Every run of a statement function that returns has counted the tokens it took and has
closed the blocks and groups it opened. -/
theorem statement_consumes_all (fuel : Nat) :
    (∀ p p', statement fuel p = .ok p' → Consumes p p') ∧
    (∀ p p', if_prime fuel p = .ok p' → Consumes p p') ∧
    (∀ p p', mstatement fuel p = .ok p' → Consumes p p') ∧
    (∀ p p', handle_if fuel p = .ok p' → Consumes p p') ∧
    (∀ p p', handle_while fuel p = .ok p' → Consumes p p') := by
  induction fuel with
  | zero =>
    refine ⟨?_, ?_, ?_, ?_, ?_⟩
    · intro p p' h; simp [statement] at h
    · intro p p' h; simp [if_prime] at h
    · intro p p' h; simp [mstatement] at h
    · intro p p' h; simp [handle_if] at h
    · intro p p' h; simp [handle_while] at h
  | succ fuel ih =>
    obtain ⟨ih_statement, ih_if_prime, ih_mstatement, ih_handle_if, ih_handle_while⟩ := ih
    exact ⟨statement_consumes_step fuel ih_statement ih_mstatement ih_handle_if ih_handle_while,
      if_prime_consumes_step fuel ih_statement,
      mstatement_consumes_step fuel ih_statement ih_mstatement,
      handle_if_consumes_step fuel ih_statement ih_if_prime,
      handle_while_consumes_step fuel ih_statement⟩

theorem statement_consumes {fuel : Nat} {p p' : Parser} (h : statement fuel p = .ok p') :
    Consumes p p' :=
  (statement_consumes_all fuel).1 p p' h

theorem mstatement_consumes {fuel : Nat} {p p' : Parser} (h : mstatement fuel p = .ok p') :
    Consumes p p' :=
  (statement_consumes_all fuel).2.2.1 p p' h

/-! ## Declarations, blocks and the program count their tokens -/

theorem declare_temporaries_loop_consumes {size_of : VarType → Nat}
    {pass_by_ref is_param : Bool} (ts : List String) : ∀ {p p' : Parser},
    declare_temporaries_loop size_of pass_by_ref is_param ts p = .ok p' → Consumes p p' := by
  induction ts with
  | nil =>
    intro p p' h
    simp only [declare_temporaries_loop, pure, Except.pure] at h
    cases h
    exact Consumes.refl_count p
  | cons t rest ih =>
    intro p p' h
    simp only [declare_temporaries_loop, bind, Except.bind, pure, Except.pure] at h
    repeat' split at h
    all_goals first
      | (cases h; done)
      | skip
    all_goals first
      | cases h
      | with_reducible refine Consumes.trans_count ?_ (ih h)
    all_goals with_reducible repeat (first
      | exact Consumes.refl_count _
      | assumption
      | apply Consumes.push_count
      | apply Consumes.gpr_sub_count
      | apply Consumes.gpr_inc_count
      | apply Consumes.advance_count
      | apply Consumes.emit_or_label_count
      | apply Consumes.and_jump_count
      | apply Consumes.ite_advance_count
      | apply Consumes.emit_count
      | apply Consumes.emit_assembly
      | (refine Consumes.pop_count ?_ (by assumption))
      | (simp only [Consumes.mk_iff_count]; refine Consumes.on_count ?_))

theorem declare_temporaries_consumes {size_of : VarType → Nat} {pass_by_ref is_param : Bool} {p p' : Parser}
    (h : declare_temporaries size_of pass_by_ref is_param p = .ok p') : Consumes p p' := by
  simp only [declare_temporaries, bind, Except.bind, pure, Except.pure] at h
  repeat' split at h
  all_goals first
    | (cases h; done)
    | skip
  all_goals first
    | cases h
  all_goals with_reducible repeat (first
    | exact Consumes.refl_count _
    | assumption
    | apply Consumes.push_count
    | apply Consumes.gpr_sub_count
    | apply Consumes.gpr_inc_count
    | apply Consumes.advance_count
    | apply Consumes.emit_or_label_count
    | apply Consumes.and_jump_count
    | apply Consumes.ite_advance_count
    | apply Consumes.emit_count
    | apply Consumes.emit_assembly
    | (refine Consumes.pop_count ?_ (by assumption))
    | (simp only [Consumes.mk_iff_count]; refine Consumes.on_count ?_)
    | (refine Consumes.trans_count ?_ (declare_temporaries_loop_consumes _ (by assumption))))

theorem declare_return_slot_consumes {func_name : String} {p p' : Parser}
    (h : declare_return_slot func_name p = .ok p') : Consumes p p' := by
  simp only [declare_return_slot, bind, Except.bind, pure, Except.pure] at h
  repeat' split at h
  all_goals first
    | (cases h; done)
    | skip
  all_goals first
    | cases h
  all_goals with_reducible repeat (first
    | exact Consumes.refl_count _
    | assumption
    | apply Consumes.push_count
    | apply Consumes.gpr_sub_count
    | apply Consumes.gpr_inc_count
    | apply Consumes.advance_count
    | apply Consumes.emit_or_label_count
    | apply Consumes.and_jump_count
    | apply Consumes.ite_advance_count
    | apply Consumes.emit_count
    | apply Consumes.emit_assembly
    | (refine Consumes.pop_count ?_ (by assumption))
    | (simp only [Consumes.mk_iff_count]; refine Consumes.on_count ?_))

theorem varlist_consumes (fuel : Nat) :
    ∀ {p p' : Parser}, varlist fuel p = .ok p' → Consumes p p' := by
  induction fuel with
  | zero => intro p p' h; simp [varlist] at h
  | succ fuel ih =>
    intro p p' h
    simp only [varlist, bind, Except.bind, pure, Except.pure] at h
    repeat' split at h
    all_goals first
      | (cases h; done)
      | skip
    all_goals first
      | cases h
      | with_reducible refine Consumes.trans_count ?_ (ih h)
    all_goals with_reducible repeat (first
      | exact Consumes.refl_count _
      | assumption
      | apply Consumes.push_count
      | apply Consumes.gpr_sub_count
      | apply Consumes.gpr_inc_count
      | apply Consumes.advance_count
      | apply Consumes.emit_or_label_count
      | apply Consumes.and_jump_count
      | apply Consumes.ite_advance_count
      | apply Consumes.emit_count
      | apply Consumes.emit_assembly
      | (refine Consumes.pop_count ?_ (by assumption))
      | (simp only [Consumes.mk_iff_count]; refine Consumes.on_count ?_))

theorem datatype_consumes_all (fuel : Nat) :
    (∀ p p', datatype fuel p = .ok p' → Consumes p p') ∧
    (∀ p p', dim fuel p = .ok p' → Consumes p p') ∧
    (∀ p p', mdim fuel p = .ok p' → Consumes p p') := by
  induction fuel with
  | zero =>
    refine ⟨?_, ?_, ?_⟩ <;> intro p p' h <;> simp [datatype, dim, mdim] at h
  | succ fuel ih =>
    obtain ⟨ih_datatype, ih_dim, ih_mdim⟩ := ih
    refine ⟨?_, ?_, ?_⟩
    · intro p p' h
      simp only [datatype, bind, Except.bind, pure, Except.pure] at h
      repeat' split at h
      all_goals first
        | (cases h; done)
        | skip
      all_goals first
        | cases h
        | with_reducible refine Consumes.trans_count ?_ (ih_datatype _ _ h)
        | with_reducible refine Consumes.trans_count ?_ (ih_dim _ _ h)
        | with_reducible refine Consumes.trans_count ?_ (ih_mdim _ _ h)
      all_goals with_reducible repeat (first
        | exact Consumes.refl_count _
        | assumption
        | apply Consumes.push_count
        | apply Consumes.gpr_sub_count
        | apply Consumes.gpr_inc_count
        | apply Consumes.advance_count
        | apply Consumes.emit_or_label_count
        | apply Consumes.and_jump_count
        | apply Consumes.ite_advance_count
        | apply Consumes.emit_count
        | apply Consumes.emit_assembly
        | (refine Consumes.pop_count ?_ (by assumption))
        | (simp only [Consumes.mk_iff_count]; refine Consumes.on_count ?_)
        | (refine Consumes.trans_count ?_ (Parser.expect_special_consumes (by assumption)))
        | (refine Consumes.trans_count ?_ (ih_datatype _ _ (by assumption)))
        | (refine Consumes.trans_count ?_ (ih_dim _ _ (by assumption)))
        | (refine Consumes.trans_count ?_ (ih_mdim _ _ (by assumption))))
    · intro p p' h
      simp only [dim, bind, Except.bind, pure, Except.pure] at h
      repeat' split at h
      all_goals first
        | (cases h; done)
        | skip
      all_goals first
        | cases h
        | with_reducible refine Consumes.trans_count ?_ (ih_datatype _ _ h)
        | with_reducible refine Consumes.trans_count ?_ (ih_dim _ _ h)
        | with_reducible refine Consumes.trans_count ?_ (ih_mdim _ _ h)
      all_goals with_reducible repeat (first
        | exact Consumes.refl_count _
        | assumption
        | apply Consumes.push_count
        | apply Consumes.gpr_sub_count
        | apply Consumes.gpr_inc_count
        | apply Consumes.advance_count
        | apply Consumes.emit_or_label_count
        | apply Consumes.and_jump_count
        | apply Consumes.ite_advance_count
        | apply Consumes.emit_count
        | apply Consumes.emit_assembly
        | (refine Consumes.pop_count ?_ (by assumption))
        | (simp only [Consumes.mk_iff_count]; refine Consumes.on_count ?_)
        | (refine Consumes.trans_count ?_ (Parser.expect_special_consumes (by assumption)))
        | (refine Consumes.trans_count ?_ (ih_datatype _ _ (by assumption)))
        | (refine Consumes.trans_count ?_ (ih_dim _ _ (by assumption)))
        | (refine Consumes.trans_count ?_ (ih_mdim _ _ (by assumption))))
    · intro p p' h
      simp only [mdim, bind, Except.bind, pure, Except.pure] at h
      repeat' split at h
      all_goals first
        | (cases h; done)
        | skip
      all_goals first
        | cases h
        | with_reducible refine Consumes.trans_count ?_ (ih_datatype _ _ h)
        | with_reducible refine Consumes.trans_count ?_ (ih_dim _ _ h)
        | with_reducible refine Consumes.trans_count ?_ (ih_mdim _ _ h)
      all_goals with_reducible repeat (first
        | exact Consumes.refl_count _
        | assumption
        | apply Consumes.push_count
        | apply Consumes.gpr_sub_count
        | apply Consumes.gpr_inc_count
        | apply Consumes.advance_count
        | apply Consumes.emit_or_label_count
        | apply Consumes.and_jump_count
        | apply Consumes.ite_advance_count
        | apply Consumes.emit_count
        | apply Consumes.emit_assembly
        | (refine Consumes.pop_count ?_ (by assumption))
        | (simp only [Consumes.mk_iff_count]; refine Consumes.on_count ?_)
        | (refine Consumes.trans_count ?_ (Parser.expect_special_consumes (by assumption)))
        | (refine Consumes.trans_count ?_ (ih_datatype _ _ (by assumption)))
        | (refine Consumes.trans_count ?_ (ih_dim _ _ (by assumption)))
        | (refine Consumes.trans_count ?_ (ih_mdim _ _ (by assumption))))

theorem datatype_consumes {fuel : Nat} {p p' : Parser} (h : datatype fuel p = .ok p') :
    Consumes p p' :=
  (datatype_consumes_all fuel).1 p p' h

theorem mvar_consumes (fuel : Nat) :
    ∀ {p p' : Parser}, mvar fuel p = .ok p' → Consumes p p' := by
  induction fuel with
  | zero => intro p p' h; simp [mvar] at h
  | succ fuel ih =>
    intro p p' h
    simp only [mvar, bind, Except.bind, pure, Except.pure] at h
    repeat' split at h
    all_goals first
      | (cases h; done)
      | skip
    all_goals first
      | cases h
      | with_reducible refine Consumes.trans_count ?_ (ih h)
    all_goals with_reducible repeat (first
      | exact Consumes.refl_count _
      | assumption
      | apply Consumes.push_count
      | apply Consumes.gpr_sub_count
      | apply Consumes.gpr_inc_count
      | apply Consumes.advance_count
      | apply Consumes.emit_or_label_count
      | apply Consumes.and_jump_count
      | apply Consumes.ite_advance_count
      | apply Consumes.emit_count
      | apply Consumes.emit_assembly
      | (refine Consumes.pop_count ?_ (by assumption))
      | (simp only [Consumes.mk_iff_count]; refine Consumes.on_count ?_)
      | (refine Consumes.trans_count ?_ (Parser.expect_special_consumes (by assumption)))
      | (refine Consumes.trans_count ?_ (datatype_consumes (by assumption)))
      | (refine Consumes.trans_count ?_ (declare_temporaries_consumes (by assumption)))
      | (refine Consumes.trans_count ?_ (varlist_consumes _ (by assumption))))

theorem mparam_consumes (fuel : Nat) :
    ∀ {p p' : Parser}, mparam fuel p = .ok p' → Consumes p p' := by
  induction fuel with
  | zero => intro p p' h; simp [mparam] at h
  | succ fuel ih =>
    intro p p' h
    simp only [mparam, bind, Except.bind, pure, Except.pure] at h
    repeat' split at h
    all_goals first
      | (cases h; done)
      | skip
    all_goals first
      | cases h
      | with_reducible refine Consumes.trans_count ?_ (ih h)
    all_goals with_reducible repeat (first
      | exact Consumes.refl_count _
      | assumption
      | apply Consumes.push_count
      | apply Consumes.gpr_sub_count
      | apply Consumes.gpr_inc_count
      | apply Consumes.advance_count
      | apply Consumes.emit_or_label_count
      | apply Consumes.and_jump_count
      | apply Consumes.ite_advance_count
      | apply Consumes.emit_count
      | apply Consumes.emit_assembly
      | (refine Consumes.pop_count ?_ (by assumption))
      | (simp only [Consumes.mk_iff_count]; refine Consumes.on_count ?_)
      | (refine Consumes.trans_count ?_ (Parser.expect_special_consumes (by assumption)))
      | (refine Consumes.trans_count ?_ (datatype_consumes (by assumption)))
      | (refine Consumes.trans_count ?_ (declare_temporaries_consumes (by assumption)))
      | (refine Consumes.trans_count ?_ (varlist_consumes _ (by assumption))))

theorem param_consumes {fuel : Nat} {p p' : Parser} (h : param fuel p = .ok p') :
    Consumes p p' := by
  simp only [param, bind, Except.bind, pure, Except.pure] at h
  repeat' split at h
  all_goals first
    | (cases h; done)
    | skip
  all_goals first
    | cases h
    | with_reducible refine Consumes.trans_count ?_ (mparam_consumes _ h)
  all_goals with_reducible repeat (first
    | exact Consumes.refl_count _
    | assumption
    | apply Consumes.push_count
    | apply Consumes.gpr_sub_count
    | apply Consumes.gpr_inc_count
    | apply Consumes.advance_count
    | apply Consumes.emit_or_label_count
    | apply Consumes.and_jump_count
    | apply Consumes.ite_advance_count
    | apply Consumes.emit_count
    | apply Consumes.emit_assembly
    | (refine Consumes.pop_count ?_ (by assumption))
    | (simp only [Consumes.mk_iff_count]; refine Consumes.on_count ?_)
    | (refine Consumes.trans_count ?_ (Parser.expect_special_consumes (by assumption)))
    | (refine Consumes.trans_count ?_ (datatype_consumes (by assumption)))
    | (refine Consumes.trans_count ?_ (declare_temporaries_consumes (by assumption)))
    | (refine Consumes.trans_count ?_ (varlist_consumes _ (by assumption))))

theorem Consumes.prologue_count {p q : Parser} (h : Consumes p q) :
    Consumes p (block_prologue q) := by
  unfold block_prologue
  simp only []
  repeat' split
  all_goals with_reducible repeat (first
    | assumption
    | apply Consumes.emit_count)

theorem Consumes.epilogue_count {p q : Parser} (h : Consumes p q) :
    Consumes p (procedure_epilogue q) := by
  unfold procedure_epilogue
  simp only []
  repeat' split
  all_goals with_reducible repeat (first
    | assumption
    | apply Consumes.advance_count
    | apply Consumes.emit_count
    | (simp only [Consumes.mk_iff_count]; refine Consumes.on_count ?_))

theorem block_consumes_step (fuel : Nat)
    (ih_pfv : ∀ p p', pfv fuel p = .ok p' → Consumes p p')
    (p p' : Parser) (h : block (fuel + 1) p = .ok p') : Consumes p p' := by
  simp only [block, bind, Except.bind, pure, Except.pure] at h
  repeat' split at h
  all_goals first
    | (cases h; done)
    | skip
  all_goals first
    | cases h
  all_goals with_reducible repeat (first
    | exact Consumes.refl_count _
    | assumption
    | apply Consumes.push_count
    | apply Consumes.gpr_sub_count
    | apply Consumes.gpr_inc_count
    | apply Consumes.advance_count
    | apply Consumes.emit_or_label_count
    | apply Consumes.and_jump_count
    | apply Consumes.ite_advance_count
    | apply Consumes.emit_count
    | apply Consumes.emit_assembly
    | (refine Consumes.pop_count ?_ (by assumption))
    | (simp only [Consumes.mk_iff_count]; refine Consumes.on_count ?_)
    | apply Consumes.prologue_count
    | apply Consumes.epilogue_count
    | (simp only [Consumes.mk_iff_count]; apply Consumes.on_leave)
    | (refine Consumes.trans_count ?_ (ih_pfv _ _ (by assumption)))
    | (refine Consumes.trans_count ?_ (statement_consumes (by assumption)))
    | (refine Consumes.trans_count ?_ (mstatement_consumes (by assumption))))

set_option maxHeartbeats 1000000 in
theorem pfv_consumes_step (fuel : Nat)
    (ih_block : ∀ p p', block fuel p = .ok p' → Consumes p p')
    (ih_pfv : ∀ p p', pfv fuel p = .ok p' → Consumes p p')
    (p p' : Parser) (h : pfv (fuel + 1) p = .ok p') : Consumes p p' := by
  simp only [pfv, bind, Except.bind, pure, Except.pure] at h
  repeat' split at h
  all_goals first
    | (cases h; done)
    | skip
  all_goals first
    | cases h
    | with_reducible refine Consumes.trans_count ?_ (ih_pfv _ _ h)
  all_goals with_reducible repeat (first
    | exact Consumes.refl_count _
    | assumption
    | apply Consumes.push_count
    | apply Consumes.gpr_sub_count
    | apply Consumes.gpr_inc_count
    | apply Consumes.advance_count
    | apply Consumes.emit_or_label_count
    | apply Consumes.and_jump_count
    | apply Consumes.ite_advance_count
    | apply Consumes.emit_count
    | apply Consumes.emit_assembly
    | (refine Consumes.pop_count ?_ (by assumption))
    | (simp only [Consumes.mk_iff_count]; refine Consumes.on_count ?_)
    | apply Consumes.prologue_count
    | apply Consumes.epilogue_count
    | (simp only [Consumes.mk_iff_count]; apply Consumes.on_leave)
    | (refine Consumes.trans_count ?_ (Parser.expect_special_consumes (by assumption)))
    | (refine Consumes.trans_count ?_ (datatype_consumes (by assumption)))
    | (refine Consumes.trans_count ?_ (declare_temporaries_consumes (by assumption)))
    | (refine Consumes.trans_count ?_ (declare_return_slot_consumes (by assumption)))
    | (refine Consumes.trans_count ?_ (param_consumes (by assumption)))
    | (refine Consumes.trans_count ?_ (varlist_consumes _ (by assumption)))
    | (refine Consumes.trans_count ?_ (mvar_consumes _ (by assumption)))
    | (refine Consumes.trans_count ?_ (ih_block _ _ (by assumption))))

/-- Every run of `block` and of `pfv` that returns has counted the tokens it took and has
closed the blocks and groups it opened. -/
theorem block_consumes_all (fuel : Nat) :
    (∀ p p', block fuel p = .ok p' → Consumes p p') ∧
    (∀ p p', pfv fuel p = .ok p' → Consumes p p') := by
  induction fuel with
  | zero =>
    refine ⟨?_, ?_⟩
    · intro p p' h; simp [block] at h
    · intro p p' h; simp [pfv] at h
  | succ fuel ih =>
    exact ⟨block_consumes_step fuel ih.2, pfv_consumes_step fuel ih.1 ih.2⟩

theorem block_consumes {fuel : Nat} {p p' : Parser} (h : block fuel p = .ok p') :
    Consumes p p' :=
  (block_consumes_all fuel).1 p p' h

/-! ## C25: the position of the parser at the end of an accepted program -/

theorem Lexer.of_tokens_eq (ts : List Token) :
    Lexer.of_tokens ts = { tokens := ts, token_count := ts.length } := by
  have key : ∀ (ts : List Token) (lx : Lexer), lx.token_count = lx.tokens.length →
      ts.foldl Lexer.push_token lx =
        { tokens := lx.tokens ++ ts, token_count := (lx.tokens ++ ts).length } := by
    intro ts
    induction ts with
    | nil => intro lx h; cases lx; simp_all
    | cons t rest ih =>
      intro lx h
      rw [List.foldl_cons, ih _ (by simp [Lexer.push_token])]
      simp [Lexer.push_token]
  simpa [Lexer.of_tokens] using key ts { tokens := [], token_count := 0 } rfl

theorem Lexer.get_token_eq (lx : Lexer) :
    lx.get_token = (lx.tokens[0]?, { lx with tokens := lx.tokens.drop 1 }) := by
  rcases lx with ⟨_ | ⟨t, ts⟩, c⟩ <;> simp [Lexer.get_token]

/-- The run of `end_program` that returns: the lookahead is the full stop, which is counted
and not replaced. -/
theorem end_program_position {p p' : Parser} (h : end_program p = .ok p') :
    p.token = some (.Special ".") ∧ p'.index = (p.index + 1) % U64 ∧ p'.token = p.token ∧
      p'.lexer = p.lexer ∧ p'.grouping_depth = p.grouping_depth ∧
      p'.block_depth = p.block_depth := by
  simp only [end_program, Parser.at_special, Parser.tok, bind, Except.bind, pure,
    Except.pure] at h
  cases ht : p.token with
  | none => simp [ht] at h
  | some t =>
    cases t with
    | Special s =>
      simp only [ht] at h
      by_cases hs : s = "."
      · subst hs
        simp only [beq_self_eq_true, if_true] at h
        cases h
        simp [Parser.emit, ht]
      · have : (s == ".") = false := by simpa using hs
        simp [this] at h
    | _ => simp [ht] at h

/-- The run of `program` that returns: three counted tokens, one uncounted token, a block and
`end_program`. -/
theorem program_parts {fuel : Nat} {p p' : Parser} (h : program fuel p = .ok p') :
    ∃ q, block fuel p.advance.advance.advance.get_token = .ok q ∧ end_program q = .ok p' := by
  simp only [program, bind, Except.bind, pure, Except.pure] at h
  repeat' split at h
  all_goals first
    | (cases h; done)
    | skip
  all_goals exact ⟨_, by assumption, h⟩

/-- The state in which an accepted program leaves the parser: with `k` the number of tokens
that the block counted, the index is `k + 4`, the token at position `k + 3` is the full stop
and is the lookahead, and the queue holds the tokens after it. -/
theorem parse_position {fuel : Nat} {tokens : List Token} {p' : Parser}
    (h : Parser.parse fuel tokens = .ok p') :
    ∃ k, p'.index = (k + 4) % U64 ∧ p'.lexer.tokens = tokens.drop (k + 4) ∧
      tokens[k + 3]? = some (.Special ".") ∧ p'.lexer.token_count = tokens.length ∧
      p'.grouping_depth = 0 ∧ p'.block_depth = 0 := by
  obtain ⟨q, hb, he⟩ := program_parts h
  obtain ⟨e1, e2, e3, e4, e5, e6⟩ := end_program_position he
  have hc := block_consumes hb
  obtain ⟨k, s1, s2, s3, s4⟩ := hc.steps
  have hg := hc.grouping (by simp [Parser.advance, Parser.get_token, Parser.init])
  have hd := hc.block (by simp [Parser.advance, Parser.get_token, Parser.init])
  simp only [Parser.advance, Parser.get_token, Parser.init, Lexer.of_tokens_eq,
    Lexer.get_token_eq, List.drop_drop, List.getElem?_drop] at s1 s2 s3 s4 hg hd
  refine ⟨k, ?_, ?_, ?_, ?_, ?_, ?_⟩
  · rw [e2, Nat.add_mod, s1]
    simp only [U64]
    omega
  · rw [e4, s2]
    simp [Nat.add_comm]
  · rw [← e1, s3]
    by_cases hk : k = 0
    · subst hk; simp
    · simp only [hk, if_false]
      congr 1
      omega
  · rw [e4, s4]
  · rw [e5, hg]
  · rw [e6, hd]

/-- C25. When the parser completes without error on a token sequence (of fewer than `2 ^ 64`
tokens, so that the 64-bit index does not wrap), `grouping_depth` and `block_depth` are 0, the
index equals the number of tokens taken from the queue (the total that the lexer reports minus
the remaining ones), the last token taken is the terminating full stop and the queue holds the
tokens after it; hence the index equals the total exactly when no token follows the full stop,
and that is when the test of `main` reports "Good code". -/
theorem accepted_program_position (fuel : Nat) (tokens : List Token) (p' : Parser)
    (hlen : tokens.length < U64) (h : Parser.parse fuel tokens = .ok p') :
    p'.grouping_depth = 0 ∧ p'.block_depth = 0 ∧
    p'.lexer.number_of_tokens = (tokens.length, tokens.length - p'.index) ∧
    p'.index = p'.taken ∧ 4 ≤ p'.index ∧
    tokens[p'.index - 1]? = some (.Special ".") ∧ p'.lexer.tokens = tokens.drop p'.index ∧
    (p'.index = p'.lexer.number_of_tokens.1 ↔ p'.lexer.tokens = []) ∧
    (main_good_code p' = true ↔ p'.lexer.tokens = []) := by
  obtain ⟨k, h1, h2, h3, h4, h5, h6⟩ := parse_position h
  have hk : k + 3 < tokens.length := by
    by_contra hn
    rw [List.getElem?_eq_none (by omega)] at h3
    cases h3
  have hi : p'.index = k + 4 := by
    rw [h1]
    exact Nat.mod_eq_of_lt (by omega)
  have hr : p'.lexer.tokens.length = tokens.length - (k + 4) := by
    rw [h2, List.length_drop]
  have hnil : p'.lexer.tokens = [] ↔ tokens.length = k + 4 := by
    rw [← List.length_eq_zero, hr]
    omega
  refine ⟨h5, h6, ?_, ?_, by omega, ?_, ?_, ?_, ?_⟩
  · simp only [Lexer.number_of_tokens, h4, hr, hi]
  · simp only [Parser.taken, Lexer.number_of_tokens, h4, hr, hi]
    omega
  · rw [hi]
    exact h3
  · rw [hi]
    exact h2
  · rw [hnil]
    simp only [Lexer.number_of_tokens, h4, hi]
    omega
  · rw [hnil]
    simp only [main_good_code, Lexer.number_of_tokens, h4, hi, h5, h6]
    simp
    omega

/-- The claim C25 at the program
`program P; var x: integer; begin while x > 0 do x := x - 1 end.`, on which the parser
completes. -/
theorem accepted_program_position_witness :
    (program_tokens "x" "integer" while_example).length < U64 ∧
    ∃ p', Parser.parse 100 (program_tokens "x" "integer" while_example) = .ok p' ∧
      p'.grouping_depth = 0 ∧ p'.block_depth = 0 ∧
      p'.lexer.number_of_tokens =
        ((program_tokens "x" "integer" while_example).length,
         (program_tokens "x" "integer" while_example).length - p'.index) ∧
      p'.index = p'.taken ∧ 4 ≤ p'.index ∧
      (program_tokens "x" "integer" while_example)[p'.index - 1]? = some (.Special ".") ∧
      p'.lexer.tokens = (program_tokens "x" "integer" while_example).drop p'.index ∧
      (p'.index = p'.lexer.number_of_tokens.1 ↔ p'.lexer.tokens = []) ∧
      (main_good_code p' = true ↔ p'.lexer.tokens = []) := by
  have hok : (Parser.parse 100 (program_tokens "x" "integer" while_example)).toBool = true := by
    decide!
  have hlen : (program_tokens "x" "integer" while_example).length < U64 := by decide
  cases hrun : Parser.parse 100 (program_tokens "x" "integer" while_example) with
  | error e => rw [hrun] at hok; cases hok
  | ok p' => exact ⟨hlen, p', rfl, accepted_program_position 100 _ p' hlen hrun⟩

/-! ## C26: the empty program -/

/-- C26, counterexample. The parser ends `program P; begin end.` with index 6, not 7: the
program has six tokens, and the lexer reports six produced and none remaining. -/
theorem empty_program_index :
    (Parser.parse 100 empty_program).map (fun p => p.index) ≠ .ok 7 ∧
    (Parser.parse 100 empty_program).map (fun p => p.lexer.number_of_tokens) ≠ .ok (7, 0) ∧
    empty_program.length = 6 := by
  refine ⟨?_, ?_, ?_⟩ <;> decide!

/-- C26. On the tokens of `program P; begin end.` the parser succeeds; the listing is the
prologue of the constructor, `kmain:` and the epilogue of `end_program`; the final index is 6,
the number of tokens that the lexer reports as produced, none remains, and the test of `main`
reports "Good code". -/
theorem empty_program_listing :
    listing_of (Parser.parse 100 empty_program) =
      .ok ["char data_segment[65536] = \x7b0\x7d;", "int main() \x7b", "_asm \x7b", "PUSHAD",
        "LEA EBP, data_segment", "JMP kmain", "kmain:", "POPAD", "\x7d", "return 0;",
        "\x7d"] ∧
    (Parser.parse 100 empty_program).map
        (fun p => (p.index, p.lexer.number_of_tokens, main_good_code p)) =
      .ok (6, (6, 0), true) := by
  constructor <;> decide!

/-! ## C27: array types -/

/-- C27. The claim that a declaration with an array type is accepted fails on the code.  With
`..` read as two `.` tokens (what `dim` tests for), `var a: array [1..5] of integer;` is
rejected at `of`: the test after `]` throws "expected 'of' keyword ..." exactly when the token
is `of` (`std::get<4>(*token) == "of"`).  With `..` read as one token the declaration is rejected
in `dim`.  Any other reserved word in the place of `of` is accepted, and the declaration then
consumes all of its tokens. -/
theorem array_declaration_rejected :
    Parser.parse 100 (program_with
        (array_declaration [.Special ".", .Special "."] (.ReservedWord "of")) []) =
      .error (.runtime_error
        "Bad code: expected 'of' keyword to separate array length specification from data type") ∧
    Parser.parse 100 (program_with
        (array_declaration [.Special ".."] (.ReservedWord "of")) []) =
      .error (.runtime_error "Bad code: expected '..' for array range specifier") ∧
    (Parser.parse 100 (program_with
        (array_declaration [.Special ".", .Special "."] (.ReservedWord "begin")) [])).map
        (fun p => (p.index, p.lexer.number_of_tokens)) = .ok (19, (19, 0)) := by
  refine ⟨?_, ?_, ?_⟩ <;> decide!

/-! ## C28: tokens that cannot begin a factor -/

/-- The run of `fact_r` on a lookahead that cannot begin a factor: a `Special` token other than
`(`, `+`, `-` and an identifier without a variable or function binding make it return at once,
with the state as it was; a reserved word makes it raise the diagnostic. -/
theorem fact_r_no_factor (fuel : Nat) (stream : Bool) (p : Parser) :
    (∀ s, p.token = some (.Special s) → s ≠ "(" → s ≠ "+" → s ≠ "-" →
      fact_r (fuel + 1) stream p = .ok p) ∧
    (∀ name, p.token = some (.Word name) → get_var_info p.symtab name = none →
      find p.symtab name .Variable = none → find p.symtab name .Function = none →
      fact_r (fuel + 1) stream p = .ok p) ∧
    (∀ s, p.token = some (.ReservedWord s) → fact_r (fuel + 1) stream p =
      .error (.runtime_error
        "Bad code: expected grouped expression, additive or subtractive operator, integer, real, or word")) := by
  refine ⟨?_, ?_, ?_⟩
  · intro s ht h1 h2 h3
    simp [fact_r, Parser.tok, ht, h1, h2, h3, Except.ok_bind, Except.pure_eq]
  · intro name ht hv hf hg
    simp [fact_r, Parser.tok, ht, hv, hf, hg, Except.ok_bind, Except.pure_eq]
  · intro s ht
    simp [fact_r, Parser.tok, ht, Except.ok_bind, Except.throw_eq]

/-- C28. The claim that `fact_r` raises a diagnostic on every lookahead that cannot begin a
factor fails on the code for `Special` tokens and for unbound identifiers: the chain of tests
has no final `else` there, so `fact_r` returns normally without consuming a token or pushing a
value (lookahead `;`, `)` and the undeclared `y`).  The programs
`program P; var x: integer; begin x := ; end.` and `... begin x := y end.` then read the top of
an empty value stack in the store of the assignment.  Only a reserved word raises the
diagnostic. -/
theorem factor_without_diagnostic :
    fact_r 5 false (body_state [.Special ";"]) = .ok (body_state [.Special ";"]) ∧
    fact_r 5 false (body_state [.Special ")"]) = .ok (body_state [.Special ")"]) ∧
    fact_r 5 false (body_state [.Word "y"]) = .ok (body_state [.Word "y"]) ∧
    Parser.parse 100 (program_tokens "x" "integer" [.Word "x", .Special ":=", .Special ";"]) =
      .error (.undefined "top of an empty value stack") ∧
    Parser.parse 100 (program_tokens "x" "integer" [.Word "x", .Special ":=", .Word "y"]) =
      .error (.undefined "top of an empty value stack") ∧
    Parser.parse 100
        (program_tokens "x" "integer" [.Word "x", .Special ":=", .ReservedWord "then"]) =
      .error (.runtime_error
        "Bad code: expected grouped expression, additive or subtractive operator, integer, real, or word") := by
  refine ⟨?_, ?_, ?_, ?_, ?_, ?_⟩ <;> decide!

/-! ## C29: entries stay where they are -/

theorem entry_at_add_variable (st : SymbolTable) (n : String) (type : VarType) (size : Nat)
    (pass_by_ref is_param : Bool) (i : Nat) (name : String) (e : Entry)
    (h : st.entry_at i name = some e) :
    (add_variable st n type size pass_by_ref is_param).2.entry_at i name = some e := by
  cases hc : st.cur.table.contains n
  · obtain ⟨sc, hsc, hl⟩ : ∃ sc, st.scopes[i]? = some sc ∧ sc.table.lookup name = some e := by
      simp only [SymbolTable.entry_at] at h
      cases hs : st.scopes[i]? with
      | none => simp [hs] at h
      | some sc => exact ⟨sc, rfl, by simpa [hs] using h⟩
    by_cases hi : i = st.cur_scope
    · subst hi
      have hcur : st.cur = sc := SymbolTable.cur_eq_of_getElem? st sc hsc
      have hlt : st.cur_scope < st.scopes.length := by
        by_contra hn
        rw [List.getElem?_eq_none (Nat.le_of_not_lt hn)] at hsc
        cases hsc
      have hne : name ≠ n := by
        intro hn
        subst hn
        rw [hcur] at hc
        simp [Table.contains, hl] at hc
      rw [hcur] at hc
      cases is_param <;>
        simp [add_variable, hc, SymbolTable.setCur, SymbolTable.entry_at, List.getElem?_set, hlt,
          Table.lookup_assign_ne _ _ _ _ hne, hcur, hl]
    · cases is_param <;>
        simp [add_variable, hc, SymbolTable.setCur, SymbolTable.entry_at, List.getElem?_set,
          Ne.symm hi, hsc, hl]
  · rw [add_variable_cur_of_contains _ _ _ _ _ _ hc]
    exact h

theorem entry_at_enter (st : SymbolTable) (n : String) (e0 : Entry) (child : Scope) (i : Nat)
    (name : String) (e : Entry) (h : st.entry_at i name = some e) :
    SymbolTable.entry_at
      { scopes := st.scopes.set st.cur_scope
          { st.cur with table := st.cur.table ++ [(n, e0)] } ++ [child],
        cur_scope := st.scopes.length } i name = some e := by
  obtain ⟨sc, hsc, hl⟩ : ∃ sc, st.scopes[i]? = some sc ∧ sc.table.lookup name = some e := by
    simp only [SymbolTable.entry_at] at h
    cases hs : st.scopes[i]? with
    | none => simp [hs] at h
    | some sc => exact ⟨sc, rfl, by simpa [hs] using h⟩
  have hlt : i < st.scopes.length := by
    by_contra hn
    rw [List.getElem?_eq_none (Nat.le_of_not_lt hn)] at hsc
    cases hsc
  have hget : st.scopes[i] = sc := by
    simpa [List.getElem?_eq_getElem hlt] using hsc
  by_cases hi : i = st.cur_scope
  · subst hi
    have hcur : st.cur = sc := SymbolTable.cur_eq_of_getElem? st sc hsc
    simp [SymbolTable.entry_at, List.getElem?_append_left, hlt, List.getElem?_set, hcur,
      List.lookup_append, hl]
  · simp [SymbolTable.entry_at, List.getElem?_append_left, hlt, List.getElem?_set, Ne.symm hi,
      hget, hl]

theorem entry_at_apply (st : SymbolTable) (op : SymOp) (i : Nat) (name : String) (e : Entry)
    (h : st.entry_at i name = some e) : (op.apply st).entry_at i name = some e := by
  cases op with
  | add_variable n type size pass_by_ref is_param =>
    exact entry_at_add_variable st n type size pass_by_ref is_param i name e h
  | enter_proc_scope n =>
    cases hc : st.cur.table.contains n
    · simp only [SymOp.apply, enter_proc_scope_eq st n hc]
      exact entry_at_enter st n _ _ i name e h
    · simpa [SymOp.apply, enter_proc_scope, hc] using h
  | enter_func_scope n =>
    cases hc : st.cur.table.contains n
    · simp only [SymOp.apply, enter_func_scope_eq st n hc]
      exact entry_at_enter st n _ _ i name e h
    · simpa [SymOp.apply, enter_func_scope, hc] using h
  | leave_scope =>
    simp only [SymOp.apply, leave_scope]
    split <;> exact h
  | find _ _ => exact h
  | get_var_info _ => exact h
  | get_proc_info _ => exact h
  | get_func_info _ => exact h

/-- An entry that a scope holds is held by the same scope, under the same name, after every
sequence of operations. -/
theorem entry_at_run (ops : List SymOp) : ∀ (st : SymbolTable) (i : Nat) (name : String)
    (e : Entry), st.entry_at i name = some e → (st.run ops).entry_at i name = some e := by
  induction ops with
  | nil => intro st i name e h; exact h
  | cons op rest ih =>
    intro st i name e h
    exact ih _ i name e (entry_at_apply st op i name e h)

/-- The variable entry that a successful `add_variable` stores in the current scope. -/
theorem entry_at_inserted (st : SymbolTable) (name : String) (type : VarType) (size : Nat)
    (pass_by_ref is_param : Bool) (hcur : st.cur_scope < st.scopes.length)
    (hok : (add_variable st name type size pass_by_ref is_param).1 = true) :
    (add_variable st name type size pass_by_ref is_param).2.entry_at st.cur_scope name =
      some (.var
        { type := type, name := "", size := size,
          offset := if is_param then (8 + st.cur.param_offset) % U64 else st.cur.var_offset,
          pass_by_ref := pass_by_ref, is_param := is_param, next := none }) := by
  have hc : st.cur.table.contains name = false := by
    cases hc : st.cur.table.contains name
    · rfl
    · simp [add_variable, hc] at hok
  cases is_param <;>
    simp [add_variable, hc, SymbolTable.setCur, SymbolTable.entry_at, List.getElem?_set, hcur,
      Table.lookup_assign_self]

/-- C29. A variable entry that a scope holds under `name` is held by the same scope under the
same name, with the same type, size, offset and flags, after every sequence of calls of
`add_variable`, `enter_proc_scope`, `enter_func_scope`, `leave_scope` and the lookups.  In
particular the entry that a successful `add_variable` inserts into the current scope (on a state
whose cursor addresses an allocated scope), with the offset assigned at that moment, is there
in every later state. -/
theorem variable_entry_stable :
    (∀ (st : SymbolTable) (i : Nat) (name : String) (v : VarData),
      st.entry_at i name = some (.var v) →
      ∀ ops, (st.run ops).entry_at i name = some (.var v)) ∧
    (∀ (st : SymbolTable) (name : String) (type : VarType) (size : Nat)
      (pass_by_ref is_param : Bool), st.cur_scope < st.scopes.length →
      (add_variable st name type size pass_by_ref is_param).1 = true →
      ∀ ops, ((add_variable st name type size pass_by_ref is_param).2.run ops).entry_at
        st.cur_scope name =
        some (.var
          { type := type, name := "", size := size,
            offset := if is_param then (8 + st.cur.param_offset) % U64 else st.cur.var_offset,
            pass_by_ref := pass_by_ref, is_param := is_param, next := none })) := by
  constructor
  · intro st i name v h ops
    exact entry_at_run ops st i name _ h
  · intro st name type size pass_by_ref is_param hcur hok ops
    exact entry_at_run ops _ _ name _
      (entry_at_inserted st name type size pass_by_ref is_param hcur hok)

/-- The claim C29 at the local `x` of the procedure `p` (scope 1) of `declared_state`, and at
the insertion of a parameter `a` into the scope of `proc_state`. -/
theorem variable_entry_stable_witness :
    (declared_state.entry_at 1 "x" =
      some (.var
        { type := .Real, name := "", size := 4, offset := 0, pass_by_ref := false,
          is_param := false, next := none }) ∧
     ∀ ops, (declared_state.run ops).entry_at 1 "x" =
      some (.var
        { type := .Real, name := "", size := 4, offset := 0, pass_by_ref := false,
          is_param := false, next := none })) ∧
    (proc_state.cur_scope < proc_state.scopes.length ∧
     (add_variable proc_state "a" .Integer 4 true true).1 = true ∧
     ∀ ops, ((add_variable proc_state "a" .Integer 4 true true).2.run ops).entry_at
        proc_state.cur_scope "a" =
        some (.var
          { type := .Integer, name := "", size := 4,
            offset := if true then (8 + proc_state.cur.param_offset) % U64
              else proc_state.cur.var_offset,
            pass_by_ref := true, is_param := true, next := none })) :=
  ⟨⟨by decide, variable_entry_stable.1 declared_state 1 "x" _ (by decide)⟩,
   ⟨by decide, by decide,
    variable_entry_stable.2 proc_state "a" .Integer 4 true true (by decide) (by decide)⟩⟩

/-! ## C30: the return slot of a function

The functions that parse a parameter list and a type leave the scope cursor where it is. -/

theorem SameScope.refl_scope (p : Parser) : SameScope p p := ⟨rfl, rfl⟩

theorem SameScope.trans_scope {p q r : Parser} (h1 : SameScope p q) (h2 : SameScope q r) :
    SameScope p r :=
  ⟨h2.1.trans h1.1, h2.2.trans h1.2⟩

theorem SameScope.advance_scope {p q : Parser} (h : SameScope p q) : SameScope p q.advance :=
  h

theorem SameScope.ite_advance_scope {p q : Parser} (h : SameScope p q) (c : Prop)
    [Decidable c] : SameScope p (if c then q.advance else q) := by
  split <;> exact h

theorem SameScope.mk_iff_scope (p : Parser) (tok : Option Token) (gd bd idx : Nat)
    (vals : List VarValue) (st : SymbolTable) (tmp : List String) (gi : Nat) (ou fw : Bool)
    (lc : Char) (ic wc oc : Nat) (cs ls : List Nat) (lx : Lexer) (out stg : List String) :
    SameScope p ⟨tok, gd, bd, idx, vals, st, tmp, gi, ou, fw, lc, ic, wc, oc, cs, ls, lx, out,
      stg⟩ ↔ SameScopeOn p st :=
  Iff.rfl

theorem SameScope.on_scope {p q : Parser} (h : SameScope p q) : SameScopeOn p q.symtab := h

theorem SameScope.on_add_variable {p q : Parser} {name : String} {type : VarType}
    {size : Nat} {pass_by_ref is_param : Bool} (h : SameScope p q) :
    SameScopeOn p (add_variable q.symtab name type size pass_by_ref is_param).2 :=
  ⟨(add_variable_cur_scope _ _ _ _ _ _).trans h.1, (add_variable_length _ _ _ _ _ _).trans h.2⟩

theorem Parser.expect_special_scope {s what : String} {p p' : Parser}
    (h : p.expect_special s what = .ok p') : SameScope p p' := by
  simp only [Parser.expect_special, bind, Except.bind, pure, Except.pure] at h
  repeat' split at h
  all_goals first
    | (cases h; done)
    | (cases h; exact SameScope.refl_scope _)

theorem declare_temporaries_loop_scope {size_of : VarType → Nat}
    {pass_by_ref is_param : Bool} (ts : List String) : ∀ {p p' : Parser},
    declare_temporaries_loop size_of pass_by_ref is_param ts p = .ok p' → SameScope p p' := by
  induction ts with
  | nil =>
    intro p p' h
    simp only [declare_temporaries_loop, pure, Except.pure] at h
    cases h
    exact SameScope.refl_scope p
  | cons t rest ih =>
    intro p p' h
    simp only [declare_temporaries_loop, bind, Except.bind, pure, Except.pure] at h
    repeat' split at h
    all_goals first
      | (cases h; done)
      | skip
    all_goals first
      | cases h
      | with_reducible refine SameScope.trans_scope ?_ (ih h)
    all_goals with_reducible repeat (first
      | exact SameScope.refl_scope _
      | assumption
      | apply SameScope.advance_scope
      | apply SameScope.ite_advance_scope
      | (simp only [SameScope.mk_iff_scope]; refine SameScope.on_scope ?_)
      | (simp only [SameScope.mk_iff_scope]; refine SameScope.on_add_variable ?_))

theorem declare_temporaries_scope {size_of : VarType → Nat} {pass_by_ref is_param : Bool}
    {p p' : Parser} (h : declare_temporaries size_of pass_by_ref is_param p = .ok p') :
    SameScope p p' := by
  simp only [declare_temporaries, bind, Except.bind, pure, Except.pure] at h
  repeat' split at h
  all_goals first
    | (cases h; done)
    | skip
  all_goals first
    | cases h
  all_goals with_reducible repeat (first
    | exact SameScope.refl_scope _
    | assumption
    | apply SameScope.advance_scope
    | apply SameScope.ite_advance_scope
    | (simp only [SameScope.mk_iff_scope]; refine SameScope.on_scope ?_)
    | (simp only [SameScope.mk_iff_scope]; refine SameScope.on_add_variable ?_)
    | (refine SameScope.trans_scope ?_ (declare_temporaries_loop_scope _ (by assumption))))

theorem varlist_scope (fuel : Nat) :
    ∀ {p p' : Parser}, varlist fuel p = .ok p' → SameScope p p' := by
  induction fuel with
  | zero => intro p p' h; simp [varlist] at h
  | succ fuel ih =>
    intro p p' h
    simp only [varlist, bind, Except.bind, pure, Except.pure] at h
    repeat' split at h
    all_goals first
      | (cases h; done)
      | skip
    all_goals first
      | cases h
      | with_reducible refine SameScope.trans_scope ?_ (ih h)
    all_goals with_reducible repeat (first
      | exact SameScope.refl_scope _
      | assumption
      | apply SameScope.advance_scope
      | apply SameScope.ite_advance_scope
      | (simp only [SameScope.mk_iff_scope]; refine SameScope.on_scope ?_)
      | (simp only [SameScope.mk_iff_scope]; refine SameScope.on_add_variable ?_))

theorem datatype_scope_all (fuel : Nat) :
    (∀ p p', datatype fuel p = .ok p' → SameScope p p') ∧
    (∀ p p', dim fuel p = .ok p' → SameScope p p') ∧
    (∀ p p', mdim fuel p = .ok p' → SameScope p p') := by
  induction fuel with
  | zero =>
    refine ⟨?_, ?_, ?_⟩ <;> intro p p' h <;> simp [datatype, dim, mdim] at h
  | succ fuel ih =>
    obtain ⟨ih_datatype, ih_dim, ih_mdim⟩ := ih
    refine ⟨?_, ?_, ?_⟩
    · intro p p' h
      simp only [datatype, bind, Except.bind, pure, Except.pure] at h
      repeat' split at h
      all_goals first
        | (cases h; done)
        | skip
      all_goals first
        | cases h
        | with_reducible refine SameScope.trans_scope ?_ (ih_datatype _ _ h)
        | with_reducible refine SameScope.trans_scope ?_ (ih_dim _ _ h)
        | with_reducible refine SameScope.trans_scope ?_ (ih_mdim _ _ h)
      all_goals with_reducible repeat (first
        | exact SameScope.refl_scope _
        | assumption
        | apply SameScope.advance_scope
        | apply SameScope.ite_advance_scope
        | (simp only [SameScope.mk_iff_scope]; refine SameScope.on_scope ?_)
        | (simp only [SameScope.mk_iff_scope]; refine SameScope.on_add_variable ?_)
        | (refine SameScope.trans_scope ?_ (Parser.expect_special_scope (by assumption)))
        | (refine SameScope.trans_scope ?_ (ih_datatype _ _ (by assumption)))
        | (refine SameScope.trans_scope ?_ (ih_dim _ _ (by assumption)))
        | (refine SameScope.trans_scope ?_ (ih_mdim _ _ (by assumption))))
    · intro p p' h
      simp only [dim, bind, Except.bind, pure, Except.pure] at h
      repeat' split at h
      all_goals first
        | (cases h; done)
        | skip
      all_goals first
        | cases h
        | with_reducible refine SameScope.trans_scope ?_ (ih_datatype _ _ h)
        | with_reducible refine SameScope.trans_scope ?_ (ih_dim _ _ h)
        | with_reducible refine SameScope.trans_scope ?_ (ih_mdim _ _ h)
      all_goals with_reducible repeat (first
        | exact SameScope.refl_scope _
        | assumption
        | apply SameScope.advance_scope
        | apply SameScope.ite_advance_scope
        | (simp only [SameScope.mk_iff_scope]; refine SameScope.on_scope ?_)
        | (simp only [SameScope.mk_iff_scope]; refine SameScope.on_add_variable ?_)
        | (refine SameScope.trans_scope ?_ (Parser.expect_special_scope (by assumption)))
        | (refine SameScope.trans_scope ?_ (ih_datatype _ _ (by assumption)))
        | (refine SameScope.trans_scope ?_ (ih_dim _ _ (by assumption)))
        | (refine SameScope.trans_scope ?_ (ih_mdim _ _ (by assumption))))
    · intro p p' h
      simp only [mdim, bind, Except.bind, pure, Except.pure] at h
      repeat' split at h
      all_goals first
        | (cases h; done)
        | skip
      all_goals first
        | cases h
        | with_reducible refine SameScope.trans_scope ?_ (ih_datatype _ _ h)
        | with_reducible refine SameScope.trans_scope ?_ (ih_dim _ _ h)
        | with_reducible refine SameScope.trans_scope ?_ (ih_mdim _ _ h)
      all_goals with_reducible repeat (first
        | exact SameScope.refl_scope _
        | assumption
        | apply SameScope.advance_scope
        | apply SameScope.ite_advance_scope
        | (simp only [SameScope.mk_iff_scope]; refine SameScope.on_scope ?_)
        | (simp only [SameScope.mk_iff_scope]; refine SameScope.on_add_variable ?_)
        | (refine SameScope.trans_scope ?_ (Parser.expect_special_scope (by assumption)))
        | (refine SameScope.trans_scope ?_ (ih_datatype _ _ (by assumption)))
        | (refine SameScope.trans_scope ?_ (ih_dim _ _ (by assumption)))
        | (refine SameScope.trans_scope ?_ (ih_mdim _ _ (by assumption))))

theorem datatype_scope {fuel : Nat} {p p' : Parser} (h : datatype fuel p = .ok p') :
    SameScope p p' :=
  (datatype_scope_all fuel).1 p p' h

theorem mparam_scope (fuel : Nat) :
    ∀ {p p' : Parser}, mparam fuel p = .ok p' → SameScope p p' := by
  induction fuel with
  | zero => intro p p' h; simp [mparam] at h
  | succ fuel ih =>
    intro p p' h
    simp only [mparam, bind, Except.bind, pure, Except.pure] at h
    repeat' split at h
    all_goals first
      | (cases h; done)
      | skip
    all_goals first
      | cases h
      | with_reducible refine SameScope.trans_scope ?_ (ih h)
    all_goals with_reducible repeat (first
      | exact SameScope.refl_scope _
      | assumption
      | apply SameScope.advance_scope
      | apply SameScope.ite_advance_scope
      | (simp only [SameScope.mk_iff_scope]; refine SameScope.on_scope ?_)
      | (simp only [SameScope.mk_iff_scope]; refine SameScope.on_add_variable ?_)
      | (refine SameScope.trans_scope ?_ (Parser.expect_special_scope (by assumption)))
      | (refine SameScope.trans_scope ?_ (datatype_scope (by assumption)))
      | (refine SameScope.trans_scope ?_ (declare_temporaries_scope (by assumption)))
      | (refine SameScope.trans_scope ?_ (varlist_scope _ (by assumption))))

theorem param_scope {fuel : Nat} {p p' : Parser} (h : param fuel p = .ok p') :
    SameScope p p' := by
  simp only [param, bind, Except.bind, pure, Except.pure] at h
  repeat' split at h
  all_goals first
    | (cases h; done)
    | skip
  all_goals first
    | cases h
    | with_reducible refine SameScope.trans_scope ?_ (mparam_scope _ h)
  all_goals with_reducible repeat (first
    | exact SameScope.refl_scope _
    | assumption
    | apply SameScope.advance_scope
    | apply SameScope.ite_advance_scope
    | (simp only [SameScope.mk_iff_scope]; refine SameScope.on_scope ?_)
    | (simp only [SameScope.mk_iff_scope]; refine SameScope.on_add_variable ?_)
    | (refine SameScope.trans_scope ?_ (Parser.expect_special_scope (by assumption)))
    | (refine SameScope.trans_scope ?_ (datatype_scope (by assumption)))
    | (refine SameScope.trans_scope ?_ (declare_temporaries_scope (by assumption)))
    | (refine SameScope.trans_scope ?_ (varlist_scope _ (by assumption))))

theorem Parser.expect_special_eq {s what : String} {p p' : Parser}
    (h : p.expect_special s what = .ok p') : p' = p := by
  simp only [Parser.expect_special, bind, Except.bind, pure, Except.pure] at h
  repeat' split at h
  all_goals first
    | (cases h; done)
    | (cases h; rfl)

/-- The state after a successful `enter_func_scope`: the cursor addresses the scope allocated
last. -/
theorem enter_func_scope_cursor (st : SymbolTable) (name : String)
    (h : (enter_func_scope st name).1 = true) :
    (enter_func_scope st name).2.cur_scope = st.scopes.length ∧
      (enter_func_scope st name).2.scopes.length = st.scopes.length + 1 := by
  have hc : st.cur.table.contains name = false := by
    cases hc : st.cur.table.contains name
    · rfl
    · simp [enter_func_scope, hc] at h
  rw [enter_func_scope_eq st name hc]
  simp

theorem Parser.get_word_token {p : Parser} {s : String} (h : p.get_word = .ok s) :
    p.token = some (.Word s) := by
  simp only [Parser.get_word, Parser.tok, bind, Except.bind, pure, Except.pure] at h
  cases ht : p.token with
  | none => simp [ht] at h
  | some t =>
    cases t with
    | Word w => simp only [ht] at h; cases h; rfl
    | _ => simp [ht, Except.throw_eq] at h

/-- The run of `declare_return_slot` that returns: the lookahead names one of the four types,
and `add_variable` has stored the function name as a local of that type. -/
theorem declare_return_slot_parts {func_name : String} {p p' : Parser}
    (h : declare_return_slot func_name p = .ok p') :
    ∃ dtype type size, p.token = some (.Word dtype) ∧ return_type dtype = some type ∧
      (add_variable p.symtab func_name type size false false).1 = true ∧
      p'.symtab = (add_variable p.symtab func_name type size false false).2 := by
  simp only [declare_return_slot, bind, Except.bind, pure, Except.pure] at h
  repeat' split at h
  all_goals first
    | (cases h; done)
    | skip
  all_goals cases h
  all_goals rename_i hflag
  all_goals have hw := Parser.get_word_token (by assumption)
  · exact ⟨_, .Integer, 4, hw, by simp [return_type, *], by simpa using hflag, rfl⟩
  · exact ⟨_, .Boolean, 1, hw, by simp [return_type, *], by simpa using hflag, rfl⟩
  · exact ⟨_, .Character, 1, hw, by simp [return_type, *], by simpa using hflag, rfl⟩
  · exact ⟨_, .Real, 8, hw, by simp [return_type, *], by simpa using hflag, rfl⟩
  · simp at hflag

/-- A variable entry of the current scope is what `get_var_info` and `find` return for its
name. -/
theorem lookups_of_entry_at (st : SymbolTable) (name : String) (v : VarData)
    (h : st.entry_at st.cur_scope name = some (.var v)) :
    get_var_info st name = some v ∧ find st name .Variable = some (.var v) := by
  have hl : st.cur.table.lookup name = some (.var v) := by
    simp only [SymbolTable.entry_at] at h
    cases hs : st.scopes[st.cur_scope]? with
    | none => simp [hs] at h
    | some sc =>
      rw [SymbolTable.cur_eq_of_getElem? st sc hs]
      simpa [hs] using h
  constructor
  · rw [get_var_info_eq, hl]
  · rw [find_of_lookup_cur st name .Variable _ hl]
    rfl

/-! ## The functions that parse a parameter list and a type keep every entry of the symbol
table -/

theorem Keeps.refl_keeps (p : Parser) : Keeps p p := fun _ _ _ h => h

theorem Keeps.trans_keeps {p q r : Parser} (h1 : Keeps p q) (h2 : Keeps q r) : Keeps p r :=
  fun i name e h => h2 i name e (h1 i name e h)

theorem Keeps.advance_keeps {p q : Parser} (h : Keeps p q) : Keeps p q.advance :=
  h

theorem Keeps.ite_advance_keeps {p q : Parser} (h : Keeps p q) (c : Prop)
    [Decidable c] : Keeps p (if c then q.advance else q) := by
  split <;> exact h

theorem Keeps.mk_iff_keeps (p : Parser) (tok : Option Token) (gd bd idx : Nat)
    (vals : List VarValue) (st : SymbolTable) (tmp : List String) (gi : Nat) (ou fw : Bool)
    (lc : Char) (ic wc oc : Nat) (cs ls : List Nat) (lx : Lexer) (out stg : List String) :
    Keeps p ⟨tok, gd, bd, idx, vals, st, tmp, gi, ou, fw, lc, ic, wc, oc, cs, ls, lx, out,
      stg⟩ ↔ KeepsOn p st :=
  Iff.rfl

theorem Keeps.on_keeps {p q : Parser} (h : Keeps p q) : KeepsOn p q.symtab := h

theorem Keeps.on_add_variable_keeps {p q : Parser} {name : String} {type : VarType}
    {size : Nat} {pass_by_ref is_param : Bool} (h : Keeps p q) :
    KeepsOn p (add_variable q.symtab name type size pass_by_ref is_param).2 :=
  fun i n e he =>
    entry_at_apply q.symtab (.add_variable name type size pass_by_ref is_param) i n e (h i n e he)

theorem Parser.expect_special_keeps {s what : String} {p p' : Parser}
    (h : p.expect_special s what = .ok p') : Keeps p p' := by
  simp only [Parser.expect_special, bind, Except.bind, pure, Except.pure] at h
  repeat' split at h
  all_goals first
    | (cases h; done)
    | (cases h; exact Keeps.refl_keeps _)

theorem declare_temporaries_loop_keeps {size_of : VarType → Nat}
    {pass_by_ref is_param : Bool} (ts : List String) : ∀ {p p' : Parser},
    declare_temporaries_loop size_of pass_by_ref is_param ts p = .ok p' → Keeps p p' := by
  induction ts with
  | nil =>
    intro p p' h
    simp only [declare_temporaries_loop, pure, Except.pure] at h
    cases h
    exact Keeps.refl_keeps p
  | cons t rest ih =>
    intro p p' h
    simp only [declare_temporaries_loop, bind, Except.bind, pure, Except.pure] at h
    repeat' split at h
    all_goals first
      | (cases h; done)
      | skip
    all_goals first
      | cases h
      | with_reducible refine Keeps.trans_keeps ?_ (ih h)
    all_goals with_reducible repeat (first
      | exact Keeps.refl_keeps _
      | assumption
      | apply Keeps.advance_keeps
      | apply Keeps.ite_advance_keeps
      | (simp only [Keeps.mk_iff_keeps]; refine Keeps.on_keeps ?_)
      | (simp only [Keeps.mk_iff_keeps]; refine Keeps.on_add_variable_keeps ?_))

theorem declare_temporaries_keeps {size_of : VarType → Nat} {pass_by_ref is_param : Bool}
    {p p' : Parser} (h : declare_temporaries size_of pass_by_ref is_param p = .ok p') :
    Keeps p p' := by
  simp only [declare_temporaries, bind, Except.bind, pure, Except.pure] at h
  repeat' split at h
  all_goals first
    | (cases h; done)
    | skip
  all_goals first
    | cases h
  all_goals with_reducible repeat (first
    | exact Keeps.refl_keeps _
    | assumption
    | apply Keeps.advance_keeps
    | apply Keeps.ite_advance_keeps
    | (simp only [Keeps.mk_iff_keeps]; refine Keeps.on_keeps ?_)
    | (simp only [Keeps.mk_iff_keeps]; refine Keeps.on_add_variable_keeps ?_)
    | (refine Keeps.trans_keeps ?_ (declare_temporaries_loop_keeps _ (by assumption))))

theorem varlist_keeps (fuel : Nat) :
    ∀ {p p' : Parser}, varlist fuel p = .ok p' → Keeps p p' := by
  induction fuel with
  | zero => intro p p' h; simp [varlist] at h
  | succ fuel ih =>
    intro p p' h
    simp only [varlist, bind, Except.bind, pure, Except.pure] at h
    repeat' split at h
    all_goals first
      | (cases h; done)
      | skip
    all_goals first
      | cases h
      | with_reducible refine Keeps.trans_keeps ?_ (ih h)
    all_goals with_reducible repeat (first
      | exact Keeps.refl_keeps _
      | assumption
      | apply Keeps.advance_keeps
      | apply Keeps.ite_advance_keeps
      | (simp only [Keeps.mk_iff_keeps]; refine Keeps.on_keeps ?_)
      | (simp only [Keeps.mk_iff_keeps]; refine Keeps.on_add_variable_keeps ?_))

theorem datatype_keeps_all (fuel : Nat) :
    (∀ p p', datatype fuel p = .ok p' → Keeps p p') ∧
    (∀ p p', dim fuel p = .ok p' → Keeps p p') ∧
    (∀ p p', mdim fuel p = .ok p' → Keeps p p') := by
  induction fuel with
  | zero =>
    refine ⟨?_, ?_, ?_⟩ <;> intro p p' h <;> simp [datatype, dim, mdim] at h
  | succ fuel ih =>
    obtain ⟨ih_datatype, ih_dim, ih_mdim⟩ := ih
    refine ⟨?_, ?_, ?_⟩
    · intro p p' h
      simp only [datatype, bind, Except.bind, pure, Except.pure] at h
      repeat' split at h
      all_goals first
        | (cases h; done)
        | skip
      all_goals first
        | cases h
        | with_reducible refine Keeps.trans_keeps ?_ (ih_datatype _ _ h)
        | with_reducible refine Keeps.trans_keeps ?_ (ih_dim _ _ h)
        | with_reducible refine Keeps.trans_keeps ?_ (ih_mdim _ _ h)
      all_goals with_reducible repeat (first
        | exact Keeps.refl_keeps _
        | assumption
        | apply Keeps.advance_keeps
        | apply Keeps.ite_advance_keeps
        | (simp only [Keeps.mk_iff_keeps]; refine Keeps.on_keeps ?_)
        | (simp only [Keeps.mk_iff_keeps]; refine Keeps.on_add_variable_keeps ?_)
        | (refine Keeps.trans_keeps ?_ (Parser.expect_special_keeps (by assumption)))
        | (refine Keeps.trans_keeps ?_ (ih_datatype _ _ (by assumption)))
        | (refine Keeps.trans_keeps ?_ (ih_dim _ _ (by assumption)))
        | (refine Keeps.trans_keeps ?_ (ih_mdim _ _ (by assumption))))
    · intro p p' h
      simp only [dim, bind, Except.bind, pure, Except.pure] at h
      repeat' split at h
      all_goals first
        | (cases h; done)
        | skip
      all_goals first
        | cases h
        | with_reducible refine Keeps.trans_keeps ?_ (ih_datatype _ _ h)
        | with_reducible refine Keeps.trans_keeps ?_ (ih_dim _ _ h)
        | with_reducible refine Keeps.trans_keeps ?_ (ih_mdim _ _ h)
      all_goals with_reducible repeat (first
        | exact Keeps.refl_keeps _
        | assumption
        | apply Keeps.advance_keeps
        | apply Keeps.ite_advance_keeps
        | (simp only [Keeps.mk_iff_keeps]; refine Keeps.on_keeps ?_)
        | (simp only [Keeps.mk_iff_keeps]; refine Keeps.on_add_variable_keeps ?_)
        | (refine Keeps.trans_keeps ?_ (Parser.expect_special_keeps (by assumption)))
        | (refine Keeps.trans_keeps ?_ (ih_datatype _ _ (by assumption)))
        | (refine Keeps.trans_keeps ?_ (ih_dim _ _ (by assumption)))
        | (refine Keeps.trans_keeps ?_ (ih_mdim _ _ (by assumption))))
    · intro p p' h
      simp only [mdim, bind, Except.bind, pure, Except.pure] at h
      repeat' split at h
      all_goals first
        | (cases h; done)
        | skip
      all_goals first
        | cases h
        | with_reducible refine Keeps.trans_keeps ?_ (ih_datatype _ _ h)
        | with_reducible refine Keeps.trans_keeps ?_ (ih_dim _ _ h)
        | with_reducible refine Keeps.trans_keeps ?_ (ih_mdim _ _ h)
      all_goals with_reducible repeat (first
        | exact Keeps.refl_keeps _
        | assumption
        | apply Keeps.advance_keeps
        | apply Keeps.ite_advance_keeps
        | (simp only [Keeps.mk_iff_keeps]; refine Keeps.on_keeps ?_)
        | (simp only [Keeps.mk_iff_keeps]; refine Keeps.on_add_variable_keeps ?_)
        | (refine Keeps.trans_keeps ?_ (Parser.expect_special_keeps (by assumption)))
        | (refine Keeps.trans_keeps ?_ (ih_datatype _ _ (by assumption)))
        | (refine Keeps.trans_keeps ?_ (ih_dim _ _ (by assumption)))
        | (refine Keeps.trans_keeps ?_ (ih_mdim _ _ (by assumption))))

theorem datatype_keeps {fuel : Nat} {p p' : Parser} (h : datatype fuel p = .ok p') :
    Keeps p p' :=
  (datatype_keeps_all fuel).1 p p' h

theorem mparam_keeps (fuel : Nat) :
    ∀ {p p' : Parser}, mparam fuel p = .ok p' → Keeps p p' := by
  induction fuel with
  | zero => intro p p' h; simp [mparam] at h
  | succ fuel ih =>
    intro p p' h
    simp only [mparam, bind, Except.bind, pure, Except.pure] at h
    repeat' split at h
    all_goals first
      | (cases h; done)
      | skip
    all_goals first
      | cases h
      | with_reducible refine Keeps.trans_keeps ?_ (ih h)
    all_goals with_reducible repeat (first
      | exact Keeps.refl_keeps _
      | assumption
      | apply Keeps.advance_keeps
      | apply Keeps.ite_advance_keeps
      | (simp only [Keeps.mk_iff_keeps]; refine Keeps.on_keeps ?_)
      | (simp only [Keeps.mk_iff_keeps]; refine Keeps.on_add_variable_keeps ?_)
      | (refine Keeps.trans_keeps ?_ (Parser.expect_special_keeps (by assumption)))
      | (refine Keeps.trans_keeps ?_ (datatype_keeps (by assumption)))
      | (refine Keeps.trans_keeps ?_ (declare_temporaries_keeps (by assumption)))
      | (refine Keeps.trans_keeps ?_ (varlist_keeps _ (by assumption))))

theorem param_keeps {fuel : Nat} {p p' : Parser} (h : param fuel p = .ok p') :
    Keeps p p' := by
  simp only [param, bind, Except.bind, pure, Except.pure] at h
  repeat' split at h
  all_goals first
    | (cases h; done)
    | skip
  all_goals first
    | cases h
    | with_reducible refine Keeps.trans_keeps ?_ (mparam_keeps _ h)
  all_goals with_reducible repeat (first
    | exact Keeps.refl_keeps _
    | assumption
    | apply Keeps.advance_keeps
    | apply Keeps.ite_advance_keeps
    | (simp only [Keeps.mk_iff_keeps]; refine Keeps.on_keeps ?_)
    | (simp only [Keeps.mk_iff_keeps]; refine Keeps.on_add_variable_keeps ?_)
    | (refine Keeps.trans_keeps ?_ (Parser.expect_special_keeps (by assumption)))
    | (refine Keeps.trans_keeps ?_ (datatype_keeps (by assumption)))
    | (refine Keeps.trans_keeps ?_ (declare_temporaries_keeps (by assumption)))
    | (refine Keeps.trans_keeps ?_ (varlist_keeps _ (by assumption))))

/-! ## The run of `pfv` on a function declaration -/

/-- A run of `pfv` on a function declaration that returns is a `FunctionRun`: the states
between the calls of the function branch exist, the lookahead at the declaration of the return
slot names one of the four types, `add_variable` stores the name of the function in the scope
that `enter_func_scope` made, and the parameter list and the type keep the entries of the
symbol table. -/
theorem pfv_function_run (fuel : Nat) (p p' : Parser)
    (htok : p.token = some (.ReservedWord "function")) (h : pfv fuel p = .ok p') :
    ∃ f func_name dtype type size qp q0 q qb,
      fuel = f + 1 ∧ FunctionRun f p p' func_name qp q0 q qb ∧
      q0.token = some (.Word dtype) ∧ return_type dtype = some type ∧
      (add_variable q0.symtab func_name type size false false).1 = true ∧
      q.symtab = (add_variable q0.symtab func_name type size false false).2 ∧
      q0.symtab.cur_scope = (enter_func_scope p.advance.symtab func_name).2.cur_scope ∧
      q0.symtab.cur_scope < q0.symtab.scopes.length ∧
      Keeps (p.enter_function func_name) q0 := by
  cases fuel with
  | zero => simp [pfv] at h
  | succ f =>
    have e1 : ("function" == "var") = false := by decide
    have e2 : ("function" == "procedure") = false := by decide
    have e3 : ("function" == "function") = true := by decide
    simp only [pfv, Parser.tok, htok, e1, e2, e3, bind, Except.bind, pure, Except.pure,
      if_true, if_false, Bool.false_eq_true] at h
    repeat' split at h
    all_goals first
      | (cases h; done)
      | skip
    rename_i _ _ name hname hflag _ a1 ha1 _ a2 ha2 _ a3 ha3 _ a4 ha4 _ a5 ha5 _ a6 ha6 _ a7 ha7
      _ a8 ha8 _ a9 ha9
    have hname2 : p.advance.token = some (.Word name) := by
      cases ht : p.advance.token with
      | none => simp [ht] at hname
      | some t => simpa [ht] using hname
    have hflag2 : (enter_func_scope p.advance.symtab name).1 = true := by simpa using hflag
    obtain ⟨c1, c2⟩ := enter_func_scope_cursor _ _ hflag2
    have s1 := Parser.expect_special_scope ha1
    have s2 : SameScope a1.advance a2 := param_scope ha2
    have s3 := Parser.expect_special_scope ha3
    have s4 := Parser.expect_special_scope ha4
    have s5 : SameScope a4.advance a5 := datatype_scope ha5
    have k1 := Parser.expect_special_keeps ha1
    have k2 : Keeps a1.advance a2 := param_keeps ha2
    have k3 := Parser.expect_special_keeps ha3
    have k4 := Parser.expect_special_keeps ha4
    have k5 : Keeps a4.advance a5 := datatype_keeps ha5
    have hcur5 : a5.symtab.cur_scope = (enter_func_scope p.advance.symtab name).2.cur_scope :=
      s5.1.trans (s4.1.trans (s3.1.trans (s2.1.trans s1.1)))
    have hlen : a5.symtab.scopes.length =
        (enter_func_scope p.advance.symtab name).2.scopes.length :=
      s5.2.trans (s4.2.trans (s3.2.trans (s2.2.trans s1.2)))
    have hvalid : a5.symtab.cur_scope < a5.symtab.scopes.length := by
      rw [hcur5, hlen, c1, c2]
      exact Nat.lt_succ_self _
    have hkeep : Keeps (p.enter_function name) a5 :=
      fun i n e he => k5 i n e (k4 i n e (k3 i n e (k2 i n e (k1 i n e he))))
    obtain ⟨dtype, type, size, d1, d2, d3, d4⟩ := declare_return_slot_parts ha6
    have t1 := Parser.expect_special_eq ha1
    have t3 := Parser.expect_special_eq ha3
    have t4 := Parser.expect_special_eq ha4
    have t7 := Parser.expect_special_eq ha7
    have t9 := Parser.expect_special_eq ha9
    rw [t9] at h ha9
    rw [t7] at ha8 ha7
    rw [t4] at ha5 ha4
    rw [t3] at ha4 ha5 ha3
    rw [t1] at ha2 ha1
    exact ⟨f, name, dtype, type, size, a2, a5, a6, a8, rfl,
      ⟨hname2, hflag2, ha1, ha2, ha3, ha4, ha5, ha6, ha7, ha8, ha9, h⟩,
      d1, d2, d3, d4, hcur5, hvalid, hkeep⟩

/-! ## C30: the return slot of a function -/

/-- C30. A run of `pfv` on a function declaration that returns is the run `FunctionRun` of the
function branch: from `p` the name is read and the scope of the function entered, the
parameter list is parsed (`qp`), the type is parsed (`q0`), the return slot is declared (`q`),
the body is parsed from `q` (`qb`) and the rest of the declarations from `qb` lead to `p'`.  In
the state `q`, the state in which the body of the function is parsed, the current scope is the
scope that `enter_func_scope` made for the function, and `get_var_info` and `find` with kind
`Variable` return for the name of the function a variable entry that is not a parameter and has
the type named by the lookahead of `q0`, the word after the colon.  The same holds in every
later state of the symbol table in which that scope is the current one. -/
theorem function_name_resolves (fuel : Nat) (p p' : Parser)
    (htok : p.token = some (.ReservedWord "function")) (h : pfv fuel p = .ok p') :
    ∃ f func_name dtype qp q0 q qb v,
      fuel = f + 1 ∧ FunctionRun f p p' func_name qp q0 q qb ∧
      p.advance.token = some (.Word func_name) ∧
      (enter_func_scope p.advance.symtab func_name).1 = true ∧
      q0.token = some (.Word dtype) ∧ declare_return_slot func_name q0 = .ok q ∧
      block f q.advance = .ok qb ∧
      q.symtab.cur_scope = (enter_func_scope p.advance.symtab func_name).2.cur_scope ∧
      return_type dtype = some v.type ∧ v.is_param = false ∧
      get_var_info q.symtab func_name = some v ∧
      find q.symtab func_name .Variable = some (.var v) ∧
      ∀ ops, (q.symtab.run ops).cur_scope = q.symtab.cur_scope →
        get_var_info (q.symtab.run ops) func_name = some v ∧
        find (q.symtab.run ops) func_name .Variable = some (.var v) := by
  obtain ⟨f, name, dtype, type, size, qp, q0, q, qb, hf, hrun, d1, d2, d3, d4, hcur, hvalid, _⟩ :=
    pfv_function_run fuel p p' htok h
  have hent := entry_at_inserted q0.symtab name type size false false hvalid d3
  have hc6 : q.symtab.cur_scope = q0.symtab.cur_scope := by
    rw [d4]
    exact add_variable_cur_scope _ _ _ _ _ _
  rw [← d4, ← hc6] at hent
  obtain ⟨g1, g2⟩ := lookups_of_entry_at _ _ _ hent
  refine ⟨f, name, dtype, qp, q0, q, qb, _, hf, hrun, hrun.1, hrun.2.1, d1,
    hrun.2.2.2.2.2.2.2.1, hrun.2.2.2.2.2.2.2.2.2.1, hc6.trans hcur, d2, rfl, g1, g2, ?_⟩
  intro ops hops
  have hr := entry_at_run ops _ _ _ _ hent
  rw [← hops] at hr
  exact lookups_of_entry_at _ _ _ hr

/-- The claim C30 at the declaration `function g(a: integer): integer; begin end;` -/
theorem function_name_resolves_witness :
    (declaration_state function_g).token = some (.ReservedWord "function") ∧
    ∃ p', pfv 50 (declaration_state function_g) = .ok p' ∧
    ∃ f func_name dtype qp q0 q qb v,
      50 = f + 1 ∧ FunctionRun f (declaration_state function_g) p' func_name qp q0 q qb ∧
      (declaration_state function_g).advance.token = some (.Word func_name) ∧
      (enter_func_scope (declaration_state function_g).advance.symtab func_name).1 = true ∧
      q0.token = some (.Word dtype) ∧ declare_return_slot func_name q0 = .ok q ∧
      block f q.advance = .ok qb ∧
      q.symtab.cur_scope =
        (enter_func_scope (declaration_state function_g).advance.symtab func_name).2.cur_scope ∧
      return_type dtype = some v.type ∧ v.is_param = false ∧
      get_var_info q.symtab func_name = some v ∧
      find q.symtab func_name .Variable = some (.var v) ∧
      ∀ ops, (q.symtab.run ops).cur_scope = q.symtab.cur_scope →
        get_var_info (q.symtab.run ops) func_name = some v ∧
        find (q.symtab.run ops) func_name .Variable = some (.var v) := by
  have hok : (pfv 50 (declaration_state function_g)).toBool = true := by decide!
  cases hrun : pfv 50 (declaration_state function_g) with
  | error e => rw [hrun] at hok; cases hok
  | ok p' =>
    exact ⟨rfl, p', rfl, function_name_resolves 50 (declaration_state function_g) p' rfl hrun⟩

/-! ## C31: the offsets of parameters and locals

Every scope of every state built from `SymbolTable.new` is laid out by `add_variable`: the
offsets of its parameters are `8`, `8 + s1`, ... and the offsets of its locals `0`, `t1`, ... -/

theorem frame_offsets_append (sizes : List Nat) : ∀ (base s : Nat),
    frame_offsets base (sizes ++ [s]) =
      frame_offsets base sizes ++ [(base + sizes.sum) % U64] := by
  induction sizes with
  | nil => intro base s; simp [frame_offsets]
  | cons a rest ih => intro base s; simp [frame_offsets, ih, Nat.add_assoc]

theorem frame_offsets_ge (sizes : List Nat) : ∀ (base : Nat), base + sizes.sum < U64 →
    ∀ x ∈ frame_offsets base sizes, base ≤ x := by
  induction sizes with
  | nil => intro base _ x hx; simp [frame_offsets] at hx
  | cons a rest ih =>
    intro base h x hx
    simp only [frame_offsets, List.mem_cons, List.sum_cons] at hx h
    rcases hx with hx | hx
    · rw [hx, Nat.mod_eq_of_lt (by omega)]
    · have := ih (base + a) (by omega) x hx
      omega

theorem var_sizes_eq_map (want : Bool) (t : Table) :
    var_sizes want t = (var_entries want t).map (fun v => v.size) := by
  induction t with
  | nil => rfl
  | cons ne rest ih =>
    obtain ⟨n, e⟩ := ne
    cases e with
    | var v =>
      by_cases hv : v.is_param = want
      · simp [var_sizes, var_entries, List.filterMap_cons, hv] at ih ⊢
        exact ih
      · simp [var_sizes, var_entries, List.filterMap_cons, hv] at ih ⊢
        exact ih
    | proc q =>
      simp [var_sizes, var_entries, List.filterMap_cons] at ih ⊢
      exact ih
    | func f =>
      simp [var_sizes, var_entries, List.filterMap_cons] at ih ⊢
      exact ih

theorem Scope.laid_out_fresh (name : String) (previous : Option Nat) :
    Scope.laid_out
      { table := [], param_offset := 0, var_offset := 0, name := name, previous := previous } := by
  simp [Scope.laid_out, var_entries, var_sizes, frame_offsets]

/-- An entry that is not a variable leaves the layout as it is. -/
theorem Scope.laid_out_other (sc : Scope) (h : sc.laid_out) (name : String) (e : Entry)
    (he : ∀ v, e ≠ .var v) :
    Scope.laid_out { sc with table := sc.table ++ [(name, e)] } := by
  cases e with
  | var v => exact absurd rfl (he v)
  | proc q => simpa [Scope.laid_out, var_entries, var_sizes, List.filterMap_append] using h
  | func f => simpa [Scope.laid_out, var_entries, var_sizes, List.filterMap_append] using h

/-- A parameter appended by `add_variable` keeps the layout. -/
theorem Scope.laid_out_parameter (sc : Scope) (h : sc.laid_out) (name : String)
    (type : VarType) (size : Nat) (pass_by_ref : Bool) :
    Scope.laid_out
      { sc with
        table := sc.table ++ [(name, .var
          { type := type, name := "", size := size, offset := (8 + sc.param_offset) % U64,
            pass_by_ref := pass_by_ref, is_param := true, next := none })]
        param_offset := (sc.param_offset + size) % U64 } := by
  obtain ⟨h1, h2, h3, h4⟩ := h
  refine ⟨?_, ?_, ?_, ?_⟩
  · have e1 : var_entries true (sc.table ++ [(name, Entry.var
          { type := type, name := "", size := size, offset := (8 + sc.param_offset) % U64,
            pass_by_ref := pass_by_ref, is_param := true, next := none })]) =
        var_entries true sc.table ++
          [{ type := type, name := "", size := size, offset := (8 + sc.param_offset) % U64,
             pass_by_ref := pass_by_ref, is_param := true, next := none }] := by
      simp [var_entries, List.filterMap_append]
    have e2 : var_sizes true (sc.table ++ [(name, Entry.var
          { type := type, name := "", size := size, offset := (8 + sc.param_offset) % U64,
            pass_by_ref := pass_by_ref, is_param := true, next := none })]) =
        var_sizes true sc.table ++ [size] := by
      simp [var_sizes, List.filterMap_append]
    rw [e1, e2]
    simp only [List.map_append, List.map_cons, List.map_nil, frame_offsets_append, h1]
    rw [h3]
    simp [Nat.add_mod]
  · simpa [var_entries, var_sizes, List.filterMap_append] using h2
  · simp [var_sizes, List.filterMap_append, h3, Nat.add_mod]
  · simpa [var_sizes, List.filterMap_append] using h4

/-- A local appended by `add_variable` keeps the layout. -/
theorem Scope.laid_out_local (sc : Scope) (h : sc.laid_out) (name : String)
    (type : VarType) (size : Nat) (pass_by_ref : Bool) :
    Scope.laid_out
      { sc with
        table := sc.table ++ [(name, .var
          { type := type, name := "", size := size, offset := sc.var_offset,
            pass_by_ref := pass_by_ref, is_param := false, next := none })]
        var_offset := (sc.var_offset + size) % U64 } := by
  obtain ⟨h1, h2, h3, h4⟩ := h
  refine ⟨?_, ?_, ?_, ?_⟩
  · simpa [var_entries, var_sizes, List.filterMap_append] using h1
  · have e1 : var_entries false (sc.table ++ [(name, Entry.var
          { type := type, name := "", size := size, offset := sc.var_offset,
            pass_by_ref := pass_by_ref, is_param := false, next := none })]) =
        var_entries false sc.table ++
          [{ type := type, name := "", size := size, offset := sc.var_offset,
             pass_by_ref := pass_by_ref, is_param := false, next := none }] := by
      simp [var_entries, List.filterMap_append]
    have e2 : var_sizes false (sc.table ++ [(name, Entry.var
          { type := type, name := "", size := size, offset := sc.var_offset,
            pass_by_ref := pass_by_ref, is_param := false, next := none })]) =
        var_sizes false sc.table ++ [size] := by
      simp [var_sizes, List.filterMap_append]
    rw [e1, e2]
    simp only [List.map_append, List.map_cons, List.map_nil, frame_offsets_append, h2]
    rw [h4]
    simp
  · simpa [var_sizes, List.filterMap_append] using h3
  · simp [var_sizes, List.filterMap_append, h4, Nat.add_mod]

theorem SymbolTable.laid_out_cur (st : SymbolTable) (h : ∀ sc ∈ st.scopes, sc.laid_out) :
    st.cur.laid_out := by
  unfold SymbolTable.cur
  rw [List.getD_eq_getElem?_getD]
  cases hs : st.scopes[st.cur_scope]? with
  | none => exact Scope.laid_out_fresh _ _
  | some sc => exact h sc (List.getElem?_mem hs)

theorem SymbolTable.laid_out_setCur (st : SymbolTable) (h : ∀ sc ∈ st.scopes, sc.laid_out)
    (sc' : Scope) (h' : sc'.laid_out) : ∀ sc ∈ (st.setCur sc').scopes, sc.laid_out := by
  intro sc hsc
  rcases List.mem_or_eq_of_mem_set hsc with hm | he
  · exact h sc hm
  · rw [he]; exact h'

/-- Every call of a member function keeps the layout of every scope. -/
theorem laid_out_apply (st : SymbolTable) (op : SymOp) (h : ∀ sc ∈ st.scopes, sc.laid_out) :
    ∀ sc ∈ (op.apply st).scopes, sc.laid_out := by
  have hcur := st.laid_out_cur h
  cases op with
  | add_variable name type size pass_by_ref is_param =>
    simp only [SymOp.apply, add_variable]
    cases hc : st.cur.table.contains name with
    | true => simpa using h
    | false =>
      rw [Table.assign_of_not_contains _ _ _ hc, Table.assign_of_not_contains _ _ _ hc]
      cases is_param with
      | true =>
        simp only [Bool.false_eq_true, if_false, if_true]
        exact st.laid_out_setCur h _ (Scope.laid_out_parameter _ hcur _ _ _ _)
      | false =>
        simp only [Bool.false_eq_true, if_false]
        exact st.laid_out_setCur h _ (Scope.laid_out_local _ hcur _ _ _ _)
  | enter_proc_scope name =>
    cases hc : st.cur.table.contains name with
    | true => simpa [SymOp.apply, enter_proc_scope, hc] using h
    | false =>
      simp only [SymOp.apply, enter_proc_scope_eq st name hc]
      intro sc hsc
      rcases List.mem_append.1 hsc with hm | hm
      · exact st.laid_out_setCur h _
          (Scope.laid_out_other _ hcur _ _ (by intro v hv; cases hv)) sc hm
      · rw [List.mem_singleton.1 hm]
        exact Scope.laid_out_fresh _ _
  | enter_func_scope name =>
    cases hc : st.cur.table.contains name with
    | true => simpa [SymOp.apply, enter_func_scope, hc] using h
    | false =>
      simp only [SymOp.apply, enter_func_scope_eq st name hc]
      intro sc hsc
      rcases List.mem_append.1 hsc with hm | hm
      · exact st.laid_out_setCur h _
          (Scope.laid_out_other _ hcur _ _ (by intro v hv; cases hv)) sc hm
      · rw [List.mem_singleton.1 hm]
        exact Scope.laid_out_fresh _ _
  | leave_scope =>
    simp only [SymOp.apply, leave_scope]
    cases st.cur.previous <;> simpa using h
  | find _ _ => exact h
  | get_var_info _ => exact h
  | get_proc_info _ => exact h
  | get_func_info _ => exact h

/-- Every sequence of calls keeps the layout of every scope. -/
theorem laid_out_run (ops : List SymOp) : ∀ (st : SymbolTable),
    (∀ sc ∈ st.scopes, sc.laid_out) → ∀ sc ∈ (st.run ops).scopes, sc.laid_out := by
  induction ops with
  | nil => intro st h; exact h
  | cons op rest ih =>
    intro st h
    exact ih (op.apply st) (laid_out_apply st op h)

/-- Example for C31 (the disjointness does not hold): in the scope of
`procedure p(a: integer); var x, y, z: integer;` the parameter `a` and the local `z` both have
the offset 8. -/
theorem parameter_local_same_offset :
    (SymbolTable.new.run one_parameter_three_locals).entry_at 1 "a" =
      some (.var
        { type := .Integer, name := "", size := 4, offset := 8, pass_by_ref := false,
          is_param := true, next := none }) ∧
    (SymbolTable.new.run one_parameter_three_locals).entry_at 1 "z" =
      some (.var
        { type := .Integer, name := "", size := 4, offset := 8, pass_by_ref := false,
          is_param := false, next := none }) ∧
    (var_entries true scope_of_p.table).map (fun v => v.offset) = [8] ∧
    (var_entries false scope_of_p.table).map (fun v => v.offset) = [0, 4, 8] := by
  decide

/-- C31 (amended). In every scope of every state that a sequence of calls of the member
functions builds from the initial symbol table, the offsets of the parameters are `8`,
`8 + s1`, `8 + s1 + s2`, ... and the offsets of the locals are `0`, `t1`, `t1 + t2`, ..., where
`s1, s2, ...` and `t1, t2, ...` are the sizes of the parameters and of the locals in the order of
their declaration and the sums are taken modulo `2 ^ 64`: the first parameter has the offset 8,
the first local the offset 0, and every parameter has an offset of at least 8 when the sizes of
the parameters total less than `2 ^ 64 - 8`.  The two sets of offsets need not be disjoint: a
local that follows 8 bytes of locals has the offset 8 of the first parameter. -/
theorem scope_offsets (ops : List SymOp) (sc : Scope)
    (hsc : sc ∈ (SymbolTable.new.run ops).scopes) :
    (var_entries true sc.table).map (fun v => v.offset) =
      frame_offsets 8 ((var_entries true sc.table).map (fun v => v.size)) ∧
    (var_entries false sc.table).map (fun v => v.offset) =
      frame_offsets 0 ((var_entries false sc.table).map (fun v => v.size)) ∧
    (∀ v, (var_entries true sc.table).head? = some v → v.offset = 8) ∧
    (∀ v, (var_entries false sc.table).head? = some v → v.offset = 0) ∧
    (8 + ((var_entries true sc.table).map (fun v => v.size)).sum < U64 →
      ∀ v ∈ var_entries true sc.table, 8 ≤ v.offset) := by
  have hl : sc.laid_out := by
    refine laid_out_run ops SymbolTable.new ?_ sc hsc
    intro s hs
    simp only [SymbolTable.new, List.mem_singleton] at hs
    rw [hs]
    exact Scope.laid_out_fresh _ _
  obtain ⟨h1, h2, _, _⟩ := hl
  rw [var_sizes_eq_map] at h1 h2
  refine ⟨h1, h2, ?_, ?_, ?_⟩
  · intro v hv
    cases hl : var_entries true sc.table with
    | nil => simp [hl] at hv
    | cons a rest =>
      simp only [hl, List.head?_cons, Option.some.injEq] at hv
      rw [hl] at h1
      simp only [List.map_cons, frame_offsets, List.cons.injEq] at h1
      rw [← hv, h1.1]
      decide
  · intro v hv
    cases hl : var_entries false sc.table with
    | nil => simp [hl] at hv
    | cons a rest =>
      simp only [hl, List.head?_cons, Option.some.injEq] at hv
      rw [hl] at h2
      simp only [List.map_cons, frame_offsets, List.cons.injEq] at h2
      rw [← hv, h2.1]
      decide
  · intro hsum v hv
    have hm : v.offset ∈ (var_entries true sc.table).map (fun v => v.offset) :=
      List.mem_map_of_mem _ hv
    rw [h1] at hm
    exact frame_offsets_ge _ 8 hsum _ hm

/-- The claim C31 (amended) at the scope of `procedure p(a: integer); var x, y, z: integer;` -/
theorem scope_offsets_witness :
    scope_of_p ∈ (SymbolTable.new.run one_parameter_three_locals).scopes ∧
    ((var_entries true scope_of_p.table).map (fun v => v.offset) =
      frame_offsets 8 ((var_entries true scope_of_p.table).map (fun v => v.size)) ∧
    (var_entries false scope_of_p.table).map (fun v => v.offset) =
      frame_offsets 0 ((var_entries false scope_of_p.table).map (fun v => v.size)) ∧
    (∀ v, (var_entries true scope_of_p.table).head? = some v → v.offset = 8) ∧
    (∀ v, (var_entries false scope_of_p.table).head? = some v → v.offset = 0) ∧
    (8 + ((var_entries true scope_of_p.table).map (fun v => v.size)).sum < U64 →
      ∀ v ∈ var_entries true scope_of_p.table, 8 ≤ v.offset)) :=
  ⟨by decide, scope_offsets one_parameter_three_locals scope_of_p (by decide)⟩

/-! ## C32: the accept branch of the scanner -/

/-- The accept branch with a lexeme that is not blank: the token of `Lexer.make_token` is
pushed and the loop ends or starts over. -/
theorem Lexer.scan_accept (STATE_TBL : Nat → DfaState → DfaState)
    (RESERVED_WORDS : List String) (input : List Nat) (fuel pos : Nat)
    (prev_state state : DfaState) (str : String) (lx : Lexer)
    (hacc : STATE_TBL ((input[pos]?).getD 0) state = .Accept ∨ (input[pos]?).getD 0 = 0)
    (hne : Lexer.trim str ≠ "") :
    Lexer.scan STATE_TBL RESERVED_WORDS input (fuel + 1) pos prev_state state str lx =
      (Lexer.make_token STATE_TBL RESERVED_WORDS ((input[pos]?).getD 0) state str).bind
        (fun token => Lexer.after_accept STATE_TBL RESERVED_WORDS input fuel pos lx token) := by
  have hc : (STATE_TBL ((input[pos]?).getD 0) state == DfaState.Accept ||
      (input[pos]?).getD 0 == 0) = true := by
    rcases hacc with h | h <;> simp [h]
  have hn : (Lexer.trim str).isEmpty = false := by
    cases he : (Lexer.trim str).isEmpty
    · rfl
    · exact absurd ((String.isEmpty_iff _).1 he) hne
  simp only [Lexer.scan, hc, hn, if_true, Bool.not_false, bind, Except.bind, pure, Except.pure]
  cases Lexer.make_token STATE_TBL RESERVED_WORDS ((input[pos]?).getD 0) state str with
  | error e => rfl
  | ok token =>
    by_cases h0 : (input[pos]?).getD 0 = 0
    · simp [Lexer.after_accept, h0]
    · simp [Lexer.after_accept, h0]

/-- The first element that `dropWhile` keeps does not satisfy the test. -/
theorem head?_dropWhile_not {α : Type} (q : α → Bool) (l : List α) (c : α)
    (h : (l.dropWhile q).head? = some c) : q c = false := by
  induction l with
  | nil => simp at h
  | cons a rest ih =>
    cases hq : q a with
    | true =>
      rw [List.dropWhile_cons_of_pos hq] at h
      exact ih h
    | false =>
      rw [List.dropWhile_cons_of_neg (by simp [hq])] at h
      simp only [List.head?_cons, Option.some.injEq] at h
      rw [← h]
      exact hq

/-- The result of `Lexer::trim` on the characters of the text: what `ltrim` leaves, without the
run of `WHITESPACE` characters at its end. -/
theorem Lexer.trim_toList (s : String) :
    (Lexer.trim s).toList =
      ((s.toList.dropWhile (fun c => Lexer.WHITESPACE.contains c)).reverse.dropWhile
        (fun c => Lexer.WHITESPACE.contains c)).reverse := by
  simp [Lexer.trim, Lexer.rtrim, Lexer.ltrim]

/-- What `Lexer::trim` returns: the text is a run of `WHITESPACE` characters, the result, and
another run of `WHITESPACE` characters, and the result neither begins nor ends with a
`WHITESPACE` character. -/
theorem Lexer.trim_spec (s : String) :
    (∃ pre post, s.toList = pre ++ (Lexer.trim s).toList ++ post ∧
      (∀ c ∈ pre, c ∈ Lexer.WHITESPACE) ∧ (∀ c ∈ post, c ∈ Lexer.WHITESPACE)) ∧
    (∀ c, (Lexer.trim s).toList.head? = some c → c ∉ Lexer.WHITESPACE) ∧
    (∀ c, (Lexer.trim s).toList.getLast? = some c → c ∉ Lexer.WHITESPACE) := by
  rw [Lexer.trim_toList]
  generalize hq : (fun c => Lexer.WHITESPACE.contains c) = q
  have hmem : ∀ c, q c = true → c ∈ Lexer.WHITESPACE := by
    intro c hc
    rw [← hq] at hc
    simpa using hc
  have hnot : ∀ c, q c = false → c ∉ Lexer.WHITESPACE := by
    intro c hc hm
    rw [← hq] at hc
    simp [hm] at hc
  generalize hm : s.toList.dropWhile q = m
  have h1 : s.toList = s.toList.takeWhile q ++ m := by
    rw [← hm]
    exact (List.takeWhile_append_dropWhile q s.toList).symm
  have h2 : m = (m.reverse.dropWhile q).reverse ++ (m.reverse.takeWhile q).reverse := by
    have h := List.takeWhile_append_dropWhile q m.reverse
    calc m = m.reverse.reverse := (List.reverse_reverse m).symm
      _ = (m.reverse.takeWhile q ++ m.reverse.dropWhile q).reverse := by rw [h]
      _ = _ := List.reverse_append _ _
  refine ⟨⟨s.toList.takeWhile q, (m.reverse.takeWhile q).reverse, ?_, ?_, ?_⟩, ?_, ?_⟩
  · rw [List.append_assoc, ← h2]
    exact h1
  · intro c hc
    exact hmem c (List.mem_takeWhile_imp hc)
  · intro c hc
    exact hmem c (List.mem_takeWhile_imp (List.mem_reverse.1 hc))
  · intro c hc
    apply hnot
    have hne : (m.reverse.dropWhile q).reverse ≠ [] := by
      intro he
      simp [he] at hc
    have hh : m.head? = some c := by
      rw [h2, List.head?_append_of_ne_nil _ hne]
      exact hc
    rw [← hm] at hh
    exact head?_dropWhile_not q _ c hh
  · intro c hc
    apply hnot
    rw [List.getLast?_reverse] at hc
    exact head?_dropWhile_not q _ c hc

/-- C32. For every transition table and every list of reserved words: when the scanner reads
a byte whose transition is `Accept`, or reaches the end of the input, while the trimmed lexeme
is not empty, the token it pushes at the end of the queue is decided by the state it is in:
`Letter` gives a `ReservedWord` when the trimmed lexeme is in the list and a `Word` otherwise,
`Integer` gives an `Integer`, `RealRational` and `RealThirdExpDigit` give a `Real`, `Special`,
`Dot` and `Colon` give a `Special`, each with the trimmed lexeme as text; the scanner then
stops at the end of the input and otherwise goes on with an empty accumulator in the state
`Whitespace` (`Lexer.after_accept`); in every other state no token is pushed and the run ends
with a `std::runtime_error`.  The trimmed lexeme `Lexer.trim str` is the accumulated text
without the white space around it: the text is a run of characters of `WHITESPACE` (space, line
feed, carriage return, tab, form feed, vertical tab), the trimmed lexeme, and another such run,
and the trimmed lexeme neither begins nor ends with a character of `WHITESPACE`. -/
theorem accept_branch_token (STATE_TBL : Nat → DfaState → DfaState)
    (RESERVED_WORDS : List String) (input : List Nat) (fuel pos : Nat)
    (prev_state state : DfaState) (str : String) (lx : Lexer)
    (hacc : STATE_TBL ((input[pos]?).getD 0) state = .Accept ∨ (input[pos]?).getD 0 = 0)
    (hne : Lexer.trim str ≠ "") :
    (state = .Letter → Lexer.trim str ∈ RESERVED_WORDS →
      Lexer.scan STATE_TBL RESERVED_WORDS input (fuel + 1) pos prev_state state str lx =
        Lexer.after_accept STATE_TBL RESERVED_WORDS input fuel pos lx
          (.ReservedWord (Lexer.trim str))) ∧
    (state = .Letter → Lexer.trim str ∉ RESERVED_WORDS →
      Lexer.scan STATE_TBL RESERVED_WORDS input (fuel + 1) pos prev_state state str lx =
        Lexer.after_accept STATE_TBL RESERVED_WORDS input fuel pos lx
          (.Word (Lexer.trim str))) ∧
    (state = .Integer →
      Lexer.scan STATE_TBL RESERVED_WORDS input (fuel + 1) pos prev_state state str lx =
        Lexer.after_accept STATE_TBL RESERVED_WORDS input fuel pos lx
          (.Integer (Lexer.trim str))) ∧
    (state = .RealRational ∨ state = .RealThirdExpDigit →
      Lexer.scan STATE_TBL RESERVED_WORDS input (fuel + 1) pos prev_state state str lx =
        Lexer.after_accept STATE_TBL RESERVED_WORDS input fuel pos lx
          (.Real (Lexer.trim str))) ∧
    (state = .Special ∨ state = .Dot ∨ state = .Colon →
      Lexer.scan STATE_TBL RESERVED_WORDS input (fuel + 1) pos prev_state state str lx =
        Lexer.after_accept STATE_TBL RESERVED_WORDS input fuel pos lx
          (.Special (Lexer.trim str))) ∧
    (state ∉ [DfaState.Letter, .Integer, .RealRational, .RealThirdExpDigit, .Special, .Dot,
        .Colon] →
      ∃ what,
        Lexer.scan STATE_TBL RESERVED_WORDS input (fuel + 1) pos prev_state state str lx =
          .error (.runtime_error what)) ∧
    (∃ pre post, str.toList = pre ++ (Lexer.trim str).toList ++ post ∧
      (∀ c ∈ pre, c ∈ Lexer.WHITESPACE) ∧ (∀ c ∈ post, c ∈ Lexer.WHITESPACE)) ∧
    (∀ c, (Lexer.trim str).toList.head? = some c → c ∉ Lexer.WHITESPACE) ∧
    (∀ c, (Lexer.trim str).toList.getLast? = some c → c ∉ Lexer.WHITESPACE) ∧
    Lexer.WHITESPACE =
      [Char.ofNat 32, Char.ofNat 10, Char.ofNat 13, Char.ofNat 9, Char.ofNat 12,
       Char.ofNat 11] := by
  rw [Lexer.scan_accept STATE_TBL RESERVED_WORDS input fuel pos prev_state state str lx hacc hne]
  refine ⟨?_, ?_, ?_, ?_, ?_, ?_, (Lexer.trim_spec str).1, (Lexer.trim_spec str).2.1,
    (Lexer.trim_spec str).2.2, by decide⟩
  · intro hs hr
    subst hs
    simp [Lexer.make_token, hr, Except.bind, pure, Except.pure]
  · intro hs hr
    subst hs
    simp [Lexer.make_token, hr, Except.bind, pure, Except.pure]
  · intro hs
    subst hs
    simp [Lexer.make_token, Except.bind, pure, Except.pure]
  · intro hs
    rcases hs with hs | hs <;> subst hs <;>
      simp [Lexer.make_token, Except.bind, pure, Except.pure]
  · intro hs
    rcases hs with hs | hs | hs <;> subst hs <;>
      simp [Lexer.make_token, Except.bind, pure, Except.pure]
  · intro hs
    cases state <;> simp at hs <;> exact ⟨_, rfl⟩

/-- The claim C32 on the text `  if x` (two blanks before `if`) with the table
`letters_table`: at the blank after `if` the scanner is in the state `Letter`, the accumulator
holds the two blanks and `if`, and the token pushed is the reserved word `if` without the
blanks; the accumulator splits into the two blanks, the trimmed lexeme `if` and nothing. -/
theorem accept_branch_token_witness :
    (letters_table (((bytes_of "  if x")[4]?).getD 0) .Letter = .Accept ∨
      ((bytes_of "  if x")[4]?).getD 0 = 0) ∧
    Lexer.trim "  if" ≠ "" ∧
    Lexer.scan letters_table RESERVED_WORDS (bytes_of "  if x") (9 + 1) 4 .Letter .Letter
        "  if" { tokens := [], token_count := 0 } =
      Lexer.after_accept letters_table RESERVED_WORDS (bytes_of "  if x") 9 4
        { tokens := [], token_count := 0 } (.ReservedWord "if") ∧
    (∀ c, (Lexer.trim "  if").toList.head? = some c → c ∉ Lexer.WHITESPACE) ∧
    Lexer.trim "  if" = "if" ∧ Lexer.trim " \tif \n" = "if" ∧ Lexer.trim "a b" = "a b" :=
  ⟨by decide, by decide,
   (accept_branch_token letters_table RESERVED_WORDS (bytes_of "  if x") 9 4 .Letter .Letter
      "  if" { tokens := [], token_count := 0 } (by decide) (by decide)).1 rfl (by decide),
   (accept_branch_token letters_table RESERVED_WORDS (bytes_of "  if x") 9 4 .Letter .Letter
      "  if" { tokens := [], token_count := 0 } (by decide) (by decide)).2.2.2.2.2.2.2.1,
   by decide, by decide, by decide⟩

/-- The scanner on the text `  if x` with the table `letters_table`: the blanks before `if`
are accumulated with it and trimmed away. -/
theorem scan_blanks :
    Lexer.new letters_table RESERVED_WORDS 30 (bytes_of "  if x") =
      .ok { tokens := [.ReservedWord "if", .Word "x"], token_count := 2 } := by
  decide!

/-- The scanner on the text `if x ; begin` with the table `letters_table`. -/
theorem scan_letters :
    Lexer.new letters_table RESERVED_WORDS 30 (bytes_of "if x ; begin") =
      .ok { tokens := [.ReservedWord "if", .Word "x", .Special ";", .ReservedWord "begin"],
            token_count := 4 } := by
  decide!

/-! ## C33: the token queue -/

theorem Lexer.get_tokens_eq (k : Nat) : ∀ (lx : Lexer),
    Lexer.get_tokens k lx =
      ((List.range k).map (fun i => lx.tokens[i]?), { lx with tokens := lx.tokens.drop k }) := by
  induction k with
  | zero => intro lx; simp [Lexer.get_tokens]
  | succ k ih =>
    intro lx
    simp only [Lexer.get_tokens, ih, Lexer.get_token_eq]
    refine Prod.ext ?_ ?_
    · simp only [List.range_succ_eq_map, List.map_cons, List.map_map]
      refine congrArg₂ _ rfl ?_
      refine List.map_congr_left ?_
      intro i _
      simp [List.getElem?_drop, Nat.add_comm]
    · simp [Nat.add_comm]

/-- C33. On the queue of the tokens `ts` that the constructor has pushed, `k` calls of
`get_token` return `ts[0]`, `ts[1]`, ... in order and nothing from the call `ts.length + 1` on;
after them `number_of_tokens` returns the pair `(ts.length, ts.length - k)` (the subtraction
stops at 0), and a call on the empty queue returns nothing and leaves the lexer as it is. -/
theorem get_token_order (ts : List Token) (k j : Nat) :
    (Lexer.get_tokens k (Lexer.of_tokens ts)).1 = (List.range k).map (fun i => ts[i]?) ∧
    (Lexer.get_tokens k (Lexer.of_tokens ts)).2.number_of_tokens =
      (ts.length, ts.length - k) ∧
    (Lexer.get_tokens (ts.length + j) (Lexer.of_tokens ts)).2.get_token =
      (none, (Lexer.get_tokens (ts.length + j) (Lexer.of_tokens ts)).2) ∧
    (Lexer.get_tokens (k + 1) (Lexer.of_tokens ts)).2.number_of_tokens =
      ((Lexer.get_tokens k (Lexer.of_tokens ts)).2.number_of_tokens.1,
       (Lexer.get_tokens k (Lexer.of_tokens ts)).2.number_of_tokens.2 - 1) := by
  refine ⟨?_, ?_, ?_, ?_⟩
  · simp [Lexer.get_tokens_eq, Lexer.of_tokens_eq]
  · simp [Lexer.get_tokens_eq, Lexer.of_tokens_eq, Lexer.number_of_tokens]
  · have h1 : List.drop (ts.length + j) ts = [] := List.drop_eq_nil_of_le (by omega)
    simp [Lexer.get_tokens_eq, Lexer.of_tokens_eq, Lexer.get_token_eq, h1]
  · simp [Lexer.get_tokens_eq, Lexer.of_tokens_eq, Lexer.number_of_tokens, Nat.sub_add_eq]

/-- The calls of `get_token` on the queue of `x := 1+2` (five tokens). -/
theorem get_token_example :
    Lexer.get_tokens 6 (Lexer.of_tokens literal_sum) =
      ([some (.Word "x"), some (.Special ":="), some (.Integer "1"), some (.Special "+"),
        some (.Integer "2"), none], { tokens := [], token_count := 5 }) := by
  decide

/-! ## C34: the staging stream and the listing -/

/-- The subtraction of two `Real` operands that are not both literals: written to the listing
it is a `SUB` line, written to a staging stream it is an `ADD` line. -/
theorem term_prime_arith_real_difference (p : Parser) (lhs rhs : VarValue)
    (rest : List VarValue) (hv : p.values = rhs :: lhs :: rest) (hl : lhs.type = .Real)
    (hr : rhs.type = .Real) (hlit : (lhs.literal.isSome && rhs.literal.isSome) = false)
    (hg : p.gpr_index = 2 ∨ p.gpr_index = 3) :
    ∃ a b, gprs_at ((p.gpr_index : Int) - 2) = .ok a ∧ gprs_at ((p.gpr_index : Int) - 1) = .ok b ∧
      (term_prime_arith "-" false p).map (fun q => (q.asm_output, q.stage)) =
        .ok (p.asm_output ++ ["SUB " ++ a ++ ", " ++ a ++ ", " ++ b], p.stage) ∧
      (term_prime_arith "-" true p).map (fun q => (q.asm_output, q.stage)) =
        .ok (p.asm_output, p.stage ++ ["ADD " ++ a ++ ", " ++ a ++ ", " ++ b]) := by
  have hi : integral_pair lhs rhs = false := by simp [integral_pair, hl, hr]
  have e1 : ("-" == "+") = false := by decide
  rcases hg with hg | hg
  · refine ⟨"EAX", "EBX", by rw [hg]; rfl, by rw [hg]; rfl, ?_, ?_⟩ <;>
      simp [term_prime_arith, Parser.pop, hv, hi, hl, hr, hlit, e1, Parser.gprs_exhausted, gprs,
        Parser.emit_binary, hg, gprs_at, Parser.emit, Parser.gpr_sub, Parser.push, bind,
        Except.bind, pure, Except.pure, Except.map]
  · refine ⟨"EBX", "ECX", by rw [hg]; rfl, by rw [hg]; rfl, ?_, ?_⟩ <;>
      simp [term_prime_arith, Parser.pop, hv, hi, hl, hr, hlit, e1, Parser.gprs_exhausted, gprs,
        Parser.emit_binary, hg, gprs_at, Parser.emit, Parser.gpr_sub, Parser.push, bind,
        Except.bind, pure, Except.pure, Except.map]

/-- C34 (the code departs from the claim). With two `Real` operands without literals in `EAX`
and `EBX`, the subtraction step of `term_prime` writes `SUB EAX, EAX, EBX` to the listing when
no staging stream is supplied and `ADD EAX, EAX, EBX` to the staging stream when one is: the
value stack and the register index agree, the instruction text does not.  So the argument of
the call `q(x - y)` is computed by an `ADD` line, while the assignment `x := x - y` in the same
program is computed by a `SUB` line. -/
theorem staged_real_difference :
    outcome (term_prime_arith "-" false (operand_state 2 [real_value, real_value])) =
      .ok (prologue ++ ["SUB EAX, EAX, EBX"], [], [real_value], 1) ∧
    outcome (term_prime_arith "-" true (operand_state 2 [real_value, real_value])) =
      .ok (prologue, ["ADD EAX, EAX, EBX"], [real_value], 1) ∧
    listing_of (Parser.parse 200 (program_with real_declarations (call_tokens "q" difference))) =
      .ok (listing (q_lines ++ ["kmain:", "MOV EAX, [EBP + 0]", "MOV EBX, [EBP + 4]",
        "ADD EAX, EAX, EBX", "PUSH EAX", "CALL q"])) ∧
    listing_of (Parser.parse 200
        (program_with real_declarations ([.Word "x", .Special ":="] ++ difference))) =
      .ok (listing (q_lines ++ ["kmain:", "MOV EAX, [EBP + 0]", "MOV EBX, [EBP + 4]",
        "SUB EAX, EAX, EBX", "MOV [EBP + 0], EAX"])) := by
  decide!

/-! ## C35: the register index across an assignment -/

/-- C35 (the code departs from the claim). The accepted assignment `x := 1+2` starts with the
register index 0 and ends with the register index 1: the folded sum releases neither of the
registers of its two literals and the store releases one.  The program with three such
assignments is accepted and ends with the index 3; the program with four is rejected with
"Bad code: expression is too complicated". -/
theorem folded_assignment_keeps_register :
    (body_state literal_sum).gpr_index = 0 ∧
    (statement 50 (body_state literal_sum)).map (fun p => p.gpr_index) = .ok 1 ∧
    (Parser.parse 200 (program_tokens "x" "integer" (literal_sums 2))).map
      (fun p => (p.gpr_index, main_good_code p)) = .ok (3, true) ∧
    Parser.parse 200 (program_tokens "x" "integer" (literal_sums 3)) =
      .error (.runtime_error "Bad code: expression is too complicated") := by
  decide!

/-! ## C36: the indices of the register list -/

/-- C36 (the code departs from the claim). In `x := -y` the unary minus reads
`gprs[gpr_index - 1]` while the register index is 0, and in `b := x < y` the store reads
`gprs[gpr_index - 1]` after the comparison has set the register index back to 0: both
accesses use the index -1. -/
theorem register_index_below_zero :
    (body_state negated_variable).gpr_index = 0 ∧
    Parser.parse 200 (program_with integer_declarations negated_variable) =
      .error (.undefined "gprs index out of range") ∧
    Parser.parse 200 (program_with integer_declarations comparison_assignment) =
      .error (.undefined "gprs index out of range") ∧
    gprs_at ((0 : Int) - 1) = .error (.undefined "gprs index out of range") := by
  decide!

/-! ## C37: the register of a unary minus -/

/-- C37 (the code departs from the claim). In `x := y + -z` the line `NEG EAX` is written
after the load of `y` into `EAX` and before the load of `z` into `EBX`: it names the register
of `y`, and the register of `z` is never negated. -/
theorem negation_before_operand :
    listing_of (Parser.parse 200 (program_with integer_declarations sum_with_negation)) =
      .ok (listing ["kmain:", "MOV EAX, [EBP + 4]", "NEG EAX", "MOV EBX, [EBP + 8]",
        "ADD EAX, EAX, EBX", "MOV [EBP + 0], EAX"]) := by
  decide!

/-! ## C38: the labels of conjunctions -/

/-- The label `or<k>:` of a conjunction in the test of an `if` statement is written at `then`,
after the jump. -/
theorem conjunction_test_listing :
    listing_of (Parser.parse 200 (program_tokens "x" "integer" conjunction_test)) =
      .ok (listing ["kmain:", "MOV EAX, [EBP + 0]", "mov EBX, 1", "CMP EAX, EBX", "JGE or0",
        "MOV EAX, [EBP + 0]", "mov EBX, 0", "CMP EAX, EBX", "JG if0", "or0:", "JMP else0",
        "if0:", "mov EAX, 0", "MOV [EBP + 0], EAX", "JMP endif0", "else0:", "JMP endif0",
        "endif0:"]) := by
  decide!

/-- C38 (the code departs from the claim). The program
`program P; var b: boolean; begin b := (1 + 2 < 4) and (1 < 2) end.` is accepted ("Good code");
its listing holds the jump `JGE or0` of the conjunction and no line `or0:`: the label of a
conjunction is written by `then`, `do` and `or` only, and the assignment ends with the label
still owed (`or_used` is set). -/
theorem conjunction_jump_without_label :
    listing_of (Parser.parse 200 (program_tokens "b" "boolean" conjunction_assignment)) =
      .ok (listing ["kmain:", "mov EAX, 1", "mov EBX, 2", "mov ECX, 4", "CMP EBX, ECX",
        "JGE or0", "mov EBX, 1", "mov ECX, 2", "CMP EBX, ECX", "MOV [EBP + 0], EAX"]) ∧
    (Parser.parse 200 (program_tokens "b" "boolean" conjunction_assignment)).map
      (fun p => (main_good_code p, p.or_used, p.asm_output.count "JGE or0",
        p.asm_output.count "or0:")) = .ok (true, true, 1, 0) := by
  decide!

/-! ## C39: the name of a function inside its own scope -/
/-- A variable entry of the current scope answers every lookup of a procedure or a function of
its name with nothing. -/
theorem callable_lookups_of_entry_at (st : SymbolTable) (name : String) (v : VarData)
    (h : st.entry_at st.cur_scope name = some (.var v)) :
    get_func_info st name = none ∧ find st name .Function = none ∧
      get_proc_info st name = none ∧ find st name .Procedure = none := by
  have hl : st.cur.table.lookup name = some (.var v) := by
    simp only [SymbolTable.entry_at] at h
    cases hs : st.scopes[st.cur_scope]? with
    | none => simp [hs] at h
    | some sc =>
      rw [SymbolTable.cur_eq_of_getElem? st sc hs]
      simpa [hs] using h
  refine ⟨?_, ?_, ?_, ?_⟩
  · rw [get_func_info_eq, hl]
  · rw [find_of_lookup_cur st name .Function _ hl]
    rfl
  · rw [get_proc_info_eq, hl]
  · rw [find_of_lookup_cur st name .Procedure _ hl]
    rfl

/-- The entry that a successful `enter_func_scope` stores in the scope it was called in. -/
theorem function_entry_stored (st : SymbolTable) (name : String)
    (hcur : st.cur_scope < st.scopes.length) (h : (enter_func_scope st name).1 = true) :
    (enter_func_scope st name).2.entry_at st.cur_scope name =
      some (.func { name := name, next := some st.scopes.length }) := by
  have hc : st.cur.table.contains name = false := by
    cases hc : st.cur.table.contains name
    · rfl
    · simp [enter_func_scope, hc] at h
  have hn : List.lookup name st.cur.table = none := by
    simpa [Table.contains] using hc
  rw [enter_func_scope_eq st name hc]
  simp [SymbolTable.entry_at, List.getElem?_append_left, hcur, List.getElem?_set,
    lookup_append_singleton, hn]

/-- Two steps of the loop of `find`: the name is not in the scope at `i` and is in its parent. -/
theorem find_loop_parent (L : List Scope) (n i c : Nat) (name : String) (type : FindType)
    (e : Entry) (child parent : Scope) (h1 : L[i]? = some child)
    (h2 : child.table.lookup name = none) (h3 : child.previous = some c)
    (h4 : L[c]? = some parent) (h5 : parent.table.lookup name = some e)
    (h6 : e.matches_kind type = true) :
    find_loop (n + 2) L (some i) name type = some e := by
  simp [find_loop, h1, h2, h3, h4, h5, h6]

/-- Before the return slot is declared, the scope of the function is empty and `find` reaches
the entry of the function in the scope around it. -/
theorem function_found_before_slot (st : SymbolTable) (name : String)
    (hcur : st.cur_scope < st.scopes.length) (h : (enter_func_scope st name).1 = true) :
    find (enter_func_scope st name).2 name .Function =
      some (.func { name := name, next := some st.scopes.length }) := by
  have hc : st.cur.table.contains name = false := by
    cases hc : st.cur.table.contains name
    · rfl
    · simp [enter_func_scope, hc] at h
  have hent := function_entry_stored st name hcur h
  obtain ⟨parent, hp, hl⟩ : ∃ parent,
      (enter_func_scope st name).2.scopes[st.cur_scope]? = some parent ∧
      parent.table.lookup name =
        some (.func { name := name, next := some st.scopes.length }) := by
    simp only [SymbolTable.entry_at] at hent
    cases hs : (enter_func_scope st name).2.scopes[st.cur_scope]? with
    | none => simp [hs] at hent
    | some sc => exact ⟨sc, rfl, by simpa [hs] using hent⟩
  have hchild : (enter_func_scope st name).2.scopes[st.scopes.length]? =
      some { table := [], param_offset := 0, var_offset := 0, name := name,
             previous := some st.cur_scope } := by
    rw [enter_func_scope_eq st name hc]
    simp
  obtain ⟨hcs, hlen⟩ := enter_func_scope_cursor st name h
  have hlen2 : (enter_func_scope st name).2.scopes.length = (st.scopes.length - 1) + 2 := by
    rw [hlen]
    omega
  unfold find
  rw [hlen2, hcs]
  exact find_loop_parent _ _ _ _ name .Function _ _ _ hchild rfl rfl hp hl rfl

/-- C39. First, on the symbol table alone: when `add_variable` has stored a name in the current
scope (as the declaration of the return slot does with the name of the function), then in every
later state in which that scope is the current one `get_func_info` and `find` with kind
`Function` return nothing for the name, and so do `get_proc_info` and `find` with kind
`Procedure`.  Second, on the parser: a run of `pfv` on a function declaration that returns is
the run `FunctionRun` of the function branch (name read and scope entered, parameter list
parsed to `qp`, type parsed to `q0`, return slot declared in `q`, body parsed from `q` to `qb`,
rest of the declarations from `qb` to `p'`).  Right after `enter_func_scope` the name is found
as a function (`find` reaches the entry in the scope around).  In the state `q`, the state in
which the body is parsed, the scope around still holds the function entry, the scope of the
function holds a variable entry under the same name, and the lookups of a function return
nothing for the name; the same holds in every later state of the symbol table in which the
scope of the function is the current one, and there a factor or a statement that begins with
the name of the function is parsed as a use of the variable: `fact_r` takes the branch of a
local variable and `statement` the branch of an assignment. -/
theorem function_name_not_callable :
    (∀ (st : SymbolTable) (name : String) (type : VarType) (size : Nat)
      (pass_by_ref is_param : Bool), st.cur_scope < st.scopes.length →
      (add_variable st name type size pass_by_ref is_param).1 = true →
      ∀ ops, ((add_variable st name type size pass_by_ref is_param).2.run ops).cur_scope =
          st.cur_scope →
        get_func_info ((add_variable st name type size pass_by_ref is_param).2.run ops) name =
          none ∧
        find ((add_variable st name type size pass_by_ref is_param).2.run ops) name
          .Function = none ∧
        get_proc_info ((add_variable st name type size pass_by_ref is_param).2.run ops) name =
          none ∧
        find ((add_variable st name type size pass_by_ref is_param).2.run ops) name
          .Procedure = none) ∧
    (∀ (fuel : Nat) (p p' : Parser), p.token = some (.ReservedWord "function") →
      p.symtab.cur_scope < p.symtab.scopes.length → pfv fuel p = .ok p' →
      ∃ f func_name qp q0 q qb v,
        fuel = f + 1 ∧ FunctionRun f p p' func_name qp q0 q qb ∧
        find (p.enter_function func_name).symtab func_name .Function =
          some (.func { name := func_name, next := some p.symtab.scopes.length }) ∧
        q.symtab.cur_scope = (p.enter_function func_name).symtab.cur_scope ∧
        q.symtab.entry_at p.symtab.cur_scope func_name =
          some (.func { name := func_name, next := some p.symtab.scopes.length }) ∧
        q.symtab.entry_at q.symtab.cur_scope func_name = some (.var v) ∧
        get_func_info q.symtab func_name = none ∧
        find q.symtab func_name .Function = none ∧
        ∀ ops, (q.symtab.run ops).cur_scope = q.symtab.cur_scope →
          get_func_info (q.symtab.run ops) func_name = none ∧
          find (q.symtab.run ops) func_name .Function = none ∧
          get_proc_info (q.symtab.run ops) func_name = none ∧
          find (q.symtab.run ops) func_name .Procedure = none ∧
          ∀ (s : Parser) (n : Nat) (stream : Bool), s.symtab = q.symtab.run ops →
            s.token = some (.Word func_name) →
            fact_r (n + 1) stream s = fact_r_local v stream s ∧
            statement (n + 1) s =
              (statement_assign_begin v.type s >>= fun s1 =>
                expression n false s1 >>= fun s2 => statement_store v s2)) := by
  constructor
  · intro st name type size pass_by_ref is_param hcur hok ops hops
    have hent := entry_at_run ops _ _ _ _
      (entry_at_inserted st name type size pass_by_ref is_param hcur hok)
    rw [← hops] at hent
    exact callable_lookups_of_entry_at _ _ _ hent
  · intro fuel p p' htok hcur h
    obtain ⟨f, name, dtype, type, size, qp, q0, q, qb, hf, hrun, d1, d2, d3, d4, hcur0, hvalid,
      hkeep⟩ := pfv_function_run fuel p p' htok h
    have hflag : (enter_func_scope p.symtab name).1 = true := hrun.2.1
    have hent := entry_at_inserted q0.symtab name type size false false hvalid d3
    have hc6 : q.symtab.cur_scope = q0.symtab.cur_scope := by
      rw [d4]
      exact add_variable_cur_scope _ _ _ _ _ _
    rw [← d4, ← hc6] at hent
    have hpar0 : (p.enter_function name).symtab.entry_at p.symtab.cur_scope name =
        some (.func { name := name, next := some p.symtab.scopes.length }) :=
      function_entry_stored p.symtab name hcur hflag
    have hpar5 := hkeep _ _ _ hpar0
    have hpar6 : q.symtab.entry_at p.symtab.cur_scope name =
        some (.func { name := name, next := some p.symtab.scopes.length }) := by
      rw [d4]
      exact entry_at_apply q0.symtab (.add_variable name type size false false) _ _ _ hpar5
    obtain ⟨g1, g2, _, _⟩ := callable_lookups_of_entry_at _ _ _ hent
    refine ⟨f, name, qp, q0, q, qb, _, hf, hrun,
      function_found_before_slot p.symtab name hcur hflag, hc6.trans hcur0, hpar6, hent, g1, g2,
      ?_⟩
    intro ops hops
    have hr := entry_at_run ops _ _ _ _ hent
    rw [← hops] at hr
    obtain ⟨r1, r2, r3, r4⟩ := callable_lookups_of_entry_at _ _ _ hr
    refine ⟨r1, r2, r3, r4, ?_⟩
    intro s n stream hs ht
    have hv := (lookups_of_entry_at _ _ _ hr).1
    rw [← hs] at hv
    constructor
    · simp only [fact_r, Parser.tok, ht, hv, bind, Except.bind]
    · simp only [statement, Parser.tok, ht, hv, bind, Except.bind]

/-- The claim C39 at the declaration of the return slot `g` in the scope of
`function g(a: integer): integer;` (`function_g_entered`), and at the run of `pfv` on the
declaration `function g(a: integer): integer; begin end;` -/
theorem function_name_not_callable_witness :
    (function_g_entered.cur_scope < function_g_entered.scopes.length ∧
     (add_variable function_g_entered "g" .Integer 4 false false).1 = true ∧
     ∀ ops,
      ((add_variable function_g_entered "g" .Integer 4 false false).2.run ops).cur_scope =
          function_g_entered.cur_scope →
        get_func_info ((add_variable function_g_entered "g" .Integer 4 false false).2.run ops)
          "g" = none ∧
        find ((add_variable function_g_entered "g" .Integer 4 false false).2.run ops) "g"
          .Function = none ∧
        get_proc_info ((add_variable function_g_entered "g" .Integer 4 false false).2.run ops)
          "g" = none ∧
        find ((add_variable function_g_entered "g" .Integer 4 false false).2.run ops) "g"
          .Procedure = none) ∧
    ((declaration_state function_g).token = some (.ReservedWord "function") ∧
     (declaration_state function_g).symtab.cur_scope <
       (declaration_state function_g).symtab.scopes.length ∧
     ∃ p', pfv 50 (declaration_state function_g) = .ok p' ∧
     ∃ f func_name qp q0 q qb v,
        50 = f + 1 ∧ FunctionRun f (declaration_state function_g) p' func_name qp q0 q qb ∧
        find ((declaration_state function_g).enter_function func_name).symtab func_name
            .Function =
          some (.func { name := func_name,
                        next := some (declaration_state function_g).symtab.scopes.length }) ∧
        q.symtab.cur_scope =
          ((declaration_state function_g).enter_function func_name).symtab.cur_scope ∧
        q.symtab.entry_at (declaration_state function_g).symtab.cur_scope func_name =
          some (.func { name := func_name,
                        next := some (declaration_state function_g).symtab.scopes.length }) ∧
        q.symtab.entry_at q.symtab.cur_scope func_name = some (.var v) ∧
        get_func_info q.symtab func_name = none ∧
        find q.symtab func_name .Function = none ∧
        ∀ ops, (q.symtab.run ops).cur_scope = q.symtab.cur_scope →
          get_func_info (q.symtab.run ops) func_name = none ∧
          find (q.symtab.run ops) func_name .Function = none ∧
          get_proc_info (q.symtab.run ops) func_name = none ∧
          find (q.symtab.run ops) func_name .Procedure = none ∧
          ∀ (s : Parser) (n : Nat) (stream : Bool), s.symtab = q.symtab.run ops →
            s.token = some (.Word func_name) →
            fact_r (n + 1) stream s = fact_r_local v stream s ∧
            statement (n + 1) s =
              (statement_assign_begin v.type s >>= fun s1 =>
                expression n false s1 >>= fun s2 => statement_store v s2)) := by
  have hok : (pfv 50 (declaration_state function_g)).toBool = true := by decide!
  cases hrun : pfv 50 (declaration_state function_g) with
  | error e => rw [hrun] at hok; cases hok
  | ok p' =>
    exact ⟨⟨by decide, by decide,
        function_name_not_callable.1 function_g_entered "g" .Integer 4 false false (by decide)
          (by decide)⟩,
      ⟨rfl, by decide, p', rfl,
        function_name_not_callable.2 50 (declaration_state function_g) p' rfl (by decide)
          hrun⟩⟩

/-- The lookups of the name `g` inside the scope of
`function g(a: integer): integer; begin end;` (pointer 1 of `function_g_declared`), and the
lookup from the global scope, where `g` is a function. -/
theorem function_g_lookups :
    get_func_info { function_g_declared with cur_scope := 1 } "g" = none ∧
    find { function_g_declared with cur_scope := 1 } "g" .Function = none ∧
    (get_var_info { function_g_declared with cur_scope := 1 } "g").map (fun v => v.is_param) =
      some false ∧
    (get_func_info function_g_declared "g").map (fun f => f.next) = some (some 1) := by
  decide

/-! ## C40: the folded quotient -/

/-- The folding branch of `fact_prime` computes the quotient of two integer literals without
a test of the divisor: with the literal 0 as right operand the step divides by zero. -/
theorem fold_quotient_by_zero (p : Parser) (a : Int) (rest : List VarValue) (stream : Bool)
    (hv : p.values = int_literal 0 :: int_literal a :: rest)
    (hg : p.gpr_index ≤ 3) :
    fact_prime_arith "/" stream p = .error (.undefined "integer division by zero") := by
  have e1 : ("/" == "*") = false := by decide
  have hx : ¬ (3 < p.gpr_index) := by omega
  simp [fact_prime_arith, Parser.pop, hv, int_literal, integral_pair, Parser.gprs_exhausted,
    gprs, hx, e1, VarValue.get_int32, div_int32, bind, Except.bind, pure, Except.pure]

/-- C40 (the code departs from the claim). For `x := 1 / 0` the folding branch of
`fact_prime` evaluates the quotient `1 / 0` of the two literals at compile time, a division by
zero: no diagnostic is raised and no division is left to the emitted code. -/
theorem literal_division_by_zero :
    Parser.parse 200 (program_tokens "x" "integer" quotient_by_zero) =
      .error (.undefined "integer division by zero") ∧
    fact_prime_arith "/" false (operand_state 2 [int_literal 0, int_literal 1]) =
      .error (.undefined "integer division by zero") ∧
    div_int32 1 0 = .error (.undefined "integer division by zero") := by
  decide!

end PascalCompiler
